import Mathlib

/-!
Field solver of Vlasiator (`fieldsolver/londrillo_delzanna.cpp`).

A shallow embedding of the upwind constrained-transport field solver of
Londrillo and Del Zanna as implemented for the `PARGRID` build, together with
theorems about it.

* `Real` is embedded as an arbitrary linearly ordered field `K` (exact
  arithmetic); concrete evaluations use `ℚ`.
* `uint` values are natural numbers, stores into a `uint` are taken modulo
  `2 ^ 32`; `uchar` values are natural numbers modulo `256`.
* A function that dereferences `mpiGrid[id]` for `id = INVALID_CELLID`, or
  that stops in one of the `exit(1)` checks of the debug build, returns `none`.
-/

namespace Vlasiator

/-! ## Identifiers and neighbour numbering -/

/-- Cell identifier: `typedef uint CellID` of the `PARGRID` build. -/
abbrev CellID := Nat

/-- Modelled from the spec: `INVALID_CELLID` is declared in a header that is not
part of the sources at hand. The spec describes it as the sentinel meaning
"no such neighbour"; it is embedded as the largest `uint`. -/
def INVALID_CELLID : CellID := 4294967295

/-- Conversion of an `int` argument to `uchar` (reduction modulo 256). -/
def toUchar (z : Int) : Nat := (z % 256).toNat

/-- Store of a value into a `uint` variable (reduction modulo `2 ^ 32`). -/
def toUint (n : Nat) : Nat := n % 4294967296

/-- Source: `calcNbrNumber(i,j,k) = k*9+j*3+i`, returned as `uchar`. -/
def calcNbrNumber (i j k : Nat) : Nat := (k * 9 + j * 3 + i) % 256

/-- Source: `calcNbrTypeID(i,j,k) = k*25+j*5+i`, returned as `uchar`. -/
def calcNbrTypeID (i j k : Nat) : Nat := (k * 25 + j * 5 + i) % 256

/-- The iteration space of `for k in -1..1, for j in -1..1, for i in -1..1`,
in the order in which the loop nest visits it, as triples `(i, j, k)`. -/
def nbrOffsets : List (Int × Int × Int) :=
  [-1, 0, 1].flatMap fun k => [-1, 0, 1].flatMap fun j => [-1, 0, 1].map fun i => (i, j, k)

/-! ## Cell data -/

/-- Indices into `cpu_cellParams` used by the field solver (namespace
`CellParams` of `common.h`). -/
inductive CellParams
  | DX | DY | DZ
  | RHO | RHOVX | RHOVY | RHOVZ
  | BX | BY | BZ
  | EX | EY | EZ
  | BXFACEX | BYFACEX | BZFACEX
  | BXFACEY | BYFACEY | BZFACEY
  | BXFACEZ | BYFACEZ | BZFACEZ
  | EXFACEX | EYFACEX | EZFACEX
  | BXVOL | BYVOL | BZVOL
  | EXVOL | EYVOL | EZVOL
  deriving DecidableEq, Repr

/-- Indices into `cpu_derivatives` (namespace `fieldsolver`). -/
inductive fieldsolver
  | drhodx | drhody | drhodz
  | dBxdy | dBxdz | dBydx | dBydz | dBzdx | dBzdy
  | dVxdx | dVxdy | dVxdz
  | dVydx | dVydy | dVydz
  | dVzdx | dVzdy | dVzdz
  deriving DecidableEq, Repr

/-- The nine capability masks, file-level `static uint` variables. -/
structure Masks where
  CALCULATE_DX : Nat
  CALCULATE_DY : Nat
  CALCULATE_DZ : Nat
  CALCULATE_EX : Nat
  CALCULATE_EY : Nat
  CALCULATE_EZ : Nat
  PROPAGATE_BX : Nat
  PROPAGATE_BY : Nat
  PROPAGATE_BZ : Nat
  deriving DecidableEq, Repr

/-- Source: the mask assignments of `initializeFieldPropagator`
(lines 906-964). Every mask is first set to `0` and then or-ed with one bit
per required neighbour, so the result does not depend on the previous
values. -/
def initializeFieldPropagator_masks (_old : Masks) : Masks where
  CALCULATE_DX := toUint (toUint (0 ||| 1 <<< calcNbrNumber 0 1 1) ||| 1 <<< calcNbrNumber 2 1 1)
  CALCULATE_DY := toUint (toUint (0 ||| 1 <<< calcNbrNumber 1 0 1) ||| 1 <<< calcNbrNumber 1 2 1)
  CALCULATE_DZ := toUint (toUint (0 ||| 1 <<< calcNbrNumber 1 1 0) ||| 1 <<< calcNbrNumber 1 1 2)
  CALCULATE_EX :=
    toUint (toUint (toUint (toUint (0 ||| 1 <<< calcNbrNumber 1 0 1)
      ||| 1 <<< calcNbrNumber 1 1 0) ||| 1 <<< calcNbrNumber 0 1 1) ||| 1 <<< calcNbrNumber 2 1 1)
  CALCULATE_EY :=
    toUint (toUint (toUint (toUint (0 ||| 1 <<< calcNbrNumber 0 1 1)
      ||| 1 <<< calcNbrNumber 1 1 0) ||| 1 <<< calcNbrNumber 1 0 1) ||| 1 <<< calcNbrNumber 1 2 1)
  CALCULATE_EZ :=
    toUint (toUint (toUint (toUint (0 ||| 1 <<< calcNbrNumber 0 1 1)
      ||| 1 <<< calcNbrNumber 1 0 1) ||| 1 <<< calcNbrNumber 1 1 0) ||| 1 <<< calcNbrNumber 1 1 2)
  PROPAGATE_BX :=
    toUint (toUint (toUint (toUint (toUint (0 ||| 1 <<< calcNbrNumber 0 1 1)
      ||| 1 <<< calcNbrNumber 1 0 1) ||| 1 <<< calcNbrNumber 1 2 1)
      ||| 1 <<< calcNbrNumber 1 1 0) ||| 1 <<< calcNbrNumber 1 1 2)
  PROPAGATE_BY :=
    toUint (toUint (toUint (toUint (toUint (0 ||| 1 <<< calcNbrNumber 1 0 1)
      ||| 1 <<< calcNbrNumber 0 1 1) ||| 1 <<< calcNbrNumber 2 1 1)
      ||| 1 <<< calcNbrNumber 1 1 0) ||| 1 <<< calcNbrNumber 1 1 2)
  PROPAGATE_BZ :=
    toUint (toUint (toUint (toUint (toUint (0 ||| 1 <<< calcNbrNumber 1 1 0)
      ||| 1 <<< calcNbrNumber 0 1 1) ||| 1 <<< calcNbrNumber 2 1 1)
      ||| 1 <<< calcNbrNumber 1 0 1) ||| 1 <<< calcNbrNumber 1 2 1)

/-! ## The mesh, the file-level state and the external collaborators -/

/-- The part of `ParGrid<SpatialCell>` used by the field solver: the list of
cells of this process, the neighbour lookup by neighbour type id, which cells
are owned by another process, and the two per-cell arrays. -/
structure ParGrid (K : Type) where
  getCells : List CellID
  getNeighbour : CellID → Nat → CellID
  isRemote : CellID → Bool
  cpu_cellParams : CellID → CellParams → K
  cpu_derivatives : CellID → fieldsolver → K

/-- Source: `TransferStencil<CellID>` as far as the field solver reads it:
the neighbour type ids registered for receive and for send, and the split of
the local cells into inner and boundary cells. -/
structure TransferStencil where
  recvNbrTypeIDs : List Nat
  sendNbrTypeIDs : List Nat
  innerCells : List CellID
  boundaryCells : List CellID
  deriving DecidableEq, Repr

/-- The file-level `static` variables of the solver together with
`Parameters::recalculateStencils`. -/
structure Globals where
  boundaryFlags : CellID → Option Nat
  masks : Masks
  stencil1 : TransferStencil
  stencil2 : TransferStencil
  stencil3 : TransferStencil
  recalculateStencils : Bool

/-- What the solver takes from outside the file: the square root, the
constants `physicalconstants::MU_0` and `Parameters::m`, the compile-time
switch `FS_1ST_ORDER`, and the boundary-condition functions of `project.h`.
A derivative boundary condition receives the derivative array of the cell
twice (as `array` and as `derivatives`) and yields its new contents. -/
structure Externals (K : Type) where
  sqrt : K → K
  MU_0 : K
  m : K
  FS_1ST_ORDER : Bool
  fieldSolverBoundaryCondDerivX :
    CellID → (fieldsolver → K) → Nat → Nat → (fieldsolver → K) → ParGrid K → (fieldsolver → K)
  fieldSolverBoundaryCondDerivY :
    CellID → (fieldsolver → K) → Nat → Nat → (fieldsolver → K) → ParGrid K → (fieldsolver → K)
  fieldSolverBoundaryCondDerivZ :
    CellID → (fieldsolver → K) → Nat → Nat → (fieldsolver → K) → ParGrid K → (fieldsolver → K)
  fieldSolverBoundaryCondBx : CellID → Nat → Nat → ParGrid K → K
  fieldSolverBoundaryCondBy : CellID → Nat → Nat → ParGrid K → K
  fieldSolverBoundaryCondBz : CellID → Nat → Nat → ParGrid K → K

section Kernels

variable {K : Type} [LinearOrderedField K]

/-- Source: `static creal EPS = 1.0e-30`. -/
def EPS : K := 1 / 10 ^ 30

def HALF : K := 1 / 2
def MINUS : K := -1
def PLUS : K := 1
def EIGTH : K := 1 / 8
def FOURTH : K := 1 / 4
def SIXTH : K := 1 / 6
def TWELWTH : K := 1 / 12
def TWO : K := 2
def ZERO : K := 0

/-- The pointer `mpiGrid[id]->cpu_cellParams`; there is no cell behind
`INVALID_CELLID`. -/
def ParGrid.cellParamsAt (mpiGrid : ParGrid K) (id : CellID) : Option (CellParams → K) :=
  if id = INVALID_CELLID then none else some (mpiGrid.cpu_cellParams id)

/-- The pointer `mpiGrid[id]->cpu_derivatives`. -/
def ParGrid.derivativesAt (mpiGrid : ParGrid K) (id : CellID) : Option (fieldsolver → K) :=
  if id = INVALID_CELLID then none else some (mpiGrid.cpu_derivatives id)

/-- The store `mpiGrid[id]->cpu_cellParams[slot] = v`. -/
def ParGrid.setCellParam (mpiGrid : ParGrid K) (id : CellID) (slot : CellParams) (v : K) :
    ParGrid K :=
  { mpiGrid with
    cpu_cellParams := fun c p =>
      if c = id ∧ p = slot then v else mpiGrid.cpu_cellParams c p }

/-- The store `mpiGrid[id]->cpu_derivatives[slot] = v`. -/
def ParGrid.setDerivative (mpiGrid : ParGrid K) (id : CellID) (slot : fieldsolver) (v : K) :
    ParGrid K :=
  { mpiGrid with
    cpu_derivatives := fun c p =>
      if c = id ∧ p = slot then v else mpiGrid.cpu_derivatives c p }

/-- Replacement of the whole derivative array of a cell, the effect of a
boundary-condition function that writes through the `array` pointer. -/
def ParGrid.setDerivatives (mpiGrid : ParGrid K) (id : CellID) (a : fieldsolver → K) :
    ParGrid K :=
  { mpiGrid with
    cpu_derivatives := fun c p => if c = id then a p else mpiGrid.cpu_derivatives c p }

/-- Sign of a number as `-1`, `0` or `1`. -/
def sgn (x : K) : K := if 0 < x then 1 else if x < 0 then -1 else 0

/-- Modelled from the spec: `MClimiter` of `limiters.h`, which is not part of
the sources at hand. The spec describes the monotonized-central limiter: for
left/centre/right samples it returns zero if the two one-sided differences
disagree in sign, else the sign-matched minimum of half the central
difference and twice each one-sided difference. -/
def MClimiter (left cent rght : K) : K :=
  let back := cent - left
  let forw := rght - cent
  let cntr := (rght - left) / 2
  if sgn back ≠ sgn forw then 0
  else sgn back * min |cntr| (min |2 * back| |2 * forw|)

/-- Source: `limiter` (lines 120-124) returns `MClimiter(left,cent,rght)`. -/
def limiter (left cent rght : K) : K := MClimiter left cent rght

/-- Source: `getNeighbourID` (lines 128-131). -/
def getNeighbourID (mpiGrid : ParGrid K) (cellID : CellID) (i j k : Nat) : CellID :=
  let nbrTypeID := calcNbrTypeID i j k
  mpiGrid.getNeighbour cellID nbrTypeID

open CellParams fieldsolver

/-! ## Neighbour existence flags -/

/-- Source: body of the cell loop of `calculateBoundaryFlags` (lines 139-146),
the flag word computed for one cell. The same loop is repeated at the start of
`calculateTransferStencil1` (lines 807-812). -/
def boundaryFlagOf (mpiGrid : ParGrid K) (cellID : CellID) : Nat :=
  nbrOffsets.foldl
    (fun (boundaryFlag : Nat) (ijk : Int × Int × Int) =>
      if ijk.1 = 0 ∧ (ijk.2.1 = 0 ∧ ijk.2.2 = 0) then boundaryFlag
      else
        let nbr := mpiGrid.getNeighbour cellID
          (calcNbrTypeID (toUchar (2 + ijk.1)) (toUchar (2 + ijk.2.1)) (toUchar (2 + ijk.2.2)))
        if nbr = INVALID_CELLID then boundaryFlag
        else toUint (boundaryFlag |||
          1 <<< calcNbrNumber (toUchar (1 + ijk.1)) (toUchar (1 + ijk.2.1)) (toUchar (1 + ijk.2.2))))
    (toUint (1 <<< calcNbrNumber 1 1 1))

/-- Source: `calculateBoundaryFlags` (lines 133-149): for every cell of
`localCells` in turn, `boundaryFlags[cellID] = boundaryFlag`. -/
def calculateBoundaryFlags (mpiGrid : ParGrid K) (localCells : List CellID)
    (boundaryFlags : CellID → Option Nat) : CellID → Option Nat :=
  localCells.foldl
    (fun flags cellID => fun c => if c = cellID then some (boundaryFlagOf mpiGrid cellID) else flags c)
    boundaryFlags

/-! ## Derivatives -/

/-- Source: `calculateDerivatives`, x-direction block (lines 172-185). -/
def calculateDerivativesX (X : Externals K) (G : Globals) (cellID : CellID)
    (existingCells nonExistingCells : Nat) (mpiGrid : ParGrid K) : Option (ParGrid K) :=
  if existingCells &&& G.masks.CALCULATE_DX = G.masks.CALCULATE_DX then do
    let leftNbrID := getNeighbourID mpiGrid cellID (2 - 1) 2 2
    let rghtNbrID := getNeighbourID mpiGrid cellID (2 + 1) 2 2
    let cent := mpiGrid.cpu_cellParams cellID
    let left ← mpiGrid.cellParamsAt leftNbrID
    let rght ← mpiGrid.cellParamsAt rghtNbrID
    let g := mpiGrid.setDerivative cellID drhodx (limiter (left RHO) (cent RHO) (rght RHO))
    let g := g.setDerivative cellID dBydx (limiter (left BY) (cent BY) (rght BY))
    let g := g.setDerivative cellID dBzdx (limiter (left BZ) (cent BZ) (rght BZ))
    let g := g.setDerivative cellID dVxdx
      (limiter (left RHOVX / left RHO) (cent RHOVX / cent RHO) (rght RHOVX / rght RHO))
    let g := g.setDerivative cellID dVydx
      (limiter (left RHOVY / left RHO) (cent RHOVY / cent RHO) (rght RHOVY / rght RHO))
    let g := g.setDerivative cellID dVzdx
      (limiter (left RHOVZ / left RHO) (cent RHOVZ / cent RHO) (rght RHOVZ / rght RHO))
    pure g
  else
    pure (mpiGrid.setDerivatives cellID
      (X.fieldSolverBoundaryCondDerivX cellID (mpiGrid.cpu_derivatives cellID) existingCells
        nonExistingCells (mpiGrid.cpu_derivatives cellID) mpiGrid))

/-- Source: `calculateDerivatives`, y-direction block (lines 188-201). -/
def calculateDerivativesY (X : Externals K) (G : Globals) (cellID : CellID)
    (existingCells nonExistingCells : Nat) (mpiGrid : ParGrid K) : Option (ParGrid K) :=
  if existingCells &&& G.masks.CALCULATE_DY = G.masks.CALCULATE_DY then do
    let leftNbrID := getNeighbourID mpiGrid cellID 2 (2 - 1) 2
    let rghtNbrID := getNeighbourID mpiGrid cellID 2 (2 + 1) 2
    let cent := mpiGrid.cpu_cellParams cellID
    let left ← mpiGrid.cellParamsAt leftNbrID
    let rght ← mpiGrid.cellParamsAt rghtNbrID
    let g := mpiGrid.setDerivative cellID drhody (limiter (left RHO) (cent RHO) (rght RHO))
    let g := g.setDerivative cellID dBxdy (limiter (left BX) (cent BX) (rght BX))
    let g := g.setDerivative cellID dBzdy (limiter (left BZ) (cent BZ) (rght BZ))
    let g := g.setDerivative cellID dVxdy
      (limiter (left RHOVX / left RHO) (cent RHOVX / cent RHO) (rght RHOVX / rght RHO))
    let g := g.setDerivative cellID dVydy
      (limiter (left RHOVY / left RHO) (cent RHOVY / cent RHO) (rght RHOVY / rght RHO))
    let g := g.setDerivative cellID dVzdy
      (limiter (left RHOVZ / left RHO) (cent RHOVZ / cent RHO) (rght RHOVZ / rght RHO))
    pure g
  else
    pure (mpiGrid.setDerivatives cellID
      (X.fieldSolverBoundaryCondDerivY cellID (mpiGrid.cpu_derivatives cellID) existingCells
        nonExistingCells (mpiGrid.cpu_derivatives cellID) mpiGrid))

/-- Source: `calculateDerivatives`, z-direction block (lines 204-217). -/
def calculateDerivativesZ (X : Externals K) (G : Globals) (cellID : CellID)
    (existingCells nonExistingCells : Nat) (mpiGrid : ParGrid K) : Option (ParGrid K) :=
  if existingCells &&& G.masks.CALCULATE_DZ = G.masks.CALCULATE_DZ then do
    let leftNbrID := getNeighbourID mpiGrid cellID 2 2 (2 - 1)
    let rghtNbrID := getNeighbourID mpiGrid cellID 2 2 (2 + 1)
    let cent := mpiGrid.cpu_cellParams cellID
    let left ← mpiGrid.cellParamsAt leftNbrID
    let rght ← mpiGrid.cellParamsAt rghtNbrID
    let g := mpiGrid.setDerivative cellID drhodz (limiter (left RHO) (cent RHO) (rght RHO))
    let g := g.setDerivative cellID dBxdz (limiter (left BX) (cent BX) (rght BX))
    let g := g.setDerivative cellID dBydz (limiter (left BY) (cent BY) (rght BY))
    let g := g.setDerivative cellID dVxdz
      (limiter (left RHOVX / left RHO) (cent RHOVX / cent RHO) (rght RHOVX / rght RHO))
    let g := g.setDerivative cellID dVydz
      (limiter (left RHOVY / left RHO) (cent RHOVY / cent RHO) (rght RHOVY / rght RHO))
    let g := g.setDerivative cellID dVzdz
      (limiter (left RHOVZ / left RHO) (cent RHOVZ / cent RHO) (rght RHOVZ / rght RHO))
    pure g
  else
    pure (mpiGrid.setDerivatives cellID
      (X.fieldSolverBoundaryCondDerivZ cellID (mpiGrid.cpu_derivatives cellID) existingCells
        nonExistingCells (mpiGrid.cpu_derivatives cellID) mpiGrid))

/-- Source: `calculateDerivatives` (lines 151-218). The flag lookup fails when
the cell has no entry in `boundaryFlags` (debug build). The three blocks run
one after the other on the same derivative array. -/
def calculateDerivatives (X : Externals K) (G : Globals) (cellID : CellID)
    (mpiGrid : ParGrid K) : Option (ParGrid K) := do
  let _array ← mpiGrid.derivativesAt cellID
  let existingCells ← G.boundaryFlags cellID
  let nonExistingCells := toUint (existingCells ^^^ 4294967295)
  let g ← calculateDerivativesX X G cellID existingCells nonExistingCells mpiGrid
  let g ← calculateDerivativesY X G cellID existingCells nonExistingCells g
  calculateDerivativesZ X G cellID existingCells nonExistingCells g

/-! ## Propagation of the face-averaged magnetic field -/

/-- Source: `propagateMagneticField`, block "Propagate face-averaged Bx"
(lines 746-761). `dz` and `dy` are the widths read from the cell itself. -/
def propagateMagneticFieldBX (G : Globals) (cellID : CellID) (boundaryFlag : Nat)
    (dt dy dz : K) (mpiGrid : ParGrid K) : Option (ParGrid K) :=
  if boundaryFlag &&& G.masks.PROPAGATE_BX = G.masks.PROPAGATE_BX then do
    let cp0 := mpiGrid.cpu_cellParams cellID
    let nbrID := mpiGrid.getNeighbour cellID (calcNbrTypeID 2 (2 + 1) 2)
    let cp1 ← mpiGrid.cellParamsAt nbrID
    let nbrID := mpiGrid.getNeighbour cellID (calcNbrTypeID 2 2 (2 + 1))
    let cp2 ← mpiGrid.cellParamsAt nbrID
    pure (mpiGrid.setCellParam cellID BX
      (cp0 BX + (dt / dz * (cp2 EY - cp0 EY) + dt / dy * (cp0 EZ - cp1 EZ))))
  else pure mpiGrid

/-- Source: `propagateMagneticField`, block "Propagate face-averaged By"
(lines 763-778). -/
def propagateMagneticFieldBY (G : Globals) (cellID : CellID) (boundaryFlag : Nat)
    (dt dx dz : K) (mpiGrid : ParGrid K) : Option (ParGrid K) :=
  if boundaryFlag &&& G.masks.PROPAGATE_BY = G.masks.PROPAGATE_BY then do
    let cp0 := mpiGrid.cpu_cellParams cellID
    let nbrID := mpiGrid.getNeighbour cellID (calcNbrTypeID 2 2 (2 + 1))
    let cp1 ← mpiGrid.cellParamsAt nbrID
    let nbrID := mpiGrid.getNeighbour cellID (calcNbrTypeID (2 + 1) 2 2)
    let cp2 ← mpiGrid.cellParamsAt nbrID
    pure (mpiGrid.setCellParam cellID BY
      (cp0 BY + (dt / dx * (cp2 EZ - cp0 EZ) + dt / dz * (cp0 EX - cp1 EX))))
  else pure mpiGrid

/-- Source: `propagateMagneticField`, block "Propagate face-averaged Bz"
(lines 780-795). -/
def propagateMagneticFieldBZ (G : Globals) (cellID : CellID) (boundaryFlag : Nat)
    (dt dx dy : K) (mpiGrid : ParGrid K) : Option (ParGrid K) :=
  if boundaryFlag &&& G.masks.PROPAGATE_BZ = G.masks.PROPAGATE_BZ then do
    let cp0 := mpiGrid.cpu_cellParams cellID
    let nbrID := mpiGrid.getNeighbour cellID (calcNbrTypeID (2 + 1) 2 2)
    let cp1 ← mpiGrid.cellParamsAt nbrID
    let nbrID := mpiGrid.getNeighbour cellID (calcNbrTypeID 2 (2 + 1) 2)
    let cp2 ← mpiGrid.cellParamsAt nbrID
    pure (mpiGrid.setCellParam cellID BZ
      (cp0 BZ + (dt / dy * (cp2 EX - cp0 EX) + dt / dx * (cp0 EY - cp1 EY))))
  else pure mpiGrid

/-- Source: `propagateMagneticField` (lines 729-796). The widths are read
once at entry; the flag lookup fails when the cell has no entry in
`boundaryFlags` (debug build). -/
def propagateMagneticField (G : Globals) (cellID : CellID) (mpiGrid : ParGrid K) (dt : K) :
    Option (ParGrid K) := do
  let cp0 ← mpiGrid.cellParamsAt cellID
  let dx := cp0 DX
  let dy := cp0 DY
  let dz := cp0 DZ
  let boundaryFlag ← G.boundaryFlags cellID
  let g ← propagateMagneticFieldBX G cellID boundaryFlag dt dy dz mpiGrid
  let g ← propagateMagneticFieldBY G cellID boundaryFlag dt dx dz g
  propagateMagneticFieldBZ G cellID boundaryFlag dt dx dy g

/-- Source: `propagateMagneticFieldSimple`, first loop (lines 1414-1417):
`propagateMagneticField` on every cell of `localCells` in turn. -/
def propagateAllCells (G : Globals) (dt : K) (localCells : List CellID) (mpiGrid : ParGrid K) :
    Option (ParGrid K) :=
  localCells.foldlM (fun g cellID => propagateMagneticField G cellID g dt) mpiGrid

/-- Source: `propagateMagneticFieldSimple`, body of the second loop
(lines 1423-1437): faces that are not propagated receive the value of the
boundary-condition function. -/
def applyBoundaryCondB (X : Externals K) (G : Globals) (cellID : CellID) (mpiGrid : ParGrid K) :
    Option (ParGrid K) := do
  let existingCells ← G.boundaryFlags cellID
  let nonExistingCells := toUint (existingCells ^^^ 4294967295)
  let g ←
    if existingCells &&& G.masks.PROPAGATE_BX ≠ G.masks.PROPAGATE_BX then do
      let _cell ← mpiGrid.cellParamsAt cellID
      pure (mpiGrid.setCellParam cellID BX
        (X.fieldSolverBoundaryCondBx cellID existingCells nonExistingCells mpiGrid))
    else pure mpiGrid
  let g ←
    if existingCells &&& G.masks.PROPAGATE_BY ≠ G.masks.PROPAGATE_BY then do
      let _cell ← g.cellParamsAt cellID
      pure (g.setCellParam cellID BY
        (X.fieldSolverBoundaryCondBy cellID existingCells nonExistingCells g))
    else pure g
  if existingCells &&& G.masks.PROPAGATE_BZ ≠ G.masks.PROPAGATE_BZ then do
    let _cell ← g.cellParamsAt cellID
    pure (g.setCellParam cellID BZ
      (X.fieldSolverBoundaryCondBz cellID existingCells nonExistingCells g))
  else pure g

/-- Source: `propagateMagneticFieldSimple` (lines 1412-1439). -/
def propagateMagneticFieldSimple (X : Externals K) (G : Globals) (mpiGrid : ParGrid K) (dt : K)
    (localCells : List CellID) : Option (ParGrid K) := do
  let g ← propagateAllCells G dt localCells mpiGrid
  localCells.foldlM (fun g cellID => applyBoundaryCondB X G cellID g) g

/-! ## Upwinded edge electric field -/

/-- Source: `calculateFastMSspeedYZ` (lines 220-241). -/
def calculateFastMSspeedYZ (X : Externals K) (cp : CellParams → K) (derivs : fieldsolver → K)
    (nbr_cp : CellParams → K) (nbr_derivs : fieldsolver → K)
    (By Bz dBydx dBydz dBzdx dBzdy ydir zdir : K) : K :=
  let A_0 := HALF * (nbr_cp BX + cp BX)
  let A_X := nbr_cp BX - cp BX
  let A_Y := nbr_derivs dBxdy + derivs dBxdy
  let A_XY := nbr_derivs dBxdy - derivs dBxdy
  let A_Z := nbr_derivs dBxdz + derivs dBxdz
  let A_XZ := nbr_derivs dBxdz - derivs dBxdz
  let Bx2 := (A_0 + ydir * HALF * A_Y + zdir * HALF * A_Z) * (A_0 + ydir * HALF * A_Y + zdir * HALF * A_Z)
    + TWELWTH * (A_X + ydir * HALF * A_XY + zdir * HALF * A_XZ)
      * (A_X + ydir * HALF * A_XY + zdir * HALF * A_XZ)
  let By2 := (By + zdir * HALF * dBydz) * (By + zdir * HALF * dBydz) + TWELWTH * dBydx * dBydx
  let Bz2 := (Bz + ydir * HALF * dBzdy) * (Bz + ydir * HALF * dBzdy) + TWELWTH * dBzdx * dBzdx
  let rho := X.m * (cp RHO + ydir * HALF * derivs drhody + zdir * HALF * derivs drhodz)
  X.sqrt ((Bx2 + By2 + Bz2) / (X.MU_0 * rho))

/-- Source: `calculateFastMSspeedXZ` (lines 243-264). -/
def calculateFastMSspeedXZ (X : Externals K) (cp : CellParams → K) (derivs : fieldsolver → K)
    (nbr_cp : CellParams → K) (nbr_derivs : fieldsolver → K)
    (Bx Bz dBxdy dBxdz dBzdx dBzdy xdir zdir : K) : K :=
  let B_0 := HALF * (nbr_cp BY + cp BY)
  let B_Y := nbr_cp BY - cp BY
  let B_X := nbr_derivs dBydx + derivs dBydx
  let B_XY := nbr_derivs dBydx - derivs dBydx
  let B_Z := nbr_derivs dBydz + derivs dBydz
  let B_YZ := nbr_derivs dBydz - derivs dBydz
  let By2 := (B_0 + xdir * HALF * B_X + zdir * HALF * B_Z) * (B_0 + xdir * HALF * B_X + zdir * HALF * B_Z)
    + TWELWTH * (B_Y + xdir * HALF * B_XY + zdir * HALF * B_YZ)
      * (B_Y + xdir * HALF * B_XY + zdir * HALF * B_YZ)
  let Bx2 := (Bx + zdir * HALF * dBxdz) * (Bx + zdir * HALF * dBxdz) + TWELWTH * dBxdy * dBxdy
  let Bz2 := (Bz + xdir * HALF * dBzdx) * (Bz + xdir * HALF * dBzdx) + TWELWTH * dBzdy * dBzdy
  let rho := X.m * (cp RHO + xdir * HALF * derivs drhodx + zdir * HALF * derivs drhodz)
  X.sqrt ((Bx2 + By2 + Bz2) / (X.MU_0 * rho))

/-- Source: `calculateFastMSspeedXY` (lines 266-288). -/
def calculateFastMSspeedXY (X : Externals K) (cp : CellParams → K) (derivs : fieldsolver → K)
    (nbr_cp : CellParams → K) (nbr_derivs : fieldsolver → K)
    (Bx By dBxdy dBxdz dBydx dBydz xdir ydir : K) : K :=
  let C_0 := HALF * (nbr_cp BZ + cp BZ)
  let C_Z := nbr_cp BZ - cp BZ
  let C_X := nbr_derivs dBzdx + derivs dBzdx
  let C_XZ := nbr_derivs dBzdx - derivs dBzdx
  let C_Y := nbr_derivs dBzdy + derivs dBzdy
  let C_YZ := nbr_derivs dBzdy - derivs dBzdy
  let Bz2 := (C_0 + xdir * HALF * C_X + ydir * HALF * C_Y) * (C_0 + xdir * HALF * C_X + ydir * HALF * C_Y)
    + TWELWTH * (C_Z + xdir * HALF * C_XZ + ydir * HALF * C_YZ)
      * (C_Z + xdir * HALF * C_XZ + ydir * HALF * C_YZ)
  let Bx2 := (Bx + ydir * HALF * dBxdy) * (Bx + ydir * HALF * dBxdy) + TWELWTH * dBxdz * dBxdz
  let By2 := (By + xdir * HALF * dBydx) * (By + xdir * HALF * dBydx) + TWELWTH * dBydz * dBydz
  let rho := X.m * (cp RHO + xdir * HALF * derivs drhodx + ydir * HALF * derivs drhody)
  X.sqrt ((Bx2 + By2 + Bz2) / (X.MU_0 * rho))

/-- The local variables of `calculateEdgeElectricFieldX` at the end of the
function: the four corner estimates (`_1st`: after the first-order line,
without suffix: after the second-order lines), the four characteristic speeds,
the two diffusive terms (the amount subtracted and the amount added in the
last two statements) and the value left in `cp_SW[CellParams::EX]`. -/
structure EdgeXLocals (K : Type) where
  Ex_SW_1st : K
  Ex_SW : K
  Ex_SE_1st : K
  Ex_SE : K
  Ex_NW_1st : K
  Ex_NW : K
  Ex_NE_1st : K
  Ex_NE : K
  ay_pos : K
  ay_neg : K
  az_pos : K
  az_neg : K
  diffusive_z : K
  diffusive_y : K
  EX : K

/-- Source: `calculateEdgeElectricFieldX` (lines 320-433), the arithmetic of
the function given the arrays behind its sixteen pointers: the cell parameters
and derivatives of the four corner cells (`SW` is the cell itself, `SE` its
`-y` neighbour, `NW` its `-z` neighbour, `NE` its `-y,-z` neighbour) and of
the `+x` neighbour of each corner cell (`nbr_`). -/
def edgeElectricFieldX (X : Externals K)
    (cp_SW cp_SE cp_NE cp_NW : CellParams → K)
    (derivs_SW derivs_SE derivs_NE derivs_NW : fieldsolver → K)
    (nbr_cp_SW nbr_cp_SE nbr_cp_NW nbr_cp_NE : CellParams → K)
    (nbr_derivs_SW nbr_derivs_SE nbr_derivs_NW nbr_derivs_NE : fieldsolver → K) :
    EdgeXLocals K :=
  let By_S := cp_SW BY
  let Bz_W := cp_SW BZ
  let Bz_E := cp_SE BZ
  let By_N := cp_NW BY
  let dBydx_S := derivs_SW dBydx
  let dBydz_S := derivs_SW dBydz
  let dBzdx_W := derivs_SW dBzdx
  let dBzdy_W := derivs_SW dBzdy
  let dBzdx_E := derivs_SE dBzdx
  let dBzdy_E := derivs_SE dBzdy
  let dBydx_N := derivs_NW dBydx
  let dBydz_N := derivs_NW dBydz
  -- Ex and characteristic speeds on this cell:
  let Vy0 := cp_SW RHOVY / cp_SW RHO
  let Vz0 := cp_SW RHOVZ / cp_SW RHO
  let Ex_SW_1st := By_S * Vz0 - Bz_W * Vy0
  let Ex_SW :=
    if X.FS_1ST_ORDER then Ex_SW_1st
    else Ex_SW_1st
      + HALF * ((By_S - HALF * dBydz_S) * (-derivs_SW dVzdy - derivs_SW dVzdz) - dBydz_S * Vz0
          + SIXTH * dBydx_S * derivs_SW dVzdx)
      + (-HALF) * ((Bz_W - HALF * dBzdy_W) * (-derivs_SW dVydy - derivs_SW dVydz) - dBzdy_W * Vy0
          + SIXTH * dBzdx_W * derivs_SW dVydx)
  let c_y := calculateFastMSspeedYZ X cp_SW derivs_SW nbr_cp_SW nbr_derivs_SW By_S Bz_W
    dBydx_S dBydz_S dBzdx_W dBzdy_W MINUS MINUS
  let c_z := c_y
  let ay_neg := max ZERO (-Vy0 + c_y)
  let ay_pos := max ZERO (Vy0 + c_y)
  let az_neg := max ZERO (-Vz0 + c_z)
  let az_pos := max ZERO (Vz0 + c_z)
  -- Ex and characteristic speeds on j-1 neighbour:
  let Vy0 := cp_SE RHOVY / cp_SE RHO
  let Vz0 := cp_SE RHOVZ / cp_SE RHO
  let Ex_SE_1st := By_S * Vz0 - Bz_E * Vy0
  let Ex_SE :=
    if X.FS_1ST_ORDER then Ex_SE_1st
    else Ex_SE_1st
      + HALF * ((By_S - HALF * dBydz_S) * (derivs_SE dVzdy - derivs_SE dVzdz) - dBydz_S * Vz0
          + SIXTH * dBydx_S * derivs_SE dVzdx)
      + (-HALF) * ((Bz_E + HALF * dBzdy_E) * (derivs_SE dVydy - derivs_SE dVydz) + dBzdy_E * Vy0
          + SIXTH * dBzdx_E * derivs_SE dVydx)
  let c_y := calculateFastMSspeedYZ X cp_SE derivs_SE nbr_cp_SE nbr_derivs_SE By_S Bz_E
    dBydx_S dBydz_S dBzdx_E dBzdy_E PLUS MINUS
  let c_z := c_y
  let ay_neg := max ay_neg (-Vy0 + c_y)
  let ay_pos := max ay_pos (Vy0 + c_y)
  let az_neg := max az_neg (-Vz0 + c_z)
  let az_pos := max az_pos (Vz0 + c_z)
  -- Ex and characteristic speeds on k-1 neighbour:
  let Vy0 := cp_NW RHOVY / cp_NW RHO
  let Vz0 := cp_NW RHOVZ / cp_NW RHO
  let Ex_NW_1st := By_N * Vz0 - Bz_W * Vy0
  let Ex_NW :=
    if X.FS_1ST_ORDER then Ex_NW_1st
    else Ex_NW_1st
      + HALF * ((By_N + HALF * dBydz_N) * (-derivs_NW dVzdy + derivs_NW dVzdz) + dBydz_N * Vz0
          + SIXTH * dBydx_N * derivs_NW dVzdx)
      + (-HALF) * ((Bz_W - HALF * dBzdy_W) * (-derivs_NW dVydy + derivs_NW dVydz) - dBzdy_W * Vy0
          + SIXTH * dBzdx_W * derivs_NW dVydx)
  let c_y := calculateFastMSspeedYZ X cp_NW derivs_NW nbr_cp_NW nbr_derivs_NW By_N Bz_W
    dBydx_N dBydz_N dBzdx_W dBzdy_W MINUS PLUS
  let c_z := c_y
  let ay_neg := max ay_neg (-Vy0 + c_y)
  let ay_pos := max ay_pos (Vy0 + c_y)
  let az_neg := max az_neg (-Vz0 + c_z)
  let az_pos := max az_pos (Vz0 + c_z)
  -- Ex and characteristic speeds on j-1,k-1 neighbour:
  let Vy0 := cp_NE RHOVY / cp_NE RHO
  let Vz0 := cp_NE RHOVZ / cp_NE RHO
  let Ex_NE_1st := By_N * Vz0 - Bz_E * Vy0
  let Ex_NE :=
    if X.FS_1ST_ORDER then Ex_NE_1st
    else Ex_NE_1st
      + HALF * ((By_N + HALF * dBydz_N) * (derivs_NE dVzdy + derivs_NE dVzdz) + dBydz_N * Vz0
          + SIXTH * dBydx_N * derivs_NE dVzdx)
      + (-HALF) * ((Bz_E + HALF * dBzdy_E) * (derivs_NE dVydy + derivs_NE dVydz) + dBzdy_E * Vy0
          + SIXTH * dBzdx_E * derivs_NE dVydx)
  let c_y := calculateFastMSspeedYZ X cp_NE derivs_NE nbr_cp_NE nbr_derivs_NE By_N Bz_E
    dBydx_N dBydz_N dBzdx_E dBzdy_E PLUS PLUS
  let c_z := c_y
  let ay_neg := max ay_neg (-Vy0 + c_y)
  let ay_pos := max ay_pos (Vy0 + c_y)
  let az_neg := max az_neg (-Vz0 + c_z)
  let az_pos := max az_pos (Vz0 + c_z)
  -- Calculate properly upwinded edge-averaged Ex:
  let EX0 := ay_pos * az_pos * Ex_NE + ay_pos * az_neg * Ex_SE + ay_neg * az_pos * Ex_NW
    + ay_neg * az_neg * Ex_SW
  let EX1 := EX0 / ((ay_pos + ay_neg) * (az_pos + az_neg) + EPS)
  let diffusive_z :=
    if X.FS_1ST_ORDER then az_pos * az_neg / (az_pos + az_neg + EPS) * (By_S - By_N)
    else az_pos * az_neg / (az_pos + az_neg + EPS)
      * ((By_S - HALF * dBydz_S) - (By_N + HALF * dBydz_N))
  let diffusive_y :=
    if X.FS_1ST_ORDER then ay_pos * ay_neg / (ay_pos + ay_neg + EPS) * (Bz_W - Bz_E)
    else ay_pos * ay_neg / (ay_pos + ay_neg + EPS)
      * ((Bz_W - HALF * dBzdy_W) - (Bz_E + HALF * dBzdy_E))
  {
    Ex_SW_1st := Ex_SW_1st, Ex_SW := Ex_SW, Ex_SE_1st := Ex_SE_1st, Ex_SE := Ex_SE,
    Ex_NW_1st := Ex_NW_1st, Ex_NW := Ex_NW, Ex_NE_1st := Ex_NE_1st, Ex_NE := Ex_NE,
    ay_pos := ay_pos, ay_neg := ay_neg, az_pos := az_pos, az_neg := az_neg,
    diffusive_z := diffusive_z, diffusive_y := diffusive_y,
    EX := EX1 - diffusive_z + diffusive_y }

/-- Source: `calculateEdgeElectricFieldX` (lines 300-318, 346-348, 368-370,
390-392, 412-414): the neighbour lookups and pointer dereferences of the
function, followed by its arithmetic. The function dereferences the cell, its
three corner neighbours and the `+x` neighbour of each of the four corner
cells; there is a result when none of these eight ids is `INVALID_CELLID`. -/
def edgeElectricFieldXAt (X : Externals K) (cellID : CellID) (mpiGrid : ParGrid K) :
    Option (EdgeXLocals K) :=
  let nbr_SE := mpiGrid.getNeighbour cellID (calcNbrTypeID 2 (2 - 1) 2)
  let nbr_NE := mpiGrid.getNeighbour cellID (calcNbrTypeID 2 (2 - 1) (2 - 1))
  let nbr_NW := mpiGrid.getNeighbour cellID (calcNbrTypeID 2 2 (2 - 1))
  let nbrID_SW := mpiGrid.getNeighbour cellID (calcNbrTypeID (2 + 1) 2 2)
  let nbrID_SE := mpiGrid.getNeighbour cellID (calcNbrTypeID (2 + 1) (2 - 1) 2)
  let nbrID_NW := mpiGrid.getNeighbour cellID (calcNbrTypeID (2 + 1) 2 (2 - 1))
  let nbrID_NE := mpiGrid.getNeighbour cellID (calcNbrTypeID (2 + 1) (2 - 1) (2 - 1))
  if cellID ≠ INVALID_CELLID ∧ nbr_SE ≠ INVALID_CELLID ∧ nbr_NE ≠ INVALID_CELLID
      ∧ nbr_NW ≠ INVALID_CELLID ∧ nbrID_SW ≠ INVALID_CELLID ∧ nbrID_SE ≠ INVALID_CELLID
      ∧ nbrID_NW ≠ INVALID_CELLID ∧ nbrID_NE ≠ INVALID_CELLID then
    some (edgeElectricFieldX X
      (mpiGrid.cpu_cellParams cellID) (mpiGrid.cpu_cellParams nbr_SE)
      (mpiGrid.cpu_cellParams nbr_NE) (mpiGrid.cpu_cellParams nbr_NW)
      (mpiGrid.cpu_derivatives cellID) (mpiGrid.cpu_derivatives nbr_SE)
      (mpiGrid.cpu_derivatives nbr_NE) (mpiGrid.cpu_derivatives nbr_NW)
      (mpiGrid.cpu_cellParams nbrID_SW) (mpiGrid.cpu_cellParams nbrID_SE)
      (mpiGrid.cpu_cellParams nbrID_NW) (mpiGrid.cpu_cellParams nbrID_NE)
      (mpiGrid.cpu_derivatives nbrID_SW) (mpiGrid.cpu_derivatives nbrID_SE)
      (mpiGrid.cpu_derivatives nbrID_NW) (mpiGrid.cpu_derivatives nbrID_NE))
  else none

/-- Source: `calculateEdgeElectricFieldX`: the result is stored in
`cp_SW[CellParams::EX]`, the cell's own array. -/
def calculateEdgeElectricFieldX (X : Externals K) (cellID : CellID) (mpiGrid : ParGrid K) :
    Option (ParGrid K) := do
  let L ← edgeElectricFieldXAt X cellID mpiGrid
  pure (mpiGrid.setCellParam cellID EX L.EX)

/-- The local variables of `calculateEdgeElectricFieldY` at the end of the
function, as in `EdgeXLocals`. -/
structure EdgeYLocals (K : Type) where
  Ey_SW_1st : K
  Ey_SW : K
  Ey_SE_1st : K
  Ey_SE : K
  Ey_NW_1st : K
  Ey_NW : K
  Ey_NE_1st : K
  Ey_NE : K
  ax_pos : K
  ax_neg : K
  az_pos : K
  az_neg : K
  diffusive_x : K
  diffusive_z : K
  EY : K

/-- Source: `calculateEdgeElectricFieldY` (lines 466-578), the arithmetic of
the function given the arrays behind its sixteen pointers (`SW` is the cell
itself, `SE` its `-z` neighbour, `NW` its `-x` neighbour, `NE` its `-x,-z`
neighbour, `nbr_` the `+y` neighbour of each corner cell). -/
def edgeElectricFieldY (X : Externals K)
    (cp_SW cp_SE cp_NE cp_NW : CellParams → K)
    (derivs_SW derivs_SE derivs_NE derivs_NW : fieldsolver → K)
    (nbr_cp_SW nbr_cp_SE nbr_cp_NW nbr_cp_NE : CellParams → K)
    (nbr_derivs_SW nbr_derivs_SE nbr_derivs_NW nbr_derivs_NE : fieldsolver → K) :
    EdgeYLocals K :=
  let Bz_S := cp_SW BZ
  let Bx_W := cp_SW BX
  let Bx_E := cp_SE BX
  let Bz_N := cp_NW BZ
  let dBxdy_W := derivs_SW dBxdy
  let dBxdz_W := derivs_SW dBxdz
  let dBzdx_S := derivs_SW dBzdx
  let dBzdy_S := derivs_SW dBzdy
  let dBxdy_E := derivs_SE dBxdy
  let dBxdz_E := derivs_SE dBxdz
  let dBzdx_N := derivs_NW dBzdx
  let dBzdy_N := derivs_NW dBzdy
  -- Ey and characteristic speeds on this cell:
  let Vx0 := cp_SW RHOVX / cp_SW RHO
  let Vz0 := cp_SW RHOVZ / cp_SW RHO
  let Ey_SW_1st := Bz_S * Vx0 - Bx_W * Vz0
  let Ey_SW :=
    if X.FS_1ST_ORDER then Ey_SW_1st
    else Ey_SW_1st
      + HALF * ((Bz_S - HALF * dBzdx_S) * (-derivs_SW dVxdx - derivs_SW dVxdz) - dBzdx_S * Vx0
          + SIXTH * dBzdy_S * derivs_SW dVxdy)
      + (-HALF) * ((Bx_W - HALF * dBxdz_W) * (-derivs_SW dVzdx - derivs_SW dVzdz) - dBxdz_W * Vz0
          + SIXTH * dBxdy_W * derivs_SW dVzdy)
  let c_z := calculateFastMSspeedXZ X cp_SW derivs_SW nbr_cp_SW nbr_derivs_SW Bx_W Bz_S
    dBxdy_W dBxdz_W dBzdx_S dBzdy_S MINUS MINUS
  let c_x := c_z
  let az_neg := max ZERO (-Vz0 + c_z)
  let az_pos := max ZERO (Vz0 + c_z)
  let ax_neg := max ZERO (-Vx0 + c_x)
  let ax_pos := max ZERO (Vx0 + c_x)
  -- Ey and characteristic speeds on k-1 neighbour:
  let Vx0 := cp_SE RHOVX / cp_SE RHO
  let Vz0 := cp_SE RHOVZ / cp_SE RHO
  let Ey_SE_1st := Bz_S * Vx0 - Bx_E * Vz0
  let Ey_SE :=
    if X.FS_1ST_ORDER then Ey_SE_1st
    else Ey_SE_1st
      + HALF * ((Bz_S - HALF * dBzdx_S) * (-derivs_SE dVxdx + derivs_SE dVxdz) - dBzdx_S * Vx0
          + SIXTH * dBzdy_S * derivs_SE dVxdy)
      + (-HALF) * ((Bx_E + HALF * dBxdz_E) * (-derivs_SE dVzdx + derivs_SE dVzdz) + dBxdz_E * Vz0
          + SIXTH * dBxdy_E * derivs_SE dVzdy)
  let c_z := calculateFastMSspeedXZ X cp_SE derivs_SE nbr_cp_SE nbr_derivs_SE Bx_E Bz_S
    dBxdy_E dBxdz_E dBzdx_S dBzdy_S MINUS PLUS
  let c_x := c_z
  let az_neg := max az_neg (-Vz0 - c_z)
  let az_pos := max az_pos (Vz0 + c_z)
  let ax_neg := max ax_neg (-Vx0 - c_x)
  let ax_pos := max ax_pos (Vx0 + c_x)
  -- Ey and characteristic speeds on i-1 neighbour:
  let Vz0 := cp_NW RHOVZ / cp_NW RHO
  let Vx0 := cp_NW RHOVX / cp_NW RHO
  let Ey_NW_1st := Bz_N * Vx0 - Bx_W * Vz0
  let Ey_NW :=
    if X.FS_1ST_ORDER then Ey_NW_1st
    else Ey_NW_1st
      + HALF * ((Bz_N + HALF * dBzdx_N) * (derivs_NW dVxdx - derivs_NW dVxdz) + dBzdx_N * Vx0
          + SIXTH * dBzdy_N * derivs_NW dVxdy)
      + (-HALF) * ((Bx_W - HALF * dBxdz_W) * (derivs_NW dVzdx - derivs_NW dVzdz) - dBxdz_W * Vz0
          + SIXTH * dBxdy_W * derivs_NW dVzdy)
  let c_z := calculateFastMSspeedXZ X cp_NW derivs_NW nbr_cp_NW nbr_derivs_NW Bx_W Bz_N
    dBxdy_W dBxdz_W dBzdx_N dBzdy_N PLUS MINUS
  let c_x := c_z
  let az_neg := max az_neg (-Vz0 + c_z)
  let az_pos := max az_pos (Vz0 + c_z)
  let ax_neg := max ax_neg (-Vx0 + c_x)
  let ax_pos := max ax_pos (Vx0 + c_x)
  -- Ey and characteristic speeds on i-1,k-1 neighbour:
  let Vz0 := cp_NE RHOVZ / cp_NE RHO
  let Vx0 := cp_NE RHOVX / cp_NE RHO
  let Ey_NE_1st := Bz_N * Vx0 - Bx_E * Vz0
  let Ey_NE :=
    if X.FS_1ST_ORDER then Ey_NE_1st
    else Ey_NE_1st
      + HALF * ((Bz_N + HALF * dBzdx_N) * (derivs_NE dVxdx + derivs_NE dVxdz) + dBzdx_N * Vx0
          + SIXTH * dBzdy_N * derivs_NE dVxdy)
      + (-HALF) * ((Bx_E + HALF * dBxdz_E) * (derivs_NE dVzdx + derivs_NE dVzdz) + dBxdz_E * Vz0
          + SIXTH * dBxdy_E * derivs_NE dVzdy)
  let c_z := calculateFastMSspeedXZ X cp_NE derivs_NE nbr_cp_NE nbr_derivs_NE Bx_E Bz_N
    dBxdy_E dBxdz_E dBzdx_N dBzdy_N PLUS PLUS
  let c_x := c_z
  let az_neg := max az_neg (-Vz0 + c_z)
  let az_pos := max az_pos (Vz0 + c_z)
  let ax_neg := max ax_neg (-Vx0 + c_x)
  let ax_pos := max ax_pos (Vx0 + c_x)
  -- Calculate properly upwinded edge-averaged Ey:
  let EY0 := az_pos * ax_pos * Ey_NE + az_pos * ax_neg * Ey_SE + az_neg * ax_pos * Ey_NW
    + az_neg * ax_neg * Ey_SW
  let EY1 := EY0 / ((az_pos + az_neg) * (ax_pos + ax_neg) + EPS)
  let diffusive_x :=
    if X.FS_1ST_ORDER then ax_pos * ax_neg / (ax_pos + ax_neg + EPS) * (Bz_S - Bz_N)
    else ax_pos * ax_neg / (ax_pos + ax_neg + EPS)
      * ((Bz_S - HALF * dBzdx_S) - (Bz_N + HALF * dBzdx_N))
  let diffusive_z :=
    if X.FS_1ST_ORDER then az_pos * az_neg / (az_pos + az_neg + EPS) * (Bx_W - Bx_E)
    else az_pos * az_neg / (az_pos + az_neg + EPS)
      * ((Bx_W - HALF * dBxdz_W) - (Bx_E + HALF * dBxdz_E))
  {
    Ey_SW_1st := Ey_SW_1st, Ey_SW := Ey_SW, Ey_SE_1st := Ey_SE_1st, Ey_SE := Ey_SE,
    Ey_NW_1st := Ey_NW_1st, Ey_NW := Ey_NW, Ey_NE_1st := Ey_NE_1st, Ey_NE := Ey_NE,
    ax_pos := ax_pos, ax_neg := ax_neg, az_pos := az_pos, az_neg := az_neg,
    diffusive_x := diffusive_x, diffusive_z := diffusive_z,
    EY := EY1 - diffusive_x + diffusive_z }

/-- Source: `calculateEdgeElectricFieldY` (lines 446-464, 493-495, 515-517,
537-539, 559-561): the neighbour lookups and pointer dereferences of the
function, followed by its arithmetic. -/
def edgeElectricFieldYAt (X : Externals K) (cellID : CellID) (mpiGrid : ParGrid K) :
    Option (EdgeYLocals K) :=
  let nbr_SE := mpiGrid.getNeighbour cellID (calcNbrTypeID 2 2 (2 - 1))
  let nbr_NW := mpiGrid.getNeighbour cellID (calcNbrTypeID (2 - 1) 2 2)
  let nbr_NE := mpiGrid.getNeighbour cellID (calcNbrTypeID (2 - 1) 2 (2 - 1))
  let nbrID_SW := mpiGrid.getNeighbour cellID (calcNbrTypeID 2 (2 + 1) 2)
  let nbrID_SE := mpiGrid.getNeighbour cellID (calcNbrTypeID 2 (2 + 1) (2 - 1))
  let nbrID_NW := mpiGrid.getNeighbour cellID (calcNbrTypeID (2 - 1) (2 + 1) 2)
  let nbrID_NE := mpiGrid.getNeighbour cellID (calcNbrTypeID (2 - 1) (2 + 1) (2 - 1))
  if cellID ≠ INVALID_CELLID ∧ nbr_SE ≠ INVALID_CELLID ∧ nbr_NE ≠ INVALID_CELLID
      ∧ nbr_NW ≠ INVALID_CELLID ∧ nbrID_SW ≠ INVALID_CELLID ∧ nbrID_SE ≠ INVALID_CELLID
      ∧ nbrID_NW ≠ INVALID_CELLID ∧ nbrID_NE ≠ INVALID_CELLID then
    some (edgeElectricFieldY X
      (mpiGrid.cpu_cellParams cellID) (mpiGrid.cpu_cellParams nbr_SE)
      (mpiGrid.cpu_cellParams nbr_NE) (mpiGrid.cpu_cellParams nbr_NW)
      (mpiGrid.cpu_derivatives cellID) (mpiGrid.cpu_derivatives nbr_SE)
      (mpiGrid.cpu_derivatives nbr_NE) (mpiGrid.cpu_derivatives nbr_NW)
      (mpiGrid.cpu_cellParams nbrID_SW) (mpiGrid.cpu_cellParams nbrID_SE)
      (mpiGrid.cpu_cellParams nbrID_NW) (mpiGrid.cpu_cellParams nbrID_NE)
      (mpiGrid.cpu_derivatives nbrID_SW) (mpiGrid.cpu_derivatives nbrID_SE)
      (mpiGrid.cpu_derivatives nbrID_NW) (mpiGrid.cpu_derivatives nbrID_NE))
  else none

/-- Source: `calculateEdgeElectricFieldY`: the result is stored in
`cp_SW[CellParams::EY]`, the cell's own array. -/
def calculateEdgeElectricFieldY (X : Externals K) (cellID : CellID) (mpiGrid : ParGrid K) :
    Option (ParGrid K) := do
  let L ← edgeElectricFieldYAt X cellID mpiGrid
  pure (mpiGrid.setCellParam cellID EY L.EY)

/-- The local variables of `calculateEdgeElectricFieldZ` at the end of the
function, as in `EdgeXLocals`. -/
structure EdgeZLocals (K : Type) where
  Ez_SW_1st : K
  Ez_SW : K
  Ez_SE_1st : K
  Ez_SE : K
  Ez_NW_1st : K
  Ez_NW : K
  Ez_NE_1st : K
  Ez_NE : K
  ax_pos : K
  ax_neg : K
  ay_pos : K
  ay_neg : K
  diffusive_y : K
  diffusive_x : K
  EZ : K

/-- Source: `calculateEdgeElectricFieldZ` (lines 612-726), the arithmetic of
the function given the arrays behind its sixteen pointers (`SW` is the cell
itself, `SE` its `-x` neighbour, `NW` its `-y` neighbour, `NE` its `-x,-y`
neighbour, `nbr_` the arrays the function pairs with each corner cell). -/
def edgeElectricFieldZ (X : Externals K)
    (cp_SW cp_SE cp_NE cp_NW : CellParams → K)
    (derivs_SW derivs_SE derivs_NE derivs_NW : fieldsolver → K)
    (nbr_cp_SW nbr_cp_SE nbr_cp_NW nbr_cp_NE : CellParams → K)
    (nbr_derivs_SW nbr_derivs_SE nbr_derivs_NW nbr_derivs_NE : fieldsolver → K) :
    EdgeZLocals K :=
  let Bx_S := cp_SW BX
  let By_W := cp_SW BY
  let By_E := cp_SE BY
  let Bx_N := cp_NW BX
  let dBxdy_S := derivs_SW dBxdy
  let dBxdz_S := derivs_SW dBxdz
  let dBydx_W := derivs_SW dBydx
  let dBydz_W := derivs_SW dBydz
  let dBydx_E := derivs_SE dBydx
  let dBydz_E := derivs_SE dBydz
  let dBxdy_N := derivs_NW dBxdy
  let dBxdz_N := derivs_NW dBxdz
  -- Ez and characteristic speeds on SW cell:
  let Vx0 := cp_SW RHOVX / cp_SW RHO
  let Vy0 := cp_SW RHOVY / cp_SW RHO
  let Ez_SW_1st := Bx_S * Vy0 - By_W * Vx0
  let Ez_SW :=
    if X.FS_1ST_ORDER then Ez_SW_1st
    else Ez_SW_1st
      + HALF * ((Bx_S - HALF * dBxdy_S) * (-derivs_SW dVydx - derivs_SW dVydy) - dBxdy_S * Vy0
          + SIXTH * dBxdz_S * derivs_SW dVydz)
      + (-HALF) * ((By_W - HALF * dBydx_W) * (-derivs_SW dVxdx - derivs_SW dVxdy) - dBydx_W * Vx0
          + SIXTH * dBydz_W * derivs_SW dVxdz)
  let c_x := calculateFastMSspeedXY X cp_SW derivs_SW nbr_cp_SW nbr_derivs_SW Bx_S By_W
    dBxdy_S dBxdz_S dBydx_W dBydz_W MINUS MINUS
  let c_y := c_x
  let ax_neg := max ZERO (-Vx0 + c_x)
  let ax_pos := max ZERO (Vx0 + c_x)
  let ay_neg := max ZERO (-Vy0 + c_y)
  let ay_pos := max ZERO (Vy0 + c_y)
  -- Ez and characteristic speeds on SE (i-1) cell:
  let Vx0 := cp_SE RHOVX / cp_SE RHO
  let Vy0 := cp_SE RHOVY / cp_SE RHO
  let Ez_SE_1st := Bx_S * Vy0 - By_E * Vx0
  let Ez_SE :=
    if X.FS_1ST_ORDER then Ez_SE_1st
    else Ez_SE_1st
      + HALF * ((Bx_S - HALF * dBxdy_S) * (derivs_SE dVydx - derivs_SE dVydy) - dBxdy_S * Vy0
          + SIXTH * dBxdz_S * derivs_SE dVydz)
      + (-HALF) * ((By_E + HALF * dBydx_E) * (derivs_SE dVxdx - derivs_SE dVxdy) + dBydx_E * Vx0
          + SIXTH * dBydz_E * derivs_SE dVxdz)
  let c_x := calculateFastMSspeedXY X cp_SE derivs_SE nbr_cp_SE nbr_derivs_SE Bx_S By_E
    dBxdy_S dBxdz_S dBydx_E dBydz_E PLUS MINUS
  let c_y := c_x
  let ax_neg := max ax_neg (-Vx0 + c_x)
  let ax_pos := max ax_pos (Vx0 + c_x)
  let ay_neg := max ay_neg (-Vy0 + c_y)
  let ay_pos := max ay_pos (Vy0 + c_y)
  -- Ez and characteristic speeds on NW (j-1) cell:
  let Vx0 := cp_NW RHOVX / cp_NW RHO
  let Vy0 := cp_NW RHOVY / cp_NW RHO
  let Ez_NW_1st := Bx_N * Vy0 - By_W * Vx0
  let Ez_NW :=
    if X.FS_1ST_ORDER then Ez_NW_1st
    else Ez_NW_1st
      + HALF * ((Bx_N + HALF * dBxdy_N) * (-derivs_NW dVydx + derivs_NW dVydy) + dBxdy_N * Vy0
          + SIXTH * dBxdz_N * derivs_NW dVydz)
      + (-HALF) * ((By_W - HALF * dBydx_W) * (-derivs_NW dVxdx + derivs_NW dVxdy) - dBydx_W * Vx0
          + SIXTH * dBydz_W * derivs_NW dVxdz)
  let c_x := calculateFastMSspeedXY X cp_NW derivs_NW nbr_cp_NW nbr_derivs_NW Bx_N By_W
    dBxdy_N dBxdz_N dBydx_W dBydz_W MINUS PLUS
  let c_y := c_x
  let ax_neg := max ax_neg (-Vx0 + c_x)
  let ax_pos := max ax_pos (Vx0 + c_x)
  let ay_neg := max ay_neg (-Vy0 + c_y)
  let ay_pos := max ay_pos (Vy0 + c_y)
  -- Ez and characteristic speeds on NE (i-1,j-1) cell:
  let Vx0 := cp_NE RHOVX / cp_NE RHO
  let Vy0 := cp_NE RHOVY / cp_NE RHO
  let Ez_NE_1st := Bx_N * Vy0 - By_E * Vx0
  let Ez_NE :=
    if X.FS_1ST_ORDER then Ez_NE_1st
    else Ez_NE_1st
      + HALF * ((Bx_N + HALF * dBxdy_N) * (derivs_NE dVydx + derivs_NE dVydy) + dBxdy_N * Vy0
          + SIXTH * dBxdz_N * derivs_NE dVydz)
      + (-HALF) * ((By_E + HALF * dBydx_E) * (derivs_NE dVxdx + derivs_NE dVxdy) + dBydx_E * Vx0
          + SIXTH * dBydz_E * derivs_NE dVxdz)
  let c_x := calculateFastMSspeedXY X cp_NE derivs_NE nbr_cp_NE nbr_derivs_NE Bx_N By_E
    dBxdy_N dBxdz_N dBydx_E dBydz_E PLUS PLUS
  let c_y := c_x
  let ax_neg := max ax_neg (-Vx0 + c_x)
  let ax_pos := max ax_pos (Vx0 + c_x)
  let ay_neg := max ay_neg (-Vy0 + c_y)
  let ay_pos := max ay_pos (Vy0 + c_y)
  -- Calculate properly upwinded edge-averaged Ez:
  let EZ0 := ax_pos * ay_pos * Ez_NE + ax_pos * ay_neg * Ez_SE + ax_neg * ay_pos * Ez_NW
    + ax_neg * ay_neg * Ez_SW
  let EZ1 := EZ0 / ((ax_pos + ax_neg) * (ay_pos + ay_neg) + EPS)
  let diffusive_y :=
    if X.FS_1ST_ORDER then ay_pos * ay_neg / (ay_pos + ay_neg + EPS) * (Bx_S - Bx_N)
    else ay_pos * ay_neg / (ay_pos + ay_neg + EPS)
      * ((Bx_S - HALF * dBxdy_S) - (Bx_N + HALF * dBxdy_N))
  let diffusive_x :=
    if X.FS_1ST_ORDER then ax_pos * ax_neg / (ax_pos + ax_neg + EPS) * (By_W - By_E)
    else ax_pos * ax_neg / (ax_pos + ax_neg + EPS)
      * ((By_W - HALF * dBydx_W) - (By_E + HALF * dBydx_E))
  {
    Ez_SW_1st := Ez_SW_1st, Ez_SW := Ez_SW, Ez_SE_1st := Ez_SE_1st, Ez_SE := Ez_SE,
    Ez_NW_1st := Ez_NW_1st, Ez_NW := Ez_NW, Ez_NE_1st := Ez_NE_1st, Ez_NE := Ez_NE,
    ax_pos := ax_pos, ax_neg := ax_neg, ay_pos := ay_pos, ay_neg := ay_neg,
    diffusive_y := diffusive_y, diffusive_x := diffusive_x,
    EZ := EZ1 - diffusive_y + diffusive_x }

/-- Source: `calculateEdgeElectricFieldZ` (lines 592-610, 641-643, 663-665,
685-687, 707-709): the neighbour lookups and pointer dereferences of the
function, followed by its arithmetic. For the `NE` corner the function looks
up `nbrID_NE` (line 707) and then reads `mpiGrid[nbrID_NW]` (lines 708-709);
`nbrID_NE` itself is not dereferenced. -/
def edgeElectricFieldZAt (X : Externals K) (cellID : CellID) (mpiGrid : ParGrid K) :
    Option (EdgeZLocals K) :=
  let nbr_SE := mpiGrid.getNeighbour cellID (calcNbrTypeID (2 - 1) 2 2)
  let nbr_NE := mpiGrid.getNeighbour cellID (calcNbrTypeID (2 - 1) (2 - 1) 2)
  let nbr_NW := mpiGrid.getNeighbour cellID (calcNbrTypeID 2 (2 - 1) 2)
  let nbrID_SW := mpiGrid.getNeighbour cellID (calcNbrTypeID 2 2 (2 + 1))
  let nbrID_SE := mpiGrid.getNeighbour cellID (calcNbrTypeID (2 - 1) 2 (2 + 1))
  let nbrID_NW := mpiGrid.getNeighbour cellID (calcNbrTypeID 2 (2 - 1) (2 + 1))
  let _nbrID_NE := mpiGrid.getNeighbour cellID (calcNbrTypeID (2 - 1) (2 - 1) (2 + 1))
  if cellID ≠ INVALID_CELLID ∧ nbr_SE ≠ INVALID_CELLID ∧ nbr_NE ≠ INVALID_CELLID
      ∧ nbr_NW ≠ INVALID_CELLID ∧ nbrID_SW ≠ INVALID_CELLID ∧ nbrID_SE ≠ INVALID_CELLID
      ∧ nbrID_NW ≠ INVALID_CELLID then
    some (edgeElectricFieldZ X
      (mpiGrid.cpu_cellParams cellID) (mpiGrid.cpu_cellParams nbr_SE)
      (mpiGrid.cpu_cellParams nbr_NE) (mpiGrid.cpu_cellParams nbr_NW)
      (mpiGrid.cpu_derivatives cellID) (mpiGrid.cpu_derivatives nbr_SE)
      (mpiGrid.cpu_derivatives nbr_NE) (mpiGrid.cpu_derivatives nbr_NW)
      (mpiGrid.cpu_cellParams nbrID_SW) (mpiGrid.cpu_cellParams nbrID_SE)
      (mpiGrid.cpu_cellParams nbrID_NW) (mpiGrid.cpu_cellParams nbrID_NW)
      (mpiGrid.cpu_derivatives nbrID_SW) (mpiGrid.cpu_derivatives nbrID_SE)
      (mpiGrid.cpu_derivatives nbrID_NW) (mpiGrid.cpu_derivatives nbrID_NW))
  else none

/-- Source: `calculateEdgeElectricFieldZ`: the result is stored in
`cp_SW[CellParams::EZ]`, the cell's own array. -/
def calculateEdgeElectricFieldZ (X : Externals K) (cellID : CellID) (mpiGrid : ParGrid K) :
    Option (ParGrid K) := do
  let L ← edgeElectricFieldZAt X cellID mpiGrid
  pure (mpiGrid.setCellParam cellID EZ L.EZ)

/-! ## Stage drivers

The drivers post receives and sends for the cells named in `stencil3.recvs`
and `stencil3.sends` and wait for them between the loop over the inner cells
and the loop over the boundary cells. Message passing is outside this
embedding: a receive only overwrites this process's copy of a cell owned by
another process, and the definitions below give the effect of a stage when no
other process delivers data. -/

/-- Source: `calculateDerivativesSimple` (lines 1284-1329): the derivatives
are calculated on the inner cells of `stencil3`, then on its boundary cells. -/
def calculateDerivativesSimple (X : Externals K) (G : Globals) (mpiGrid : ParGrid K)
    (_localCells : List CellID) : Option (ParGrid K) := do
  let g ← G.stencil3.innerCells.foldlM (fun g cellID => calculateDerivatives X G cellID g) mpiGrid
  G.stencil3.boundaryCells.foldlM (fun g cellID => calculateDerivatives X G cellID g) g

/-- Source: `calculateUpwindedElectricFieldSimple`, body of the two cell loops
(lines 1364-1368 and 1377-1381). `boundaryFlags[cellID]` is `operator[]` of a
`std::map`: a missing entry is created with value `0`. A kernel is called
only when its capability test passes; there is no `else` branch. -/
def upwindedElectricFieldCell (X : Externals K) (masks : Masks) (cellID : CellID)
    (st : (CellID → Option Nat) × ParGrid K) : Option ((CellID → Option Nat) × ParGrid K) := do
  let boundaryFlag := (st.1 cellID).getD 0
  let flags : CellID → Option Nat := fun c => if c = cellID then some boundaryFlag else st.1 c
  let g ← if boundaryFlag &&& masks.CALCULATE_EX = masks.CALCULATE_EX
    then calculateEdgeElectricFieldX X cellID st.2 else pure st.2
  let g ← if boundaryFlag &&& masks.CALCULATE_EY = masks.CALCULATE_EY
    then calculateEdgeElectricFieldY X cellID g else pure g
  let g ← if boundaryFlag &&& masks.CALCULATE_EZ = masks.CALCULATE_EZ
    then calculateEdgeElectricFieldZ X cellID g else pure g
  pure (flags, g)

/-- Source: `calculateUpwindedElectricFieldSimple` (lines 1331-1410): the
edge fields are calculated on the inner cells of `stencil3`, then on its
boundary cells. The result carries the `boundaryFlags` map, which the lookups
may have extended. -/
def calculateUpwindedElectricFieldSimple (X : Externals K) (G : Globals) (mpiGrid : ParGrid K)
    (_localCells : List CellID) : Option ((CellID → Option Nat) × ParGrid K) := do
  let st ← G.stencil3.innerCells.foldlM
    (fun st cellID => upwindedElectricFieldCell X G.masks cellID st) (G.boundaryFlags, mpiGrid)
  G.stencil3.boundaryCells.foldlM
    (fun st cellID => upwindedElectricFieldCell X G.masks cellID st) st

/-! ## Reconstruction and face averages -/

/-- Source: `enum Rec` (lines 1487-1490). -/
inductive Rec
  | a_0 | a_x | a_y | a_z | a_xx | a_xy | a_xz
  | b_0 | b_x | b_y | b_z | b_yx | b_yy | b_yz
  | c_0 | c_x | c_y | c_z | c_zx | c_zy | c_zz
  deriving DecidableEq, Repr

/-- Source: `reconstructionCoefficients` (lines 1492-1568), the contents of
`result` at return. A neighbour id equal to `INVALID_CELLID` is replaced by
the all-zero dummy arrays. -/
def reconstructionCoefficients (X : Externals K)
    (cellID nbr_i2j1k1 nbr_i1j2k1 nbr_i1j1k2 : CellID) (mpiGrid : ParGrid K) : Rec → K :=
  if cellID = INVALID_CELLID then fun _ => 0
  else
    let cep_i1j1k1 := mpiGrid.cpu_cellParams cellID
    let dummyCellParams : CellParams → K := fun _ => 0
    let cep_i2j1k1 :=
      if nbr_i2j1k1 = INVALID_CELLID then dummyCellParams else mpiGrid.cpu_cellParams nbr_i2j1k1
    let cep_i1j2k1 :=
      if nbr_i1j2k1 = INVALID_CELLID then dummyCellParams else mpiGrid.cpu_cellParams nbr_i1j2k1
    let cep_i1j1k2 :=
      if nbr_i1j1k2 = INVALID_CELLID then dummyCellParams else mpiGrid.cpu_cellParams nbr_i1j1k2
    let der_i1j1k1 := mpiGrid.cpu_derivatives cellID
    let dummyDerivatives : fieldsolver → K := fun _ => 0
    let der_i2j1k1 :=
      if nbr_i2j1k1 = INVALID_CELLID then dummyDerivatives else mpiGrid.cpu_derivatives nbr_i2j1k1
    let der_i1j2k1 :=
      if nbr_i1j2k1 = INVALID_CELLID then dummyDerivatives else mpiGrid.cpu_derivatives nbr_i1j2k1
    let der_i1j1k2 :=
      if nbr_i1j1k2 = INVALID_CELLID then dummyDerivatives else mpiGrid.cpu_derivatives nbr_i1j1k2
    let r_a_xy := if X.FS_1ST_ORDER then 0 else der_i2j1k1 dBxdy - der_i1j1k1 dBxdy
    let r_a_xz := if X.FS_1ST_ORDER then 0 else der_i2j1k1 dBxdz - der_i1j1k1 dBxdz
    let r_a_x := if X.FS_1ST_ORDER then 0 else cep_i2j1k1 BX - cep_i1j1k1 BX
    let r_a_y := if X.FS_1ST_ORDER then 0 else HALF * (der_i2j1k1 dBxdy + der_i1j1k1 dBxdy)
    let r_a_z := if X.FS_1ST_ORDER then 0 else HALF * (der_i2j1k1 dBxdz + der_i1j1k1 dBxdz)
    let r_b_yx := if X.FS_1ST_ORDER then 0 else der_i1j2k1 dBydx - der_i1j1k1 dBydx
    let r_b_yz := if X.FS_1ST_ORDER then 0 else der_i1j2k1 dBydz - der_i1j1k1 dBydz
    let r_b_x := if X.FS_1ST_ORDER then 0 else HALF * (der_i1j2k1 dBydx + der_i1j1k1 dBydx)
    let r_b_y := if X.FS_1ST_ORDER then 0 else cep_i1j2k1 BY - cep_i1j1k1 BY
    let r_b_z := if X.FS_1ST_ORDER then 0 else HALF * (der_i1j2k1 dBydz + der_i1j1k1 dBydz)
    let r_c_zx := if X.FS_1ST_ORDER then 0 else der_i1j1k2 dBzdx - der_i1j1k1 dBzdx
    let r_c_zy := if X.FS_1ST_ORDER then 0 else der_i1j1k2 dBzdy - der_i1j1k1 dBzdy
    let r_c_x := if X.FS_1ST_ORDER then 0 else HALF * (der_i1j1k2 dBzdx + der_i1j1k1 dBzdx)
    let r_c_y := if X.FS_1ST_ORDER then 0 else HALF * (der_i1j1k2 dBzdy + der_i1j1k1 dBzdy)
    let r_c_z := if X.FS_1ST_ORDER then 0 else cep_i1j1k2 BZ - cep_i1j1k1 BZ
    let r_a_xx := if X.FS_1ST_ORDER then 0 else (-HALF) * (r_b_yx + r_c_zx)
    let r_b_yy := if X.FS_1ST_ORDER then 0 else (-HALF) * (r_a_xy + r_c_zy)
    let r_c_zz := if X.FS_1ST_ORDER then 0 else (-HALF) * (r_a_xz + r_b_yz)
    let r_a_0 := HALF * (cep_i2j1k1 BX + cep_i1j1k1 BX) - SIXTH * r_a_xx
    let r_b_0 := HALF * (cep_i1j2k1 BY + cep_i1j1k1 BY) - SIXTH * r_b_yy
    let r_c_0 := HALF * (cep_i1j1k2 BZ + cep_i1j1k1 BZ) - SIXTH * r_c_zz
    fun
      | .a_0 => r_a_0 | .a_x => r_a_x | .a_y => r_a_y | .a_z => r_a_z
      | .a_xx => r_a_xx | .a_xy => r_a_xy | .a_xz => r_a_xz
      | .b_0 => r_b_0 | .b_x => r_b_x | .b_y => r_b_y | .b_z => r_b_z
      | .b_yx => r_b_yx | .b_yy => r_b_yy | .b_yz => r_b_yz
      | .c_0 => r_c_0 | .c_x => r_c_x | .c_y => r_c_y | .c_z => r_c_z
      | .c_zx => r_c_zx | .c_zy => r_c_zy | .c_zz => r_c_zz

/-- Source: `averageFaceXElectricField` (lines 1570-1607), the three values
written to `result`. -/
def averageFaceXElectricField
    (cellID nbr_i1j2k1 nbr_i1j1k2 nbr_i1j2k2 nbr_i0j1k1 nbr_i0j2k1 nbr_i0j1k2 nbr_i0j2k2 : CellID)
    (existingCells : Nat) (mpiGrid : ParGrid K) : Option (K × K × K) :=
  if cellID = INVALID_CELLID then some (0, 0, 0)
  else
    let REQUIRED_CELLS := toUint
      (1 <<< calcNbrNumber 1 1 1 ||| 1 <<< calcNbrNumber 1 2 1 ||| 1 <<< calcNbrNumber 1 1 2
        ||| 1 <<< calcNbrNumber 1 2 2 ||| 1 <<< calcNbrNumber 0 1 1 ||| 1 <<< calcNbrNumber 0 2 1
        ||| 1 <<< calcNbrNumber 0 1 2 ||| 1 <<< calcNbrNumber 0 2 2)
    if existingCells &&& REQUIRED_CELLS = REQUIRED_CELLS then
      if nbr_i1j2k1 ≠ INVALID_CELLID ∧ nbr_i1j1k2 ≠ INVALID_CELLID ∧ nbr_i1j2k2 ≠ INVALID_CELLID
          ∧ nbr_i0j1k1 ≠ INVALID_CELLID ∧ nbr_i0j2k1 ≠ INVALID_CELLID
          ∧ nbr_i0j1k2 ≠ INVALID_CELLID ∧ nbr_i0j2k2 ≠ INVALID_CELLID then
        let cep_i1j1k1 := mpiGrid.cpu_cellParams cellID
        let cep_i1j2k1 := mpiGrid.cpu_cellParams nbr_i1j2k1
        let cep_i1j1k2 := mpiGrid.cpu_cellParams nbr_i1j1k2
        let cep_i1j2k2 := mpiGrid.cpu_cellParams nbr_i1j2k2
        let cep_i0j1k1 := mpiGrid.cpu_cellParams nbr_i0j1k1
        let cep_i0j2k1 := mpiGrid.cpu_cellParams nbr_i0j2k1
        let cep_i0j1k2 := mpiGrid.cpu_cellParams nbr_i0j1k2
        let cep_i0j2k2 := mpiGrid.cpu_cellParams nbr_i0j2k2
        some
          (EIGTH * (cep_i1j1k1 EX + cep_i1j2k1 EX + cep_i1j1k2 EX + cep_i1j2k2 EX
              + cep_i0j1k1 EX + cep_i0j2k1 EX + cep_i0j1k2 EX + cep_i0j2k2 EX),
            HALF * (cep_i1j1k1 EY + cep_i1j1k2 EY),
            HALF * (cep_i1j1k1 EZ + cep_i1j2k1 EZ))
      else none
    else some (0, 0, 0)

/-- Source: `averageFaceYElectricField` (lines 1609-1646), the three values
written to `result`. -/
def averageFaceYElectricField
    (cellID nbr_i2j1k1 nbr_i1j1k2 nbr_i2j1k2 nbr_i1j0k1 nbr_i2j0k1 nbr_i1j0k2 nbr_i2j0k2 : CellID)
    (existingCells : Nat) (mpiGrid : ParGrid K) : Option (K × K × K) :=
  if cellID = INVALID_CELLID then some (0, 0, 0)
  else
    let REQUIRED_CELLS := toUint
      (1 <<< calcNbrNumber 1 1 1 ||| 1 <<< calcNbrNumber 2 1 1 ||| 1 <<< calcNbrNumber 1 1 2
        ||| 1 <<< calcNbrNumber 2 1 2 ||| 1 <<< calcNbrNumber 1 0 1 ||| 1 <<< calcNbrNumber 2 0 1
        ||| 1 <<< calcNbrNumber 1 0 2 ||| 1 <<< calcNbrNumber 2 0 2)
    if existingCells &&& REQUIRED_CELLS = REQUIRED_CELLS then
      if nbr_i2j1k1 ≠ INVALID_CELLID ∧ nbr_i1j1k2 ≠ INVALID_CELLID ∧ nbr_i2j1k2 ≠ INVALID_CELLID
          ∧ nbr_i1j0k1 ≠ INVALID_CELLID ∧ nbr_i2j0k1 ≠ INVALID_CELLID
          ∧ nbr_i1j0k2 ≠ INVALID_CELLID ∧ nbr_i2j0k2 ≠ INVALID_CELLID then
        let cep_i1j1k1 := mpiGrid.cpu_cellParams cellID
        let cep_i2j1k1 := mpiGrid.cpu_cellParams nbr_i2j1k1
        let cep_i1j1k2 := mpiGrid.cpu_cellParams nbr_i1j1k2
        let cep_i2j1k2 := mpiGrid.cpu_cellParams nbr_i2j1k2
        let cep_i1j0k1 := mpiGrid.cpu_cellParams nbr_i1j0k1
        let cep_i2j0k1 := mpiGrid.cpu_cellParams nbr_i2j0k1
        let cep_i1j0k2 := mpiGrid.cpu_cellParams nbr_i1j0k2
        let cep_i2j0k2 := mpiGrid.cpu_cellParams nbr_i2j0k2
        some
          (HALF * (cep_i1j1k1 EX + cep_i1j1k2 EX),
            EIGTH * (cep_i1j1k1 EY + cep_i2j1k1 EY + cep_i1j1k2 EY + cep_i2j1k2 EY
              + cep_i1j0k1 EY + cep_i2j0k1 EY + cep_i1j0k2 EY + cep_i2j0k2 EY),
            HALF * (cep_i1j1k1 EZ + cep_i2j1k1 EZ))
      else none
    else some (0, 0, 0)

/-- Source: `averageFaceZElectricField` (lines 1648-1685), the three values
written to `result`. The pointer `cep_i1j2k0` is taken from
`mpiGrid[nbr_i1j1k0]` (line 1673); `nbr_i1j2k0` is not dereferenced. -/
def averageFaceZElectricField
    (cellID nbr_i2j1k1 nbr_i1j2k1 nbr_i2j2k1 nbr_i1j1k0 nbr_i2j1k0 _nbr_i1j2k0 nbr_i2j2k0 : CellID)
    (existingCells : Nat) (mpiGrid : ParGrid K) : Option (K × K × K) :=
  if cellID = INVALID_CELLID then some (0, 0, 0)
  else
    let REQUIRED_CELLS := toUint
      (1 <<< calcNbrNumber 1 1 1 ||| 1 <<< calcNbrNumber 2 1 1 ||| 1 <<< calcNbrNumber 1 2 1
        ||| 1 <<< calcNbrNumber 2 2 1 ||| 1 <<< calcNbrNumber 1 1 0 ||| 1 <<< calcNbrNumber 2 1 0
        ||| 1 <<< calcNbrNumber 1 2 0 ||| 1 <<< calcNbrNumber 2 2 0)
    if existingCells &&& REQUIRED_CELLS = REQUIRED_CELLS then
      if nbr_i2j1k1 ≠ INVALID_CELLID ∧ nbr_i1j2k1 ≠ INVALID_CELLID ∧ nbr_i2j2k1 ≠ INVALID_CELLID
          ∧ nbr_i1j1k0 ≠ INVALID_CELLID ∧ nbr_i2j1k0 ≠ INVALID_CELLID
          ∧ nbr_i2j2k0 ≠ INVALID_CELLID then
        let cep_i1j1k1 := mpiGrid.cpu_cellParams cellID
        let cep_i2j1k1 := mpiGrid.cpu_cellParams nbr_i2j1k1
        let cep_i1j2k1 := mpiGrid.cpu_cellParams nbr_i1j2k1
        let cep_i2j2k1 := mpiGrid.cpu_cellParams nbr_i2j2k1
        let cep_i1j1k0 := mpiGrid.cpu_cellParams nbr_i1j1k0
        let cep_i2j1k0 := mpiGrid.cpu_cellParams nbr_i2j1k0
        let cep_i1j2k0 := mpiGrid.cpu_cellParams nbr_i1j1k0
        let cep_i2j2k0 := mpiGrid.cpu_cellParams nbr_i2j2k0
        some
          (HALF * (cep_i1j1k1 EX + cep_i1j2k1 EX),
            HALF * (cep_i1j1k1 EY + cep_i2j1k1 EY),
            EIGTH * (cep_i1j1k1 EZ + cep_i2j1k1 EZ + cep_i1j2k1 EZ + cep_i2j2k1 EZ
              + cep_i1j1k0 EZ + cep_i2j1k0 EZ + cep_i1j2k0 EZ + cep_i2j2k0 EZ))
      else none
    else some (0, 0, 0)

/-- Source: `averageFaceXMagnField` (lines 1687-1702). The neighbour ids
passed to the function are not used by it. -/
def averageFaceXMagnField (cellID : CellID) (coefficients : Rec → K) (mpiGrid : ParGrid K)
    (I : Int) : K × K × K :=
  if cellID = INVALID_CELLID then (0, 0, 0)
  else
    let cep_i1j1k1 := mpiGrid.cpu_cellParams cellID
    (cep_i1j1k1 BX,
      coefficients Rec.b_0 + (I : K) * HALF * coefficients Rec.b_x,
      coefficients Rec.c_0 + (I : K) * HALF * coefficients Rec.c_x)

/-- Source: `averageFaceYMagnField` (lines 1704-1719). -/
def averageFaceYMagnField (cellID : CellID) (coefficients : Rec → K) (mpiGrid : ParGrid K)
    (J : Int) : K × K × K :=
  if cellID = INVALID_CELLID then (0, 0, 0)
  else
    let cep_i1j1k1 := mpiGrid.cpu_cellParams cellID
    (coefficients Rec.a_0 + (J : K) * HALF * coefficients Rec.a_y,
      cep_i1j1k1 BY,
      coefficients Rec.c_0 + (J : K) * HALF * coefficients Rec.c_y)

/-- Source: `averageFaceZMagnField` (lines 1721-1736). -/
def averageFaceZMagnField (cellID : CellID) (coefficients : Rec → K) (mpiGrid : ParGrid K)
    (Kdir : Int) : K × K × K :=
  if cellID = INVALID_CELLID then (0, 0, 0)
  else
    let cep_i1j1k1 := mpiGrid.cpu_cellParams cellID
    (coefficients Rec.a_0 + (Kdir : K) * HALF * coefficients Rec.a_z,
      coefficients Rec.b_0 + (Kdir : K) * HALF * coefficients Rec.b_z,
      cep_i1j1k1 BZ)

/-- Modelled from the spec: `common.h`, which numbers the entries of
`cpu_cellParams`, is not part of the sources at hand. The spec describes
face-centred fields with three components per face direction; the slot
`CellParams::BXFACEX + i` for `i < 9` is taken to be the `i`-th of the nine
face-averaged magnetic field slots in the order x-face, y-face, z-face, so
that `BXFACEY` is `BXFACEX + 3` and `BXFACEZ` is `BXFACEX + 6`. -/
def faceBSlots : List CellParams :=
  [BXFACEX, BYFACEX, BZFACEX, BXFACEY, BYFACEY, BZFACEY, BXFACEZ, BYFACEZ, BZFACEZ]

/-- The stores `result[0]`, `result[1]`, `result[2]` through a pointer into
the cell parameters of a cell, given the three slots the pointer covers. -/
def ParGrid.setTriple (mpiGrid : ParGrid K) (id : CellID) (s0 s1 s2 : CellParams)
    (v : K × K × K) : ParGrid K :=
  ((mpiGrid.setCellParam id s0 v.1).setCellParam id s1 v.2.1).setCellParam id s2 v.2.2

/-- Source: `calculateFaceAveragedFields`, body of the cell loop
(lines 1750-1815). All three electric-field calls receive the pointer
`cellParams+CellParams::EXFACEX`, whose three slots are `EXFACEX`, `EYFACEX`
and `EZFACEX`. -/
def faceAveragedFieldsCell (X : Externals K) (G : Globals) (cellID : CellID)
    (mpiGrid : ParGrid K) : Option (ParGrid K) := do
  let existingCells := (G.boundaryFlags cellID).getD 0
  let _cellParams ← mpiGrid.cellParamsAt cellID
  let nbr := fun (i j k : Nat) => mpiGrid.getNeighbour cellID (calcNbrTypeID i j k)
  let nbr_i2j1k1 := nbr (2 + 1) 2 2
  let nbr_i1j2k1 := nbr 2 (2 + 1) 2
  let nbr_i1j1k2 := nbr 2 2 (2 + 1)
  let nbr_i1j2k2 := nbr 2 (2 + 1) (2 + 1)
  let coefficients := reconstructionCoefficients X cellID nbr_i2j1k1 nbr_i1j2k1 nbr_i1j1k2 mpiGrid
  let nbr_i0j1k1 := nbr (2 - 1) 2 2
  let nbr_i0j2k1 := nbr (2 - 1) (2 + 1) 2
  let nbr_i0j1k2 := nbr (2 - 1) 2 (2 + 1)
  let nbr_i0j2k2 := nbr (2 - 1) (2 + 1) (2 + 1)
  let coefficients2 := reconstructionCoefficients X nbr_i0j1k1 cellID nbr_i0j2k1 nbr_i0j1k2 mpiGrid
  -- x-face
  let g := mpiGrid.setTriple cellID BXFACEX BYFACEX BZFACEX
    (averageFaceXMagnField cellID coefficients mpiGrid (-1))
  let faceMagnField0 := averageFaceXMagnField nbr_i0j1k1 coefficients2 g 1
  let eX ← averageFaceXElectricField cellID nbr_i1j2k1 nbr_i1j1k2 nbr_i1j2k2 nbr_i0j1k1
    nbr_i0j2k1 nbr_i0j1k2 nbr_i0j2k2 existingCells g
  let g := g.setTriple cellID EXFACEX EYFACEX EZFACEX eX
  -- y-face
  let nbr_i2j1k2 := nbr (2 + 1) 2 (2 + 1)
  let nbr_i2j0k1 := nbr (2 + 1) (2 - 1) 2
  let nbr_i1j0k1 := nbr 2 (2 - 1) 2
  let nbr_i1j0k2 := nbr 2 (2 - 1) (2 + 1)
  let nbr_i2j0k2 := nbr (2 + 1) (2 - 1) (2 + 1)
  let coefficients2 := reconstructionCoefficients X nbr_i1j0k1 nbr_i2j0k1 cellID nbr_i1j0k2 g
  let g := g.setTriple cellID BXFACEY BYFACEY BZFACEY
    (averageFaceYMagnField cellID coefficients g (-1))
  let faceMagnField3 := averageFaceYMagnField nbr_i1j0k1 coefficients2 g 1
  let eY ← averageFaceYElectricField cellID nbr_i2j1k1 nbr_i1j1k2 nbr_i2j1k2 nbr_i1j0k1
    nbr_i2j0k1 nbr_i1j0k2 nbr_i2j0k2 existingCells g
  let g := g.setTriple cellID EXFACEX EYFACEX EZFACEX eY
  -- z-face
  let nbr_i2j2k1 := nbr (2 + 1) (2 + 1) 2
  let nbr_i2j1k0 := nbr (2 + 1) 2 (2 - 1)
  let nbr_i1j2k0 := nbr 2 (2 + 1) (2 - 1)
  let nbr_i1j1k0 := nbr 2 2 (2 - 1)
  let nbr_i2j2k0 := nbr (2 + 1) (2 + 1) (2 - 1)
  let coefficients2 := reconstructionCoefficients X nbr_i1j1k0 nbr_i2j1k0 nbr_i1j2k0 cellID g
  let g := g.setTriple cellID BXFACEZ BYFACEZ BZFACEZ
    (averageFaceZMagnField cellID coefficients g (-1))
  let faceMagnField6 := averageFaceZMagnField nbr_i1j1k0 coefficients2 g 1
  let eZ ← averageFaceZElectricField cellID nbr_i2j1k1 nbr_i1j2k1 nbr_i2j2k1 nbr_i1j1k0
    nbr_i2j1k0 nbr_i1j2k0 nbr_i2j2k0 existingCells g
  let g := g.setTriple cellID EXFACEX EYFACEX EZFACEX eZ
  -- Store the average value:
  let faceMagnField : List K :=
    [faceMagnField0.1, faceMagnField0.2.1, faceMagnField0.2.2,
     faceMagnField3.1, faceMagnField3.2.1, faceMagnField3.2.2,
     faceMagnField6.1, faceMagnField6.2.1, faceMagnField6.2.2]
  pure ((faceBSlots.zip faceMagnField).foldl
    (fun g sf => g.setCellParam cellID sf.1 (HALF * (g.cpu_cellParams cellID sf.1 + sf.2))) g)

/-- Source: `calculateFaceAveragedFields` (lines 1738-1817). -/
def calculateFaceAveragedFields (X : Externals K) (G : Globals) (mpiGrid : ParGrid K) :
    Option (ParGrid K) :=
  mpiGrid.getCells.foldlM (fun g cellID => faceAveragedFieldsCell X G cellID g) mpiGrid

/-! ## Transfer stencils and the solver entry points -/

/-- Modelled from the spec: `TransferStencil::addReceives` of
`transferstencil.h`, which is not part of the sources at hand. The spec says
that for each local cell and each required offset the neighbour is resolved,
that a receive is registered when the neighbour is owned by a different
process, and that a cell enters the boundary set if any required offset is
non-local, else the inner set. -/
def TransferStencil.addReceives (stencil : TransferStencil) (mpiGrid : ParGrid K)
    (nbrTypeIDs : List Nat) : TransferStencil :=
  let needsRemote : CellID → Bool := fun c =>
    nbrTypeIDs.any fun t =>
      decide (mpiGrid.getNeighbour c t ≠ INVALID_CELLID) && mpiGrid.isRemote (mpiGrid.getNeighbour c t)
  { stencil with
    recvNbrTypeIDs := nbrTypeIDs
    innerCells := mpiGrid.getCells.filter fun c => !needsRemote c
    boundaryCells := mpiGrid.getCells.filter needsRemote }

/-- Modelled from the spec: `TransferStencil::addSends` of
`transferstencil.h`; the send side of the pattern registers the offsets along
which this process's cells are sent. -/
def TransferStencil.addSends (stencil : TransferStencil) (_mpiGrid : ParGrid K)
    (nbrTypeIDs : List Nat) : TransferStencil :=
  { stencil with sendNbrTypeIDs := nbrTypeIDs }

/-- The neighbour type id pushed for the loop indices `(i, j, k)`:
`calcNbrTypeID(2+i,2+j,2+k)`. -/
def nbrTypeIDOf (ijk : Int × Int × Int) : Nat :=
  calcNbrTypeID (toUchar (2 + ijk.1)) (toUchar (2 + ijk.2.1)) (toUchar (2 + ijk.2.2))

/-- Source: `calculateTransferStencil1`, flag loop (lines 807-812), the flag
word computed for one cell. -/
def stencil1BoundaryFlagOf (mpiGrid : ParGrid K) (cellID : CellID) : Nat :=
  nbrOffsets.foldl
    (fun (boundaryFlag : Nat) (ijk : Int × Int × Int) =>
      if ijk.1 = 0 ∧ (ijk.2.1 = 0 ∧ ijk.2.2 = 0) then boundaryFlag
      else if mpiGrid.getNeighbour cellID
          (calcNbrTypeID (toUchar (2 + ijk.1)) (toUchar (2 + ijk.2.1)) (toUchar (2 + ijk.2.2)))
          = INVALID_CELLID then boundaryFlag
      else toUint (boundaryFlag |||
        1 <<< calcNbrNumber (toUchar (1 + ijk.1)) (toUchar (1 + ijk.2.1)) (toUchar (1 + ijk.2.2))))
    (toUint (1 <<< calcNbrNumber 1 1 1))

/-- Source: `calculateTransferStencil1`, receive list (lines 819-831). -/
def stencil1Receives : List Nat :=
  (nbrOffsets.filter fun ijk =>
    !(decide (ijk.1 = 0 ∧ (ijk.2.1 = 0 ∧ ijk.2.2 = 0))
      || decide (ijk.1 = 0 ∧ (ijk.2.1 = 1 ∧ ijk.2.2 = 1))
      || decide (ijk.1 = -1 ∧ (ijk.2.1 = 1 ∧ ijk.2.2 = 1))
      || decide (ijk.1 = -1 ∧ (ijk.2.1 = -1 ∧ ijk.2.2 = -1))
      || decide (ijk.1 = 1 ∧ (ijk.2.1 = 0 ∧ ijk.2.2 = 1))
      || decide (ijk.1 = 1 ∧ (ijk.2.1 = 1 ∧ ijk.2.2 = 0))
      || decide (ijk.1 = 1 ∧ (ijk.2.1 = 1 ∧ ijk.2.2 = 1))
      || decide (ijk.1 = 1 ∧ (ijk.2.1 = -1 ∧ ijk.2.2 = 1))
      || decide (ijk.1 = 1 ∧ (ijk.2.1 = 1 ∧ ijk.2.2 = -1)))).map nbrTypeIDOf

/-- Source: `calculateTransferStencil1`, send list (lines 837-849). -/
def stencil1Sends : List Nat :=
  (nbrOffsets.filter fun ijk =>
    !(decide (ijk.1 = 0 ∧ (ijk.2.1 = 0 ∧ ijk.2.2 = 0))
      || decide (ijk.1 = 0 ∧ (ijk.2.1 = -1 ∧ ijk.2.2 = -1))
      || decide (ijk.1 = 1 ∧ (ijk.2.1 = -1 ∧ ijk.2.2 = -1))
      || decide (ijk.1 = 1 ∧ (ijk.2.1 = 1 ∧ ijk.2.2 = 1))
      || decide (ijk.1 = -1 ∧ (ijk.2.1 = 0 ∧ ijk.2.2 = -1))
      || decide (ijk.1 = -1 ∧ (ijk.2.1 = -1 ∧ ijk.2.2 = 0))
      || decide (ijk.1 = -1 ∧ (ijk.2.1 = -1 ∧ ijk.2.2 = -1))
      || decide (ijk.1 = -1 ∧ (ijk.2.1 = 1 ∧ ijk.2.2 = -1))
      || decide (ijk.1 = -1 ∧ (ijk.2.1 = -1 ∧ ijk.2.2 = 1)))).map nbrTypeIDOf

/-- Source: `calculateTransferStencil1` (lines 798-851): the flags of the
cells of `localCells` are recomputed, then the receive and the send list are
registered. -/
def calculateTransferStencil1 (mpiGrid : ParGrid K) (localCells : List CellID)
    (boundaryFlags : CellID → Option Nat) (stencil : TransferStencil) :
    (CellID → Option Nat) × TransferStencil :=
  (localCells.foldl
      (fun flags cellID => fun c =>
        if c = cellID then some (stencil1BoundaryFlagOf mpiGrid cellID) else flags c)
      boundaryFlags,
    (stencil.addReceives mpiGrid stencil1Receives).addSends mpiGrid stencil1Sends)

/-- Source: `calculateTransferStencil2`, receive list (lines 856-862). -/
def stencil2Receives : List Nat :=
  [calcNbrTypeID (2 + 1) 2 2, calcNbrTypeID 2 (2 + 1) 2, calcNbrTypeID 2 2 (2 + 1),
   calcNbrTypeID (2 + 1) (2 + 1) 2, calcNbrTypeID (2 + 1) 2 (2 + 1),
   calcNbrTypeID 2 (2 + 1) (2 + 1)]

/-- Source: `calculateTransferStencil2`, send list (lines 866-872). -/
def stencil2Sends : List Nat :=
  [calcNbrTypeID (2 - 1) 2 2, calcNbrTypeID 2 (2 - 1) 2, calcNbrTypeID 2 2 (2 - 1),
   calcNbrTypeID (2 - 1) (2 - 1) 2, calcNbrTypeID (2 - 1) 2 (2 - 1),
   calcNbrTypeID 2 (2 - 1) (2 - 1)]

/-- Source: `calculateTransferStencil2` (lines 853-874). -/
def calculateTransferStencil2 (mpiGrid : ParGrid K) (_localCells : List CellID)
    (stencil : TransferStencil) : TransferStencil :=
  (stencil.addReceives mpiGrid stencil2Receives).addSends mpiGrid stencil2Sends

/-- Source: `calculateTransferStencil3`, the list `nbrIDs` (lines 879-883). -/
def stencil3NbrIDs : List Nat :=
  (nbrOffsets.filter fun ijk =>
    !decide (ijk.1 = 0 ∧ (ijk.2.1 = 0 ∧ ijk.2.2 = 0))).map nbrTypeIDOf

/-- Source: `calculateTransferStencil3` (lines 877-886). -/
def calculateTransferStencil3 (mpiGrid : ParGrid K) (_localCells : List CellID)
    (stencil : TransferStencil) : TransferStencil :=
  (stencil.addReceives mpiGrid stencil3NbrIDs).addSends mpiGrid stencil3NbrIDs

/-- Source: `propagateFields`, the stencil check (lines 1473-1478): when
`Parameters::recalculateStencils` is set, `stencil1` is rebuilt with
`calculateTransferStencil1`, `stencil2` and `stencil3` both with
`calculateTransferStencil2`, and the switch is cleared. -/
def recalculateStencils (G : Globals) (mpiGrid : ParGrid K) (localCells : List CellID) :
    Globals :=
  if G.recalculateStencils = true then
    let r1 := calculateTransferStencil1 mpiGrid localCells G.boundaryFlags G.stencil1
    { G with
      boundaryFlags := r1.1
      stencil1 := r1.2
      stencil2 := calculateTransferStencil2 mpiGrid localCells G.stencil2
      stencil3 := calculateTransferStencil2 mpiGrid localCells G.stencil3
      recalculateStencils := false }
  else G

/-- Source: `propagateFields` (lines 1465-1485). The result is the new
file-level state and the new mesh; `none` stands for a run that stops. -/
def propagateFields (X : Externals K) (G : Globals) (mpiGrid : ParGrid K) (dt : K) :
    Option (Globals × ParGrid K) := do
  let localCells := mpiGrid.getCells
  let G := recalculateStencils G mpiGrid localCells
  let g ← propagateMagneticFieldSimple X G mpiGrid dt localCells
  let g ← calculateDerivativesSimple X G g localCells
  let st ← calculateUpwindedElectricFieldSimple X G g localCells
  let G := { G with boundaryFlags := st.1 }
  let g ← calculateFaceAveragedFields X G st.2
  pure (G, g)

/-- Source: `initializeFieldPropagator` (lines 888-976). -/
def initializeFieldPropagator (X : Externals K) (G : Globals) (mpiGrid : ParGrid K) :
    Option (Globals × ParGrid K) := do
  let cells := mpiGrid.getCells
  let flags := calculateBoundaryFlags mpiGrid cells G.boundaryFlags
  let r1 := calculateTransferStencil1 mpiGrid cells flags G.stencil1
  let G : Globals :=
    { G with
      boundaryFlags := r1.1
      stencil1 := r1.2
      stencil2 := calculateTransferStencil2 mpiGrid cells G.stencil2
      stencil3 := calculateTransferStencil3 mpiGrid cells G.stencil3
      masks := initializeFieldPropagator_masks G.masks }
  let localCells := mpiGrid.getCells
  let g ← calculateDerivativesSimple X G mpiGrid localCells
  let st ← calculateUpwindedElectricFieldSimple X G g localCells
  let G := { G with boundaryFlags := st.1 }
  let g ← calculateFaceAveragedFields X G st.2
  pure (G, g)

end Kernels

end Vlasiator

namespace Vlasiator

open CellParams fieldsolver

section Conditions

variable {K : Type} [LinearOrderedField K]

/-- The capability test `(flag & MASK) == MASK` used by every stage. -/
def passes (flag mask : Nat) : Prop := flag &&& mask = mask

instance (flag mask : Nat) : Decidable (passes flag mask) := by
  unfold passes; infer_instance

/-- The six slots written by the x-direction block of `calculateDerivatives`. -/
def xDerivativeSlots : List fieldsolver := [drhodx, dBydx, dBzdx, dVxdx, dVydx, dVzdx]

/-- The six slots written by the y-direction block of `calculateDerivatives`. -/
def yDerivativeSlots : List fieldsolver := [drhody, dBxdy, dBzdy, dVxdy, dVydy, dVzdy]

/-- The six slots written by the z-direction block of `calculateDerivatives`. -/
def zDerivativeSlots : List fieldsolver := [drhodz, dBxdz, dBydz, dVxdz, dVydz, dVzdz]

/-- Contract of the derivative boundary conditions of `project.h`, taken from
the spec ("delegate to the external boundary-condition collaborator to fill
those derivative slots"): the function for an axis changes no slot of another
axis. -/
def Externals.DerivBCsAxisLocal (X : Externals K) : Prop :=
  (∀ c a e ne g s, s ∉ xDerivativeSlots →
    X.fieldSolverBoundaryCondDerivX c a e ne a g s = a s) ∧
  (∀ c a e ne g s, s ∉ yDerivativeSlots →
    X.fieldSolverBoundaryCondDerivY c a e ne a g s = a s) ∧
  (∀ c a e ne g s, s ∉ zDerivativeSlots →
    X.fieldSolverBoundaryCondDerivZ c a e ne a g s = a s)

/-- Two cell-parameter arrays hold the same plasma state: the same magnetic
field, density and momentum. -/
def SameState (cp cp' : CellParams → K) : Prop :=
  cp' BX = cp BX ∧ cp' BY = cp BY ∧ cp' BZ = cp BZ ∧ cp' RHO = cp RHO ∧
  cp' RHOVX = cp RHOVX ∧ cp' RHOVY = cp RHOVY ∧ cp' RHOVZ = cp RHOVZ

/-- The surroundings of an edge are uniform: the cell is a cell with positive
density and all-zero stored derivatives; each corner neighbour (given by its
neighbour type id) is a cell with the same plasma state and all-zero stored
derivatives; the further neighbours that the kernel dereferences are cells. -/
def UniformCorners (g : ParGrid K) (c : CellID) (corners further : List Nat) : Prop :=
  c ≠ INVALID_CELLID ∧ 0 < g.cpu_cellParams c RHO ∧ (∀ s, g.cpu_derivatives c s = 0) ∧
  (∀ t ∈ corners, g.getNeighbour c t ≠ INVALID_CELLID ∧
    SameState (g.cpu_cellParams c) (g.cpu_cellParams (g.getNeighbour c t)) ∧
    ∀ s, g.cpu_derivatives (g.getNeighbour c t) s = 0) ∧
  (∀ t ∈ further, g.getNeighbour c t ≠ INVALID_CELLID)

/-- `calculateDerivatives` runs to its end on a cell: the cell is a cell, it
has an entry in `boundaryFlags`, and for every direction whose capability test
passes the two neighbours read in that direction are cells. -/
def DerivativesReady (G : Globals) (mpiGrid : ParGrid K) (cellID : CellID) : Prop :=
  cellID ≠ INVALID_CELLID ∧ (G.boundaryFlags cellID).isSome = true ∧
  ∀ e ∈ G.boundaryFlags cellID,
    (passes e G.masks.CALCULATE_DX →
      getNeighbourID mpiGrid cellID (2 - 1) 2 2 ≠ INVALID_CELLID ∧
      getNeighbourID mpiGrid cellID (2 + 1) 2 2 ≠ INVALID_CELLID) ∧
    (passes e G.masks.CALCULATE_DY →
      getNeighbourID mpiGrid cellID 2 (2 - 1) 2 ≠ INVALID_CELLID ∧
      getNeighbourID mpiGrid cellID 2 (2 + 1) 2 ≠ INVALID_CELLID) ∧
    (passes e G.masks.CALCULATE_DZ →
      getNeighbourID mpiGrid cellID 2 2 (2 - 1) ≠ INVALID_CELLID ∧
      getNeighbourID mpiGrid cellID 2 2 (2 + 1) ≠ INVALID_CELLID)

/-- `propagateMagneticField` runs to its end on a cell: the cell is a cell, it
has an entry in `boundaryFlags`, and for every component whose capability test
passes the two neighbours read for that component are cells. -/
def PropagateReady (G : Globals) (mpiGrid : ParGrid K) (cellID : CellID) : Prop :=
  cellID ≠ INVALID_CELLID ∧ (G.boundaryFlags cellID).isSome = true ∧
  ∀ e ∈ G.boundaryFlags cellID,
    (passes e G.masks.PROPAGATE_BX →
      mpiGrid.getNeighbour cellID (calcNbrTypeID 2 (2 + 1) 2) ≠ INVALID_CELLID ∧
      mpiGrid.getNeighbour cellID (calcNbrTypeID 2 2 (2 + 1)) ≠ INVALID_CELLID) ∧
    (passes e G.masks.PROPAGATE_BY →
      mpiGrid.getNeighbour cellID (calcNbrTypeID 2 2 (2 + 1)) ≠ INVALID_CELLID ∧
      mpiGrid.getNeighbour cellID (calcNbrTypeID (2 + 1) 2 2) ≠ INVALID_CELLID) ∧
    (passes e G.masks.PROPAGATE_BZ →
      mpiGrid.getNeighbour cellID (calcNbrTypeID (2 + 1) 2 2) ≠ INVALID_CELLID ∧
      mpiGrid.getNeighbour cellID (calcNbrTypeID 2 (2 + 1) 2) ≠ INVALID_CELLID)

instance (G : Globals) (mpiGrid : ParGrid K) (cellID : CellID) :
    Decidable (DerivativesReady G mpiGrid cellID) := by
  unfold DerivativesReady; infer_instance

instance (G : Globals) (mpiGrid : ParGrid K) (cellID : CellID) :
    Decidable (PropagateReady G mpiGrid cellID) := by
  unfold PropagateReady; infer_instance

/-- The derivative boundary-condition functions leave the derivative array
as it is. -/
def Externals.DerivBCsKeepArray (X : Externals K) : Prop :=
  (∀ c a e ne g, X.fieldSolverBoundaryCondDerivX c a e ne a g = a) ∧
  (∀ c a e ne g, X.fieldSolverBoundaryCondDerivY c a e ne a g = a) ∧
  (∀ c a e ne g, X.fieldSolverBoundaryCondDerivZ c a e ne a g = a)

/-- The mesh `g'` differs from the mesh `g` at most in the edge electric
field `EX`, `EY`, `EZ` of its cells. -/
def SameButEdgeE (g g' : ParGrid K) : Prop :=
  g'.getNeighbour = g.getNeighbour ∧ g'.getCells = g.getCells ∧
  g'.isRemote = g.isRemote ∧ g'.cpu_derivatives = g.cpu_derivatives ∧
  ∀ c p, p ≠ EX → p ≠ EY → p ≠ EZ → g'.cpu_cellParams c p = g.cpu_cellParams c p

/-- The cells that `calculateEdgeElectricFieldX` dereferences are cells: the
cell, its three corner neighbours and the `+x` neighbour of each corner. -/
def EdgeXReady (mpiGrid : ParGrid K) (cellID : CellID) : Prop :=
  cellID ≠ INVALID_CELLID
  ∧ mpiGrid.getNeighbour cellID (calcNbrTypeID 2 (2 - 1) 2) ≠ INVALID_CELLID
  ∧ mpiGrid.getNeighbour cellID (calcNbrTypeID 2 (2 - 1) (2 - 1)) ≠ INVALID_CELLID
  ∧ mpiGrid.getNeighbour cellID (calcNbrTypeID 2 2 (2 - 1)) ≠ INVALID_CELLID
  ∧ mpiGrid.getNeighbour cellID (calcNbrTypeID (2 + 1) 2 2) ≠ INVALID_CELLID
  ∧ mpiGrid.getNeighbour cellID (calcNbrTypeID (2 + 1) (2 - 1) 2) ≠ INVALID_CELLID
  ∧ mpiGrid.getNeighbour cellID (calcNbrTypeID (2 + 1) 2 (2 - 1)) ≠ INVALID_CELLID
  ∧ mpiGrid.getNeighbour cellID (calcNbrTypeID (2 + 1) (2 - 1) (2 - 1)) ≠ INVALID_CELLID

/-- The cells that `calculateEdgeElectricFieldY` dereferences are cells. -/
def EdgeYReady (mpiGrid : ParGrid K) (cellID : CellID) : Prop :=
  cellID ≠ INVALID_CELLID
  ∧ mpiGrid.getNeighbour cellID (calcNbrTypeID 2 2 (2 - 1)) ≠ INVALID_CELLID
  ∧ mpiGrid.getNeighbour cellID (calcNbrTypeID (2 - 1) 2 (2 - 1)) ≠ INVALID_CELLID
  ∧ mpiGrid.getNeighbour cellID (calcNbrTypeID (2 - 1) 2 2) ≠ INVALID_CELLID
  ∧ mpiGrid.getNeighbour cellID (calcNbrTypeID 2 (2 + 1) 2) ≠ INVALID_CELLID
  ∧ mpiGrid.getNeighbour cellID (calcNbrTypeID 2 (2 + 1) (2 - 1)) ≠ INVALID_CELLID
  ∧ mpiGrid.getNeighbour cellID (calcNbrTypeID (2 - 1) (2 + 1) 2) ≠ INVALID_CELLID
  ∧ mpiGrid.getNeighbour cellID (calcNbrTypeID (2 - 1) (2 + 1) (2 - 1)) ≠ INVALID_CELLID

/-- The cells that `calculateEdgeElectricFieldZ` dereferences are cells; the
`+z` neighbour of the `NE` corner is looked up but not dereferenced. -/
def EdgeZReady (mpiGrid : ParGrid K) (cellID : CellID) : Prop :=
  cellID ≠ INVALID_CELLID
  ∧ mpiGrid.getNeighbour cellID (calcNbrTypeID (2 - 1) 2 2) ≠ INVALID_CELLID
  ∧ mpiGrid.getNeighbour cellID (calcNbrTypeID (2 - 1) (2 - 1) 2) ≠ INVALID_CELLID
  ∧ mpiGrid.getNeighbour cellID (calcNbrTypeID 2 (2 - 1) 2) ≠ INVALID_CELLID
  ∧ mpiGrid.getNeighbour cellID (calcNbrTypeID 2 2 (2 + 1)) ≠ INVALID_CELLID
  ∧ mpiGrid.getNeighbour cellID (calcNbrTypeID (2 - 1) 2 (2 + 1)) ≠ INVALID_CELLID
  ∧ mpiGrid.getNeighbour cellID (calcNbrTypeID 2 (2 - 1) (2 + 1)) ≠ INVALID_CELLID

instance (mpiGrid : ParGrid K) (cellID : CellID) : Decidable (EdgeXReady mpiGrid cellID) := by
  unfold EdgeXReady; infer_instance

instance (mpiGrid : ParGrid K) (cellID : CellID) : Decidable (EdgeYReady mpiGrid cellID) := by
  unfold EdgeYReady; infer_instance

instance (mpiGrid : ParGrid K) (cellID : CellID) : Decidable (EdgeZReady mpiGrid cellID) := by
  unfold EdgeZReady; infer_instance

/-- The body of a cell loop of `calculateUpwindedElectricFieldSimple` runs to
its end on a cell: for every kernel whose capability test passes (with the
flag word `boundaryFlags[cellID]`, `0` for a missing entry), the cells that
the kernel dereferences are cells. -/
def EdgeReady (G : Globals) (mpiGrid : ParGrid K) (cellID : CellID) : Prop :=
  (passes ((G.boundaryFlags cellID).getD 0) G.masks.CALCULATE_EX → EdgeXReady mpiGrid cellID) ∧
  (passes ((G.boundaryFlags cellID).getD 0) G.masks.CALCULATE_EY → EdgeYReady mpiGrid cellID) ∧
  (passes ((G.boundaryFlags cellID).getD 0) G.masks.CALCULATE_EZ → EdgeZReady mpiGrid cellID)

instance (G : Globals) (mpiGrid : ParGrid K) (cellID : CellID) :
    Decidable (EdgeReady G mpiGrid cellID) := by
  unfold EdgeReady; infer_instance

/-- The slots written by the cell loop of `calculateFaceAveragedFields`: the
nine face-averaged magnetic field slots and the three slots behind the pointer
`cellParams+CellParams::EXFACEX`. -/
def faceFieldSlots : List CellParams := faceBSlots ++ [EXFACEX, EYFACEX, EZFACEX]

/-- The mesh `g'` differs from the mesh `g` at most in the face-averaged field
slots of its cells. -/
def SameButFaceFields (g g' : ParGrid K) : Prop :=
  g'.getNeighbour = g.getNeighbour ∧ g'.getCells = g.getCells ∧
  g'.isRemote = g.isRemote ∧ g'.cpu_derivatives = g.cpu_derivatives ∧
  ∀ c p, p ∉ faceFieldSlots → g'.cpu_cellParams c p = g.cpu_cellParams c p

/-- The body of the cell loop of `calculateFaceAveragedFields` runs to its end
on a cell: the cell is a cell and each of the three electric-field averages
finds the cells it dereferences. Whether an average has a result depends on
the neighbour ids and the flag word only, not on the data of the mesh. -/
def FaceReady (G : Globals) (mpiGrid : ParGrid K) (cellID : CellID) : Prop :=
  cellID ≠ INVALID_CELLID ∧
  (averageFaceXElectricField cellID
    (mpiGrid.getNeighbour cellID (calcNbrTypeID 2 (2 + 1) 2))
    (mpiGrid.getNeighbour cellID (calcNbrTypeID 2 2 (2 + 1)))
    (mpiGrid.getNeighbour cellID (calcNbrTypeID 2 (2 + 1) (2 + 1)))
    (mpiGrid.getNeighbour cellID (calcNbrTypeID (2 - 1) 2 2))
    (mpiGrid.getNeighbour cellID (calcNbrTypeID (2 - 1) (2 + 1) 2))
    (mpiGrid.getNeighbour cellID (calcNbrTypeID (2 - 1) 2 (2 + 1)))
    (mpiGrid.getNeighbour cellID (calcNbrTypeID (2 - 1) (2 + 1) (2 + 1)))
    ((G.boundaryFlags cellID).getD 0) mpiGrid).isSome = true ∧
  (averageFaceYElectricField cellID
    (mpiGrid.getNeighbour cellID (calcNbrTypeID (2 + 1) 2 2))
    (mpiGrid.getNeighbour cellID (calcNbrTypeID 2 2 (2 + 1)))
    (mpiGrid.getNeighbour cellID (calcNbrTypeID (2 + 1) 2 (2 + 1)))
    (mpiGrid.getNeighbour cellID (calcNbrTypeID 2 (2 - 1) 2))
    (mpiGrid.getNeighbour cellID (calcNbrTypeID (2 + 1) (2 - 1) 2))
    (mpiGrid.getNeighbour cellID (calcNbrTypeID 2 (2 - 1) (2 + 1)))
    (mpiGrid.getNeighbour cellID (calcNbrTypeID (2 + 1) (2 - 1) (2 + 1)))
    ((G.boundaryFlags cellID).getD 0) mpiGrid).isSome = true ∧
  (averageFaceZElectricField cellID
    (mpiGrid.getNeighbour cellID (calcNbrTypeID (2 + 1) 2 2))
    (mpiGrid.getNeighbour cellID (calcNbrTypeID 2 (2 + 1) 2))
    (mpiGrid.getNeighbour cellID (calcNbrTypeID (2 + 1) (2 + 1) 2))
    (mpiGrid.getNeighbour cellID (calcNbrTypeID 2 2 (2 - 1)))
    (mpiGrid.getNeighbour cellID (calcNbrTypeID (2 + 1) 2 (2 - 1)))
    (mpiGrid.getNeighbour cellID (calcNbrTypeID 2 (2 + 1) (2 - 1)))
    (mpiGrid.getNeighbour cellID (calcNbrTypeID (2 + 1) (2 + 1) (2 - 1)))
    ((G.boundaryFlags cellID).getD 0) mpiGrid).isSome = true

instance (G : Globals) (mpiGrid : ParGrid K) (cellID : CellID) :
    Decidable (FaceReady G mpiGrid cellID) := by
  unfold FaceReady; infer_instance

/-- Closed form of the cell parameters of cell `c` after one call of
`propagateMagneticField` on `c` when the flag word of the cell is `e`: the
three components whose capability test passes carry their curl update, every
other entry is unchanged (`propagateMagneticField_spec` proves that this is
what the code computes). -/
def propagatedCellParams (G : Globals) (g : ParGrid K) (dt : K) (e : Nat) (c : CellID)
    (p : CellParams) : K :=
  if p = BX ∧ passes e G.masks.PROPAGATE_BX then
    g.cpu_cellParams c BX
      + (dt / g.cpu_cellParams c DZ
          * (g.cpu_cellParams (g.getNeighbour c (calcNbrTypeID 2 2 (2 + 1))) EY
            - g.cpu_cellParams c EY)
        + dt / g.cpu_cellParams c DY
          * (g.cpu_cellParams c EZ
            - g.cpu_cellParams (g.getNeighbour c (calcNbrTypeID 2 (2 + 1) 2)) EZ))
  else if p = BY ∧ passes e G.masks.PROPAGATE_BY then
    g.cpu_cellParams c BY
      + (dt / g.cpu_cellParams c DX
          * (g.cpu_cellParams (g.getNeighbour c (calcNbrTypeID (2 + 1) 2 2)) EZ
            - g.cpu_cellParams c EZ)
        + dt / g.cpu_cellParams c DZ
          * (g.cpu_cellParams c EX
            - g.cpu_cellParams (g.getNeighbour c (calcNbrTypeID 2 2 (2 + 1))) EX))
  else if p = BZ ∧ passes e G.masks.PROPAGATE_BZ then
    g.cpu_cellParams c BZ
      + (dt / g.cpu_cellParams c DY
          * (g.cpu_cellParams (g.getNeighbour c (calcNbrTypeID 2 (2 + 1) 2)) EX
            - g.cpu_cellParams c EX)
        + dt / g.cpu_cellParams c DX
          * (g.cpu_cellParams c EY
            - g.cpu_cellParams (g.getNeighbour c (calcNbrTypeID (2 + 1) 2 2)) EY))
  else g.cpu_cellParams c p

/-- The discrete divergence of the face-averaged magnetic field on a cell,
with the widths of the cell itself:
`(BX(c+x)-BX(c))/dx + (BY(c+y)-BY(c))/dy + (BZ(c+z)-BZ(c))/dz`. -/
def divergence (mpiGrid : ParGrid K) (cellID : CellID) : K :=
  let cx := mpiGrid.getNeighbour cellID (calcNbrTypeID (2 + 1) 2 2)
  let cy := mpiGrid.getNeighbour cellID (calcNbrTypeID 2 (2 + 1) 2)
  let cz := mpiGrid.getNeighbour cellID (calcNbrTypeID 2 2 (2 + 1))
  (mpiGrid.cpu_cellParams cx BX - mpiGrid.cpu_cellParams cellID BX)
      / mpiGrid.cpu_cellParams cellID DX
    + (mpiGrid.cpu_cellParams cy BY - mpiGrid.cpu_cellParams cellID BY)
      / mpiGrid.cpu_cellParams cellID DY
    + (mpiGrid.cpu_cellParams cz BZ - mpiGrid.cpu_cellParams cellID BZ)
      / mpiGrid.cpu_cellParams cellID DZ

end Conditions

/-! ## A small mesh for concrete evaluations -/

/-- Neighbour lookup of a column of `n` cells stacked along z with ids
`0, ..., n-1`. The mesh is one cell wide and periodic in x and y, so a cell is
its own neighbour in these directions; below cell `0` and above cell `n-1`
there is no cell. The offset along z is read off the neighbour type id
`k*25+j*5+i`. -/
def columnGetNeighbour (n : Nat) (c : CellID) (nbrTypeID : Nat) : CellID :=
  if c < n then
    if nbrTypeID / 25 = 2 then c
    else if nbrTypeID / 25 = 3 then (if c + 1 < n then c + 1 else INVALID_CELLID)
    else if nbrTypeID / 25 = 1 then (if 0 < c then c - 1 else INVALID_CELLID)
    else INVALID_CELLID
  else INVALID_CELLID

/-- A column of `n` cells with the given cell data, held by one process. -/
def columnGrid (n : Nat) (cellParams : CellID → CellParams → ℚ)
    (derivatives : CellID → fieldsolver → ℚ) : ParGrid ℚ where
  getCells := List.range n
  getNeighbour := columnGetNeighbour n
  isRemote := fun _ => false
  cpu_cellParams := cellParams
  cpu_derivatives := derivatives

/-- The file-level state after initialisation on a column of `n` cells: flags
as computed by `calculateBoundaryFlags`, masks as assigned by
`initializeFieldPropagator`, every cell an inner cell of every stencil. -/
def columnGlobals (n : Nat) : Globals where
  boundaryFlags :=
    calculateBoundaryFlags (columnGrid n (fun _ _ => 0) (fun _ _ => 0)) (List.range n)
      (fun _ => none)
  masks := initializeFieldPropagator_masks ⟨0, 0, 0, 0, 0, 0, 0, 0, 0⟩
  stencil1 := ⟨stencil1Receives, stencil1Sends, List.range n, []⟩
  stencil2 := ⟨stencil2Receives, stencil2Sends, List.range n, []⟩
  stencil3 := ⟨stencil3NbrIDs, stencil3NbrIDs, List.range n, []⟩
  recalculateStencils := false

/-- Neighbour lookup of a row of `n` cells lined up along x with ids
`0, ..., n-1`, one cell wide and periodic in y and z; to the left of cell `0`
and to the right of cell `n-1` there is no cell. The offset along x is read
off the neighbour type id `k*25+j*5+i`. -/
def rowGetNeighbour (n : Nat) (c : CellID) (nbrTypeID : Nat) : CellID :=
  if c < n then
    if nbrTypeID % 5 = 2 then c
    else if nbrTypeID % 5 = 3 then (if c + 1 < n then c + 1 else INVALID_CELLID)
    else if nbrTypeID % 5 = 1 then (if 0 < c then c - 1 else INVALID_CELLID)
    else INVALID_CELLID
  else INVALID_CELLID

/-- A row of `n` cells with the given cell data, held by one process. -/
def rowGrid (n : Nat) (cellParams : CellID → CellParams → ℚ)
    (derivatives : CellID → fieldsolver → ℚ) : ParGrid ℚ where
  getCells := List.range n
  getNeighbour := rowGetNeighbour n
  isRemote := fun _ => false
  cpu_cellParams := cellParams
  cpu_derivatives := derivatives

/-- The file-level state after initialisation on a row of `n` cells. -/
def rowGlobals (n : Nat) : Globals where
  boundaryFlags :=
    calculateBoundaryFlags (rowGrid n (fun _ _ => 0) (fun _ _ => 0)) (List.range n)
      (fun _ => none)
  masks := initializeFieldPropagator_masks ⟨0, 0, 0, 0, 0, 0, 0, 0, 0⟩
  stencil1 := ⟨stencil1Receives, stencil1Sends, List.range n, []⟩
  stencil2 := ⟨stencil2Receives, stencil2Sends, List.range n, []⟩
  stencil3 := ⟨stencil3NbrIDs, stencil3NbrIDs, List.range n, []⟩
  recalculateStencils := false

/-- Cell data on a column: unit widths, unit density, plasma at rest, no
magnetic field, and an edge field `EY` that grows by one from cell to cell
(`EY = c - 1` on cell `c`); every other entry is zero. -/
def shearCellParams (c : CellID) (p : CellParams) : ℚ :=
  match p with
  | DX => 1 | DY => 1 | DZ => 1
  | RHO => 1
  | EY => (c : ℚ) - 1
  | _ => 0

/-- Cell data on a column or a row: unit widths, plasma at rest, and density and
magnetic field that grow linearly with the cell id (`RHO = 1 + c`, `BX = 2 c`,
`BY = 3 c` on cell `c`); every other entry is zero. -/
def linearCellParams (c : CellID) (p : CellParams) : ℚ :=
  match p with
  | DX => 1 | DY => 1 | DZ => 1
  | RHO => 1 + (c : ℚ)
  | BX => 2 * (c : ℚ)
  | BY => 3 * (c : ℚ)
  | _ => 0

/-- Cell data that is the same on every cell: unit widths, density `2`,
momentum `(2, 4, 6)` (so velocity `(1, 2, 3)`), magnetic field `(3, 2, 4)`;
every other entry is zero. -/
def uniformCellParams (_c : CellID) (p : CellParams) : ℚ :=
  match p with
  | DX => 1 | DY => 1 | DZ => 1
  | RHO => 2
  | RHOVX => 2 | RHOVY => 4 | RHOVZ => 6
  | BX => 3 | BY => 2 | BZ => 4
  | _ => 0

/-- External functions for concrete evaluations: the rational square root
(exact on squares of rationals), unit constants, the second-order build,
derivative boundary conditions that leave the derivative array as it is, and
magnetic-field boundary conditions that return `1`, `0`, `0`. -/
def sampleExternals : Externals ℚ where
  sqrt := Rat.sqrt
  MU_0 := 1
  m := 1
  FS_1ST_ORDER := false
  fieldSolverBoundaryCondDerivX := fun _ array _ _ _ _ => array
  fieldSolverBoundaryCondDerivY := fun _ array _ _ _ _ => array
  fieldSolverBoundaryCondDerivZ := fun _ array _ _ _ _ => array
  fieldSolverBoundaryCondBx := fun _ _ _ _ => 1
  fieldSolverBoundaryCondBy := fun _ _ _ _ => 0
  fieldSolverBoundaryCondBz := fun _ _ _ _ => 0

end Vlasiator

namespace Vlasiator

open CellParams fieldsolver

section Checked

variable {K : Type} [LinearOrderedField K]

/-! ## Divisions by the density, with the denominator checked -/

/-- A division that is refused when its denominator is exactly zero. -/
def checkedDiv (a b : K) : Option K := if b = 0 then none else some (a / b)

/-- Source: `calculateDerivatives` (lines 180-182, 196-198, 212-214), the
right-hand side of a velocity-derivative assignment,
`limiter(left[m]/left[RHO], cent[m]/cent[RHO], rght[m]/rght[RHO])` for the
momentum slot `m`, with each of the three divisions checked. -/
def velocityDerivativeChecked (m : CellParams) (left cent rght : CellParams → K) : Option K := do
  let l ← checkedDiv (left m) (left RHO)
  let c ← checkedDiv (cent m) (cent RHO)
  let r ← checkedDiv (rght m) (rght RHO)
  pure (limiter l c r)

/-- Source: the edge kernels (lines 335-336 for the `SW` corner of
`calculateEdgeElectricFieldX`, and the same two statements at every other
corner and in the other two kernels): `V0 = cp[m]/cp[RHO]` for the momentum
slot `m` of the corner cell, with the division checked. -/
def cornerVelocityChecked (m : CellParams) (cp : CellParams → K) : Option K :=
  checkedDiv (cp m) (cp RHO)

/-- Source: `calculateFastMSspeedYZ` (lines 220-241), with the division of
the return statement checked. -/
def calculateFastMSspeedYZChecked (X : Externals K) (cp : CellParams → K)
    (derivs : fieldsolver → K) (nbr_cp : CellParams → K) (nbr_derivs : fieldsolver → K)
    (By Bz dBydx dBydz dBzdx dBzdy ydir zdir : K) : Option K :=
  let A_0 := HALF * (nbr_cp BX + cp BX)
  let A_X := nbr_cp BX - cp BX
  let A_Y := nbr_derivs dBxdy + derivs dBxdy
  let A_XY := nbr_derivs dBxdy - derivs dBxdy
  let A_Z := nbr_derivs dBxdz + derivs dBxdz
  let A_XZ := nbr_derivs dBxdz - derivs dBxdz
  let Bx2 := (A_0 + ydir * HALF * A_Y + zdir * HALF * A_Z) * (A_0 + ydir * HALF * A_Y + zdir * HALF * A_Z)
    + TWELWTH * (A_X + ydir * HALF * A_XY + zdir * HALF * A_XZ)
      * (A_X + ydir * HALF * A_XY + zdir * HALF * A_XZ)
  let By2 := (By + zdir * HALF * dBydz) * (By + zdir * HALF * dBydz) + TWELWTH * dBydx * dBydx
  let Bz2 := (Bz + ydir * HALF * dBzdy) * (Bz + ydir * HALF * dBzdy) + TWELWTH * dBzdx * dBzdx
  let rho := X.m * (cp RHO + ydir * HALF * derivs drhody + zdir * HALF * derivs drhodz)
  (checkedDiv (Bx2 + By2 + Bz2) (X.MU_0 * rho)).map X.sqrt

/-- Source: `calculateFastMSspeedXZ` (lines 243-264), with the division of
the return statement checked. -/
def calculateFastMSspeedXZChecked (X : Externals K) (cp : CellParams → K)
    (derivs : fieldsolver → K) (nbr_cp : CellParams → K) (nbr_derivs : fieldsolver → K)
    (Bx Bz dBxdy dBxdz dBzdx dBzdy xdir zdir : K) : Option K :=
  let B_0 := HALF * (nbr_cp BY + cp BY)
  let B_Y := nbr_cp BY - cp BY
  let B_X := nbr_derivs dBydx + derivs dBydx
  let B_XY := nbr_derivs dBydx - derivs dBydx
  let B_Z := nbr_derivs dBydz + derivs dBydz
  let B_YZ := nbr_derivs dBydz - derivs dBydz
  let By2 := (B_0 + xdir * HALF * B_X + zdir * HALF * B_Z) * (B_0 + xdir * HALF * B_X + zdir * HALF * B_Z)
    + TWELWTH * (B_Y + xdir * HALF * B_XY + zdir * HALF * B_YZ)
      * (B_Y + xdir * HALF * B_XY + zdir * HALF * B_YZ)
  let Bx2 := (Bx + zdir * HALF * dBxdz) * (Bx + zdir * HALF * dBxdz) + TWELWTH * dBxdy * dBxdy
  let Bz2 := (Bz + xdir * HALF * dBzdx) * (Bz + xdir * HALF * dBzdx) + TWELWTH * dBzdy * dBzdy
  let rho := X.m * (cp RHO + xdir * HALF * derivs drhodx + zdir * HALF * derivs drhodz)
  (checkedDiv (Bx2 + By2 + Bz2) (X.MU_0 * rho)).map X.sqrt

/-- Source: `calculateFastMSspeedXY` (lines 266-288), with the division of
the return statement checked. -/
def calculateFastMSspeedXYChecked (X : Externals K) (cp : CellParams → K)
    (derivs : fieldsolver → K) (nbr_cp : CellParams → K) (nbr_derivs : fieldsolver → K)
    (Bx By dBxdy dBxdz dBydx dBydz xdir ydir : K) : Option K :=
  let C_0 := HALF * (nbr_cp BZ + cp BZ)
  let C_Z := nbr_cp BZ - cp BZ
  let C_X := nbr_derivs dBzdx + derivs dBzdx
  let C_XZ := nbr_derivs dBzdx - derivs dBzdx
  let C_Y := nbr_derivs dBzdy + derivs dBzdy
  let C_YZ := nbr_derivs dBzdy - derivs dBzdy
  let Bz2 := (C_0 + xdir * HALF * C_X + ydir * HALF * C_Y) * (C_0 + xdir * HALF * C_X + ydir * HALF * C_Y)
    + TWELWTH * (C_Z + xdir * HALF * C_XZ + ydir * HALF * C_YZ)
      * (C_Z + xdir * HALF * C_XZ + ydir * HALF * C_YZ)
  let Bx2 := (Bx + ydir * HALF * dBxdy) * (Bx + ydir * HALF * dBxdy) + TWELWTH * dBxdz * dBxdz
  let By2 := (By + xdir * HALF * dBydx) * (By + xdir * HALF * dBydx) + TWELWTH * dBydz * dBydz
  let rho := X.m * (cp RHO + xdir * HALF * derivs drhodx + ydir * HALF * derivs drhody)
  (checkedDiv (Bx2 + By2 + Bz2) (X.MU_0 * rho)).map X.sqrt

/-! ## Volume-averaged fields -/

/-- Source: `calculateVolumeAveragedFields`, the constant `EX_CELLS`
(line 1828). -/
def EX_CELLS : Nat :=
  toUint (1 <<< calcNbrNumber 1 1 1 ||| 1 <<< calcNbrNumber 1 2 1 ||| 1 <<< calcNbrNumber 1 1 2
    ||| 1 <<< calcNbrNumber 1 2 2)

/-- Source: `calculateVolumeAveragedFields`, the constant `EY_CELLS`
(line 1829). -/
def EY_CELLS : Nat :=
  toUint (1 <<< calcNbrNumber 1 1 1 ||| 1 <<< calcNbrNumber 2 1 1 ||| 1 <<< calcNbrNumber 1 1 2
    ||| 1 <<< calcNbrNumber 2 1 2)

/-- Source: `calculateVolumeAveragedFields`, the constant `EZ_CELLS`
(line 1830). -/
def EZ_CELLS : Nat :=
  toUint (1 <<< calcNbrNumber 1 1 1 ||| 1 <<< calcNbrNumber 2 1 1 ||| 1 <<< calcNbrNumber 1 2 1
    ||| 1 <<< calcNbrNumber 2 2 1)

/-- Source: `calculateVolumeAveragedFields`, the `EXVOL` statement
(lines 1859-1866). The three neighbour arrays are dereferenced only when the
mask test passes; `cep_i1j1k1` is the array of the cell itself. -/
def volumeAveragedEX (cellID nbr_i1j2k1 nbr_i1j1k2 nbr_i1j2k2 : CellID) (existingCells : Nat)
    (mpiGrid : ParGrid K) : Option (ParGrid K) :=
  if existingCells &&& EX_CELLS = EX_CELLS then do
    let cep_i1j1k1 := mpiGrid.cpu_cellParams cellID
    let cep_i1j2k1 ← mpiGrid.cellParamsAt nbr_i1j2k1
    let cep_i1j1k2 ← mpiGrid.cellParamsAt nbr_i1j1k2
    let cep_i1j2k2 ← mpiGrid.cellParamsAt nbr_i1j2k2
    pure (mpiGrid.setCellParam cellID EXVOL
      (FOURTH * (cep_i1j1k1 EX + cep_i1j2k1 EX + cep_i1j1k2 EX + cep_i1j2k2 EX)))
  else
    pure (mpiGrid.setCellParam cellID EXVOL 0)

/-- Source: `calculateVolumeAveragedFields`, the `EYVOL` statement
(lines 1868-1875). -/
def volumeAveragedEY (cellID nbr_i2j1k1 nbr_i1j1k2 nbr_i2j1k2 : CellID) (existingCells : Nat)
    (mpiGrid : ParGrid K) : Option (ParGrid K) :=
  if existingCells &&& EY_CELLS = EY_CELLS then do
    let cep_i1j1k1 := mpiGrid.cpu_cellParams cellID
    let cep_i2j1k1 ← mpiGrid.cellParamsAt nbr_i2j1k1
    let cep_i1j1k2 ← mpiGrid.cellParamsAt nbr_i1j1k2
    let cep_i2j1k2 ← mpiGrid.cellParamsAt nbr_i2j1k2
    pure (mpiGrid.setCellParam cellID EYVOL
      (FOURTH * (cep_i1j1k1 EY + cep_i2j1k1 EY + cep_i1j1k2 EY + cep_i2j1k2 EY)))
  else
    pure (mpiGrid.setCellParam cellID EYVOL 0)

/-- Source: `calculateVolumeAveragedFields`, the `EZVOL` statement
(lines 1877-1884). -/
def volumeAveragedEZ (cellID nbr_i2j1k1 nbr_i1j2k1 nbr_i2j2k1 : CellID) (existingCells : Nat)
    (mpiGrid : ParGrid K) : Option (ParGrid K) :=
  if existingCells &&& EZ_CELLS = EZ_CELLS then do
    let cep_i1j1k1 := mpiGrid.cpu_cellParams cellID
    let cep_i2j1k1 ← mpiGrid.cellParamsAt nbr_i2j1k1
    let cep_i1j2k1 ← mpiGrid.cellParamsAt nbr_i1j2k1
    let cep_i2j2k1 ← mpiGrid.cellParamsAt nbr_i2j2k1
    pure (mpiGrid.setCellParam cellID EZVOL
      (FOURTH * (cep_i1j1k1 EZ + cep_i2j1k1 EZ + cep_i1j2k1 EZ + cep_i2j2k1 EZ)))
  else
    pure (mpiGrid.setCellParam cellID EZVOL 0)

/-- Source: `calculateVolumeAveragedFields`, body of the cell loop
(lines 1834-1885). A cell without an entry in `boundaryFlags` gets the flag
word `0`. The three volume averages of B are stored without a test. -/
def volumeAveragedFieldsCell (X : Externals K) (G : Globals) (cellID : CellID)
    (mpiGrid : ParGrid K) : Option (ParGrid K) := do
  let existingCells := (G.boundaryFlags cellID).getD 0
  let nbr_i2j1k1 := mpiGrid.getNeighbour cellID (calcNbrTypeID (2 + 1) 2 2)
  let nbr_i1j2k1 := mpiGrid.getNeighbour cellID (calcNbrTypeID 2 (2 + 1) 2)
  let nbr_i1j1k2 := mpiGrid.getNeighbour cellID (calcNbrTypeID 2 2 (2 + 1))
  let coefficients := reconstructionCoefficients X cellID nbr_i2j1k1 nbr_i1j2k1 nbr_i1j1k2 mpiGrid
  let _cellParams ← mpiGrid.cellParamsAt cellID
  let g := mpiGrid.setCellParam cellID BXVOL (coefficients Rec.a_0)
  let g := g.setCellParam cellID BYVOL (coefficients Rec.b_0)
  let g := g.setCellParam cellID BZVOL (coefficients Rec.c_0)
  let nbr_i1j2k2 := mpiGrid.getNeighbour cellID (calcNbrTypeID 2 (2 + 1) (2 + 1))
  let nbr_i2j1k2 := mpiGrid.getNeighbour cellID (calcNbrTypeID (2 + 1) 2 (2 + 1))
  let nbr_i2j2k1 := mpiGrid.getNeighbour cellID (calcNbrTypeID (2 + 1) (2 + 1) 2)
  let g ← volumeAveragedEX cellID nbr_i1j2k1 nbr_i1j1k2 nbr_i1j2k2 existingCells g
  let g ← volumeAveragedEY cellID nbr_i2j1k1 nbr_i1j1k2 nbr_i2j1k2 existingCells g
  volumeAveragedEZ cellID nbr_i2j1k1 nbr_i1j2k1 nbr_i2j2k1 existingCells g

/-- Source: `calculateVolumeAveragedFields` (lines 1819-1886). -/
def calculateVolumeAveragedFields (X : Externals K) (G : Globals) (mpiGrid : ParGrid K) :
    Option (ParGrid K) :=
  mpiGrid.getCells.foldlM (fun g cellID => volumeAveragedFieldsCell X G cellID g) mpiGrid

/-- The six slots written by `calculateVolumeAveragedFields`. -/
def volumeSlots : List CellParams := [BXVOL, BYVOL, BZVOL, EXVOL, EYVOL, EZVOL]

/-- What `calculateVolumeAveragedFields` needs at a cell in order to return:
the cell is there, and whenever one of the three mask tests passes on the
stored flag word, the three neighbours read in that branch are there. -/
def VolumeReady (G : Globals) (mpiGrid : ParGrid K) (cellID : CellID) : Prop :=
  cellID ≠ INVALID_CELLID ∧
  (passes ((G.boundaryFlags cellID).getD 0) EX_CELLS →
    mpiGrid.getNeighbour cellID (calcNbrTypeID 2 3 2) ≠ INVALID_CELLID ∧
    mpiGrid.getNeighbour cellID (calcNbrTypeID 2 2 3) ≠ INVALID_CELLID ∧
    mpiGrid.getNeighbour cellID (calcNbrTypeID 2 3 3) ≠ INVALID_CELLID) ∧
  (passes ((G.boundaryFlags cellID).getD 0) EY_CELLS →
    mpiGrid.getNeighbour cellID (calcNbrTypeID 3 2 2) ≠ INVALID_CELLID ∧
    mpiGrid.getNeighbour cellID (calcNbrTypeID 2 2 3) ≠ INVALID_CELLID ∧
    mpiGrid.getNeighbour cellID (calcNbrTypeID 3 2 3) ≠ INVALID_CELLID) ∧
  (passes ((G.boundaryFlags cellID).getD 0) EZ_CELLS →
    mpiGrid.getNeighbour cellID (calcNbrTypeID 3 2 2) ≠ INVALID_CELLID ∧
    mpiGrid.getNeighbour cellID (calcNbrTypeID 2 3 2) ≠ INVALID_CELLID ∧
    mpiGrid.getNeighbour cellID (calcNbrTypeID 3 3 2) ≠ INVALID_CELLID)

instance (G : Globals) (mpiGrid : ParGrid K) (cellID : CellID) :
    Decidable (VolumeReady G mpiGrid cellID) := by
  unfold VolumeReady; infer_instance

/-- Two meshes that differ at most in the six volume-average slots. -/
def SameButVolumeFields (g g' : ParGrid K) : Prop :=
  g'.getCells = g.getCells ∧ g'.getNeighbour = g.getNeighbour ∧ g'.isRemote = g.isRemote ∧
  g'.cpu_derivatives = g.cpu_derivatives ∧
  ∀ c p, p ∉ volumeSlots → g'.cpu_cellParams c p = g.cpu_cellParams c p

/-- The six volume averages of cell `c` in the mesh `h` are the values that
the loop body of `calculateVolumeAveragedFields` computes for `c` from the
mesh `g`. -/
def VolumeAveragesAt (X : Externals K) (G : Globals) (g h : ParGrid K) (c : CellID) : Prop :=
  h.cpu_cellParams c BXVOL =
    reconstructionCoefficients X c (g.getNeighbour c (calcNbrTypeID 3 2 2))
      (g.getNeighbour c (calcNbrTypeID 2 3 2)) (g.getNeighbour c (calcNbrTypeID 2 2 3)) g Rec.a_0 ∧
  h.cpu_cellParams c BYVOL =
    reconstructionCoefficients X c (g.getNeighbour c (calcNbrTypeID 3 2 2))
      (g.getNeighbour c (calcNbrTypeID 2 3 2)) (g.getNeighbour c (calcNbrTypeID 2 2 3)) g Rec.b_0 ∧
  h.cpu_cellParams c BZVOL =
    reconstructionCoefficients X c (g.getNeighbour c (calcNbrTypeID 3 2 2))
      (g.getNeighbour c (calcNbrTypeID 2 3 2)) (g.getNeighbour c (calcNbrTypeID 2 2 3)) g Rec.c_0 ∧
  h.cpu_cellParams c EXVOL =
    (if passes ((G.boundaryFlags c).getD 0) EX_CELLS then
      FOURTH * (g.cpu_cellParams c EX + g.cpu_cellParams (g.getNeighbour c (calcNbrTypeID 2 3 2)) EX
        + g.cpu_cellParams (g.getNeighbour c (calcNbrTypeID 2 2 3)) EX
        + g.cpu_cellParams (g.getNeighbour c (calcNbrTypeID 2 3 3)) EX)
     else 0) ∧
  h.cpu_cellParams c EYVOL =
    (if passes ((G.boundaryFlags c).getD 0) EY_CELLS then
      FOURTH * (g.cpu_cellParams c EY + g.cpu_cellParams (g.getNeighbour c (calcNbrTypeID 3 2 2)) EY
        + g.cpu_cellParams (g.getNeighbour c (calcNbrTypeID 2 2 3)) EY
        + g.cpu_cellParams (g.getNeighbour c (calcNbrTypeID 3 2 3)) EY)
     else 0) ∧
  h.cpu_cellParams c EZVOL =
    (if passes ((G.boundaryFlags c).getD 0) EZ_CELLS then
      FOURTH * (g.cpu_cellParams c EZ + g.cpu_cellParams (g.getNeighbour c (calcNbrTypeID 3 2 2)) EZ
        + g.cpu_cellParams (g.getNeighbour c (calcNbrTypeID 2 3 2)) EZ
        + g.cpu_cellParams (g.getNeighbour c (calcNbrTypeID 3 3 2)) EZ)
     else 0)

/-- The three slots `EXFACEX`, `EYFACEX`, `EZFACEX` of cell `c` in the mesh
`h` hold the result of `averageFaceZElectricField` for `c` on the mesh `g`. -/
def FaceEHoldsZAverage (G : Globals) (g h : ParGrid K) (c : CellID) : Prop :=
  averageFaceZElectricField c
    (g.getNeighbour c (calcNbrTypeID (2 + 1) 2 2))
    (g.getNeighbour c (calcNbrTypeID 2 (2 + 1) 2))
    (g.getNeighbour c (calcNbrTypeID (2 + 1) (2 + 1) 2))
    (g.getNeighbour c (calcNbrTypeID 2 2 (2 - 1)))
    (g.getNeighbour c (calcNbrTypeID (2 + 1) 2 (2 - 1)))
    (g.getNeighbour c (calcNbrTypeID 2 (2 + 1) (2 - 1)))
    (g.getNeighbour c (calcNbrTypeID (2 + 1) (2 + 1) (2 - 1)))
    ((G.boundaryFlags c).getD 0) g
  = some (h.cpu_cellParams c EXFACEX, h.cpu_cellParams c EYFACEX, h.cpu_cellParams c EZFACEX)

end Checked

/-- Cell data of an empty cell: unit widths, density `0`, momentum `0`,
magnetic field `(3, 2, 4)`; every other entry is zero. -/
def vacuumCellParams (_c : CellID) (p : CellParams) : ℚ :=
  match p with
  | DX => 1 | DY => 1 | DZ => 1
  | BX => 3 | BY => 2 | BZ => 4
  | _ => 0

/-- Cell data with the face magnetic field `(1, 1, 1)` on every cell: unit
widths, unit density, plasma at rest; every other entry is zero. -/
def unitFieldCellParams (_c : CellID) (p : CellParams) : ℚ :=
  match p with
  | DX => 1 | DY => 1 | DZ => 1
  | RHO => 1
  | BX => 1 | BY => 1 | BZ => 1
  | _ => 0

/-- Cell data that equal `uniformCellParams` on every cell but cell `2`,
whose entries are all zero. -/
def gapCellParams (c : CellID) (p : CellParams) : ℚ :=
  if c = 2 then 0 else uniformCellParams c p

/-- A row of three cells lined up along x of which cells `0` and `1` are
held by this process and cell `2` by another one; all data are zero. -/
def splitRowGrid : ParGrid ℚ where
  getCells := [0, 1]
  getNeighbour := rowGetNeighbour 3
  isRemote := fun c => decide (c = 2)
  cpu_cellParams := fun _ _ => 0
  cpu_derivatives := fun _ _ => 0

/-! ## Offsets of the transfer stencils -/

/-- A face neighbour: exactly one coordinate of the offset is not zero. -/
def isFaceOffset (ijk : Int × Int × Int) : Bool :=
  (if ijk.1 = 0 then 0 else 1) + (if ijk.2.1 = 0 then 0 else 1) + (if ijk.2.2 = 0 then 0 else 1)
    = (1 : Nat)

/-- An edge neighbour: exactly two coordinates of the offset are not zero. -/
def isEdgeOffset (ijk : Int × Int × Int) : Bool :=
  (if ijk.1 = 0 then 0 else 1) + (if ijk.2.1 = 0 then 0 else 1) + (if ijk.2.2 = 0 then 0 else 1)
    = (2 : Nat)

/-- The 26 offsets of the neighbours of a cell: the iteration space without
the cell itself. -/
def neighbourOffsets : List (Int × Int × Int) :=
  nbrOffsets.filter fun ijk => !decide (ijk.1 = 0 ∧ (ijk.2.1 = 0 ∧ ijk.2.2 = 0))

end Vlasiator

namespace Vlasiator

open CellParams fieldsolver

section CornerSpeeds

variable {K : Type} [LinearOrderedField K]

/-! ## Corner velocities and corner speeds of the edge kernels -/

/-- Source: `calculateEdgeElectricFieldX` (lines 335-336 and 349, 357-358 and
371, 379-380 and 393, 401-402 and 415): for each of the four corner cells, in
the order `SW`, `SE`, `NW`, `NE` of the function, the velocity components
`Vy0`, `Vz0` and the speed `c_y` (to which `c_z` is set equal). -/
def cornerSpeedsX (X : Externals K)
    (cp_SW cp_SE cp_NE cp_NW : CellParams → K)
    (derivs_SW derivs_SE derivs_NE derivs_NW : fieldsolver → K)
    (nbr_cp_SW nbr_cp_SE nbr_cp_NW nbr_cp_NE : CellParams → K)
    (nbr_derivs_SW nbr_derivs_SE nbr_derivs_NW nbr_derivs_NE : fieldsolver → K) :
    List (K × K × K) :=
  let By_S := cp_SW BY
  let Bz_W := cp_SW BZ
  let Bz_E := cp_SE BZ
  let By_N := cp_NW BY
  let dBydx_S := derivs_SW dBydx
  let dBydz_S := derivs_SW dBydz
  let dBzdx_W := derivs_SW dBzdx
  let dBzdy_W := derivs_SW dBzdy
  let dBzdx_E := derivs_SE dBzdx
  let dBzdy_E := derivs_SE dBzdy
  let dBydx_N := derivs_NW dBydx
  let dBydz_N := derivs_NW dBydz
  [(cp_SW RHOVY / cp_SW RHO, cp_SW RHOVZ / cp_SW RHO,
      calculateFastMSspeedYZ X cp_SW derivs_SW nbr_cp_SW nbr_derivs_SW By_S Bz_W
        dBydx_S dBydz_S dBzdx_W dBzdy_W MINUS MINUS),
   (cp_SE RHOVY / cp_SE RHO, cp_SE RHOVZ / cp_SE RHO,
      calculateFastMSspeedYZ X cp_SE derivs_SE nbr_cp_SE nbr_derivs_SE By_S Bz_E
        dBydx_S dBydz_S dBzdx_E dBzdy_E PLUS MINUS),
   (cp_NW RHOVY / cp_NW RHO, cp_NW RHOVZ / cp_NW RHO,
      calculateFastMSspeedYZ X cp_NW derivs_NW nbr_cp_NW nbr_derivs_NW By_N Bz_W
        dBydx_N dBydz_N dBzdx_W dBzdy_W MINUS PLUS),
   (cp_NE RHOVY / cp_NE RHO, cp_NE RHOVZ / cp_NE RHO,
      calculateFastMSspeedYZ X cp_NE derivs_NE nbr_cp_NE nbr_derivs_NE By_N Bz_E
        dBydx_N dBydz_N dBzdx_E dBzdy_E PLUS PLUS)]

/-- Source: `calculateEdgeElectricFieldY` (lines 482-483 and 496, 504-505 and
518, 526-527 and 540, 548-549 and 562): for each of the four corner cells, in
the order `SW`, `SE`, `NW`, `NE` of the function, the velocity components
`Vx0`, `Vz0` and the speed `c_z` (to which `c_x` is set equal). -/
def cornerSpeedsY (X : Externals K)
    (cp_SW cp_SE cp_NE cp_NW : CellParams → K)
    (derivs_SW derivs_SE derivs_NE derivs_NW : fieldsolver → K)
    (nbr_cp_SW nbr_cp_SE nbr_cp_NW nbr_cp_NE : CellParams → K)
    (nbr_derivs_SW nbr_derivs_SE nbr_derivs_NW nbr_derivs_NE : fieldsolver → K) :
    List (K × K × K) :=
  let Bz_S := cp_SW BZ
  let Bx_W := cp_SW BX
  let Bx_E := cp_SE BX
  let Bz_N := cp_NW BZ
  let dBxdy_W := derivs_SW dBxdy
  let dBxdz_W := derivs_SW dBxdz
  let dBzdx_S := derivs_SW dBzdx
  let dBzdy_S := derivs_SW dBzdy
  let dBxdy_E := derivs_SE dBxdy
  let dBxdz_E := derivs_SE dBxdz
  let dBzdx_N := derivs_NW dBzdx
  let dBzdy_N := derivs_NW dBzdy
  [(cp_SW RHOVX / cp_SW RHO, cp_SW RHOVZ / cp_SW RHO,
      calculateFastMSspeedXZ X cp_SW derivs_SW nbr_cp_SW nbr_derivs_SW Bx_W Bz_S
        dBxdy_W dBxdz_W dBzdx_S dBzdy_S MINUS MINUS),
   (cp_SE RHOVX / cp_SE RHO, cp_SE RHOVZ / cp_SE RHO,
      calculateFastMSspeedXZ X cp_SE derivs_SE nbr_cp_SE nbr_derivs_SE Bx_E Bz_S
        dBxdy_E dBxdz_E dBzdx_S dBzdy_S MINUS PLUS),
   (cp_NW RHOVX / cp_NW RHO, cp_NW RHOVZ / cp_NW RHO,
      calculateFastMSspeedXZ X cp_NW derivs_NW nbr_cp_NW nbr_derivs_NW Bx_W Bz_N
        dBxdy_W dBxdz_W dBzdx_N dBzdy_N PLUS MINUS),
   (cp_NE RHOVX / cp_NE RHO, cp_NE RHOVZ / cp_NE RHO,
      calculateFastMSspeedXZ X cp_NE derivs_NE nbr_cp_NE nbr_derivs_NE Bx_E Bz_N
        dBxdy_E dBxdz_E dBzdx_N dBzdy_N PLUS PLUS)]

/-- Source: `calculateEdgeElectricFieldZ` (lines 627-628 and 644, 652-653 and
666, 674-675 and 688, 696-697 and 710): for each of the four corner cells, in
the order `SW`, `SE`, `NW`, `NE` of the function, the velocity components
`Vx0`, `Vy0` and the speed `c_x` (to which `c_y` is set equal). -/
def cornerSpeedsZ (X : Externals K)
    (cp_SW cp_SE cp_NE cp_NW : CellParams → K)
    (derivs_SW derivs_SE derivs_NE derivs_NW : fieldsolver → K)
    (nbr_cp_SW nbr_cp_SE nbr_cp_NW nbr_cp_NE : CellParams → K)
    (nbr_derivs_SW nbr_derivs_SE nbr_derivs_NW nbr_derivs_NE : fieldsolver → K) :
    List (K × K × K) :=
  let Bx_S := cp_SW BX
  let By_W := cp_SW BY
  let By_E := cp_SE BY
  let Bx_N := cp_NW BX
  let dBxdy_S := derivs_SW dBxdy
  let dBxdz_S := derivs_SW dBxdz
  let dBydx_W := derivs_SW dBydx
  let dBydz_W := derivs_SW dBydz
  let dBydx_E := derivs_SE dBydx
  let dBydz_E := derivs_SE dBydz
  let dBxdy_N := derivs_NW dBxdy
  let dBxdz_N := derivs_NW dBxdz
  [(cp_SW RHOVX / cp_SW RHO, cp_SW RHOVY / cp_SW RHO,
      calculateFastMSspeedXY X cp_SW derivs_SW nbr_cp_SW nbr_derivs_SW Bx_S By_W
        dBxdy_S dBxdz_S dBydx_W dBydz_W MINUS MINUS),
   (cp_SE RHOVX / cp_SE RHO, cp_SE RHOVY / cp_SE RHO,
      calculateFastMSspeedXY X cp_SE derivs_SE nbr_cp_SE nbr_derivs_SE Bx_S By_E
        dBxdy_S dBxdz_S dBydx_E dBydz_E PLUS MINUS),
   (cp_NW RHOVX / cp_NW RHO, cp_NW RHOVY / cp_NW RHO,
      calculateFastMSspeedXY X cp_NW derivs_NW nbr_cp_NW nbr_derivs_NW Bx_N By_W
        dBxdy_N dBxdz_N dBydx_W dBydz_W MINUS PLUS),
   (cp_NE RHOVX / cp_NE RHO, cp_NE RHOVY / cp_NE RHO,
      calculateFastMSspeedXY X cp_NE derivs_NE nbr_cp_NE nbr_derivs_NE Bx_N By_E
        dBxdy_N dBxdz_N dBydx_E dBydz_E PLUS PLUS)]

/-- The characteristic speed against an axis as the specification words it:
the largest of zero and of `-V + c` over the corners, where each corner is
given as the pair of its velocity component `V` and its speed `c`. -/
def maxNegSpeed (corners : List (K × K)) : K :=
  corners.foldl (fun a vc => max a (-vc.1 + vc.2)) 0

/-- The characteristic speed along an axis as the specification words it: the
largest of zero and of `V + c` over the corners. -/
def maxPosSpeed (corners : List (K × K)) : K :=
  corners.foldl (fun a vc => max a (vc.1 + vc.2)) 0

/-- The corner list with the speed of the second corner, `SE`, entered with
the opposite sign. `calculateEdgeElectricFieldY` updates its two negative
speeds for the `SE` corner with `-Vz0 - c_z` and `-Vx0 - c_x` (lines 520 and
522). -/
def negateSecondSpeed : List (K × K) → List (K × K)
  | a :: b :: l => a :: (b.1, -b.2) :: l
  | l => l

/-! ## What the face-averaging loop leaves in the normal components -/

/-- The slots `BXFACEX`, `BYFACEY`, `BZFACEZ` of cell `c` of the mesh `h` hold
one half of the sum of the cell's own `BX` (`BY`, `BZ`) and of the first
(second, third) value that `averageFaceXMagnField` (`averageFaceYMagnField`,
`averageFaceZMagnField`) returns for the `-x` (`-y`, `-z`) neighbour of the
cell on the mesh `g`. The coefficients do not enter these values. -/
def FaceBHoldsCellMean (g h : ParGrid K) (c : CellID) : Prop :=
  h.cpu_cellParams c BXFACEX = HALF * (g.cpu_cellParams c BX +
    (averageFaceXMagnField (g.getNeighbour c (calcNbrTypeID (2 - 1) 2 2))
      (fun _ => 0) g 1).1) ∧
  h.cpu_cellParams c BYFACEY = HALF * (g.cpu_cellParams c BY +
    (averageFaceYMagnField (g.getNeighbour c (calcNbrTypeID 2 (2 - 1) 2))
      (fun _ => 0) g 1).2.1) ∧
  h.cpu_cellParams c BZFACEZ = HALF * (g.cpu_cellParams c BZ +
    (averageFaceZMagnField (g.getNeighbour c (calcNbrTypeID 2 2 (2 - 1)))
      (fun _ => 0) g 1).2.2)

end CornerSpeeds

/-! ## Neighbour lookups of the kernels -/

/-- Source: `calculateDerivatives` (lines 173-174, 189-190, 205-206): the
neighbour type ids that the function looks up. -/
def derivativesLookups : List Nat :=
  [calcNbrTypeID (2 - 1) 2 2, calcNbrTypeID (2 + 1) 2 2,
   calcNbrTypeID 2 (2 - 1) 2, calcNbrTypeID 2 (2 + 1) 2,
   calcNbrTypeID 2 2 (2 - 1), calcNbrTypeID 2 2 (2 + 1)]

/-- Source: `calculateEdgeElectricFieldX` (lines 301-303, 346, 368, 390, 412):
the neighbour type ids that the function looks up. -/
def edgeXLookups : List Nat :=
  [calcNbrTypeID 2 (2 - 1) 2, calcNbrTypeID 2 (2 - 1) (2 - 1), calcNbrTypeID 2 2 (2 - 1),
   calcNbrTypeID (2 + 1) 2 2, calcNbrTypeID (2 + 1) (2 - 1) 2,
   calcNbrTypeID (2 + 1) 2 (2 - 1), calcNbrTypeID (2 + 1) (2 - 1) (2 - 1)]

/-- Source: `calculateEdgeElectricFieldY` (lines 447-449, 493, 515, 537, 559):
the neighbour type ids that the function looks up. -/
def edgeYLookups : List Nat :=
  [calcNbrTypeID 2 2 (2 - 1), calcNbrTypeID (2 - 1) 2 2, calcNbrTypeID (2 - 1) 2 (2 - 1),
   calcNbrTypeID 2 (2 + 1) 2, calcNbrTypeID 2 (2 + 1) (2 - 1),
   calcNbrTypeID (2 - 1) (2 + 1) 2, calcNbrTypeID (2 - 1) (2 + 1) (2 - 1)]

/-- Source: `calculateEdgeElectricFieldZ` (lines 593-595, 641, 663, 685, 707):
the neighbour type ids that the function looks up. -/
def edgeZLookups : List Nat :=
  [calcNbrTypeID (2 - 1) 2 2, calcNbrTypeID (2 - 1) (2 - 1) 2, calcNbrTypeID 2 (2 - 1) 2,
   calcNbrTypeID 2 2 (2 + 1), calcNbrTypeID (2 - 1) 2 (2 + 1),
   calcNbrTypeID 2 (2 - 1) (2 + 1), calcNbrTypeID (2 - 1) (2 - 1) (2 + 1)]

/-- The eighteen offsets that the specification lists for the receive
footprint of `calculateTransferStencil1`: the six face offsets and twelve
further ones. -/
def listedStencil1Offsets : List (Int × Int × Int) :=
  [(-1, 0, 0), (1, 0, 0), (0, -1, 0), (0, 1, 0), (0, 0, -1), (0, 0, 1),
   (0, -1, -1), (1, -1, 0), (1, 0, -1), (1, -1, -1), (-1, 0, -1), (0, 1, -1),
   (-1, 1, 0), (-1, 1, -1), (-1, -1, 0), (-1, 0, 1), (0, -1, 1), (-1, -1, 1)]

/-! ## Further small meshes for concrete evaluations -/

/-- Neighbour lookup of a mesh of 3 x 3 x 3 cells that is periodic in all
three directions; the cell with the indices `(i, j, k)` has the id
`i + 3 j + 9 k`. A neighbour type id `k*25+j*5+i` carries the offset
`(i-2, j-2, k-2)`. -/
def torusGetNeighbour (c : CellID) (nbrTypeID : Nat) : CellID :=
  if c < 27 then
    (c % 3 + nbrTypeID % 5 + 1) % 3
      + 3 * ((c / 3 % 3 + nbrTypeID / 5 % 5 + 1) % 3)
      + 9 * ((c / 9 + nbrTypeID / 25 + 1) % 3)
  else INVALID_CELLID

/-- A periodic mesh of 3 x 3 x 3 cells with the given cell data, held by one
process. -/
def torusGrid (cellParams : CellID → CellParams → ℚ)
    (derivatives : CellID → fieldsolver → ℚ) : ParGrid ℚ where
  getCells := List.range 27
  getNeighbour := torusGetNeighbour
  isRemote := fun _ => false
  cpu_cellParams := cellParams
  cpu_derivatives := derivatives

/-- Cell data on the periodic mesh: unit widths and unit density everywhere;
cell `4`, the `-z` neighbour of cell `13`, carries `BX = 3` and the momentum
`(-2, 0, -2)`; every other entry is zero. -/
def cornerSpeedCellParams (c : CellID) (p : CellParams) : ℚ :=
  match p with
  | DX => 1 | DY => 1 | DZ => 1
  | RHO => 1
  | BX => if c = 4 then 3 else 0
  | RHOVX => if c = 4 then -2 else 0
  | RHOVZ => if c = 4 then -2 else 0
  | _ => 0

/-- Cell data on the periodic mesh: unit widths and unit density everywhere,
plasma at rest; `BZ = 1` on the cells `9`, `10` and `19`, `BZ = 22` on cell
`18`; every other entry is zero. Seen from cell `13`, cell `9` is the
neighbour at `(-1,-1,0)`, cell `10` the one at `(0,-1,0)`, cell `19` the one
at `(0,-1,+1)` and cell `18` the one at `(-1,-1,+1)`. -/
def pairingCellParams (c : CellID) (p : CellParams) : ℚ :=
  match p with
  | DX => 1 | DY => 1 | DZ => 1
  | RHO => 1
  | BZ => if c = 9 ∨ c = 10 ∨ c = 19 then 1 else if c = 18 then 22 else 0
  | _ => 0

/-- Cell data on the periodic mesh: unit widths and unit density everywhere,
and `EZ = 8` on cell `7`, the neighbour of cell `13` at `(0,+1,-1)`; every
other entry is zero. -/
def singleEZCellParams (c : CellID) (p : CellParams) : ℚ :=
  match p with
  | DX => 1 | DY => 1 | DZ => 1
  | RHO => 1
  | EZ => if c = 7 then 8 else 0
  | _ => 0

/-- Neighbour lookup of a mesh of three cells in the y-z plane, one cell wide
and periodic in x: cell `0` at `(y, z) = (1, 1)`, cell `1` at `(0, 1)`, cell
`2` at `(1, 0)`; there is no cell at `(0, 0)` and none outside these
positions. The offsets along y and z are read off the neighbour type id
`k*25+j*5+i`; `y` and `z` below are the target position plus two. -/
def notchGetNeighbour (c : CellID) (nbrTypeID : Nat) : CellID :=
  let y := (if c = 1 then 0 else 1) + nbrTypeID / 5 % 5
  let z := (if c = 2 then 0 else 1) + nbrTypeID / 25
  if c < 3 then
    if y = 3 ∧ z = 3 then 0
    else if y = 2 ∧ z = 3 then 1
    else if y = 3 ∧ z = 2 then 2
    else INVALID_CELLID
  else INVALID_CELLID

/-- The mesh of three cells around a missing corner cell, with the given
cell data, held by one process. -/
def notchGrid (cellParams : CellID → CellParams → ℚ)
    (derivatives : CellID → fieldsolver → ℚ) : ParGrid ℚ where
  getCells := [0, 1, 2]
  getNeighbour := notchGetNeighbour
  isRemote := fun _ => false
  cpu_cellParams := cellParams
  cpu_derivatives := derivatives

/-- A row of three cells lined up along x of which cells `1` and `2` are
held by this process and cell `0` by another one; all data are zero. -/
def leftSplitRowGrid : ParGrid ℚ where
  getCells := [1, 2]
  getNeighbour := rowGetNeighbour 3
  isRemote := fun c => decide (c = 0)
  cpu_cellParams := fun _ _ => 0
  cpu_derivatives := fun _ _ => 0

/-- Cell data that are the same on every cell: unit widths, unit density,
plasma at rest, no magnetic field, and the edge electric field
`(EX, EY, EZ) = (5, 6, 7)`; every other entry is zero. -/
def staleEdgeCellParams (_c : CellID) (p : CellParams) : ℚ :=
  match p with
  | DX => 1 | DY => 1 | DZ => 1
  | RHO => 1
  | EX => 5 | EY => 6 | EZ => 7
  | _ => 0

/-- External functions that differ from `sampleExternals` only in the
magnetic-field boundary-condition functions, which return `9`. -/
def nineBoundaryExternals : Externals ℚ :=
  { sampleExternals with
    fieldSolverBoundaryCondBx := fun _ _ _ _ => 9
    fieldSolverBoundaryCondBy := fun _ _ _ _ => 9
    fieldSolverBoundaryCondBz := fun _ _ _ _ => 9 }

end Vlasiator

namespace Vlasiator

open CellParams fieldsolver

/-! ## The calls of a stage driver in program order -/

/-- The calls that a stage driver makes on the mesh, and the per-cell
computations between them: `startSingleMode()`, `singleReceive` with the
neighbour id and the tag, `singleSend` with the host, the tag and the local
id, the body of one iteration of a cell loop, `waitAllReceives()` and
`waitAllSends()`. -/
inductive Event
  | startSingleMode
  | singleReceive (nbrID : CellID) (tag : Int)
  | singleSend (host tag : Int) (localID : CellID)
  | calculate (cellID : CellID)
  | waitAllReceives
  | waitAllSends
  deriving DecidableEq, Repr

/-- A call that posts a transfer or opens an exchange. -/
def Event.isPost : Event → Bool
  | .startSingleMode => true
  | .singleReceive _ _ => true
  | .singleSend _ _ _ => true
  | _ => false

/-- A per-cell computation. -/
def Event.isCalculate : Event → Bool
  | .calculate _ => true
  | _ => false

/-- The cells computed in a sequence of calls, in the order of computation. -/
def calculatedCells : List Event → List CellID
  | [] => []
  | .calculate c :: l => c :: calculatedCells l
  | _ :: l => calculatedCells l

/-- Source: the two posting loops of a stage driver (lines 1291-1310,
1341-1360, 1387-1407): `startSingleMode()`, one `singleReceive` per entry
`((host, tag), nbrID)` of `stencil3.recvs`, one `singleSend` per entry
`(localID, (host, tag))` of `stencil3.sends`. -/
def postTransfers (recvs : List ((Int × Int) × CellID)) (sends : List (CellID × (Int × Int))) :
    List Event :=
  Event.startSingleMode :: (recvs.map fun it => Event.singleReceive it.2 it.1.2)
    ++ sends.map fun it => Event.singleSend it.2.1 it.2.2 it.1

/-- The two-phase order of an exchange, for a sequence of calls `tr` and the
inner and boundary cells of the stencil: no posting call comes after a
computation; `waitAllReceives` is called exactly once, the cells computed
before that call are the inner cells and the cells computed after it are the
boundary cells; `waitAllSends` is called exactly once and is the last call. -/
def TwoPhaseOrder (inner boundary : List CellID) (tr : List Event) : Prop :=
  tr.Pairwise (fun a b => a.isCalculate = true → b.isPost = false) ∧
  (∃ pre post, tr = pre ++ Event.waitAllReceives :: post ∧
    Event.waitAllReceives ∉ pre ∧ Event.waitAllReceives ∉ post ∧
    calculatedCells pre = inner ∧ calculatedCells post = boundary) ∧
  (∃ pre, tr = pre ++ [Event.waitAllSends] ∧ Event.waitAllSends ∉ pre)

section Traced

variable {K : Type} [LinearOrderedField K]

/-- Source: `calculateDerivativesSimple` (lines 1284-1329) with its calls on
the mesh recorded in program order. The maps `stencil3.recvs` and
`stencil3.sends` are filled by `transferstencil.h` and are handed in. The
mesh is the one of `calculateDerivativesSimple`: no other process delivers
data. -/
def calculateDerivativesSimpleTraced (X : Externals K) (G : Globals)
    (recvs : List ((Int × Int) × CellID)) (sends : List (CellID × (Int × Int)))
    (mpiGrid : ParGrid K) (_localCells : List CellID) : Option (List Event × ParGrid K) := do
  let st : List Event × ParGrid K := (postTransfers recvs sends, mpiGrid)
  let st ← G.stencil3.innerCells.foldlM
    (fun st cellID => do
      let g ← calculateDerivatives X G cellID st.2
      pure (st.1 ++ [Event.calculate cellID], g)) st
  let st : List Event × ParGrid K := (st.1 ++ [Event.waitAllReceives], st.2)
  let st ← G.stencil3.boundaryCells.foldlM
    (fun st cellID => do
      let g ← calculateDerivatives X G cellID st.2
      pure (st.1 ++ [Event.calculate cellID], g)) st
  pure (st.1 ++ [Event.waitAllSends], st.2)

/-- Source: `calculateUpwindedElectricFieldSimple`, the exchange of the
derivatives (lines 1339-1384), with its calls on the mesh recorded in program
order. -/
def upwindedDerivativeExchangeTraced (X : Externals K) (G : Globals)
    (recvs : List ((Int × Int) × CellID)) (sends : List (CellID × (Int × Int)))
    (mpiGrid : ParGrid K) :
    Option (List Event × ((CellID → Option Nat) × ParGrid K)) := do
  let st : List Event × ((CellID → Option Nat) × ParGrid K) :=
    (postTransfers recvs sends, (G.boundaryFlags, mpiGrid))
  let st ← G.stencil3.innerCells.foldlM
    (fun st cellID => do
      let s ← upwindedElectricFieldCell X G.masks cellID st.2
      pure (st.1 ++ [Event.calculate cellID], s)) st
  let st : List Event × ((CellID → Option Nat) × ParGrid K) :=
    (st.1 ++ [Event.waitAllReceives], st.2)
  let st ← G.stencil3.boundaryCells.foldlM
    (fun st cellID => do
      let s ← upwindedElectricFieldCell X G.masks cellID st.2
      pure (st.1 ++ [Event.calculate cellID], s)) st
  pure (st.1 ++ [Event.waitAllSends], st.2)

/-- Source: `calculateUpwindedElectricFieldSimple`, the exchange of the
electric field that ends the function (lines 1386-1409): the transfers are
posted and both waits follow at once. -/
def electricFieldExchange (recvs : List ((Int × Int) × CellID))
    (sends : List (CellID × (Int × Int))) : List Event :=
  postTransfers recvs sends ++ [Event.waitAllReceives, Event.waitAllSends]

/-- Source: `calculateUpwindedElectricFieldSimple` (lines 1331-1410) with its
calls on the mesh recorded in program order: the exchange of the derivatives
around the two cell loops, then the exchange of the electric field. -/
def calculateUpwindedElectricFieldSimpleTraced (X : Externals K) (G : Globals)
    (recvs : List ((Int × Int) × CellID)) (sends : List (CellID × (Int × Int)))
    (mpiGrid : ParGrid K) (_localCells : List CellID) :
    Option (List Event × ((CellID → Option Nat) × ParGrid K)) := do
  let st ← upwindedDerivativeExchangeTraced X G recvs sends mpiGrid
  pure (st.1 ++ electricFieldExchange recvs sends, st.2)

end Traced

/-- The file-level state after initialisation on `splitRowGrid`, of which
this process holds cells `0` and `1`: flags as computed by
`calculateBoundaryFlags`, masks as assigned by `initializeFieldPropagator`,
`stencil3` as computed by `calculateTransferStencil3` (cell `0` is an inner
cell, cell `1`, next to the remote cell `2`, is a boundary cell). -/
def splitRowGlobals : Globals :=
  { rowGlobals 3 with
    boundaryFlags := calculateBoundaryFlags splitRowGrid [0, 1] (fun _ => none)
    stencil3 := calculateTransferStencil3 splitRowGrid [0, 1] ⟨[], [], [], []⟩ }

/-- The map `stencil3.recvs` on `splitRowGrid`: the remote cell `2` is
received from process `1` with tag `0`. -/
def splitRowRecvs : List ((Int × Int) × CellID) := [((1, 0), 2)]

/-- The map `stencil3.sends` on `splitRowGrid`: the boundary cell `1` is sent
to process `1` with tag `0`. -/
def splitRowSends : List (CellID × (Int × Int)) := [(1, (1, 0))]

section Locality

variable {K : Type} [LinearOrderedField K]

/-- The derivative boundary-condition functions read derivatives only of the
cell they are called for: on two meshes that agree in everything but the
derivative arrays of other cells they return the same array. -/
def Externals.DerivBCsCellLocal (X : Externals K) : Prop :=
  ∀ (c : CellID) (a : fieldsolver → K) (e ne : Nat) (g h : ParGrid K),
    h.getNeighbour = g.getNeighbour → h.getCells = g.getCells → h.isRemote = g.isRemote →
    h.cpu_cellParams = g.cpu_cellParams → h.cpu_derivatives c = g.cpu_derivatives c →
    X.fieldSolverBoundaryCondDerivX c a e ne a h = X.fieldSolverBoundaryCondDerivX c a e ne a g ∧
    X.fieldSolverBoundaryCondDerivY c a e ne a h = X.fieldSolverBoundaryCondDerivY c a e ne a g ∧
    X.fieldSolverBoundaryCondDerivZ c a e ne a h = X.fieldSolverBoundaryCondDerivZ c a e ne a g

/-- The divergence `∂x Bx + ∂y By + ∂z Bz` at the point `(x, y, z)` of the
field reconstructed from the coefficients `co`,
`Bx = a_0 + a_x x + a_y y + a_z z + a_xx x² + a_xy x y + a_xz x z`,
`By = b_0 + b_x x + b_y y + b_z z + b_yx x y + b_yy y² + b_yz y z`,
`Bz = c_0 + c_x x + c_y y + c_z z + c_zx x z + c_zy y z + c_zz z²`. -/
def reconstructionDivergence (co : Rec → K) (x y z : K) : K :=
  (co Rec.a_x + 2 * co Rec.a_xx * x + co Rec.a_xy * y + co Rec.a_xz * z)
  + (co Rec.b_y + co Rec.b_yx * x + 2 * co Rec.b_yy * y + co Rec.b_yz * z)
  + (co Rec.c_z + co Rec.c_zx * x + co Rec.c_zy * y + 2 * co Rec.c_zz * z)

/-- The undivided discrete divergence of a cell,
`(BX(+x) - BX) + (BY(+y) - BY) + (BZ(+z) - BZ)`, with the all-zero dummy array
of `reconstructionCoefficients` in the place of a missing neighbour. -/
def undividedDivergence (cellID nbr_i2j1k1 nbr_i1j2k1 nbr_i1j1k2 : CellID)
    (mpiGrid : ParGrid K) : K :=
  ((if nbr_i2j1k1 = INVALID_CELLID then 0 else mpiGrid.cpu_cellParams nbr_i2j1k1 BX)
      - mpiGrid.cpu_cellParams cellID BX)
  + ((if nbr_i1j2k1 = INVALID_CELLID then 0 else mpiGrid.cpu_cellParams nbr_i1j2k1 BY)
      - mpiGrid.cpu_cellParams cellID BY)
  + ((if nbr_i1j1k2 = INVALID_CELLID then 0 else mpiGrid.cpu_cellParams nbr_i1j1k2 BZ)
      - mpiGrid.cpu_cellParams cellID BZ)

/-- The cell parameters without the edge electric field: the slots `EX`,
`EY`, `EZ` are blanked. -/
def withoutEdgeE (cp : CellParams → K) : CellParams → K := fun p =>
  match p with
  | EX => 0
  | EY => 0
  | EZ => 0
  | q => cp q

end Locality

/-- The offset of the cell seen from its neighbour: `(-i, -j, -k)`. -/
def reflectOffset (ijk : Int × Int × Int) : Int × Int × Int := (-ijk.1, -ijk.2.1, -ijk.2.2)

/-- Plasma of density `1` that moves with velocity `4` along `y` and along `z`
in a magnetic field `BY = 3`, the same in every cell. -/
def supersonicCellParams (_c : CellID) (p : CellParams) : ℚ :=
  match p with
  | RHO => 1 | RHOVY => 4 | RHOVZ => 4 | BY => 3
  | DX => 1 | DY => 1 | DZ => 1
  | _ => 0

/-! ## `SetByUser::interpolate` -/

section Interpolate

variable {K : Type} [LinearOrderedField K]

/-- Source: `SetByUser::interpolate`, the search loop (lines 372-378) from row
`i` on, over the rows not yet visited: `some i2` for the first row whose time
`inputData[idx][i][0]` is `>= t`, `none` when the loop runs to its end. A row
without a time entry cannot be read. -/
def interpolateSearch (t : K) : List (List K) → Nat → Option (Option Nat)
  | [], _ => some none
  | row :: rest, i =>
    match row[0]? with
    | none => none
    | some time => if time ≥ t then some (some i) else interpolateSearch t rest (i + 1)

/-- Source: `SetByUser::interpolate` (lines 366-399): the values of `i1`,
`i2` and `s` after the branch. -/
def interpolateLocals (inputData : List (List K)) (t : K) : Option (Int × Int × K) :=
  match inputData[0]? with
  | none => none
  | some row0 =>
    match row0[0]? with
    | none => none
    | some t0 =>
      if t < t0 then some (0, 0, 0)
      else
        match interpolateSearch t inputData 0 with
        | none => none
        | some (some i2) =>
          let i1 : Int := (i2 : Int) - 1
          if i1 < 0 then some (0, 0, 0)
          else
            match inputData[i1.toNat]?, inputData[i2]? with
            | some r1, some r2 =>
              match r1[0]?, r2[0]? with
              | some t1, some t2 => some (i1, (i2 : Int), (t - t1) / (t2 - t1))
              | _, _ => none
            | _, _ => none
        | some none => some ((inputData.length : Int) - 1, (inputData.length : Int) - 1, 0)

/-- Source: `SetByUser::interpolate`, the output loop (lines 402-405):
`count` iterations from index `i` on, each reading entry `i+1` of the rows
`i1` and `i2`. -/
def interpolateOutput (inputData : List (List K)) (i1 i2 : Nat) (s1 s : K) :
    Nat → Nat → Option (List K)
  | 0, _ => some []
  | count + 1, i =>
    match inputData[i1]?, inputData[i2]? with
    | some r1, some r2 =>
      match r1[i + 1]?, r2[i + 1]? with
      | some a, some b =>
        (interpolateOutput inputData i1 i2 s1 s count (i + 1)).map fun out =>
          (s1 * a + s * b) :: out
      | _, _ => none
    | _, _ => none

/-- Source: `SetByUser::interpolate` (lines 360-406) for the table
`inputData[inputDataIndex]`: the contents of `outputData` at return. The loop
bound `nParams-1` is unsigned arithmetic. -/
def interpolate (inputData : List (List K)) (nParams : Nat) (t : K) : Option (List K) :=
  match interpolateLocals inputData t with
  | none => none
  | some (i1, i2, s) =>
    if i1 < 0 ∨ i2 < 0 then none
    else interpolateOutput inputData i1.toNat i2.toNat (1 - s) s (toUint (nParams + 4294967295)) 0

/-- The time entry of a row of the table. -/
def rowTime (row : List K) : K := row.headD 0

/-- The entries of a row of the table after the time. -/
def rowValues (row : List K) : List K := row.tail

/-- Row `i` of the table. -/
def tableRow (inputData : List (List K)) (i : Nat) : List K := inputData.getD i []

/-- The blend `(1 - s) * row1 + s * row2` of the values of two rows. -/
def blendRows (s : K) (row1 row2 : List K) : List K :=
  List.zipWith (fun a b => (1 - s) * a + s * b) (rowValues row1) (rowValues row2)

end Interpolate

/-- A table of three rows with the times `0`, `2`, `4` and two values in each
row. -/
def sampleTable : List (List ℚ) := [[0, 10, 100], [2, 30, 300], [4, 50, 700]]

/-- A table that is not sorted and repeats a time. -/
def unsortedTable : List (List ℚ) := [[3, 1], [1, 2], [1, 3], [5, 4]]

/-! ## Reads of the kernels -/

section Reads

variable {K : Type} [LinearOrderedField K]

end Reads

/-- Store of a value into an `int` variable (reduction modulo `2 ^ 32` into
the range from `-2 ^ 31` to `2 ^ 31 - 1`). -/
def toInt (z : Int) : Int := (z + 2147483648) % 4294967296 - 2147483648

section Subcycles

variable {K : Type} [LinearOrderedField K] [FloorRing K]

/-- Source: `getAccerelationSubcycles` (vlasovmover.cpp, lines 357-359):
`max(convert<int>(ceil(dt / sc->parameters[CellParams::MAXVDT])),1)`, with
the value `maxVdt` of the cell's parameter. The type `Real` is defined
outside the sources at hand: `rnd` is the rounding of its arithmetic, the
value that an operation stores when its exact result is `x` (the identity
for exact arithmetic); `ceil` of a stored value is stored unchanged. The
conversion `convert<int>` is defined outside the file and is handed in; its
result is an `int`. -/
def getAccerelationSubcycles (rnd : K → K) (convert : Int → Int) (maxVdt dt : K) : Int :=
  max (toInt (convert ⌈rnd (dt / maxVdt)⌉)) 1

/-- Source: `calculateAcceleration` (vlasovmover.cpp, lines 382-387): the
length `subcycleDt` of the subcycle `step`, an unsigned integer:
`if ((step + 1) * maxVdt > dt) subcycleDt = dt - step * maxVdt; else
subcycleDt = maxVdt;`. The sum `step + 1` is formed in `uint`; it and `step`
are converted to `Real`, and every product and difference is stored as a
`Real`, with the rounding `rnd`. -/
def subcycleDt (rnd : K → K) (step : Nat) (maxVdt dt : K) : K :=
  if rnd (rnd ((toUint (step + 1) : Nat) : K) * maxVdt) > dt then
    rnd (dt - rnd (rnd (step : K) * maxVdt))
  else maxVdt

end Subcycles

/-- The integer nearest to `x`, the even one of the two when `x` lies half
way between two integers. -/
def roundHalfEven (x : ℚ) : Int :=
  if x - ⌊x⌋ < 1 / 2 then ⌊x⌋
  else if 1 / 2 < x - ⌊x⌋ then ⌊x⌋ + 1
  else if ⌊x⌋ % 2 = 0 then ⌊x⌋ else ⌊x⌋ + 1

/-- The rounding of `double` arithmetic (IEEE 754 binary64, round to nearest,
ties to even), the type that `Real` stands for in a double-precision build:
the value stored for the exact result `q` is the nearest multiple of
`2 ^ e`, where `e = max (floor (log2 |q|) - 52) (-1074)` is the exponent of the
last of the 53 significant bits. Results beyond the largest `double`
(about `2 ^ 1024`) are outside this model. -/
def roundBinary64 (q : ℚ) : ℚ :=
  if q = 0 then 0
  else (roundHalfEven (q / 2 ^ max (Int.log 2 |q| - 52) (-1074)) : ℚ)
    * 2 ^ max (Int.log 2 |q| - 52) (-1074)

/-! ## Template cells of `SetByUser` -/

section SetByUser

variable {K : Type} [LinearOrderedField K]

/-- Source: the loops `for(uint i=0; i<6; i++) { if(test(i)) { ...; break; } }`
of `setbyuser.cpp`: the face index at which the body runs, if any. -/
def firstFace (test : Nat → Bool) : Option Nat := (List.range 6).find? test

/-- Source: `SetByUser::fieldSolverBoundaryCondMagneticField`, the loop
(lines 142-151): the face index whose template is read. -/
def fieldSolverBoundaryCondMagneticFieldFace (isThisCellOnAFace : Nat → Bool) : Option Nat :=
  firstFace fun i => isThisCellOnAFace i

/-- Source: `SetByUser::fieldSolverBoundaryCondMagneticField` (lines
124-153). The flags `isThisCellOnAFace` filled by `determineFace` and the
template cells are handed in, as are the two indices `CellParams::PERBX` and
`CellParams::PERBX_DT2` into the parameter array. -/
def fieldSolverBoundaryCondMagneticField (templateCells : Nat → Nat → K) (PERBX PERBX_DT2 : Nat)
    (isThisCellOnAFace : Nat → Bool) (dt : K) (component : Nat) : K :=
  match fieldSolverBoundaryCondMagneticFieldFace isThisCellOnAFace with
  | some i =>
    if dt = 0 then templateCells i (PERBX + component)
    else templateCells i (PERBX_DT2 + component)
  | none => 0

/-- Source: `SetByUser::setCellsFromTemplate`, the loop over the faces (lines
235-247): the face index whose template is copied. -/
def setCellsFromTemplateFace (facesToProcess isThisCellOnAFace : Nat → Bool) : Option Nat :=
  firstFace fun i => facesToProcess i && isThisCellOnAFace i

/-- Source: `SetByUser::setCellsFromTemplate`, the body for one cell of this
boundary (lines 235-247), on the parameter array of the cell: the three
perturbed-field entries are copied from the template, the two loss entries
are cleared, and `copyCellData`, which is defined outside the file, runs. -/
def setCellsFromTemplateCell (templateCells : Nat → Nat → K)
    (PERBX PERBY PERBZ RHOLOSSADJUST RHOLOSSVELBOUNDARY : Nat)
    (copyCellData : (Nat → K) → (Nat → K) → Nat → K)
    (facesToProcess isThisCellOnAFace : Nat → Bool) (parameters : Nat → K) : Nat → K :=
  match setCellsFromTemplateFace facesToProcess isThisCellOnAFace with
  | some i =>
    let p : Nat → K := fun q => if q = PERBX then templateCells i PERBX else parameters q
    let p : Nat → K := fun q => if q = PERBY then templateCells i PERBY else p q
    let p : Nat → K := fun q => if q = PERBZ then templateCells i PERBZ else p q
    let p : Nat → K := fun q => if q = RHOLOSSADJUST then 0 else p q
    let p : Nat → K := fun q => if q = RHOLOSSVELBOUNDARY then 0 else p q
    copyCellData (templateCells i) p
  | none => parameters

/-- The face precedence as the specification words it: the first index `i` in
the order `x+`, `x-`, `y+`, `y-`, `z+`, `z-` such that the cell lies on face
`i` and `facesToProcess[i]` is true. -/
def firstProcessedFace (facesToProcess isThisCellOnAFace : Nat → Bool) : Option Nat :=
  [0, 1, 2, 3, 4, 5].find? fun i => isThisCellOnAFace i && facesToProcess i

end SetByUser

/-- Source: `SetByUser::initSysBoundary` (lines 53-67): the flags
`facesToProcess` set from the face list of the configuration. -/
def initSysBoundary_facesToProcess (faceList : List String) : Nat → Bool := fun i =>
  (i == 0 && faceList.contains "x+") || (i == 1 && faceList.contains "x-")
  || (i == 2 && faceList.contains "y+") || (i == 3 && faceList.contains "y-")
  || (i == 4 && faceList.contains "z+") || (i == 5 && faceList.contains "z-")

/-- Template cells of which only the one of face `y+` (index `2`) has been
generated: its entry `0` is `5`, every other entry of every template is `0`. -/
def onlyYPlusTemplates (i q : Nat) : ℚ := if i = 2 ∧ q = 0 then 5 else 0

/-- A cell in the corner of the faces `x+` (index `0`) and `y+` (index `2`). -/
def cornerXPlusYPlus (i : Nat) : Bool := i == 0 || i == 2

end Vlasiator

/-! # Theorems -/

namespace Vlasiator

open CellParams fieldsolver

/-! ## Bit masks -/

theorem testBit_eq_false_of_lt_two_pow32 {n b : Nat} (hn : n < 4294967296) (hb : 32 ≤ b) :
    n.testBit b = false := by
  apply Nat.testBit_lt_two_pow
  calc n < 2 ^ 32 := by simpa using hn
    _ ≤ 2 ^ b := Nat.pow_le_pow_right (by decide) hb

/-- A 32-bit word has exactly the bits listed in `S` as soon as this holds for
the positions below 32. -/
theorem testBit_iff_mem_of_lt (n : Nat) (S : List Nat) (hn : n < 4294967296)
    (hS : ∀ b ∈ S, b < 32)
    (h : ∀ b, b < 32 → (n.testBit b = true ↔ b ∈ S)) (b : Nat) :
    n.testBit b = true ↔ b ∈ S := by
  by_cases hb : b < 32
  · exact h b hb
  · have h1 : n.testBit b = false := testBit_eq_false_of_lt_two_pow32 hn (by omega)
    constructor
    · intro h2; rw [h1] at h2; exact absurd h2 (by decide)
    · intro h2; exact absurd (hS b h2) hb

theorem masks_values (old : Masks) :
    initializeFieldPropagator_masks old =
      { CALCULATE_DX := 20480, CALCULATE_DY := 66560, CALCULATE_DZ := 4194320,
        CALCULATE_EX := 21520, CALCULATE_EY := 70672, CALCULATE_EZ := 4199440,
        PROPAGATE_BX := 4264976, PROPAGATE_BY := 4215824, PROPAGATE_BZ := 87056 } := by
  rfl

/-- C8 (as stated, refuted): the mask `CALCULATE_EX` computed by
`initializeFieldPropagator` does not contain the `+y` face bit 16 (nor the
`+z` face bit 22). -/
theorem C8_counterexample :
    (initializeFieldPropagator_masks ⟨0, 0, 0, 0, 0, 0, 0, 0, 0⟩).CALCULATE_EX.testBit 16 = false ∧
    (initializeFieldPropagator_masks ⟨0, 0, 0, 0, 0, 0, 0, 0, 0⟩).CALCULATE_EX.testBit 22 = false := by
  decide

/-- C8 (amended): `CALCULATE_EX` contains exactly the bits of the `-y`, `-z`,
`-x` and `+x` face neighbours ({10, 4, 12, 14}); cyclically `CALCULATE_EY`
contains exactly those of `-x`, `-z`, `-y`, `+y` and `CALCULATE_EZ` exactly
those of `-x`, `-y`, `-z`, `+z`. -/
theorem C8_edge_masks (old : Masks) (b : Nat) :
    ((initializeFieldPropagator_masks old).CALCULATE_EX.testBit b = true
      ↔ b ∈ [10, 4, 12, 14]) ∧
    ((initializeFieldPropagator_masks old).CALCULATE_EY.testBit b = true
      ↔ b ∈ [12, 4, 10, 16]) ∧
    ((initializeFieldPropagator_masks old).CALCULATE_EZ.testBit b = true
      ↔ b ∈ [12, 10, 4, 22]) := by
  rw [masks_values]
  refine ⟨?_, ?_, ?_⟩ <;>
    exact testBit_iff_mem_of_lt _ _ (by decide) (by decide) (by decide) b

end Vlasiator

namespace Vlasiator

open CellParams fieldsolver

/-! ## Neighbour existence flags -/

section Flags

variable {K : Type}

/-- Bit position used for the loop indices `(i, j, k)`. -/
theorem toUint_or_shift {acc n : Nat} (hacc : acc < 4294967296) (hn : n < 32) :
    toUint (acc ||| 1 <<< n) = acc ||| 1 <<< n ∧ (acc ||| 1 <<< n) < 4294967296 := by
  have h1 : (1 <<< n) < 2 ^ 32 := by
    rw [Nat.one_shiftLeft]
    exact Nat.pow_lt_pow_right (by decide) hn
  have h2 : (acc ||| 1 <<< n) < 2 ^ 32 := Nat.or_lt_two_pow (by simpa using hacc) h1
  refine ⟨?_, by simpa using h2⟩
  unfold toUint
  exact Nat.mod_eq_of_lt (by simpa using h2)

theorem flagFold_spec (gn : Nat → CellID) (L : List (Int × Int × Int))
    (hL : ∀ x ∈ L,
      calcNbrNumber (toUchar (1 + x.1)) (toUchar (1 + x.2.1)) (toUchar (1 + x.2.2)) < 32)
    (acc : Nat) (hacc : acc < 4294967296) (b : Nat) :
    (L.foldl
      (fun (boundaryFlag : Nat) (ijk : Int × Int × Int) =>
        if ijk.1 = 0 ∧ (ijk.2.1 = 0 ∧ ijk.2.2 = 0) then boundaryFlag
        else if gn (calcNbrTypeID (toUchar (2 + ijk.1)) (toUchar (2 + ijk.2.1))
            (toUchar (2 + ijk.2.2))) = INVALID_CELLID then boundaryFlag
        else toUint (boundaryFlag |||
          1 <<< calcNbrNumber (toUchar (1 + ijk.1)) (toUchar (1 + ijk.2.1))
            (toUchar (1 + ijk.2.2)))) acc < 4294967296) ∧
    ((L.foldl
      (fun (boundaryFlag : Nat) (ijk : Int × Int × Int) =>
        if ijk.1 = 0 ∧ (ijk.2.1 = 0 ∧ ijk.2.2 = 0) then boundaryFlag
        else if gn (calcNbrTypeID (toUchar (2 + ijk.1)) (toUchar (2 + ijk.2.1))
            (toUchar (2 + ijk.2.2))) = INVALID_CELLID then boundaryFlag
        else toUint (boundaryFlag |||
          1 <<< calcNbrNumber (toUchar (1 + ijk.1)) (toUchar (1 + ijk.2.1))
            (toUchar (1 + ijk.2.2)))) acc).testBit b = true ↔
      (acc.testBit b = true ∨ ∃ x ∈ L, ¬(x.1 = 0 ∧ (x.2.1 = 0 ∧ x.2.2 = 0)) ∧
        gn (calcNbrTypeID (toUchar (2 + x.1)) (toUchar (2 + x.2.1)) (toUchar (2 + x.2.2)))
          ≠ INVALID_CELLID ∧
        calcNbrNumber (toUchar (1 + x.1)) (toUchar (1 + x.2.1)) (toUchar (1 + x.2.2)) = b)) := by
  induction L generalizing acc with
  | nil => simp [hacc]
  | cons x L ih =>
    have hL' : ∀ y ∈ L,
        calcNbrNumber (toUchar (1 + y.1)) (toUchar (1 + y.2.1)) (toUchar (1 + y.2.2)) < 32 :=
      fun y hy => hL y (List.mem_cons_of_mem _ hy)
    have hx := hL x (List.mem_cons_self _ _)
    simp only [List.foldl_cons]
    by_cases h0 : x.1 = 0 ∧ (x.2.1 = 0 ∧ x.2.2 = 0)
    · rw [if_pos h0]
      obtain ⟨i1, i2⟩ := ih hL' acc hacc
      refine ⟨i1, ?_⟩
      rw [i2]
      constructor
      · rintro (h | ⟨y, hy, h⟩)
        · exact Or.inl h
        · exact Or.inr ⟨y, List.mem_cons_of_mem _ hy, h⟩
      · rintro (h | ⟨y, hy, h⟩)
        · exact Or.inl h
        · rcases List.mem_cons.mp hy with rfl | hy
          · exact absurd h0 h.1
          · exact Or.inr ⟨y, hy, h⟩
    · rw [if_neg h0]
      by_cases h1 : gn (calcNbrTypeID (toUchar (2 + x.1)) (toUchar (2 + x.2.1))
          (toUchar (2 + x.2.2))) = INVALID_CELLID
      · rw [if_pos h1]
        obtain ⟨i1, i2⟩ := ih hL' acc hacc
        refine ⟨i1, ?_⟩
        rw [i2]
        constructor
        · rintro (h | ⟨y, hy, h⟩)
          · exact Or.inl h
          · exact Or.inr ⟨y, List.mem_cons_of_mem _ hy, h⟩
        · rintro (h | ⟨y, hy, h⟩)
          · exact Or.inl h
          · rcases List.mem_cons.mp hy with rfl | hy
            · exact absurd h1 h.2.1
            · exact Or.inr ⟨y, hy, h⟩
      · rw [if_neg h1]
        obtain ⟨e1, e2⟩ := toUint_or_shift hacc hx
        rw [e1]
        obtain ⟨i1, i2⟩ := ih hL' _ e2
        refine ⟨i1, ?_⟩
        rw [i2, Nat.testBit_or, Bool.or_eq_true, Nat.one_shiftLeft, Nat.testBit_two_pow]
        simp only [decide_eq_true_eq]
        constructor
        · rintro ((h | h) | ⟨y, hy, h⟩)
          · exact Or.inl h
          · exact Or.inr ⟨x, List.mem_cons_self _ _, h0, h1, h⟩
          · exact Or.inr ⟨y, List.mem_cons_of_mem _ hy, h⟩
        · rintro (h | ⟨y, hy, h⟩)
          · exact Or.inl (Or.inl h)
          · rcases List.mem_cons.mp hy with rfl | hy
            · exact Or.inl (Or.inr h.2.2)
            · exact Or.inr ⟨y, hy, h⟩

theorem nbrOffsets_bit_lt :
    ∀ x ∈ nbrOffsets,
      calcNbrNumber (toUchar (1 + x.1)) (toUchar (1 + x.2.1)) (toUchar (1 + x.2.2)) < 27 := by
  decide

theorem nbrOffsets_bit_injective :
    ∀ x ∈ nbrOffsets, ∀ y ∈ nbrOffsets,
      calcNbrNumber (toUchar (1 + x.1)) (toUchar (1 + x.2.1)) (toUchar (1 + x.2.2)) =
        calcNbrNumber (toUchar (1 + y.1)) (toUchar (1 + y.2.1)) (toUchar (1 + y.2.2)) →
      x = y := by
  decide

theorem mem_nbrOffsets {i j k : Int} (hi : -1 ≤ i ∧ i ≤ 1) (hj : -1 ≤ j ∧ j ≤ 1)
    (hk : -1 ≤ k ∧ k ≤ 1) : (i, j, k) ∈ nbrOffsets := by
  obtain rfl | rfl | rfl : i = -1 ∨ i = 0 ∨ i = 1 := by omega
  all_goals obtain rfl | rfl | rfl : j = -1 ∨ j = 0 ∨ j = 1 := by omega
  all_goals obtain rfl | rfl | rfl : k = -1 ∨ k = 0 ∨ k = 1 := by omega
  all_goals decide

/-- The flag word of a cell: it fits into 32 bits, and bit `b` is set iff `b`
is 13 or `b` is the number of an existing neighbour. -/
theorem boundaryFlagOf_spec (mpiGrid : ParGrid K) (cellID : CellID) (b : Nat) :
    boundaryFlagOf mpiGrid cellID < 4294967296 ∧
    ((boundaryFlagOf mpiGrid cellID).testBit b = true ↔
      (b = 13 ∨ ∃ x ∈ nbrOffsets, ¬(x.1 = 0 ∧ (x.2.1 = 0 ∧ x.2.2 = 0)) ∧
        mpiGrid.getNeighbour cellID
          (calcNbrTypeID (toUchar (2 + x.1)) (toUchar (2 + x.2.1)) (toUchar (2 + x.2.2)))
          ≠ INVALID_CELLID ∧
        calcNbrNumber (toUchar (1 + x.1)) (toUchar (1 + x.2.1)) (toUchar (1 + x.2.2)) = b)) := by
  have hL : ∀ x ∈ nbrOffsets,
      calcNbrNumber (toUchar (1 + x.1)) (toUchar (1 + x.2.1)) (toUchar (1 + x.2.2)) < 32 :=
    fun x hx => Nat.lt_trans (nbrOffsets_bit_lt x hx) (by decide)
  have h := flagFold_spec (mpiGrid.getNeighbour cellID) nbrOffsets hL
    (toUint (1 <<< calcNbrNumber 1 1 1)) (by decide) b
  have h13 : (toUint (1 <<< calcNbrNumber 1 1 1)).testBit b = true ↔ b = 13 := by
    have : toUint (1 <<< calcNbrNumber 1 1 1) = 2 ^ 13 := by decide
    rw [this, Nat.testBit_two_pow]
    simp [eq_comm]
  rw [h13] at h
  exact h

theorem calculateBoundaryFlags_apply (mpiGrid : ParGrid K) (localCells : List CellID)
    (flags : CellID → Option Nat) (c : CellID) :
    calculateBoundaryFlags mpiGrid localCells flags c =
      if c ∈ localCells then some (boundaryFlagOf mpiGrid c) else flags c := by
  unfold calculateBoundaryFlags
  induction localCells generalizing flags with
  | nil => simp
  | cons a L ih =>
    rw [List.foldl_cons, ih]
    by_cases hc : c ∈ L
    · simp [hc]
    · by_cases hca : c = a
      · subst hca; simp [hc]
      · simp [hc, hca]

/-- C6: after `calculateBoundaryFlags` the mask of a local cell has, for every
offset `(i,j,k)` in `{-1,0,1}^3` other than `(0,0,0)`, bit
`(k+1)*9+(j+1)*3+(i+1)` set iff `getNeighbour(cell, calcNbrTypeID(2+i,2+j,2+k))`
is not `INVALID_CELLID`; bit 13 is set; no bit at position 27 or above is set;
distinct offsets use distinct bits. -/
theorem C6_boundary_flags (mpiGrid : ParGrid K) (localCells : List CellID)
    (flags : CellID → Option Nat) (cellID : CellID) (hmem : cellID ∈ localCells) :
    ∃ flag, calculateBoundaryFlags mpiGrid localCells flags cellID = some flag ∧
      (∀ i j k : Int, -1 ≤ i ∧ i ≤ 1 → -1 ≤ j ∧ j ≤ 1 → -1 ≤ k ∧ k ≤ 1 →
        ¬(i = 0 ∧ j = 0 ∧ k = 0) →
        (flag.testBit ((k + 1) * 9 + (j + 1) * 3 + (i + 1)).toNat = true ↔
          mpiGrid.getNeighbour cellID
            (calcNbrTypeID (toUchar (2 + i)) (toUchar (2 + j)) (toUchar (2 + k)))
            ≠ INVALID_CELLID)) ∧
      flag.testBit 13 = true ∧
      (∀ b, 27 ≤ b → flag.testBit b = false) ∧
      (∀ i j k i' j' k' : Int, -1 ≤ i ∧ i ≤ 1 → -1 ≤ j ∧ j ≤ 1 → -1 ≤ k ∧ k ≤ 1 →
        -1 ≤ i' ∧ i' ≤ 1 → -1 ≤ j' ∧ j' ≤ 1 → -1 ≤ k' ∧ k' ≤ 1 →
        ((k + 1) * 9 + (j + 1) * 3 + (i + 1)).toNat
          = ((k' + 1) * 9 + (j' + 1) * 3 + (i' + 1)).toNat →
        i = i' ∧ j = j' ∧ k = k') := by
  refine ⟨boundaryFlagOf mpiGrid cellID, ?_, ?_, ?_, ?_, ?_⟩
  · rw [calculateBoundaryFlags_apply, if_pos hmem]
  · intro i j k hi hj hk hne
    have hbit : calcNbrNumber (toUchar (1 + i)) (toUchar (1 + j)) (toUchar (1 + k))
        = ((k + 1) * 9 + (j + 1) * 3 + (i + 1)).toNat := by
      obtain rfl | rfl | rfl : i = -1 ∨ i = 0 ∨ i = 1 := by omega
      all_goals obtain rfl | rfl | rfl : j = -1 ∨ j = 0 ∨ j = 1 := by omega
      all_goals obtain rfl | rfl | rfl : k = -1 ∨ k = 0 ∨ k = 1 := by omega
      all_goals decide
    have hne13 : ((k + 1) * 9 + (j + 1) * 3 + (i + 1)).toNat ≠ 13 := by omega
    rw [(boundaryFlagOf_spec mpiGrid cellID _).2]
    constructor
    · rintro (h | ⟨x, hx, _, hv, hb⟩)
      · exact absurd h hne13
      · have hxe : x = (i, j, k) :=
          nbrOffsets_bit_injective x hx (i, j, k) (mem_nbrOffsets hi hj hk) (by rw [hb, hbit])
        subst hxe
        exact hv
    · intro hv
      refine Or.inr ⟨(i, j, k), mem_nbrOffsets hi hj hk, ?_, hv, hbit⟩
      rintro ⟨h1, h2, h3⟩
      exact hne ⟨h1, h2, h3⟩
  · rw [(boundaryFlagOf_spec mpiGrid cellID 13).2]
    exact Or.inl rfl
  · intro b hb
    by_contra hcon
    have hset : (boundaryFlagOf mpiGrid cellID).testBit b = true := by
      cases h : (boundaryFlagOf mpiGrid cellID).testBit b
      · exact absurd h hcon
      · rfl
    rcases (boundaryFlagOf_spec mpiGrid cellID b).2.mp hset with h | ⟨x, hx, _, _, hbx⟩
    · omega
    · have := nbrOffsets_bit_lt x hx
      omega
  · intro i j k i' j' k' hi hj hk hi' hj' hk' h
    omega

end Flags

end Vlasiator

namespace Vlasiator

/-- C6 at a concrete input: cell `1` of a column of four cells. -/
theorem C6_boundary_flags_witness :
    (1 : CellID) ∈ [0, 1, 2, 3] ∧
    ∃ flag, calculateBoundaryFlags (columnGrid 4 (fun _ _ => 0) (fun _ _ => 0)) [0, 1, 2, 3]
        (fun _ => none) 1 = some flag ∧ flag.testBit 13 = true :=
  ⟨by decide,
    (C6_boundary_flags (columnGrid 4 (fun _ _ => 0) (fun _ _ => 0)) [0, 1, 2, 3]
      (fun _ => none) 1 (by decide)).imp fun _ h => ⟨h.1, h.2.2.1⟩⟩

end Vlasiator

namespace Vlasiator

open CellParams fieldsolver

/-! ## Propagation of the magnetic field -/

theorem cellParamsAt_of_ne {K : Type} (g : ParGrid K) {c : CellID} (h : c ≠ INVALID_CELLID) :
    g.cellParamsAt c = some (g.cpu_cellParams c) := by
  simp [ParGrid.cellParamsAt, h]

theorem derivativesAt_of_ne {K : Type} (g : ParGrid K) {c : CellID} (h : c ≠ INVALID_CELLID) :
    g.derivativesAt c = some (g.cpu_derivatives c) := by
  simp [ParGrid.derivativesAt, h]

section Propagate

variable {K : Type} [LinearOrderedField K]

/-- One call of `propagateMagneticField` on a ready cell: it returns, and the
new mesh differs from the old one only in `BX`, `BY`, `BZ` of that cell, each
of which received its curl update iff its capability test passes. -/
theorem propagateMagneticField_spec (G : Globals) (c : CellID) (g : ParGrid K) (dt : K)
    (e : Nat) (he : G.boundaryFlags c = some e) (hready : PropagateReady G g c) :
    ∃ g', propagateMagneticField G c g dt = some g' ∧
      g'.getNeighbour = g.getNeighbour ∧ g'.getCells = g.getCells ∧
      g'.isRemote = g.isRemote ∧ g'.cpu_derivatives = g.cpu_derivatives ∧
      ∀ c' p, g'.cpu_cellParams c' p =
        if c' = c then propagatedCellParams G g dt e c p else g.cpu_cellParams c' p := by
  obtain ⟨hc, -, hall⟩ := hready
  obtain ⟨hx, hy, hz⟩ := hall e (by simp [he])
  unfold propagateMagneticField
  simp only [cellParamsAt_of_ne g hc, he, Option.bind_eq_bind, Option.some_bind]
  by_cases tx : passes e G.masks.PROPAGATE_BX <;>
  by_cases ty : passes e G.masks.PROPAGATE_BY <;>
  by_cases tz : passes e G.masks.PROPAGATE_BZ
  all_goals
    have tx' := tx; have ty' := ty; have tz' := tz
    unfold passes at tx' ty' tz'
    simp only [propagateMagneticFieldBX, propagateMagneticFieldBY, propagateMagneticFieldBZ,
      tx', ty', tz', if_true, if_false, Option.bind_eq_bind, Option.some_bind, Option.pure_def,
      ParGrid.cellParamsAt, ParGrid.setCellParam]
    first
      | (have hx' := hx tx; simp only [hx'.1, hx'.2, if_false, Option.some_bind])
      | skip
    first
      | (have hy' := hy ty; simp only [hy'.1, hy'.2, if_false, Option.some_bind])
      | skip
    first
      | (have hz' := hz tz; simp only [hz'.1, hz'.2, if_false, Option.some_bind])
      | skip
    refine ⟨_, rfl, rfl, rfl, rfl, rfl, ?_⟩
    intro c' p
    by_cases hcc : c' = c <;> cases p <;> simp [hcc, tx, ty, tz, propagatedCellParams]

/-- Readiness of a cell only depends on the neighbour lookup of the mesh. -/
theorem PropagateReady_congr {G : Globals} {g g' : ParGrid K} {c : CellID}
    (h : g'.getNeighbour = g.getNeighbour) (hr : PropagateReady G g c) :
    PropagateReady G g' c := by
  unfold PropagateReady at *
  rw [h]
  exact hr

/-- The closed form of a propagated cell only depends on the data it names:
the neighbour lookup, the widths, `B` of the cell and the edge fields. -/
theorem propagatedCellParams_congr (G : Globals) (g g' : ParGrid K) (dt : K) (e : Nat)
    (c : CellID) (p : CellParams) (hn : g'.getNeighbour = g.getNeighbour)
    (hc : g'.cpu_cellParams c = g.cpu_cellParams c)
    (hE : ∀ c' q, q = EX ∨ q = EY ∨ q = EZ → g'.cpu_cellParams c' q = g.cpu_cellParams c' q) :
    propagatedCellParams G g' dt e c p = propagatedCellParams G g dt e c p := by
  unfold propagatedCellParams
  rw [hn, hc, hE _ EY (by simp), hE _ EZ (by simp), hE _ EX (by simp),
    hE _ EX (by simp), hE _ EY (by simp), hE _ EZ (by simp)]

theorem propagatedCellParams_other (G : Globals) (g : ParGrid K) (dt : K) (e : Nat)
    (c : CellID) (p : CellParams) (hp : p ≠ BX ∧ p ≠ BY ∧ p ≠ BZ) :
    propagatedCellParams G g dt e c p = g.cpu_cellParams c p := by
  simp [propagatedCellParams, hp.1, hp.2.1, hp.2.2]

/-- The first loop of `propagateMagneticFieldSimple` on a list of distinct
ready cells: it returns, and every listed cell carries the update that one
call on the original mesh gives it; nothing else changes. -/
theorem propagateAllCells_spec (G : Globals) (dt : K) (L : List CellID) (hL : L.Nodup)
    (g : ParGrid K) (hready : ∀ c ∈ L, PropagateReady G g c) :
    ∃ g1, propagateAllCells G dt L g = some g1 ∧
      g1.getNeighbour = g.getNeighbour ∧ g1.getCells = g.getCells ∧
      g1.isRemote = g.isRemote ∧ g1.cpu_derivatives = g.cpu_derivatives ∧
      ∀ c p, g1.cpu_cellParams c p =
        if c ∈ L then propagatedCellParams G g dt ((G.boundaryFlags c).getD 0) c p
        else g.cpu_cellParams c p := by
  unfold propagateAllCells
  induction L generalizing g with
  | nil => exact ⟨g, rfl, rfl, rfl, rfl, rfl, by simp⟩
  | cons a L ih =>
    have hra := hready a (List.mem_cons_self _ _)
    obtain ⟨e, he⟩ := Option.isSome_iff_exists.mp hra.2.1
    obtain ⟨ga, hga, hn, hcells, hrem, hder, hcp⟩ := propagateMagneticField_spec G a g dt e he hra
    have hnd := List.nodup_cons.mp hL
    obtain ⟨g1, hg1, hn1, hcells1, hrem1, hder1, hcp1⟩ := ih hnd.2 ga
      (fun c hc => PropagateReady_congr hn (hready c (List.mem_cons_of_mem _ hc)))
    refine ⟨g1, ?_, hn1.trans hn, hcells1.trans hcells, hrem1.trans hrem, hder1.trans hder, ?_⟩
    · rw [List.foldlM_cons, hga]
      exact hg1
    · intro c p
      rw [hcp1]
      by_cases hcL : c ∈ L
      · have hca : c ≠ a := fun h => hnd.1 (h ▸ hcL)
        rw [if_pos hcL, if_pos (List.mem_cons_of_mem _ hcL)]
        apply propagatedCellParams_congr _ _ _ _ _ _ _ hn
        · funext q; rw [hcp, if_neg hca]
        · intro c' q hq
          rw [hcp]
          by_cases h : c' = a
          · rw [if_pos h, h]
            apply propagatedCellParams_other
            rcases hq with rfl | rfl | rfl <;> simp
          · rw [if_neg h]
      · rw [if_neg hcL, hcp]
        by_cases h : c = a
        · subst h
          rw [if_pos rfl, if_pos (List.mem_cons_self _ _), he]
          rfl
        · rw [if_neg h, if_neg]
          simp [h, hcL]

end Propagate

end Vlasiator

namespace Vlasiator

open CellParams fieldsolver

section BoundaryB

variable {K : Type} [LinearOrderedField K]

/-- One pass of the second loop of `propagateMagneticFieldSimple` over a cell
with flag word `e`: it returns, and the new mesh differs from the old one only
in those of `BX`, `BY`, `BZ` of that cell whose capability test fails; each of
these holds the value of its boundary-condition function, called with the
cell, `e` and the complement of `e`. -/
theorem applyBoundaryCondB_spec (X : Externals K) (G : Globals) (c : CellID) (g : ParGrid K)
    (e : Nat) (he : G.boundaryFlags c = some e) (hc : c ≠ INVALID_CELLID) :
    ∃ g' ga gb, applyBoundaryCondB X G c g = some g' ∧
      g'.getNeighbour = g.getNeighbour ∧ g'.getCells = g.getCells ∧
      g'.isRemote = g.isRemote ∧ g'.cpu_derivatives = g.cpu_derivatives ∧
      ∀ c' p, g'.cpu_cellParams c' p =
        if c' = c ∧ p = BZ ∧ ¬passes e G.masks.PROPAGATE_BZ then
          X.fieldSolverBoundaryCondBz c e (toUint (e ^^^ 4294967295)) gb
        else if c' = c ∧ p = BY ∧ ¬passes e G.masks.PROPAGATE_BY then
          X.fieldSolverBoundaryCondBy c e (toUint (e ^^^ 4294967295)) ga
        else if c' = c ∧ p = BX ∧ ¬passes e G.masks.PROPAGATE_BX then
          X.fieldSolverBoundaryCondBx c e (toUint (e ^^^ 4294967295)) g
        else g.cpu_cellParams c' p := by
  unfold applyBoundaryCondB
  simp only [he, Option.bind_eq_bind, Option.some_bind, ParGrid.cellParamsAt, hc, if_false,
    Option.pure_def]
  by_cases tx : passes e G.masks.PROPAGATE_BX <;>
  by_cases ty : passes e G.masks.PROPAGATE_BY <;>
  by_cases tz : passes e G.masks.PROPAGATE_BZ
  all_goals
    have tx' := tx; have ty' := ty; have tz' := tz
    unfold passes at tx' ty' tz'
    simp only [tx', ty', tz', ne_eq, not_true_eq_false, not_false_eq_true, if_true, if_false,
      Option.some_bind, ParGrid.setCellParam]
    refine ⟨_,
      (if passes e G.masks.PROPAGATE_BX then g
        else g.setCellParam c BX
          (X.fieldSolverBoundaryCondBx c e (toUint (e ^^^ 4294967295)) g)),
      (if passes e G.masks.PROPAGATE_BY then
          (if passes e G.masks.PROPAGATE_BX then g
            else g.setCellParam c BX
              (X.fieldSolverBoundaryCondBx c e (toUint (e ^^^ 4294967295)) g))
        else
          (if passes e G.masks.PROPAGATE_BX then g
            else g.setCellParam c BX
              (X.fieldSolverBoundaryCondBx c e (toUint (e ^^^ 4294967295)) g)).setCellParam c BY
            (X.fieldSolverBoundaryCondBy c e (toUint (e ^^^ 4294967295))
              (if passes e G.masks.PROPAGATE_BX then g
                else g.setCellParam c BX
                  (X.fieldSolverBoundaryCondBx c e (toUint (e ^^^ 4294967295)) g)))),
      rfl, rfl, rfl, rfl, rfl, ?_⟩
    intro c' p
    by_cases hcc : c' = c <;> cases p <;> simp [hcc, tx, ty, tz, ParGrid.setCellParam]

/-- The values that decide whether the second loop replaces an entry. -/
theorem boundaryLoop_spec (X : Externals K) (G : Globals) (L : List CellID) (hL : L.Nodup)
    (g : ParGrid K)
    (hready : ∀ c ∈ L, c ≠ INVALID_CELLID ∧ (G.boundaryFlags c).isSome = true) :
    ∃ g2, L.foldlM (fun g cellID => applyBoundaryCondB X G cellID g) g = some g2 ∧
      g2.getNeighbour = g.getNeighbour ∧ g2.getCells = g.getCells ∧
      g2.isRemote = g.isRemote ∧ g2.cpu_derivatives = g.cpu_derivatives ∧
      (∀ c p, (p ≠ BX ∧ p ≠ BY ∧ p ≠ BZ) → g2.cpu_cellParams c p = g.cpu_cellParams c p) ∧
      (∀ c p, c ∉ L → g2.cpu_cellParams c p = g.cpu_cellParams c p) ∧
      (∀ c ∈ L, ∀ e, G.boundaryFlags c = some e →
        (if passes e G.masks.PROPAGATE_BX then g2.cpu_cellParams c BX = g.cpu_cellParams c BX
          else ∃ gi, g2.cpu_cellParams c BX =
            X.fieldSolverBoundaryCondBx c e (toUint (e ^^^ 4294967295)) gi) ∧
        (if passes e G.masks.PROPAGATE_BY then g2.cpu_cellParams c BY = g.cpu_cellParams c BY
          else ∃ gi, g2.cpu_cellParams c BY =
            X.fieldSolverBoundaryCondBy c e (toUint (e ^^^ 4294967295)) gi) ∧
        (if passes e G.masks.PROPAGATE_BZ then g2.cpu_cellParams c BZ = g.cpu_cellParams c BZ
          else ∃ gi, g2.cpu_cellParams c BZ =
            X.fieldSolverBoundaryCondBz c e (toUint (e ^^^ 4294967295)) gi)) := by
  induction L generalizing g with
  | nil => exact ⟨g, rfl, rfl, rfl, rfl, rfl, fun _ _ _ => rfl, fun _ _ _ => rfl, by simp⟩
  | cons a L ih =>
    have hra := hready a (List.mem_cons_self _ _)
    obtain ⟨ea, hea⟩ := Option.isSome_iff_exists.mp hra.2
    obtain ⟨g', ga, gb, hrun, hn, hcells, hrem, hder, hcp⟩ :=
      applyBoundaryCondB_spec X G a g ea hea hra.1
    have hnd := List.nodup_cons.mp hL
    obtain ⟨g2, hg2, hn2, hcells2, hrem2, hder2, hoth2, hout2, hin2⟩ := ih hnd.2 g'
      (fun c hc => hready c (List.mem_cons_of_mem _ hc))
    refine ⟨g2, ?_, hn2.trans hn, hcells2.trans hcells, hrem2.trans hrem, hder2.trans hder,
      ?_, ?_, ?_⟩
    · rw [List.foldlM_cons, hrun]
      exact hg2
    · intro c p hp
      rw [hoth2 c p hp, hcp]
      simp [hp.1, hp.2.1, hp.2.2]
    · intro c p hc
      have hca : c ≠ a := fun h => hc (h ▸ List.mem_cons_self _ _)
      have hcL : c ∉ L := fun h => hc (List.mem_cons_of_mem _ h)
      rw [hout2 c p hcL, hcp]
      simp [hca]
    · intro c hc e he
      rcases List.mem_cons.mp hc with rfl | hcL
      · have hee : ea = e := Option.some.inj (hea.symm.trans he)
        subst hee
        rw [hout2 c BX hnd.1, hout2 c BY hnd.1, hout2 c BZ hnd.1, hcp, hcp, hcp]
        refine ⟨?_, ?_, ?_⟩
        · by_cases t : passes ea G.masks.PROPAGATE_BX
          · simp [t]
          · simp only [t, if_false]; exact ⟨g, by simp⟩
        · by_cases t : passes ea G.masks.PROPAGATE_BY
          · simp [t]
          · simp only [t, if_false]; exact ⟨ga, by simp⟩
        · by_cases t : passes ea G.masks.PROPAGATE_BZ
          · simp [t]
          · simp only [t, if_false]; exact ⟨gb, by simp⟩
      · have hca : c ≠ a := fun h => hnd.1 (h ▸ hcL)
        have h3 := hin2 c hcL e he
        have hx : g'.cpu_cellParams c BX = g.cpu_cellParams c BX := by rw [hcp]; simp [hca]
        have hy : g'.cpu_cellParams c BY = g.cpu_cellParams c BY := by rw [hcp]; simp [hca]
        have hz : g'.cpu_cellParams c BZ = g.cpu_cellParams c BZ := by rw [hcp]; simp [hca]
        rw [hx, hy, hz] at h3
        exact h3

end BoundaryB

end Vlasiator

namespace Vlasiator

open CellParams fieldsolver

section PropagateClaims

variable {K : Type} [LinearOrderedField K]

/-- C2: for every component whose capability test passes,
`propagateMagneticField` adds the discrete curl taken with the cell's own
widths: `BX' = BX + dt/dz*(EY(+z) - EY) + dt/dy*(EZ - EZ(+y))`,
`BY' = BY + dt/dx*(EZ(+x) - EZ) + dt/dz*(EX - EX(+z))`,
`BZ' = BZ + dt/dy*(EX(+y) - EX) + dt/dx*(EY - EY(+x))`. -/
theorem C2_discrete_curl (G : Globals) (c : CellID) (g : ParGrid K) (dt : K) (e : Nat)
    (he : G.boundaryFlags c = some e) (hready : PropagateReady G g c) :
    ∃ g', propagateMagneticField G c g dt = some g' ∧
      (passes e G.masks.PROPAGATE_BX →
        g'.cpu_cellParams c BX = g.cpu_cellParams c BX
          + dt / g.cpu_cellParams c DZ
            * (g.cpu_cellParams (g.getNeighbour c (calcNbrTypeID 2 2 3)) EY
              - g.cpu_cellParams c EY)
          + dt / g.cpu_cellParams c DY
            * (g.cpu_cellParams c EZ
              - g.cpu_cellParams (g.getNeighbour c (calcNbrTypeID 2 3 2)) EZ)) ∧
      (passes e G.masks.PROPAGATE_BY →
        g'.cpu_cellParams c BY = g.cpu_cellParams c BY
          + dt / g.cpu_cellParams c DX
            * (g.cpu_cellParams (g.getNeighbour c (calcNbrTypeID 3 2 2)) EZ
              - g.cpu_cellParams c EZ)
          + dt / g.cpu_cellParams c DZ
            * (g.cpu_cellParams c EX
              - g.cpu_cellParams (g.getNeighbour c (calcNbrTypeID 2 2 3)) EX)) ∧
      (passes e G.masks.PROPAGATE_BZ →
        g'.cpu_cellParams c BZ = g.cpu_cellParams c BZ
          + dt / g.cpu_cellParams c DY
            * (g.cpu_cellParams (g.getNeighbour c (calcNbrTypeID 2 3 2)) EX
              - g.cpu_cellParams c EX)
          + dt / g.cpu_cellParams c DX
            * (g.cpu_cellParams c EY
              - g.cpu_cellParams (g.getNeighbour c (calcNbrTypeID 3 2 2)) EY)) := by
  obtain ⟨g', hrun, -, -, -, -, hcp⟩ := propagateMagneticField_spec G c g dt e he hready
  refine ⟨g', hrun, ?_, ?_, ?_⟩
  · intro t
    rw [hcp, if_pos rfl]
    simp [propagatedCellParams, t, add_assoc]
  · intro t
    rw [hcp, if_pos rfl]
    simp [propagatedCellParams, t, add_assoc]
  · intro t
    rw [hcp, if_pos rfl]
    simp [propagatedCellParams, t, add_assoc]

/-- C1: constrained transport preserves the discrete divergence. If the cell
`c` and its `+x`, `+y`, `+z` neighbours are in the list of distinct cells that
is propagated, pass the three propagation tests and share the same non-zero
widths, and if the neighbour lookups commute, then the divergence on `c` is
the same before and after the first loop of `propagateMagneticFieldSimple`
(every cell propagated once), and also after the whole function, for every
`dt` and all stored edge fields. -/
theorem C1_divergence_preserved (X : Externals K) (G : Globals) (g : ParGrid K) (dt : K)
    (L : List CellID) (hL : L.Nodup) (hready : ∀ c ∈ L, PropagateReady G g c) (c : CellID)
    (hmem : ∀ c' ∈ [c, g.getNeighbour c (calcNbrTypeID 3 2 2),
        g.getNeighbour c (calcNbrTypeID 2 3 2), g.getNeighbour c (calcNbrTypeID 2 2 3)],
      c' ∈ L ∧
      (∀ e, G.boundaryFlags c' = some e → passes e G.masks.PROPAGATE_BX ∧
        passes e G.masks.PROPAGATE_BY ∧ passes e G.masks.PROPAGATE_BZ) ∧
      g.cpu_cellParams c' DX = g.cpu_cellParams c DX ∧
      g.cpu_cellParams c' DY = g.cpu_cellParams c DY ∧
      g.cpu_cellParams c' DZ = g.cpu_cellParams c DZ)
    (hnz : g.cpu_cellParams c DX ≠ 0 ∧ g.cpu_cellParams c DY ≠ 0 ∧ g.cpu_cellParams c DZ ≠ 0)
    (hcomm :
      g.getNeighbour (g.getNeighbour c (calcNbrTypeID 3 2 2)) (calcNbrTypeID 2 3 2)
        = g.getNeighbour (g.getNeighbour c (calcNbrTypeID 2 3 2)) (calcNbrTypeID 3 2 2) ∧
      g.getNeighbour (g.getNeighbour c (calcNbrTypeID 3 2 2)) (calcNbrTypeID 2 2 3)
        = g.getNeighbour (g.getNeighbour c (calcNbrTypeID 2 2 3)) (calcNbrTypeID 3 2 2) ∧
      g.getNeighbour (g.getNeighbour c (calcNbrTypeID 2 3 2)) (calcNbrTypeID 2 2 3)
        = g.getNeighbour (g.getNeighbour c (calcNbrTypeID 2 2 3)) (calcNbrTypeID 2 3 2)) :
    ∃ g1 g2, propagateAllCells G dt L g = some g1 ∧
      propagateMagneticFieldSimple X G g dt L = some g2 ∧
      divergence g1 c = divergence g c ∧ divergence g2 c = divergence g c := by
  obtain ⟨g1, hg1, hn1, hcells1, -, -, hcp1⟩ := propagateAllCells_spec G dt L hL g hready
  obtain ⟨g2, hg2, hn2, -, -, -, hoth2, -, hin2⟩ := boundaryLoop_spec X G L hL g1
    (fun c hc => ⟨(hready c hc).1, (hready c hc).2.1⟩)
  -- the value of a propagated cell that passes all three tests
  have key : ∀ c', c' ∈ L →
      (∀ e, G.boundaryFlags c' = some e → passes e G.masks.PROPAGATE_BX ∧
        passes e G.masks.PROPAGATE_BY ∧ passes e G.masks.PROPAGATE_BZ) →
      ∀ p, g2.cpu_cellParams c' p = g1.cpu_cellParams c' p ∧
        g1.cpu_cellParams c' p =
          propagatedCellParams G g dt ((G.boundaryFlags c').getD 0) c' p := by
    intro c' hc' hp p
    obtain ⟨e, he⟩ := Option.isSome_iff_exists.mp (hready c' hc').2.1
    have h3 := hin2 c' hc' e he
    obtain ⟨px, py, pz⟩ := hp e he
    rw [if_pos px, if_pos py, if_pos pz] at h3
    refine ⟨?_, by rw [hcp1, if_pos hc']⟩
    by_cases hx : p = BX
    · rw [hx]; exact h3.1
    · by_cases hy : p = BY
      · rw [hy]; exact h3.2.1
      · by_cases hz : p = BZ
        · rw [hz]; exact h3.2.2
        · exact hoth2 c' p ⟨hx, hy, hz⟩
  have pass : ∀ c', c' ∈ L →
      (∀ e, G.boundaryFlags c' = some e → passes e G.masks.PROPAGATE_BX ∧
        passes e G.masks.PROPAGATE_BY ∧ passes e G.masks.PROPAGATE_BZ) →
      passes ((G.boundaryFlags c').getD 0) G.masks.PROPAGATE_BX ∧
      passes ((G.boundaryFlags c').getD 0) G.masks.PROPAGATE_BY ∧
      passes ((G.boundaryFlags c').getD 0) G.masks.PROPAGATE_BZ := by
    intro c' hc' hp
    obtain ⟨e, he⟩ := Option.isSome_iff_exists.mp (hready c' hc').2.1
    rw [he]
    exact hp e he
  obtain ⟨m0, p0, -⟩ := hmem c (by simp)
  obtain ⟨mx, px, wx⟩ := hmem (g.getNeighbour c (calcNbrTypeID 3 2 2)) (by simp)
  obtain ⟨my, py, wy⟩ := hmem (g.getNeighbour c (calcNbrTypeID 2 3 2)) (by simp)
  obtain ⟨mz, pz, wz⟩ := hmem (g.getNeighbour c (calcNbrTypeID 2 2 3)) (by simp)
  obtain ⟨q0x, q0y, q0z⟩ := pass c m0 p0
  obtain ⟨qxx, qxy, qxz⟩ := pass _ mx px
  obtain ⟨qyx, qyy, qyz⟩ := pass _ my py
  obtain ⟨qzx, qzy, qzz⟩ := pass _ mz pz
  obtain ⟨hnx, hny, hnz'⟩ := hnz
  have e1 : divergence g1 c = divergence g c := by
    unfold divergence
    simp only [hn1, (key c m0 p0 _).2, (key _ mx px _).2, (key _ my py _).2,
      (key _ mz pz _).2]
    simp only [propagatedCellParams, q0x, q0y, q0z, qxx, qxy, qxz, qyx, qyy, qyz, qzx, qzy, qzz,
      and_true, if_true, reduceCtorEq, false_and, if_false, wx.1, wx.2.1, wx.2.2, wy.1, wy.2.1,
      wy.2.2, wz.1, wz.2.1, wz.2.2, hcomm.1, hcomm.2.1, hcomm.2.2]
    norm_num
    field_simp
    ring
  refine ⟨g1, g2, hg1, ?_, e1, ?_⟩
  · unfold propagateMagneticFieldSimple
    rw [hg1]
    exact hg2
  · rw [← e1]
    unfold divergence
    simp only [hn2, (key c m0 p0 _).1, (key _ (hn1 ▸ mx) (hn1 ▸ px) _).1,
      (key _ (hn1 ▸ my) (hn1 ▸ py) _).1, (key _ (hn1 ▸ mz) (hn1 ▸ pz) _).1]

/-- C10: in `propagateMagneticFieldSimple` on a list of distinct ready cells,
a component whose propagation test fails receives no curl in the first loop
and ends as the value of its boundary-condition function for the cell, its
mask and the complement of its mask; a component whose test passes ends as the
interior curl update, and the boundary value is not applied. -/
theorem C10_boundary_substitution_of_B (X : Externals K) (G : Globals) (g : ParGrid K) (dt : K)
    (L : List CellID) (hL : L.Nodup) (hready : ∀ c ∈ L, PropagateReady G g c) (c : CellID)
    (hc : c ∈ L) (e : Nat) (he : G.boundaryFlags c = some e) :
    ∃ g1 g2, propagateAllCells G dt L g = some g1 ∧
      propagateMagneticFieldSimple X G g dt L = some g2 ∧
      (if passes e G.masks.PROPAGATE_BX then
          g2.cpu_cellParams c BX = g.cpu_cellParams c BX
            + dt / g.cpu_cellParams c DZ
              * (g.cpu_cellParams (g.getNeighbour c (calcNbrTypeID 2 2 3)) EY
                - g.cpu_cellParams c EY)
            + dt / g.cpu_cellParams c DY
              * (g.cpu_cellParams c EZ
                - g.cpu_cellParams (g.getNeighbour c (calcNbrTypeID 2 3 2)) EZ)
        else g1.cpu_cellParams c BX = g.cpu_cellParams c BX ∧
          ∃ gi, g2.cpu_cellParams c BX =
            X.fieldSolverBoundaryCondBx c e (toUint (e ^^^ 4294967295)) gi) ∧
      (if passes e G.masks.PROPAGATE_BY then
          g2.cpu_cellParams c BY = g.cpu_cellParams c BY
            + dt / g.cpu_cellParams c DX
              * (g.cpu_cellParams (g.getNeighbour c (calcNbrTypeID 3 2 2)) EZ
                - g.cpu_cellParams c EZ)
            + dt / g.cpu_cellParams c DZ
              * (g.cpu_cellParams c EX
                - g.cpu_cellParams (g.getNeighbour c (calcNbrTypeID 2 2 3)) EX)
        else g1.cpu_cellParams c BY = g.cpu_cellParams c BY ∧
          ∃ gi, g2.cpu_cellParams c BY =
            X.fieldSolverBoundaryCondBy c e (toUint (e ^^^ 4294967295)) gi) ∧
      (if passes e G.masks.PROPAGATE_BZ then
          g2.cpu_cellParams c BZ = g.cpu_cellParams c BZ
            + dt / g.cpu_cellParams c DY
              * (g.cpu_cellParams (g.getNeighbour c (calcNbrTypeID 2 3 2)) EX
                - g.cpu_cellParams c EX)
            + dt / g.cpu_cellParams c DX
              * (g.cpu_cellParams c EY
                - g.cpu_cellParams (g.getNeighbour c (calcNbrTypeID 3 2 2)) EY)
        else g1.cpu_cellParams c BZ = g.cpu_cellParams c BZ ∧
          ∃ gi, g2.cpu_cellParams c BZ =
            X.fieldSolverBoundaryCondBz c e (toUint (e ^^^ 4294967295)) gi) := by
  obtain ⟨g1, hg1, -, -, -, -, hcp1⟩ := propagateAllCells_spec G dt L hL g hready
  obtain ⟨g2, hg2, -, -, -, -, -, -, hin2⟩ := boundaryLoop_spec X G L hL g1
    (fun c hc => ⟨(hready c hc).1, (hready c hc).2.1⟩)
  have h3 := hin2 c hc e he
  have hv : ∀ p, g1.cpu_cellParams c p = propagatedCellParams G g dt e c p := by
    intro p
    rw [hcp1, if_pos hc, he]
    rfl
  refine ⟨g1, g2, hg1, ?_, ?_, ?_, ?_⟩
  · unfold propagateMagneticFieldSimple
    rw [hg1]
    exact hg2
  · by_cases t : passes e G.masks.PROPAGATE_BX
    · rw [if_pos t]
      have := h3.1
      rw [if_pos t, hv] at this
      rw [this]
      simp [propagatedCellParams, t, add_assoc]
    · rw [if_neg t]
      have := h3.1
      rw [if_neg t] at this
      refine ⟨?_, this⟩
      rw [hv]
      simp [propagatedCellParams, t]
  · by_cases t : passes e G.masks.PROPAGATE_BY
    · rw [if_pos t]
      have := h3.2.1
      rw [if_pos t, hv] at this
      rw [this]
      simp [propagatedCellParams, t, add_assoc]
    · rw [if_neg t]
      have := h3.2.1
      rw [if_neg t] at this
      refine ⟨?_, this⟩
      rw [hv]
      simp [propagatedCellParams, t]
  · by_cases t : passes e G.masks.PROPAGATE_BZ
    · rw [if_pos t]
      have := h3.2.2
      rw [if_pos t, hv] at this
      rw [this]
      simp [propagatedCellParams, t, add_assoc]
    · rw [if_neg t]
      have := h3.2.2
      rw [if_neg t] at this
      refine ⟨?_, this⟩
      rw [hv]
      simp [propagatedCellParams, t]

end PropagateClaims

theorem column4_ready :
    ∀ c ∈ [0, 1, 2, 3], PropagateReady (columnGlobals 4) (columnGrid 4 shearCellParams
      (fun _ _ => 0)) c := by
  decide

/-- C2 at a concrete input: cell `1` of a column of four cells with the edge
field `EY = c - 1`, time step `1`; the cell passes all three tests and `BX`
grows by `dt/dz * (EY(2) - EY(1)) = 1`. -/
theorem C2_discrete_curl_witness :
    (columnGlobals 4).boundaryFlags 1 = some 134217727 ∧
    PropagateReady (columnGlobals 4) (columnGrid 4 shearCellParams (fun _ _ => 0)) 1 ∧
    ∃ g', propagateMagneticField (columnGlobals 4) 1
        (columnGrid 4 shearCellParams (fun _ _ => 0)) 1 = some g' ∧
      g'.cpu_cellParams 1 BX = 1 :=
  ⟨by decide, by decide,
    (C2_discrete_curl (columnGlobals 4) 1 (columnGrid 4 shearCellParams (fun _ _ => 0)) 1
      134217727 (by decide) (by decide)).imp fun _ h =>
        ⟨h.1, (h.2.1 (by decide)).trans (by
          norm_num [columnGrid, columnGetNeighbour, shearCellParams, calcNbrTypeID,
            INVALID_CELLID])⟩⟩

theorem column4_flags :
    (columnGlobals 4).boundaryFlags 0 = some 134217216 ∧
    (columnGlobals 4).boundaryFlags 1 = some 134217727 ∧
    (columnGlobals 4).boundaryFlags 2 = some 134217727 ∧
    (columnGlobals 4).boundaryFlags 3 = some 262143 := by
  decide

/-- C1 at a concrete input: a column of four cells with the edge field
`EY = c - 1` and time step `1`; on cell `1` the divergence is unchanged. -/
theorem C1_divergence_preserved_witness :
    ∃ g1 g2,
      propagateAllCells (columnGlobals 4) 1 [0, 1, 2, 3]
        (columnGrid 4 shearCellParams (fun _ _ => 0)) = some g1 ∧
      propagateMagneticFieldSimple sampleExternals (columnGlobals 4)
        (columnGrid 4 shearCellParams (fun _ _ => 0)) 1 [0, 1, 2, 3] = some g2 ∧
      divergence g1 1 = divergence (columnGrid 4 shearCellParams (fun _ _ => 0)) 1 ∧
      divergence g2 1 = divergence (columnGrid 4 shearCellParams (fun _ _ => 0)) 1 :=
  C1_divergence_preserved sampleExternals (columnGlobals 4)
    (columnGrid 4 shearCellParams (fun _ _ => 0)) 1 [0, 1, 2, 3] (by decide) column4_ready 1
    (by
      have h1 : (columnGrid 4 shearCellParams (fun _ _ => 0)).getNeighbour 1
          (calcNbrTypeID 3 2 2) = 1 := by decide
      have h2 : (columnGrid 4 shearCellParams (fun _ _ => 0)).getNeighbour 1
          (calcNbrTypeID 2 3 2) = 1 := by decide
      have h3 : (columnGrid 4 shearCellParams (fun _ _ => 0)).getNeighbour 1
          (calcNbrTypeID 2 2 3) = 2 := by decide
      rw [h1, h2, h3]
      intro c' hc'
      simp only [List.mem_cons, List.mem_singleton, List.not_mem_nil, or_false, or_self] at hc'
      rcases hc' with rfl | rfl | rfl | rfl
      · refine ⟨by decide, ?_, rfl, rfl, rfl⟩
        intro e he
        rw [column4_flags.2.1] at he
        cases he
        decide
      · refine ⟨by decide, ?_, rfl, rfl, rfl⟩
        intro e he
        rw [column4_flags.2.1] at he
        cases he
        decide
      · refine ⟨by decide, ?_, rfl, rfl, rfl⟩
        intro e he
        rw [column4_flags.2.1] at he
        cases he
        decide
      · refine ⟨by decide, ?_, rfl, rfl, rfl⟩
        intro e he
        rw [column4_flags.2.2.1] at he
        cases he
        decide)
    (by norm_num [columnGrid, shearCellParams])
    (by decide)

/-- C10 at a concrete input: cell `0` of a column of four cells has no `-z`
neighbour, so `BX` is not propagated there and ends as the boundary value
(`1` for `sampleExternals`). -/
theorem C10_boundary_substitution_of_B_witness :
    ∃ g1 g2,
      propagateAllCells (columnGlobals 4) 1 [0, 1, 2, 3]
        (columnGrid 4 shearCellParams (fun _ _ => 0)) = some g1 ∧
      propagateMagneticFieldSimple sampleExternals (columnGlobals 4)
        (columnGrid 4 shearCellParams (fun _ _ => 0)) 1 [0, 1, 2, 3] = some g2 ∧
      g1.cpu_cellParams 0 BX = 0 ∧ g2.cpu_cellParams 0 BX = 1 := by
  obtain ⟨g1, g2, h1, h2, hx, -, -⟩ :=
    C10_boundary_substitution_of_B sampleExternals (columnGlobals 4)
      (columnGrid 4 shearCellParams (fun _ _ => 0)) 1 [0, 1, 2, 3] (by decide) column4_ready 0
      (by decide) 134217216 column4_flags.1
  rw [if_neg (by decide)] at hx
  obtain ⟨hx1, gi, hx2⟩ := hx
  exact ⟨g1, g2, h1, h2, hx1, hx2⟩

end Vlasiator

namespace Vlasiator

open CellParams fieldsolver

/-! ## Derivatives -/

theorem setDerivative_apply {K : Type} (g : ParGrid K) (id : CellID) (slot : fieldsolver) (v : K)
    (c : CellID) (s : fieldsolver) :
    (g.setDerivative id slot v).cpu_derivatives c s =
      if c = id ∧ s = slot then v else g.cpu_derivatives c s := rfl

theorem setDerivative_frame {K : Type} (g : ParGrid K) (id : CellID) (slot : fieldsolver)
    (v : K) :
    (g.setDerivative id slot v).getNeighbour = g.getNeighbour ∧
    (g.setDerivative id slot v).getCells = g.getCells ∧
    (g.setDerivative id slot v).isRemote = g.isRemote ∧
    (g.setDerivative id slot v).cpu_cellParams = g.cpu_cellParams := ⟨rfl, rfl, rfl, rfl⟩

section DerivativeBlocks

variable {K : Type} [LinearOrderedField K]

/-- The x-direction block of `calculateDerivatives`: when the neighbours it
reads exist it returns; it changes nothing but the derivative array of the
cell; if the test passes the six x-slots hold the limited differences of the
two x-neighbours and the other slots are untouched, otherwise the array is
the one left by the boundary-condition function. -/
theorem calculateDerivativesX_spec (X : Externals K) (G : Globals) (c : CellID) (e ne : Nat)
    (g : ParGrid K)
    (hv : passes e G.masks.CALCULATE_DX →
      getNeighbourID g c (2 - 1) 2 2 ≠ INVALID_CELLID ∧ getNeighbourID g c (2 + 1) 2 2 ≠ INVALID_CELLID) :
    ∃ g1, calculateDerivativesX X G c e ne g = some g1 ∧
      g1.getNeighbour = g.getNeighbour ∧ g1.getCells = g.getCells ∧
      g1.isRemote = g.isRemote ∧ g1.cpu_cellParams = g.cpu_cellParams ∧
      (∀ c' s, c' ≠ c → g1.cpu_derivatives c' s = g.cpu_derivatives c' s) ∧
      (passes e G.masks.CALCULATE_DX →
        (∀ s, s ∉ xDerivativeSlots → g1.cpu_derivatives c s = g.cpu_derivatives c s) ∧
        g1.cpu_derivatives c drhodx =
          limiter (g.cpu_cellParams (getNeighbourID g c (2 - 1) 2 2) RHO) (g.cpu_cellParams c RHO)
            (g.cpu_cellParams (getNeighbourID g c (2 + 1) 2 2) RHO) ∧
        g1.cpu_derivatives c dBydx =
          limiter (g.cpu_cellParams (getNeighbourID g c (2 - 1) 2 2) BY) (g.cpu_cellParams c BY)
            (g.cpu_cellParams (getNeighbourID g c (2 + 1) 2 2) BY) ∧
        g1.cpu_derivatives c dBzdx =
          limiter (g.cpu_cellParams (getNeighbourID g c (2 - 1) 2 2) BZ) (g.cpu_cellParams c BZ)
            (g.cpu_cellParams (getNeighbourID g c (2 + 1) 2 2) BZ) ∧
        g1.cpu_derivatives c dVxdx =
          limiter
            (g.cpu_cellParams (getNeighbourID g c (2 - 1) 2 2) RHOVX
              / g.cpu_cellParams (getNeighbourID g c (2 - 1) 2 2) RHO)
            (g.cpu_cellParams c RHOVX / g.cpu_cellParams c RHO)
            (g.cpu_cellParams (getNeighbourID g c (2 + 1) 2 2) RHOVX
              / g.cpu_cellParams (getNeighbourID g c (2 + 1) 2 2) RHO) ∧
        g1.cpu_derivatives c dVydx =
          limiter
            (g.cpu_cellParams (getNeighbourID g c (2 - 1) 2 2) RHOVY
              / g.cpu_cellParams (getNeighbourID g c (2 - 1) 2 2) RHO)
            (g.cpu_cellParams c RHOVY / g.cpu_cellParams c RHO)
            (g.cpu_cellParams (getNeighbourID g c (2 + 1) 2 2) RHOVY
              / g.cpu_cellParams (getNeighbourID g c (2 + 1) 2 2) RHO) ∧
        g1.cpu_derivatives c dVzdx =
          limiter
            (g.cpu_cellParams (getNeighbourID g c (2 - 1) 2 2) RHOVZ
              / g.cpu_cellParams (getNeighbourID g c (2 - 1) 2 2) RHO)
            (g.cpu_cellParams c RHOVZ / g.cpu_cellParams c RHO)
            (g.cpu_cellParams (getNeighbourID g c (2 + 1) 2 2) RHOVZ
              / g.cpu_cellParams (getNeighbourID g c (2 + 1) 2 2) RHO)) ∧
      (¬passes e G.masks.CALCULATE_DX →
        g1.cpu_derivatives c =
          X.fieldSolverBoundaryCondDerivX c (g.cpu_derivatives c) e ne (g.cpu_derivatives c) g)
      := by
  unfold calculateDerivativesX
  by_cases t : passes e G.masks.CALCULATE_DX
  · have t' := t
    unfold passes at t'
    obtain ⟨h1, h2⟩ := hv t
    rw [if_pos t']
    simp only [cellParamsAt_of_ne g h1, cellParamsAt_of_ne g h2,
      Option.bind_eq_bind, Option.some_bind, Option.pure_def]
    refine ⟨_, rfl, ?_, ?_, ?_, ?_, ?_, ?_, ?_⟩
    · simp only [setDerivative_frame]
    · simp only [setDerivative_frame]
    · simp only [setDerivative_frame]
    · simp only [setDerivative_frame]
    · intro c' s hc'
      simp [setDerivative_apply, hc']
    · intro _
      refine ⟨?_, ?_, ?_, ?_, ?_, ?_, ?_⟩
      · intro s hs
        cases s <;> simp [xDerivativeSlots] at hs <;> simp [setDerivative_apply]
      all_goals simp [setDerivative_apply, setDerivative_frame]
    · intro h; exact absurd t h
  · have t' := t
    unfold passes at t'
    rw [if_neg t']
    refine ⟨_, rfl, rfl, rfl, rfl, rfl, ?_, ?_, ?_⟩
    · intro c' s hc'
      simp [ParGrid.setDerivatives, hc']
    · intro h; exact absurd h t
    · intro _
      funext s
      simp [ParGrid.setDerivatives]

/-- When the boundary-condition functions are local to their axis, the
x-direction block leaves the slots of the other axes as they are. -/
theorem calculateDerivativesX_keeps (X : Externals K) (hloc : X.DerivBCsAxisLocal)
    (G : Globals) (c : CellID) (e ne : Nat) (g g1 : ParGrid K)
    (hv : passes e G.masks.CALCULATE_DX →
      getNeighbourID g c (2 - 1) 2 2 ≠ INVALID_CELLID ∧ getNeighbourID g c (2 + 1) 2 2 ≠ INVALID_CELLID)
    (h : calculateDerivativesX X G c e ne g = some g1) (s : fieldsolver)
    (hs : s ∉ xDerivativeSlots) : g1.cpu_derivatives c s = g.cpu_derivatives c s := by
  obtain ⟨g1', r, -, -, -, -, -, hp, hf⟩ := calculateDerivativesX_spec X G c e ne g hv
  have hg : g1' = g1 := Option.some.inj (r.symm.trans h)
  subst hg
  by_cases t : passes e G.masks.CALCULATE_DX
  · exact (hp t).1 s hs
  · rw [hf t]
    exact hloc.1 c _ e ne g s hs

/-- The x-direction block reads the mesh only through the neighbour lookup,
the derivative arrays, the cell parameters of the cell and of its two
x-neighbours (when the test passes) and the boundary-condition function
(when it fails): two meshes that agree on these yield the same derivatives. -/
theorem calculateDerivativesX_congr (X : Externals K) (G : Globals) (c : CellID) (e ne : Nat)
    (g h g1 h1 : ParGrid K)
    (hv : passes e G.masks.CALCULATE_DX →
      getNeighbourID g c (2 - 1) 2 2 ≠ INVALID_CELLID ∧ getNeighbourID g c (2 + 1) 2 2 ≠ INVALID_CELLID)
    (hn : h.getNeighbour = g.getNeighbour) (hd : h.cpu_derivatives = g.cpu_derivatives)
    (hcp : passes e G.masks.CALCULATE_DX →
      h.cpu_cellParams c = g.cpu_cellParams c ∧
      h.cpu_cellParams (getNeighbourID g c (2 - 1) 2 2) = g.cpu_cellParams (getNeighbourID g c (2 - 1) 2 2) ∧
      h.cpu_cellParams (getNeighbourID g c (2 + 1) 2 2) = g.cpu_cellParams (getNeighbourID g c (2 + 1) 2 2))
    (hbc : ¬passes e G.masks.CALCULATE_DX →
      X.fieldSolverBoundaryCondDerivX c (h.cpu_derivatives c) e ne (h.cpu_derivatives c) h =
        X.fieldSolverBoundaryCondDerivX c (g.cpu_derivatives c) e ne (g.cpu_derivatives c) g)
    (rg : calculateDerivativesX X G c e ne g = some g1)
    (rh : calculateDerivativesX X G c e ne h = some h1) :
    h1.cpu_derivatives = g1.cpu_derivatives := by
  have hN : ∀ i j k, getNeighbourID h c i j k = getNeighbourID g c i j k := by
    intro i j k; unfold getNeighbourID; rw [hn]
  have hv' : passes e G.masks.CALCULATE_DX →
      getNeighbourID h c (2 - 1) 2 2 ≠ INVALID_CELLID ∧ getNeighbourID h c (2 + 1) 2 2 ≠ INVALID_CELLID := by
    rw [hN, hN]; exact hv
  obtain ⟨g1', r, -, -, -, -, og, pg, fg⟩ := calculateDerivativesX_spec X G c e ne g hv
  have e1 : g1' = g1 := Option.some.inj (r.symm.trans rg)
  subst e1
  obtain ⟨h1', r', -, -, -, -, oh, ph, fh⟩ := calculateDerivativesX_spec X G c e ne h hv'
  have e2 : h1' = h1 := Option.some.inj (r'.symm.trans rh)
  subst e2
  funext c' s
  by_cases hc' : c' = c
  · subst hc'
    by_cases t : passes e G.masks.CALCULATE_DX
    · obtain ⟨q0, q1, q2⟩ := hcp t
      obtain ⟨kg, a1, a2, a3, a4, a5, a6⟩ := pg t
      obtain ⟨kh, b1, b2, b3, b4, b5, b6⟩ := ph t
      rw [hN, hN, q0, q1, q2] at b1 b2 b3 b4 b5 b6
      by_cases hs : s ∈ xDerivativeSlots
      · simp only [xDerivativeSlots, List.mem_cons, List.mem_singleton, List.not_mem_nil,
          or_false] at hs
        rcases hs with rfl | rfl | rfl | rfl | rfl | rfl
        · rw [a1, b1]
        · rw [a2, b2]
        · rw [a3, b3]
        · rw [a4, b4]
        · rw [a5, b5]
        · rw [a6, b6]
      · rw [kg s hs, kh s hs, hd]
    · rw [fg t, fh t, hbc t]
  · rw [og c' s hc', oh c' s hc', hd]

/-- The y-direction block of `calculateDerivatives`: when the neighbours it
reads exist it returns; it changes nothing but the derivative array of the
cell; if the test passes the six y-slots hold the limited differences of the
two y-neighbours and the other slots are untouched, otherwise the array is
the one left by the boundary-condition function. -/
theorem calculateDerivativesY_spec (X : Externals K) (G : Globals) (c : CellID) (e ne : Nat)
    (g : ParGrid K)
    (hv : passes e G.masks.CALCULATE_DY →
      getNeighbourID g c 2 (2 - 1) 2 ≠ INVALID_CELLID ∧ getNeighbourID g c 2 (2 + 1) 2 ≠ INVALID_CELLID) :
    ∃ g1, calculateDerivativesY X G c e ne g = some g1 ∧
      g1.getNeighbour = g.getNeighbour ∧ g1.getCells = g.getCells ∧
      g1.isRemote = g.isRemote ∧ g1.cpu_cellParams = g.cpu_cellParams ∧
      (∀ c' s, c' ≠ c → g1.cpu_derivatives c' s = g.cpu_derivatives c' s) ∧
      (passes e G.masks.CALCULATE_DY →
        (∀ s, s ∉ yDerivativeSlots → g1.cpu_derivatives c s = g.cpu_derivatives c s) ∧
        g1.cpu_derivatives c drhody =
          limiter (g.cpu_cellParams (getNeighbourID g c 2 (2 - 1) 2) RHO) (g.cpu_cellParams c RHO)
            (g.cpu_cellParams (getNeighbourID g c 2 (2 + 1) 2) RHO) ∧
        g1.cpu_derivatives c dBxdy =
          limiter (g.cpu_cellParams (getNeighbourID g c 2 (2 - 1) 2) BX) (g.cpu_cellParams c BX)
            (g.cpu_cellParams (getNeighbourID g c 2 (2 + 1) 2) BX) ∧
        g1.cpu_derivatives c dBzdy =
          limiter (g.cpu_cellParams (getNeighbourID g c 2 (2 - 1) 2) BZ) (g.cpu_cellParams c BZ)
            (g.cpu_cellParams (getNeighbourID g c 2 (2 + 1) 2) BZ) ∧
        g1.cpu_derivatives c dVxdy =
          limiter
            (g.cpu_cellParams (getNeighbourID g c 2 (2 - 1) 2) RHOVX
              / g.cpu_cellParams (getNeighbourID g c 2 (2 - 1) 2) RHO)
            (g.cpu_cellParams c RHOVX / g.cpu_cellParams c RHO)
            (g.cpu_cellParams (getNeighbourID g c 2 (2 + 1) 2) RHOVX
              / g.cpu_cellParams (getNeighbourID g c 2 (2 + 1) 2) RHO) ∧
        g1.cpu_derivatives c dVydy =
          limiter
            (g.cpu_cellParams (getNeighbourID g c 2 (2 - 1) 2) RHOVY
              / g.cpu_cellParams (getNeighbourID g c 2 (2 - 1) 2) RHO)
            (g.cpu_cellParams c RHOVY / g.cpu_cellParams c RHO)
            (g.cpu_cellParams (getNeighbourID g c 2 (2 + 1) 2) RHOVY
              / g.cpu_cellParams (getNeighbourID g c 2 (2 + 1) 2) RHO) ∧
        g1.cpu_derivatives c dVzdy =
          limiter
            (g.cpu_cellParams (getNeighbourID g c 2 (2 - 1) 2) RHOVZ
              / g.cpu_cellParams (getNeighbourID g c 2 (2 - 1) 2) RHO)
            (g.cpu_cellParams c RHOVZ / g.cpu_cellParams c RHO)
            (g.cpu_cellParams (getNeighbourID g c 2 (2 + 1) 2) RHOVZ
              / g.cpu_cellParams (getNeighbourID g c 2 (2 + 1) 2) RHO)) ∧
      (¬passes e G.masks.CALCULATE_DY →
        g1.cpu_derivatives c =
          X.fieldSolverBoundaryCondDerivY c (g.cpu_derivatives c) e ne (g.cpu_derivatives c) g)
      := by
  unfold calculateDerivativesY
  by_cases t : passes e G.masks.CALCULATE_DY
  · have t' := t
    unfold passes at t'
    obtain ⟨h1, h2⟩ := hv t
    rw [if_pos t']
    simp only [cellParamsAt_of_ne g h1, cellParamsAt_of_ne g h2,
      Option.bind_eq_bind, Option.some_bind, Option.pure_def]
    refine ⟨_, rfl, ?_, ?_, ?_, ?_, ?_, ?_, ?_⟩
    · simp only [setDerivative_frame]
    · simp only [setDerivative_frame]
    · simp only [setDerivative_frame]
    · simp only [setDerivative_frame]
    · intro c' s hc'
      simp [setDerivative_apply, hc']
    · intro _
      refine ⟨?_, ?_, ?_, ?_, ?_, ?_, ?_⟩
      · intro s hs
        cases s <;> simp [yDerivativeSlots] at hs <;> simp [setDerivative_apply]
      all_goals simp [setDerivative_apply, setDerivative_frame]
    · intro h; exact absurd t h
  · have t' := t
    unfold passes at t'
    rw [if_neg t']
    refine ⟨_, rfl, rfl, rfl, rfl, rfl, ?_, ?_, ?_⟩
    · intro c' s hc'
      simp [ParGrid.setDerivatives, hc']
    · intro h; exact absurd h t
    · intro _
      funext s
      simp [ParGrid.setDerivatives]

/-- When the boundary-condition functions are local to their axis, the
y-direction block leaves the slots of the other axes as they are. -/
theorem calculateDerivativesY_keeps (X : Externals K) (hloc : X.DerivBCsAxisLocal)
    (G : Globals) (c : CellID) (e ne : Nat) (g g1 : ParGrid K)
    (hv : passes e G.masks.CALCULATE_DY →
      getNeighbourID g c 2 (2 - 1) 2 ≠ INVALID_CELLID ∧ getNeighbourID g c 2 (2 + 1) 2 ≠ INVALID_CELLID)
    (h : calculateDerivativesY X G c e ne g = some g1) (s : fieldsolver)
    (hs : s ∉ yDerivativeSlots) : g1.cpu_derivatives c s = g.cpu_derivatives c s := by
  obtain ⟨g1', r, -, -, -, -, -, hp, hf⟩ := calculateDerivativesY_spec X G c e ne g hv
  have hg : g1' = g1 := Option.some.inj (r.symm.trans h)
  subst hg
  by_cases t : passes e G.masks.CALCULATE_DY
  · exact (hp t).1 s hs
  · rw [hf t]
    exact hloc.2.1 c _ e ne g s hs

/-- The y-direction block reads the mesh only through the neighbour lookup,
the derivative arrays, the cell parameters of the cell and of its two
y-neighbours (when the test passes) and the boundary-condition function
(when it fails): two meshes that agree on these yield the same derivatives. -/
theorem calculateDerivativesY_congr (X : Externals K) (G : Globals) (c : CellID) (e ne : Nat)
    (g h g1 h1 : ParGrid K)
    (hv : passes e G.masks.CALCULATE_DY →
      getNeighbourID g c 2 (2 - 1) 2 ≠ INVALID_CELLID ∧ getNeighbourID g c 2 (2 + 1) 2 ≠ INVALID_CELLID)
    (hn : h.getNeighbour = g.getNeighbour) (hd : h.cpu_derivatives = g.cpu_derivatives)
    (hcp : passes e G.masks.CALCULATE_DY →
      h.cpu_cellParams c = g.cpu_cellParams c ∧
      h.cpu_cellParams (getNeighbourID g c 2 (2 - 1) 2) = g.cpu_cellParams (getNeighbourID g c 2 (2 - 1) 2) ∧
      h.cpu_cellParams (getNeighbourID g c 2 (2 + 1) 2) = g.cpu_cellParams (getNeighbourID g c 2 (2 + 1) 2))
    (hbc : ¬passes e G.masks.CALCULATE_DY →
      X.fieldSolverBoundaryCondDerivY c (h.cpu_derivatives c) e ne (h.cpu_derivatives c) h =
        X.fieldSolverBoundaryCondDerivY c (g.cpu_derivatives c) e ne (g.cpu_derivatives c) g)
    (rg : calculateDerivativesY X G c e ne g = some g1)
    (rh : calculateDerivativesY X G c e ne h = some h1) :
    h1.cpu_derivatives = g1.cpu_derivatives := by
  have hN : ∀ i j k, getNeighbourID h c i j k = getNeighbourID g c i j k := by
    intro i j k; unfold getNeighbourID; rw [hn]
  have hv' : passes e G.masks.CALCULATE_DY →
      getNeighbourID h c 2 (2 - 1) 2 ≠ INVALID_CELLID ∧ getNeighbourID h c 2 (2 + 1) 2 ≠ INVALID_CELLID := by
    rw [hN, hN]; exact hv
  obtain ⟨g1', r, -, -, -, -, og, pg, fg⟩ := calculateDerivativesY_spec X G c e ne g hv
  have e1 : g1' = g1 := Option.some.inj (r.symm.trans rg)
  subst e1
  obtain ⟨h1', r', -, -, -, -, oh, ph, fh⟩ := calculateDerivativesY_spec X G c e ne h hv'
  have e2 : h1' = h1 := Option.some.inj (r'.symm.trans rh)
  subst e2
  funext c' s
  by_cases hc' : c' = c
  · subst hc'
    by_cases t : passes e G.masks.CALCULATE_DY
    · obtain ⟨q0, q1, q2⟩ := hcp t
      obtain ⟨kg, a1, a2, a3, a4, a5, a6⟩ := pg t
      obtain ⟨kh, b1, b2, b3, b4, b5, b6⟩ := ph t
      rw [hN, hN, q0, q1, q2] at b1 b2 b3 b4 b5 b6
      by_cases hs : s ∈ yDerivativeSlots
      · simp only [yDerivativeSlots, List.mem_cons, List.mem_singleton, List.not_mem_nil,
          or_false] at hs
        rcases hs with rfl | rfl | rfl | rfl | rfl | rfl
        · rw [a1, b1]
        · rw [a2, b2]
        · rw [a3, b3]
        · rw [a4, b4]
        · rw [a5, b5]
        · rw [a6, b6]
      · rw [kg s hs, kh s hs, hd]
    · rw [fg t, fh t, hbc t]
  · rw [og c' s hc', oh c' s hc', hd]

/-- The z-direction block of `calculateDerivatives`: when the neighbours it
reads exist it returns; it changes nothing but the derivative array of the
cell; if the test passes the six z-slots hold the limited differences of the
two z-neighbours and the other slots are untouched, otherwise the array is
the one left by the boundary-condition function. -/
theorem calculateDerivativesZ_spec (X : Externals K) (G : Globals) (c : CellID) (e ne : Nat)
    (g : ParGrid K)
    (hv : passes e G.masks.CALCULATE_DZ →
      getNeighbourID g c 2 2 (2 - 1) ≠ INVALID_CELLID ∧ getNeighbourID g c 2 2 (2 + 1) ≠ INVALID_CELLID) :
    ∃ g1, calculateDerivativesZ X G c e ne g = some g1 ∧
      g1.getNeighbour = g.getNeighbour ∧ g1.getCells = g.getCells ∧
      g1.isRemote = g.isRemote ∧ g1.cpu_cellParams = g.cpu_cellParams ∧
      (∀ c' s, c' ≠ c → g1.cpu_derivatives c' s = g.cpu_derivatives c' s) ∧
      (passes e G.masks.CALCULATE_DZ →
        (∀ s, s ∉ zDerivativeSlots → g1.cpu_derivatives c s = g.cpu_derivatives c s) ∧
        g1.cpu_derivatives c drhodz =
          limiter (g.cpu_cellParams (getNeighbourID g c 2 2 (2 - 1)) RHO) (g.cpu_cellParams c RHO)
            (g.cpu_cellParams (getNeighbourID g c 2 2 (2 + 1)) RHO) ∧
        g1.cpu_derivatives c dBxdz =
          limiter (g.cpu_cellParams (getNeighbourID g c 2 2 (2 - 1)) BX) (g.cpu_cellParams c BX)
            (g.cpu_cellParams (getNeighbourID g c 2 2 (2 + 1)) BX) ∧
        g1.cpu_derivatives c dBydz =
          limiter (g.cpu_cellParams (getNeighbourID g c 2 2 (2 - 1)) BY) (g.cpu_cellParams c BY)
            (g.cpu_cellParams (getNeighbourID g c 2 2 (2 + 1)) BY) ∧
        g1.cpu_derivatives c dVxdz =
          limiter
            (g.cpu_cellParams (getNeighbourID g c 2 2 (2 - 1)) RHOVX
              / g.cpu_cellParams (getNeighbourID g c 2 2 (2 - 1)) RHO)
            (g.cpu_cellParams c RHOVX / g.cpu_cellParams c RHO)
            (g.cpu_cellParams (getNeighbourID g c 2 2 (2 + 1)) RHOVX
              / g.cpu_cellParams (getNeighbourID g c 2 2 (2 + 1)) RHO) ∧
        g1.cpu_derivatives c dVydz =
          limiter
            (g.cpu_cellParams (getNeighbourID g c 2 2 (2 - 1)) RHOVY
              / g.cpu_cellParams (getNeighbourID g c 2 2 (2 - 1)) RHO)
            (g.cpu_cellParams c RHOVY / g.cpu_cellParams c RHO)
            (g.cpu_cellParams (getNeighbourID g c 2 2 (2 + 1)) RHOVY
              / g.cpu_cellParams (getNeighbourID g c 2 2 (2 + 1)) RHO) ∧
        g1.cpu_derivatives c dVzdz =
          limiter
            (g.cpu_cellParams (getNeighbourID g c 2 2 (2 - 1)) RHOVZ
              / g.cpu_cellParams (getNeighbourID g c 2 2 (2 - 1)) RHO)
            (g.cpu_cellParams c RHOVZ / g.cpu_cellParams c RHO)
            (g.cpu_cellParams (getNeighbourID g c 2 2 (2 + 1)) RHOVZ
              / g.cpu_cellParams (getNeighbourID g c 2 2 (2 + 1)) RHO)) ∧
      (¬passes e G.masks.CALCULATE_DZ →
        g1.cpu_derivatives c =
          X.fieldSolverBoundaryCondDerivZ c (g.cpu_derivatives c) e ne (g.cpu_derivatives c) g)
      := by
  unfold calculateDerivativesZ
  by_cases t : passes e G.masks.CALCULATE_DZ
  · have t' := t
    unfold passes at t'
    obtain ⟨h1, h2⟩ := hv t
    rw [if_pos t']
    simp only [cellParamsAt_of_ne g h1, cellParamsAt_of_ne g h2,
      Option.bind_eq_bind, Option.some_bind, Option.pure_def]
    refine ⟨_, rfl, ?_, ?_, ?_, ?_, ?_, ?_, ?_⟩
    · simp only [setDerivative_frame]
    · simp only [setDerivative_frame]
    · simp only [setDerivative_frame]
    · simp only [setDerivative_frame]
    · intro c' s hc'
      simp [setDerivative_apply, hc']
    · intro _
      refine ⟨?_, ?_, ?_, ?_, ?_, ?_, ?_⟩
      · intro s hs
        cases s <;> simp [zDerivativeSlots] at hs <;> simp [setDerivative_apply]
      all_goals simp [setDerivative_apply, setDerivative_frame]
    · intro h; exact absurd t h
  · have t' := t
    unfold passes at t'
    rw [if_neg t']
    refine ⟨_, rfl, rfl, rfl, rfl, rfl, ?_, ?_, ?_⟩
    · intro c' s hc'
      simp [ParGrid.setDerivatives, hc']
    · intro h; exact absurd h t
    · intro _
      funext s
      simp [ParGrid.setDerivatives]

/-- When the boundary-condition functions are local to their axis, the
z-direction block leaves the slots of the other axes as they are. -/
theorem calculateDerivativesZ_keeps (X : Externals K) (hloc : X.DerivBCsAxisLocal)
    (G : Globals) (c : CellID) (e ne : Nat) (g g1 : ParGrid K)
    (hv : passes e G.masks.CALCULATE_DZ →
      getNeighbourID g c 2 2 (2 - 1) ≠ INVALID_CELLID ∧ getNeighbourID g c 2 2 (2 + 1) ≠ INVALID_CELLID)
    (h : calculateDerivativesZ X G c e ne g = some g1) (s : fieldsolver)
    (hs : s ∉ zDerivativeSlots) : g1.cpu_derivatives c s = g.cpu_derivatives c s := by
  obtain ⟨g1', r, -, -, -, -, -, hp, hf⟩ := calculateDerivativesZ_spec X G c e ne g hv
  have hg : g1' = g1 := Option.some.inj (r.symm.trans h)
  subst hg
  by_cases t : passes e G.masks.CALCULATE_DZ
  · exact (hp t).1 s hs
  · rw [hf t]
    exact hloc.2.2 c _ e ne g s hs

/-- The z-direction block reads the mesh only through the neighbour lookup,
the derivative arrays, the cell parameters of the cell and of its two
z-neighbours (when the test passes) and the boundary-condition function
(when it fails): two meshes that agree on these yield the same derivatives. -/
theorem calculateDerivativesZ_congr (X : Externals K) (G : Globals) (c : CellID) (e ne : Nat)
    (g h g1 h1 : ParGrid K)
    (hv : passes e G.masks.CALCULATE_DZ →
      getNeighbourID g c 2 2 (2 - 1) ≠ INVALID_CELLID ∧ getNeighbourID g c 2 2 (2 + 1) ≠ INVALID_CELLID)
    (hn : h.getNeighbour = g.getNeighbour) (hd : h.cpu_derivatives = g.cpu_derivatives)
    (hcp : passes e G.masks.CALCULATE_DZ →
      h.cpu_cellParams c = g.cpu_cellParams c ∧
      h.cpu_cellParams (getNeighbourID g c 2 2 (2 - 1)) = g.cpu_cellParams (getNeighbourID g c 2 2 (2 - 1)) ∧
      h.cpu_cellParams (getNeighbourID g c 2 2 (2 + 1)) = g.cpu_cellParams (getNeighbourID g c 2 2 (2 + 1)))
    (hbc : ¬passes e G.masks.CALCULATE_DZ →
      X.fieldSolverBoundaryCondDerivZ c (h.cpu_derivatives c) e ne (h.cpu_derivatives c) h =
        X.fieldSolverBoundaryCondDerivZ c (g.cpu_derivatives c) e ne (g.cpu_derivatives c) g)
    (rg : calculateDerivativesZ X G c e ne g = some g1)
    (rh : calculateDerivativesZ X G c e ne h = some h1) :
    h1.cpu_derivatives = g1.cpu_derivatives := by
  have hN : ∀ i j k, getNeighbourID h c i j k = getNeighbourID g c i j k := by
    intro i j k; unfold getNeighbourID; rw [hn]
  have hv' : passes e G.masks.CALCULATE_DZ →
      getNeighbourID h c 2 2 (2 - 1) ≠ INVALID_CELLID ∧ getNeighbourID h c 2 2 (2 + 1) ≠ INVALID_CELLID := by
    rw [hN, hN]; exact hv
  obtain ⟨g1', r, -, -, -, -, og, pg, fg⟩ := calculateDerivativesZ_spec X G c e ne g hv
  have e1 : g1' = g1 := Option.some.inj (r.symm.trans rg)
  subst e1
  obtain ⟨h1', r', -, -, -, -, oh, ph, fh⟩ := calculateDerivativesZ_spec X G c e ne h hv'
  have e2 : h1' = h1 := Option.some.inj (r'.symm.trans rh)
  subst e2
  funext c' s
  by_cases hc' : c' = c
  · subst hc'
    by_cases t : passes e G.masks.CALCULATE_DZ
    · obtain ⟨q0, q1, q2⟩ := hcp t
      obtain ⟨kg, a1, a2, a3, a4, a5, a6⟩ := pg t
      obtain ⟨kh, b1, b2, b3, b4, b5, b6⟩ := ph t
      rw [hN, hN, q0, q1, q2] at b1 b2 b3 b4 b5 b6
      by_cases hs : s ∈ zDerivativeSlots
      · simp only [zDerivativeSlots, List.mem_cons, List.mem_singleton, List.not_mem_nil,
          or_false] at hs
        rcases hs with rfl | rfl | rfl | rfl | rfl | rfl
        · rw [a1, b1]
        · rw [a2, b2]
        · rw [a3, b3]
        · rw [a4, b4]
        · rw [a5, b5]
        · rw [a6, b6]
      · rw [kg s hs, kh s hs, hd]
    · rw [fg t, fh t, hbc t]
  · rw [og c' s hc', oh c' s hc', hd]

end DerivativeBlocks

end Vlasiator

namespace Vlasiator

open CellParams fieldsolver

section DerivativeClaims

variable {K : Type} [LinearOrderedField K]

theorem sgn_mul_abs (s : K) : sgn s * |s| = s := by
  unfold sgn
  rcases lt_trichotomy s 0 with h | h | h
  · rw [if_neg (not_lt.mpr h.le), if_pos h, abs_of_neg h]; ring
  · subst h; simp
  · rw [if_pos h, abs_of_pos h]; ring

/-- The limiter on equally spaced samples `q - s`, `q`, `q + s` returns the
slope `s`. -/
theorem limiter_linear (q s : K) : limiter (q - s) q (q + s) = s := by
  unfold limiter MClimiter
  have hb : q - (q - s) = s := by ring
  have hf : q + s - q = s := by ring
  have hc : (q + s - (q - s)) / 2 = s := by ring
  simp only [hb, hf, hc, ne_eq, not_true_eq_false, if_false]
  have h2 : |2 * s| = 2 * |s| := by rw [abs_mul]; simp
  have hmin : min |s| (min |2 * s| |2 * s|) = |s| := by
    rw [min_self, h2]
    apply min_eq_left
    have := abs_nonneg s
    linarith
  rw [hmin]
  exact sgn_mul_abs s

theorem limiter_const (q : K) : limiter q q q = 0 := by
  have := limiter_linear q 0
  simpa using this

theorem calculateDerivatives_eq (X : Externals K) (G : Globals) (c : CellID) (g g1 g2 g3 : ParGrid K)
    (e : Nat) (hc : c ≠ INVALID_CELLID) (he : G.boundaryFlags c = some e)
    (r1 : calculateDerivativesX X G c e (toUint (e ^^^ 4294967295)) g = some g1)
    (r2 : calculateDerivativesY X G c e (toUint (e ^^^ 4294967295)) g1 = some g2)
    (r3 : calculateDerivativesZ X G c e (toUint (e ^^^ 4294967295)) g2 = some g3) :
    calculateDerivatives X G c g = some g3 := by
  unfold calculateDerivatives
  simp only [derivativesAt_of_ne g hc, he, Option.bind_eq_bind, Option.some_bind, r1, r2, r3]




/-- C5: with the monotonized-central limiter, for every cell that passes the
`CALCULATE_DX` test and every slope `s`, a sampled quantity `q` (`RHO`, `BY`,
`BZ`) with `q(-x nbr) = q(cell) - s` and `q(+x nbr) = q(cell) + s` has exactly
`s` stored in its slot (`drhodx`, `dBydx`, `dBzdx`) when `calculateDerivatives`
returns; the same along y and z. The boundary-condition functions that may
run for the other axes are taken to be local to their axis. -/
theorem C5_limited_derivative_of_linear_data (X : Externals K) (hloc : X.DerivBCsAxisLocal)
    (G : Globals) (c : CellID) (g : ParGrid K) (e : Nat) (he : G.boundaryFlags c = some e)
    (hready : DerivativesReady G g c) :
    ∃ g', calculateDerivatives X G c g = some g' ∧
      (passes e G.masks.CALCULATE_DX → ∀ s : K,
        ∀ qd ∈ [(RHO, drhodx), (BY, dBydx), (BZ, dBzdx)],
          g.cpu_cellParams (getNeighbourID g c 1 2 2) qd.1 = g.cpu_cellParams c qd.1 - s →
          g.cpu_cellParams (getNeighbourID g c 3 2 2) qd.1 = g.cpu_cellParams c qd.1 + s →
          g'.cpu_derivatives c qd.2 = s) ∧
      (passes e G.masks.CALCULATE_DY → ∀ s : K,
        ∀ qd ∈ [(RHO, drhody), (BX, dBxdy), (BZ, dBzdy)],
          g.cpu_cellParams (getNeighbourID g c 2 1 2) qd.1 = g.cpu_cellParams c qd.1 - s →
          g.cpu_cellParams (getNeighbourID g c 2 3 2) qd.1 = g.cpu_cellParams c qd.1 + s →
          g'.cpu_derivatives c qd.2 = s) ∧
      (passes e G.masks.CALCULATE_DZ → ∀ s : K,
        ∀ qd ∈ [(RHO, drhodz), (BX, dBxdz), (BY, dBydz)],
          g.cpu_cellParams (getNeighbourID g c 2 2 1) qd.1 = g.cpu_cellParams c qd.1 - s →
          g.cpu_cellParams (getNeighbourID g c 2 2 3) qd.1 = g.cpu_cellParams c qd.1 + s →
          g'.cpu_derivatives c qd.2 = s) := by
  obtain ⟨hc, -, hall⟩ := hready
  obtain ⟨vx, vy, vz⟩ := hall e (by simp [he])
  obtain ⟨g1, r1, n1, -, -, p1, -, x1, -⟩ :=
    calculateDerivativesX_spec X G c e (toUint (e ^^^ 4294967295)) g vx
  have vy' : passes e G.masks.CALCULATE_DY →
      getNeighbourID g1 c 2 (2 - 1) 2 ≠ INVALID_CELLID ∧
      getNeighbourID g1 c 2 (2 + 1) 2 ≠ INVALID_CELLID := by
    unfold getNeighbourID at vy ⊢; rw [n1]; exact vy
  obtain ⟨g2, r2, n2, -, -, p2, -, x2, -⟩ :=
    calculateDerivativesY_spec X G c e (toUint (e ^^^ 4294967295)) g1 vy'
  have vz' : passes e G.masks.CALCULATE_DZ →
      getNeighbourID g2 c 2 2 (2 - 1) ≠ INVALID_CELLID ∧
      getNeighbourID g2 c 2 2 (2 + 1) ≠ INVALID_CELLID := by
    unfold getNeighbourID at vz ⊢; rw [n2, n1]; exact vz
  obtain ⟨g3, r3, -, -, -, -, -, x3, -⟩ :=
    calculateDerivativesZ_spec X G c e (toUint (e ^^^ 4294967295)) g2 vz'
  have ky := calculateDerivativesY_keeps X hloc G c e _ g1 g2 vy' r2
  have kz := calculateDerivativesZ_keeps X hloc G c e _ g2 g3 vz' r3
  have hN1 : ∀ i j k, getNeighbourID g1 c i j k = getNeighbourID g c i j k := by
    intro i j k; unfold getNeighbourID; rw [n1]
  have hN2 : ∀ i j k, getNeighbourID g2 c i j k = getNeighbourID g c i j k := by
    intro i j k; unfold getNeighbourID; rw [n2, n1]
  refine ⟨g3, calculateDerivatives_eq X G c g g1 g2 g3 e hc he r1 r2 r3, ?_, ?_, ?_⟩
  · intro t s qd hqd hl hr
    obtain ⟨-, a1, a2, a3, -⟩ := x1 t
    simp only [List.mem_cons, List.mem_singleton, List.not_mem_nil, or_false] at hqd
    rcases hqd with rfl | rfl | rfl
    · rw [kz _ (by simp [zDerivativeSlots]), ky _ (by simp [yDerivativeSlots]), a1]
      rw [show getNeighbourID g c (2 - 1) 2 2 = getNeighbourID g c 1 2 2 from rfl,
        show getNeighbourID g c (2 + 1) 2 2 = getNeighbourID g c 3 2 2 from rfl, hl, hr]
      exact limiter_linear _ _
    · rw [kz _ (by simp [zDerivativeSlots]), ky _ (by simp [yDerivativeSlots]), a2]
      rw [show getNeighbourID g c (2 - 1) 2 2 = getNeighbourID g c 1 2 2 from rfl,
        show getNeighbourID g c (2 + 1) 2 2 = getNeighbourID g c 3 2 2 from rfl, hl, hr]
      exact limiter_linear _ _
    · rw [kz _ (by simp [zDerivativeSlots]), ky _ (by simp [yDerivativeSlots]), a3]
      rw [show getNeighbourID g c (2 - 1) 2 2 = getNeighbourID g c 1 2 2 from rfl,
        show getNeighbourID g c (2 + 1) 2 2 = getNeighbourID g c 3 2 2 from rfl, hl, hr]
      exact limiter_linear _ _
  · intro t s qd hqd hl hr
    obtain ⟨-, a1, a2, a3, -⟩ := x2 t
    simp only [List.mem_cons, List.mem_singleton, List.not_mem_nil, or_false] at hqd
    rcases hqd with rfl | rfl | rfl
    · rw [kz _ (by simp [zDerivativeSlots]), a1, p1, hN1, hN1]
      rw [show getNeighbourID g c 2 (2 - 1) 2 = getNeighbourID g c 2 1 2 from rfl,
        show getNeighbourID g c 2 (2 + 1) 2 = getNeighbourID g c 2 3 2 from rfl, hl, hr]
      exact limiter_linear _ _
    · rw [kz _ (by simp [zDerivativeSlots]), a2, p1, hN1, hN1]
      rw [show getNeighbourID g c 2 (2 - 1) 2 = getNeighbourID g c 2 1 2 from rfl,
        show getNeighbourID g c 2 (2 + 1) 2 = getNeighbourID g c 2 3 2 from rfl, hl, hr]
      exact limiter_linear _ _
    · rw [kz _ (by simp [zDerivativeSlots]), a3, p1, hN1, hN1]
      rw [show getNeighbourID g c 2 (2 - 1) 2 = getNeighbourID g c 2 1 2 from rfl,
        show getNeighbourID g c 2 (2 + 1) 2 = getNeighbourID g c 2 3 2 from rfl, hl, hr]
      exact limiter_linear _ _
  · intro t s qd hqd hl hr
    obtain ⟨-, a1, a2, a3, -⟩ := x3 t
    simp only [List.mem_cons, List.mem_singleton, List.not_mem_nil, or_false] at hqd
    rcases hqd with rfl | rfl | rfl
    · rw [a1, p2, p1, hN2, hN2]
      rw [show getNeighbourID g c 2 2 (2 - 1) = getNeighbourID g c 2 2 1 from rfl,
        show getNeighbourID g c 2 2 (2 + 1) = getNeighbourID g c 2 2 3 from rfl, hl, hr]
      exact limiter_linear _ _
    · rw [a2, p2, p1, hN2, hN2]
      rw [show getNeighbourID g c 2 2 (2 - 1) = getNeighbourID g c 2 2 1 from rfl,
        show getNeighbourID g c 2 2 (2 + 1) = getNeighbourID g c 2 2 3 from rfl, hl, hr]
      exact limiter_linear _ _
    · rw [a3, p2, p1, hN2, hN2]
      rw [show getNeighbourID g c 2 2 (2 - 1) = getNeighbourID g c 2 2 1 from rfl,
        show getNeighbourID g c 2 2 (2 + 1) = getNeighbourID g c 2 2 3 from rfl, hl, hr]
      exact limiter_linear _ _

/-- A flag word without bit 12 fails the `CALCULATE_DX` test of an initialised
solver. -/
theorem not_passes_DX_of_bit12 (old : Masks) (e : Nat) (hbit : e.testBit 12 = false) :
    ¬passes e (initializeFieldPropagator_masks old).CALCULATE_DX := by
  intro h
  unfold passes at h
  have h12 : (e &&& (initializeFieldPropagator_masks old).CALCULATE_DX).testBit 12
      = (initializeFieldPropagator_masks old).CALCULATE_DX.testBit 12 := by rw [h]
  rw [Nat.testBit_and, hbit, masks_values] at h12
  exact absurd h12 (by decide)

/-- C9: for a cell whose mask has the `-x` neighbour bit 12 cleared (solver
initialised, boundary-condition functions local to their axis):
(1) the x-direction block is the call of `fieldSolverBoundaryCondDerivX` and
nothing else, on every mesh, whether or not the x-neighbours exist;
(2) `calculateDerivatives` returns and the x-slots hold what that function
wrote; (3) the y- and z-slots are the limited differences whenever their own
test passes; (4) the resulting derivatives are the same on every mesh that
differs only in cell parameters of cells other than the cell and its y- and
z-neighbours, provided the boundary-condition functions do not look at cell
parameters: the parameters of the x-neighbours are not read. -/
theorem C9_boundary_substitution_of_derivatives (X : Externals K) (hloc : X.DerivBCsAxisLocal)
    (G : Globals) (old : Masks) (hmask : G.masks = initializeFieldPropagator_masks old)
    (c : CellID) (g : ParGrid K) (e : Nat) (he : G.boundaryFlags c = some e)
    (hbit : e.testBit 12 = false) (hready : DerivativesReady G g c) :
    (∀ ne (g0 : ParGrid K), calculateDerivativesX X G c e ne g0 =
      some (g0.setDerivatives c (X.fieldSolverBoundaryCondDerivX c (g0.cpu_derivatives c) e ne
        (g0.cpu_derivatives c) g0))) ∧
    ∃ g', calculateDerivatives X G c g = some g' ∧
      (∀ s ∈ xDerivativeSlots, g'.cpu_derivatives c s =
        X.fieldSolverBoundaryCondDerivX c (g.cpu_derivatives c) e (toUint (e ^^^ 4294967295))
          (g.cpu_derivatives c) g s) ∧
      (passes e G.masks.CALCULATE_DY →
        (∀ qd ∈ [(RHO, drhody), (BX, dBxdy), (BZ, dBzdy)],
          g'.cpu_derivatives c qd.2 =
            limiter (g.cpu_cellParams (getNeighbourID g c 2 1 2) qd.1) (g.cpu_cellParams c qd.1)
              (g.cpu_cellParams (getNeighbourID g c 2 3 2) qd.1)) ∧
        (∀ vd ∈ [(RHOVX, dVxdy), (RHOVY, dVydy), (RHOVZ, dVzdy)],
          g'.cpu_derivatives c vd.2 =
            limiter
              (g.cpu_cellParams (getNeighbourID g c 2 1 2) vd.1
                / g.cpu_cellParams (getNeighbourID g c 2 1 2) RHO)
              (g.cpu_cellParams c vd.1 / g.cpu_cellParams c RHO)
              (g.cpu_cellParams (getNeighbourID g c 2 3 2) vd.1
                / g.cpu_cellParams (getNeighbourID g c 2 3 2) RHO))) ∧
      (passes e G.masks.CALCULATE_DZ →
        (∀ qd ∈ [(RHO, drhodz), (BX, dBxdz), (BY, dBydz)],
          g'.cpu_derivatives c qd.2 =
            limiter (g.cpu_cellParams (getNeighbourID g c 2 2 1) qd.1) (g.cpu_cellParams c qd.1)
              (g.cpu_cellParams (getNeighbourID g c 2 2 3) qd.1)) ∧
        (∀ vd ∈ [(RHOVX, dVxdz), (RHOVY, dVydz), (RHOVZ, dVzdz)],
          g'.cpu_derivatives c vd.2 =
            limiter
              (g.cpu_cellParams (getNeighbourID g c 2 2 1) vd.1
                / g.cpu_cellParams (getNeighbourID g c 2 2 1) RHO)
              (g.cpu_cellParams c vd.1 / g.cpu_cellParams c RHO)
              (g.cpu_cellParams (getNeighbourID g c 2 2 3) vd.1
                / g.cpu_cellParams (getNeighbourID g c 2 2 3) RHO))) ∧
      (∀ h : ParGrid K, h.getNeighbour = g.getNeighbour →
        h.cpu_derivatives = g.cpu_derivatives →
        (∀ id ∈ [c, getNeighbourID g c 2 1 2, getNeighbourID g c 2 3 2,
            getNeighbourID g c 2 2 1, getNeighbourID g c 2 2 3],
          h.cpu_cellParams id = g.cpu_cellParams id) →
        (∀ a ne (m m' : ParGrid K), m'.getNeighbour = m.getNeighbour →
          m'.cpu_derivatives = m.cpu_derivatives →
          X.fieldSolverBoundaryCondDerivX c a e ne a m' =
            X.fieldSolverBoundaryCondDerivX c a e ne a m ∧
          X.fieldSolverBoundaryCondDerivY c a e ne a m' =
            X.fieldSolverBoundaryCondDerivY c a e ne a m ∧
          X.fieldSolverBoundaryCondDerivZ c a e ne a m' =
            X.fieldSolverBoundaryCondDerivZ c a e ne a m) →
        ∃ h', calculateDerivatives X G c h = some h' ∧
          h'.cpu_derivatives = g'.cpu_derivatives) := by
  have tx : ¬passes e G.masks.CALCULATE_DX := by
    rw [hmask]; exact not_passes_DX_of_bit12 old e hbit
  have tx' := tx
  unfold passes at tx'
  obtain ⟨hc, hsome, hall⟩ := hready
  obtain ⟨vx, vy, vz⟩ := hall e (by simp [he])
  refine ⟨?_, ?_⟩
  · intro ne g0
    unfold calculateDerivativesX
    rw [if_neg tx']
    rfl
  obtain ⟨g1, r1, n1, -, -, p1, o1, -, f1⟩ :=
    calculateDerivativesX_spec X G c e (toUint (e ^^^ 4294967295)) g vx
  have vy' : passes e G.masks.CALCULATE_DY →
      getNeighbourID g1 c 2 (2 - 1) 2 ≠ INVALID_CELLID ∧
      getNeighbourID g1 c 2 (2 + 1) 2 ≠ INVALID_CELLID := by
    unfold getNeighbourID at vy ⊢; rw [n1]; exact vy
  obtain ⟨g2, r2, n2, -, -, p2, o2, x2, f2⟩ :=
    calculateDerivativesY_spec X G c e (toUint (e ^^^ 4294967295)) g1 vy'
  have vz' : passes e G.masks.CALCULATE_DZ →
      getNeighbourID g2 c 2 2 (2 - 1) ≠ INVALID_CELLID ∧
      getNeighbourID g2 c 2 2 (2 + 1) ≠ INVALID_CELLID := by
    unfold getNeighbourID at vz ⊢; rw [n2, n1]; exact vz
  obtain ⟨g3, r3, n3, -, -, p3, o3, x3, f3⟩ :=
    calculateDerivativesZ_spec X G c e (toUint (e ^^^ 4294967295)) g2 vz'
  have ky := calculateDerivativesY_keeps X hloc G c e _ g1 g2 vy' r2
  have kz := calculateDerivativesZ_keeps X hloc G c e _ g2 g3 vz' r3
  have hN1 : ∀ i j k, getNeighbourID g1 c i j k = getNeighbourID g c i j k := by
    intro i j k; unfold getNeighbourID; rw [n1]
  have hN2 : ∀ i j k, getNeighbourID g2 c i j k = getNeighbourID g c i j k := by
    intro i j k; unfold getNeighbourID; rw [n2, n1]
  refine ⟨g3, calculateDerivatives_eq X G c g g1 g2 g3 e hc he r1 r2 r3, ?_, ?_, ?_, ?_⟩
  · intro s hs
    have hy : s ∉ yDerivativeSlots := by
      simp only [xDerivativeSlots, List.mem_cons, List.mem_singleton, List.not_mem_nil,
        or_false] at hs
      rcases hs with rfl | rfl | rfl | rfl | rfl | rfl <;> simp [yDerivativeSlots]
    have hz : s ∉ zDerivativeSlots := by
      simp only [xDerivativeSlots, List.mem_cons, List.mem_singleton, List.not_mem_nil,
        or_false] at hs
      rcases hs with rfl | rfl | rfl | rfl | rfl | rfl <;> simp [zDerivativeSlots]
    rw [kz s hz, ky s hy, f1 tx]
  · intro t
    obtain ⟨-, a1, a2, a3, a4, a5, a6⟩ := x2 t
    rw [p1, hN1, hN1] at a1 a2 a3 a4 a5 a6
    refine ⟨?_, ?_⟩
    · intro qd hqd
      simp only [List.mem_cons, List.mem_singleton, List.not_mem_nil, or_false] at hqd
      rcases hqd with rfl | rfl | rfl
      · rw [kz _ (by simp [zDerivativeSlots])]; exact a1
      · rw [kz _ (by simp [zDerivativeSlots])]; exact a2
      · rw [kz _ (by simp [zDerivativeSlots])]; exact a3
    · intro vd hvd
      simp only [List.mem_cons, List.mem_singleton, List.not_mem_nil, or_false] at hvd
      rcases hvd with rfl | rfl | rfl
      · rw [kz _ (by simp [zDerivativeSlots])]; exact a4
      · rw [kz _ (by simp [zDerivativeSlots])]; exact a5
      · rw [kz _ (by simp [zDerivativeSlots])]; exact a6
  · intro t
    obtain ⟨-, a1, a2, a3, a4, a5, a6⟩ := x3 t
    rw [p2, p1, hN2, hN2] at a1 a2 a3 a4 a5 a6
    refine ⟨?_, ?_⟩
    · intro qd hqd
      simp only [List.mem_cons, List.mem_singleton, List.not_mem_nil, or_false] at hqd
      rcases hqd with rfl | rfl | rfl
      · exact a1
      · exact a2
      · exact a3
    · intro vd hvd
      simp only [List.mem_cons, List.mem_singleton, List.not_mem_nil, or_false] at hvd
      rcases hvd with rfl | rfl | rfl
      · exact a4
      · exact a5
      · exact a6
  · intro h hn hd hcp hblind
    have hNh : ∀ i j k, getNeighbourID h c i j k = getNeighbourID g c i j k := by
      intro i j k; unfold getNeighbourID; rw [hn]
    have wx : passes e G.masks.CALCULATE_DX →
        getNeighbourID h c (2 - 1) 2 2 ≠ INVALID_CELLID ∧
        getNeighbourID h c (2 + 1) 2 2 ≠ INVALID_CELLID := fun t => absurd t tx
    obtain ⟨h1, s1, m1, -, -, q1, -, -, -⟩ :=
      calculateDerivativesX_spec X G c e (toUint (e ^^^ 4294967295)) h wx
    have d1 : h1.cpu_derivatives = g1.cpu_derivatives :=
      calculateDerivativesX_congr X G c e _ g h g1 h1 vx hn hd (fun t => absurd t tx)
        (fun _ => by rw [hd]; exact (hblind _ _ g h hn hd).1) r1 s1
    have wy : passes e G.masks.CALCULATE_DY →
        getNeighbourID h1 c 2 (2 - 1) 2 ≠ INVALID_CELLID ∧
        getNeighbourID h1 c 2 (2 + 1) 2 ≠ INVALID_CELLID := by
      unfold getNeighbourID at vy ⊢; rw [m1, hn]; exact vy
    obtain ⟨h2, s2, m2, -, -, q2, -, -, -⟩ :=
      calculateDerivativesY_spec X G c e (toUint (e ^^^ 4294967295)) h1 wy
    have d2 : h2.cpu_derivatives = g2.cpu_derivatives :=
      calculateDerivativesY_congr X G c e _ g1 h1 g2 h2 vy' (m1.trans (hn.trans n1.symm)) d1
        (fun _ => by
          rw [q1, p1, hN1, hN1]
          exact ⟨hcp c (by simp), hcp _ (by simp), hcp _ (by simp)⟩)
        (fun _ => by
          rw [d1]; exact (hblind _ _ g1 h1 (m1.trans (hn.trans n1.symm)) d1).2.1) r2 s2
    have wz : passes e G.masks.CALCULATE_DZ →
        getNeighbourID h2 c 2 2 (2 - 1) ≠ INVALID_CELLID ∧
        getNeighbourID h2 c 2 2 (2 + 1) ≠ INVALID_CELLID := by
      unfold getNeighbourID at vz ⊢; rw [m2, m1, hn]; exact vz
    obtain ⟨h3, s3, -, -, -, -, -, -, -⟩ :=
      calculateDerivativesZ_spec X G c e (toUint (e ^^^ 4294967295)) h2 wz
    have hn2 : h2.getNeighbour = g2.getNeighbour := by rw [m2, m1, hn, n2, n1]
    have d3 : h3.cpu_derivatives = g3.cpu_derivatives :=
      calculateDerivativesZ_congr X G c e _ g2 h2 g3 h3 vz' hn2 d2
        (fun _ => by
          rw [q2, q1, p2, p1, hN2, hN2]
          exact ⟨hcp c (by simp), hcp _ (by simp), hcp _ (by simp)⟩)
        (fun _ => by rw [d2]; exact (hblind _ _ g2 h2 hn2 d2).2.2) r3 s3
    exact ⟨h3, calculateDerivatives_eq X G c h h1 h2 h3 e hc he s1 s2 s3, d3⟩

end DerivativeClaims

theorem sampleExternals_axisLocal : sampleExternals.DerivBCsAxisLocal :=
  ⟨fun _ _ _ _ _ _ _ => rfl, fun _ _ _ _ _ _ _ => rfl, fun _ _ _ _ _ _ _ => rfl⟩

/-- C5 at a concrete input: cell `1` of a column of four cells whose density
is `1 + c` and whose `BX` is `2 c`; the z-derivatives stored are the slopes
`1` and `2`. -/
theorem C5_limited_derivative_of_linear_data_witness :
    ∃ g', calculateDerivatives sampleExternals (columnGlobals 4) 1
        (columnGrid 4 linearCellParams (fun _ _ => 0)) = some g' ∧
      g'.cpu_derivatives 1 drhodz = 1 ∧ g'.cpu_derivatives 1 dBxdz = 2 := by
  obtain ⟨g', hrun, -, -, hz⟩ :=
    C5_limited_derivative_of_linear_data sampleExternals sampleExternals_axisLocal
      (columnGlobals 4) 1 (columnGrid 4 linearCellParams (fun _ _ => 0)) 134217727
      column4_flags.2.1 (by decide)
  have hn1 : getNeighbourID (columnGrid 4 linearCellParams (fun _ _ => 0)) 1 2 2 1 = 0 := by
    decide
  have hn3 : getNeighbourID (columnGrid 4 linearCellParams (fun _ _ => 0)) 1 2 2 3 = 2 := by
    decide
  refine ⟨g', hrun, ?_, ?_⟩
  · apply hz (by decide) 1 (RHO, drhodz) (by simp)
    · rw [hn1]; norm_num [columnGrid, linearCellParams]
    · rw [hn3]; norm_num [columnGrid, linearCellParams]
  · apply hz (by decide) 2 (BX, dBxdz) (by simp)
    · rw [hn1]; norm_num [columnGrid, linearCellParams]
    · rw [hn3]; norm_num [columnGrid, linearCellParams]

theorem row3_flag0 : (rowGlobals 3).boundaryFlags 0 = some 115043766 := by
  decide

/-- C9 at a concrete input: cell `0` of a row of three cells has no `-x`
neighbour; `calculateDerivatives` returns and the slot `drhodx` holds what the
boundary-condition function of `sampleExternals` left there, the old value. -/
theorem C9_boundary_substitution_of_derivatives_witness :
    ∃ g', calculateDerivatives sampleExternals (rowGlobals 3) 0
        (rowGrid 3 linearCellParams (fun _ _ => 7)) = some g' ∧
      g'.cpu_derivatives 0 drhodx = 7 := by
  obtain ⟨-, g', hrun, hx, -⟩ :=
    C9_boundary_substitution_of_derivatives sampleExternals sampleExternals_axisLocal
      (rowGlobals 3) ⟨0, 0, 0, 0, 0, 0, 0, 0, 0⟩ rfl 0
      (rowGrid 3 linearCellParams (fun _ _ => 7)) 115043766 row3_flag0 (by decide)
      (by decide)
  exact ⟨g', hrun, (hx drhodx (by simp [xDerivativeSlots])).trans rfl⟩

end Vlasiator

namespace Vlasiator

open CellParams fieldsolver

/-! ## Edge electric field on uniform data -/

section EdgeUniform

variable {K : Type} [LinearOrderedField K]

theorem EPS_pos : (0 : K) < EPS := by
  unfold EPS; positivity

/-- A running maximum that starts from `max(ZERO, .)` is not negative. -/
theorem max4_nonneg (a b c d : K) : 0 ≤ max (max (max (max ZERO a) b) c) d :=
  le_max_of_le_left (le_max_of_le_left (le_max_of_le_left (le_max_left _ _)))

/-- The flux-split average of four equal corner estimates. -/
theorem upwind_average_const (a b c d E0 : K) (ha : 0 ≤ a) (hb : 0 ≤ b) (hc : 0 ≤ c)
    (hd : 0 ≤ d) :
    (a * c * E0 + a * d * E0 + b * c * E0 + b * d * E0) / ((a + b) * (c + d) + EPS)
        * ((a + b) * (c + d) + EPS) = E0 * ((a + b) * (c + d)) := by
  have hS : 0 ≤ (a + b) * (c + d) := mul_nonneg (by linarith) (by linarith)
  have hne : (a + b) * (c + d) + EPS ≠ 0 := by
    have := EPS_pos (K := K)
    linarith
  rw [div_mul_cancel₀ _ hne]
  ring

/-- The arithmetic of `calculateEdgeElectricFieldX` on uniform corner data
(the same magnetic field, density and momentum in the four corner cells,
all-zero derivatives): the four corner estimates equal
`E0 = By*Vz - Bz*Vy` before and after the second-order lines, both diffusive terms
vanish, the four characteristic speeds are not negative, and the stored value
satisfies `EX * (S + EPS) = E0 * S` for the sum `S` of the speed products. -/
theorem edgeElectricFieldX_uniform (X : Externals K)
    (cp_SW cp_SE cp_NE cp_NW : CellParams → K)
    (derivs_SW derivs_SE derivs_NE derivs_NW : fieldsolver → K)
    (nbr_cp_SW nbr_cp_SE nbr_cp_NW nbr_cp_NE : CellParams → K)
    (nbr_derivs_SW nbr_derivs_SE nbr_derivs_NW nbr_derivs_NE : fieldsolver → K)
    (hSE : SameState cp_SW cp_SE) (hNE : SameState cp_SW cp_NE) (hNW : SameState cp_SW cp_NW)
    (dSW : ∀ s, derivs_SW s = 0) (dSE : ∀ s, derivs_SE s = 0) (dNE : ∀ s, derivs_NE s = 0)
    (dNW : ∀ s, derivs_NW s = 0)
    (L : EdgeXLocals K)
    (hL : L = edgeElectricFieldX X cp_SW cp_SE cp_NE cp_NW derivs_SW derivs_SE derivs_NE
      derivs_NW nbr_cp_SW nbr_cp_SE nbr_cp_NW nbr_cp_NE nbr_derivs_SW nbr_derivs_SE
      nbr_derivs_NW nbr_derivs_NE)
    (E0 : K)
    (hE0 : E0 = cp_SW BY * (cp_SW RHOVZ / cp_SW RHO) - cp_SW BZ * (cp_SW RHOVY / cp_SW RHO)) :
    (L.Ex_SW_1st = E0 ∧ L.Ex_SW = E0 ∧ L.Ex_SE_1st = E0 ∧ L.Ex_SE = E0 ∧
      L.Ex_NW_1st = E0 ∧ L.Ex_NW = E0 ∧ L.Ex_NE_1st = E0 ∧ L.Ex_NE = E0) ∧
    (L.diffusive_z = 0 ∧ L.diffusive_y = 0) ∧
    (0 ≤ L.ay_pos ∧ 0 ≤ L.ay_neg ∧ 0 ≤ L.az_pos ∧ 0 ≤ L.az_neg) ∧
    L.EX * ((L.ay_pos + L.ay_neg) * (L.az_pos + L.az_neg) + EPS)
      = E0 * ((L.ay_pos + L.ay_neg) * (L.az_pos + L.az_neg)) := by
  obtain ⟨e1, e2, e3, e4, e5, e6, e7⟩ := hSE
  obtain ⟨f1, f2, f3, f4, f5, f6, f7⟩ := hNE
  obtain ⟨g1, g2, g3, g4, g5, g6, g7⟩ := hNW
  have hest : (L.Ex_SW_1st = E0 ∧ L.Ex_SW = E0 ∧ L.Ex_SE_1st = E0 ∧ L.Ex_SE = E0 ∧
      L.Ex_NW_1st = E0 ∧ L.Ex_NW = E0 ∧ L.Ex_NE_1st = E0 ∧ L.Ex_NE = E0) := by
    subst hL hE0
    simp only [edgeElectricFieldX, dSW, dSE, dNE, dNW, e1, e2, e3, e4, e5, e6, e7, f1, f2,
      f3, f4, f5, f6, f7, g1, g2, g3, g4, g5, g6, g7]
    refine ⟨?_, ?_, ?_, ?_, ?_, ?_, ?_, ?_⟩ <;> first | trivial | (split_ifs <;> simp)
  have hdiff : L.diffusive_z = 0 ∧ L.diffusive_y = 0 := by
    subst hL
    simp only [edgeElectricFieldX, dSW, dSE, dNE, dNW, e1, e2, e3, e4, e5, e6, e7, f1, f2,
      f3, f4, f5, f6, f7, g1, g2, g3, g4, g5, g6, g7]
    constructor <;> (split_ifs <;> simp)
  have hsp : 0 ≤ L.ay_pos ∧ 0 ≤ L.ay_neg ∧ 0 ≤ L.az_pos ∧ 0 ≤ L.az_neg := by
    subst hL
    exact ⟨max4_nonneg _ _ _ _, max4_nonneg _ _ _ _, max4_nonneg _ _ _ _, max4_nonneg _ _ _ _⟩
  refine ⟨hest, hdiff, hsp, ?_⟩
  have hE : L.EX = (L.ay_pos * L.az_pos * L.Ex_NE + L.ay_pos * L.az_neg * L.Ex_SE
      + L.ay_neg * L.az_pos * L.Ex_NW + L.ay_neg * L.az_neg * L.Ex_SW)
      / ((L.ay_pos + L.ay_neg) * (L.az_pos + L.az_neg) + EPS)
      - L.diffusive_z + L.diffusive_y := by
    subst hL
    rfl
  obtain ⟨-, h2, -, h4, -, h6, -, h8⟩ := hest
  rw [hE, hdiff.1, hdiff.2, h2, h4, h6, h8, sub_zero, add_zero]
  exact upwind_average_const _ _ _ _ _ hsp.1 hsp.2.1 hsp.2.2.1 hsp.2.2.2

/-- The arithmetic of `calculateEdgeElectricFieldY` on uniform corner data
(the same magnetic field, density and momentum in the four corner cells,
all-zero derivatives): the four corner estimates equal
`E0 = Bz*Vx - Bx*Vz` before and after the second-order lines, both diffusive terms
vanish, the four characteristic speeds are not negative, and the stored value
satisfies `EY * (S + EPS) = E0 * S` for the sum `S` of the speed products. -/
theorem edgeElectricFieldY_uniform (X : Externals K)
    (cp_SW cp_SE cp_NE cp_NW : CellParams → K)
    (derivs_SW derivs_SE derivs_NE derivs_NW : fieldsolver → K)
    (nbr_cp_SW nbr_cp_SE nbr_cp_NW nbr_cp_NE : CellParams → K)
    (nbr_derivs_SW nbr_derivs_SE nbr_derivs_NW nbr_derivs_NE : fieldsolver → K)
    (hSE : SameState cp_SW cp_SE) (hNE : SameState cp_SW cp_NE) (hNW : SameState cp_SW cp_NW)
    (dSW : ∀ s, derivs_SW s = 0) (dSE : ∀ s, derivs_SE s = 0) (dNE : ∀ s, derivs_NE s = 0)
    (dNW : ∀ s, derivs_NW s = 0)
    (L : EdgeYLocals K)
    (hL : L = edgeElectricFieldY X cp_SW cp_SE cp_NE cp_NW derivs_SW derivs_SE derivs_NE
      derivs_NW nbr_cp_SW nbr_cp_SE nbr_cp_NW nbr_cp_NE nbr_derivs_SW nbr_derivs_SE
      nbr_derivs_NW nbr_derivs_NE)
    (E0 : K)
    (hE0 : E0 = cp_SW BZ * (cp_SW RHOVX / cp_SW RHO) - cp_SW BX * (cp_SW RHOVZ / cp_SW RHO)) :
    (L.Ey_SW_1st = E0 ∧ L.Ey_SW = E0 ∧ L.Ey_SE_1st = E0 ∧ L.Ey_SE = E0 ∧
      L.Ey_NW_1st = E0 ∧ L.Ey_NW = E0 ∧ L.Ey_NE_1st = E0 ∧ L.Ey_NE = E0) ∧
    (L.diffusive_x = 0 ∧ L.diffusive_z = 0) ∧
    (0 ≤ L.az_pos ∧ 0 ≤ L.az_neg ∧ 0 ≤ L.ax_pos ∧ 0 ≤ L.ax_neg) ∧
    L.EY * ((L.az_pos + L.az_neg) * (L.ax_pos + L.ax_neg) + EPS)
      = E0 * ((L.az_pos + L.az_neg) * (L.ax_pos + L.ax_neg)) := by
  obtain ⟨e1, e2, e3, e4, e5, e6, e7⟩ := hSE
  obtain ⟨f1, f2, f3, f4, f5, f6, f7⟩ := hNE
  obtain ⟨g1, g2, g3, g4, g5, g6, g7⟩ := hNW
  have hest : (L.Ey_SW_1st = E0 ∧ L.Ey_SW = E0 ∧ L.Ey_SE_1st = E0 ∧ L.Ey_SE = E0 ∧
      L.Ey_NW_1st = E0 ∧ L.Ey_NW = E0 ∧ L.Ey_NE_1st = E0 ∧ L.Ey_NE = E0) := by
    subst hL hE0
    simp only [edgeElectricFieldY, dSW, dSE, dNE, dNW, e1, e2, e3, e4, e5, e6, e7, f1, f2,
      f3, f4, f5, f6, f7, g1, g2, g3, g4, g5, g6, g7]
    refine ⟨?_, ?_, ?_, ?_, ?_, ?_, ?_, ?_⟩ <;> first | trivial | (split_ifs <;> simp)
  have hdiff : L.diffusive_x = 0 ∧ L.diffusive_z = 0 := by
    subst hL
    simp only [edgeElectricFieldY, dSW, dSE, dNE, dNW, e1, e2, e3, e4, e5, e6, e7, f1, f2,
      f3, f4, f5, f6, f7, g1, g2, g3, g4, g5, g6, g7]
    constructor <;> (split_ifs <;> simp)
  have hsp : 0 ≤ L.az_pos ∧ 0 ≤ L.az_neg ∧ 0 ≤ L.ax_pos ∧ 0 ≤ L.ax_neg := by
    subst hL
    exact ⟨max4_nonneg _ _ _ _, max4_nonneg _ _ _ _, max4_nonneg _ _ _ _, max4_nonneg _ _ _ _⟩
  refine ⟨hest, hdiff, hsp, ?_⟩
  have hE : L.EY = (L.az_pos * L.ax_pos * L.Ey_NE + L.az_pos * L.ax_neg * L.Ey_SE
      + L.az_neg * L.ax_pos * L.Ey_NW + L.az_neg * L.ax_neg * L.Ey_SW)
      / ((L.az_pos + L.az_neg) * (L.ax_pos + L.ax_neg) + EPS)
      - L.diffusive_x + L.diffusive_z := by
    subst hL
    rfl
  obtain ⟨-, h2, -, h4, -, h6, -, h8⟩ := hest
  rw [hE, hdiff.1, hdiff.2, h2, h4, h6, h8, sub_zero, add_zero]
  exact upwind_average_const _ _ _ _ _ hsp.1 hsp.2.1 hsp.2.2.1 hsp.2.2.2

/-- The arithmetic of `calculateEdgeElectricFieldZ` on uniform corner data
(the same magnetic field, density and momentum in the four corner cells,
all-zero derivatives): the four corner estimates equal
`E0 = Bx*Vy - By*Vx` before and after the second-order lines, both diffusive terms
vanish, the four characteristic speeds are not negative, and the stored value
satisfies `EZ * (S + EPS) = E0 * S` for the sum `S` of the speed products. -/
theorem edgeElectricFieldZ_uniform (X : Externals K)
    (cp_SW cp_SE cp_NE cp_NW : CellParams → K)
    (derivs_SW derivs_SE derivs_NE derivs_NW : fieldsolver → K)
    (nbr_cp_SW nbr_cp_SE nbr_cp_NW nbr_cp_NE : CellParams → K)
    (nbr_derivs_SW nbr_derivs_SE nbr_derivs_NW nbr_derivs_NE : fieldsolver → K)
    (hSE : SameState cp_SW cp_SE) (hNE : SameState cp_SW cp_NE) (hNW : SameState cp_SW cp_NW)
    (dSW : ∀ s, derivs_SW s = 0) (dSE : ∀ s, derivs_SE s = 0) (dNE : ∀ s, derivs_NE s = 0)
    (dNW : ∀ s, derivs_NW s = 0)
    (L : EdgeZLocals K)
    (hL : L = edgeElectricFieldZ X cp_SW cp_SE cp_NE cp_NW derivs_SW derivs_SE derivs_NE
      derivs_NW nbr_cp_SW nbr_cp_SE nbr_cp_NW nbr_cp_NE nbr_derivs_SW nbr_derivs_SE
      nbr_derivs_NW nbr_derivs_NE)
    (E0 : K)
    (hE0 : E0 = cp_SW BX * (cp_SW RHOVY / cp_SW RHO) - cp_SW BY * (cp_SW RHOVX / cp_SW RHO)) :
    (L.Ez_SW_1st = E0 ∧ L.Ez_SW = E0 ∧ L.Ez_SE_1st = E0 ∧ L.Ez_SE = E0 ∧
      L.Ez_NW_1st = E0 ∧ L.Ez_NW = E0 ∧ L.Ez_NE_1st = E0 ∧ L.Ez_NE = E0) ∧
    (L.diffusive_y = 0 ∧ L.diffusive_x = 0) ∧
    (0 ≤ L.ax_pos ∧ 0 ≤ L.ax_neg ∧ 0 ≤ L.ay_pos ∧ 0 ≤ L.ay_neg) ∧
    L.EZ * ((L.ax_pos + L.ax_neg) * (L.ay_pos + L.ay_neg) + EPS)
      = E0 * ((L.ax_pos + L.ax_neg) * (L.ay_pos + L.ay_neg)) := by
  obtain ⟨e1, e2, e3, e4, e5, e6, e7⟩ := hSE
  obtain ⟨f1, f2, f3, f4, f5, f6, f7⟩ := hNE
  obtain ⟨g1, g2, g3, g4, g5, g6, g7⟩ := hNW
  have hest : (L.Ez_SW_1st = E0 ∧ L.Ez_SW = E0 ∧ L.Ez_SE_1st = E0 ∧ L.Ez_SE = E0 ∧
      L.Ez_NW_1st = E0 ∧ L.Ez_NW = E0 ∧ L.Ez_NE_1st = E0 ∧ L.Ez_NE = E0) := by
    subst hL hE0
    simp only [edgeElectricFieldZ, dSW, dSE, dNE, dNW, e1, e2, e3, e4, e5, e6, e7, f1, f2,
      f3, f4, f5, f6, f7, g1, g2, g3, g4, g5, g6, g7]
    refine ⟨?_, ?_, ?_, ?_, ?_, ?_, ?_, ?_⟩ <;> first | trivial | (split_ifs <;> simp)
  have hdiff : L.diffusive_y = 0 ∧ L.diffusive_x = 0 := by
    subst hL
    simp only [edgeElectricFieldZ, dSW, dSE, dNE, dNW, e1, e2, e3, e4, e5, e6, e7, f1, f2,
      f3, f4, f5, f6, f7, g1, g2, g3, g4, g5, g6, g7]
    constructor <;> (split_ifs <;> simp)
  have hsp : 0 ≤ L.ax_pos ∧ 0 ≤ L.ax_neg ∧ 0 ≤ L.ay_pos ∧ 0 ≤ L.ay_neg := by
    subst hL
    exact ⟨max4_nonneg _ _ _ _, max4_nonneg _ _ _ _, max4_nonneg _ _ _ _, max4_nonneg _ _ _ _⟩
  refine ⟨hest, hdiff, hsp, ?_⟩
  have hE : L.EZ = (L.ax_pos * L.ay_pos * L.Ez_NE + L.ax_pos * L.ay_neg * L.Ez_SE
      + L.ax_neg * L.ay_pos * L.Ez_NW + L.ax_neg * L.ay_neg * L.Ez_SW)
      / ((L.ax_pos + L.ax_neg) * (L.ay_pos + L.ay_neg) + EPS)
      - L.diffusive_y + L.diffusive_x := by
    subst hL
    rfl
  obtain ⟨-, h2, -, h4, -, h6, -, h8⟩ := hest
  rw [hE, hdiff.1, hdiff.2, h2, h4, h6, h8, sub_zero, add_zero]
  exact upwind_average_const _ _ _ _ _ hsp.1 hsp.2.1 hsp.2.2.1 hsp.2.2.2

end EdgeUniform

end Vlasiator

namespace Vlasiator

open CellParams fieldsolver

section EdgeUniformMesh

variable {K : Type} [LinearOrderedField K]

/-- `calculateEdgeElectricFieldX` on a cell with uniform surroundings: the
kernel returns and stores `L.EX`, where the locals `L` are as described in
`edgeElectricFieldX_uniform`. -/
theorem calculateEdgeElectricFieldX_uniform (X : Externals K) (c : CellID) (g : ParGrid K)
    (hU : UniformCorners g c
      [calcNbrTypeID 2 1 2, calcNbrTypeID 2 1 1, calcNbrTypeID 2 2 1]
      [calcNbrTypeID 3 2 2, calcNbrTypeID 3 1 2, calcNbrTypeID 3 2 1, calcNbrTypeID 3 1 1]) :
    ∃ L, edgeElectricFieldXAt X c g = some L ∧
      calculateEdgeElectricFieldX X c g = some (g.setCellParam c EX L.EX) ∧
      (L.Ex_SW_1st = g.cpu_cellParams c BY * (g.cpu_cellParams c RHOVZ / g.cpu_cellParams c RHO)
          - g.cpu_cellParams c BZ * (g.cpu_cellParams c RHOVY / g.cpu_cellParams c RHO) ∧
        L.Ex_SE_1st = L.Ex_SW_1st ∧ L.Ex_NW_1st = L.Ex_SW_1st ∧
        L.Ex_NE_1st = L.Ex_SW_1st ∧
        L.Ex_SW = L.Ex_SW_1st ∧ L.Ex_SE = L.Ex_SE_1st ∧ L.Ex_NW = L.Ex_NW_1st ∧
        L.Ex_NE = L.Ex_NE_1st) ∧
      (L.diffusive_z = 0 ∧ L.diffusive_y = 0) ∧
      (0 ≤ L.ay_pos ∧ 0 ≤ L.ay_neg ∧ 0 ≤ L.az_pos ∧ 0 ≤ L.az_neg) ∧
      L.EX * ((L.ay_pos + L.ay_neg) * (L.az_pos + L.az_neg) + EPS)
        = (g.cpu_cellParams c BY * (g.cpu_cellParams c RHOVZ / g.cpu_cellParams c RHO)
            - g.cpu_cellParams c BZ * (g.cpu_cellParams c RHOVY / g.cpu_cellParams c RHO))
          * ((L.ay_pos + L.ay_neg) * (L.az_pos + L.az_neg)) := by
  obtain ⟨hc, -, d0, hcor, hfur⟩ := hU
  obtain ⟨vSE, sSE, dSE⟩ := hcor (calcNbrTypeID 2 1 2) (by simp)
  obtain ⟨vNE, sNE, dNE⟩ := hcor (calcNbrTypeID 2 1 1) (by simp)
  obtain ⟨vNW, sNW, dNW⟩ := hcor (calcNbrTypeID 2 2 1) (by simp)
  have p1 := hfur (calcNbrTypeID 3 2 2) (by simp)
  have p2 := hfur (calcNbrTypeID 3 1 2) (by simp)
  have p3 := hfur (calcNbrTypeID 3 2 1) (by simp)
  have p4 := hfur (calcNbrTypeID 3 1 1) (by simp)
  have hAt : edgeElectricFieldXAt X c g = some (edgeElectricFieldX X
      (g.cpu_cellParams c)
      (g.cpu_cellParams (g.getNeighbour c (calcNbrTypeID 2 1 2)))
      (g.cpu_cellParams (g.getNeighbour c (calcNbrTypeID 2 1 1)))
      (g.cpu_cellParams (g.getNeighbour c (calcNbrTypeID 2 2 1)))
      (g.cpu_derivatives c)
      (g.cpu_derivatives (g.getNeighbour c (calcNbrTypeID 2 1 2)))
      (g.cpu_derivatives (g.getNeighbour c (calcNbrTypeID 2 1 1)))
      (g.cpu_derivatives (g.getNeighbour c (calcNbrTypeID 2 2 1)))
      (g.cpu_cellParams (g.getNeighbour c (calcNbrTypeID 3 2 2)))
      (g.cpu_cellParams (g.getNeighbour c (calcNbrTypeID 3 1 2)))
      (g.cpu_cellParams (g.getNeighbour c (calcNbrTypeID 3 2 1)))
      (g.cpu_cellParams (g.getNeighbour c (calcNbrTypeID 3 1 1)))
      (g.cpu_derivatives (g.getNeighbour c (calcNbrTypeID 3 2 2)))
      (g.cpu_derivatives (g.getNeighbour c (calcNbrTypeID 3 1 2)))
      (g.cpu_derivatives (g.getNeighbour c (calcNbrTypeID 3 2 1)))
      (g.cpu_derivatives (g.getNeighbour c (calcNbrTypeID 3 1 1)))) := by
    unfold edgeElectricFieldXAt
    exact if_pos ⟨hc, vSE, vNE, vNW, p1, p2, p3, p4⟩
  obtain ⟨h1, h2, h3, h4⟩ := edgeElectricFieldX_uniform X _ _ _ _ _ _ _ _ _ _ _ _ _ _ _ _
    sSE sNE sNW d0 dSE dNE dNW _ rfl _ rfl
  refine ⟨_, hAt, ?_, ?_, h2, h3, h4⟩
  · unfold calculateEdgeElectricFieldX
    rw [hAt]
    rfl
  · obtain ⟨a1, a2, a3, a4, a5, a6, a7, a8⟩ := h1
    exact ⟨a1, a3.trans a1.symm, a5.trans a1.symm, a7.trans a1.symm, a2.trans a1.symm,
      a4.trans a3.symm, a6.trans a5.symm, a8.trans a7.symm⟩

/-- `calculateEdgeElectricFieldY` on a cell with uniform surroundings: the
kernel returns and stores `L.EY`, where the locals `L` are as described in
`edgeElectricFieldY_uniform`. -/
theorem calculateEdgeElectricFieldY_uniform (X : Externals K) (c : CellID) (g : ParGrid K)
    (hU : UniformCorners g c
      [calcNbrTypeID 2 2 1, calcNbrTypeID 1 2 1, calcNbrTypeID 1 2 2]
      [calcNbrTypeID 2 3 2, calcNbrTypeID 2 3 1, calcNbrTypeID 1 3 2, calcNbrTypeID 1 3 1]) :
    ∃ L, edgeElectricFieldYAt X c g = some L ∧
      calculateEdgeElectricFieldY X c g = some (g.setCellParam c EY L.EY) ∧
      (L.Ey_SW_1st = g.cpu_cellParams c BZ * (g.cpu_cellParams c RHOVX / g.cpu_cellParams c RHO)
          - g.cpu_cellParams c BX * (g.cpu_cellParams c RHOVZ / g.cpu_cellParams c RHO) ∧
        L.Ey_SE_1st = L.Ey_SW_1st ∧ L.Ey_NW_1st = L.Ey_SW_1st ∧
        L.Ey_NE_1st = L.Ey_SW_1st ∧
        L.Ey_SW = L.Ey_SW_1st ∧ L.Ey_SE = L.Ey_SE_1st ∧ L.Ey_NW = L.Ey_NW_1st ∧
        L.Ey_NE = L.Ey_NE_1st) ∧
      (L.diffusive_x = 0 ∧ L.diffusive_z = 0) ∧
      (0 ≤ L.az_pos ∧ 0 ≤ L.az_neg ∧ 0 ≤ L.ax_pos ∧ 0 ≤ L.ax_neg) ∧
      L.EY * ((L.az_pos + L.az_neg) * (L.ax_pos + L.ax_neg) + EPS)
        = (g.cpu_cellParams c BZ * (g.cpu_cellParams c RHOVX / g.cpu_cellParams c RHO)
            - g.cpu_cellParams c BX * (g.cpu_cellParams c RHOVZ / g.cpu_cellParams c RHO))
          * ((L.az_pos + L.az_neg) * (L.ax_pos + L.ax_neg)) := by
  obtain ⟨hc, -, d0, hcor, hfur⟩ := hU
  obtain ⟨vSE, sSE, dSE⟩ := hcor (calcNbrTypeID 2 2 1) (by simp)
  obtain ⟨vNE, sNE, dNE⟩ := hcor (calcNbrTypeID 1 2 1) (by simp)
  obtain ⟨vNW, sNW, dNW⟩ := hcor (calcNbrTypeID 1 2 2) (by simp)
  have p1 := hfur (calcNbrTypeID 2 3 2) (by simp)
  have p2 := hfur (calcNbrTypeID 2 3 1) (by simp)
  have p3 := hfur (calcNbrTypeID 1 3 2) (by simp)
  have p4 := hfur (calcNbrTypeID 1 3 1) (by simp)
  have hAt : edgeElectricFieldYAt X c g = some (edgeElectricFieldY X
      (g.cpu_cellParams c)
      (g.cpu_cellParams (g.getNeighbour c (calcNbrTypeID 2 2 1)))
      (g.cpu_cellParams (g.getNeighbour c (calcNbrTypeID 1 2 1)))
      (g.cpu_cellParams (g.getNeighbour c (calcNbrTypeID 1 2 2)))
      (g.cpu_derivatives c)
      (g.cpu_derivatives (g.getNeighbour c (calcNbrTypeID 2 2 1)))
      (g.cpu_derivatives (g.getNeighbour c (calcNbrTypeID 1 2 1)))
      (g.cpu_derivatives (g.getNeighbour c (calcNbrTypeID 1 2 2)))
      (g.cpu_cellParams (g.getNeighbour c (calcNbrTypeID 2 3 2)))
      (g.cpu_cellParams (g.getNeighbour c (calcNbrTypeID 2 3 1)))
      (g.cpu_cellParams (g.getNeighbour c (calcNbrTypeID 1 3 2)))
      (g.cpu_cellParams (g.getNeighbour c (calcNbrTypeID 1 3 1)))
      (g.cpu_derivatives (g.getNeighbour c (calcNbrTypeID 2 3 2)))
      (g.cpu_derivatives (g.getNeighbour c (calcNbrTypeID 2 3 1)))
      (g.cpu_derivatives (g.getNeighbour c (calcNbrTypeID 1 3 2)))
      (g.cpu_derivatives (g.getNeighbour c (calcNbrTypeID 1 3 1)))) := by
    unfold edgeElectricFieldYAt
    exact if_pos ⟨hc, vSE, vNE, vNW, p1, p2, p3, p4⟩
  obtain ⟨h1, h2, h3, h4⟩ := edgeElectricFieldY_uniform X _ _ _ _ _ _ _ _ _ _ _ _ _ _ _ _
    sSE sNE sNW d0 dSE dNE dNW _ rfl _ rfl
  refine ⟨_, hAt, ?_, ?_, h2, h3, h4⟩
  · unfold calculateEdgeElectricFieldY
    rw [hAt]
    rfl
  · obtain ⟨a1, a2, a3, a4, a5, a6, a7, a8⟩ := h1
    exact ⟨a1, a3.trans a1.symm, a5.trans a1.symm, a7.trans a1.symm, a2.trans a1.symm,
      a4.trans a3.symm, a6.trans a5.symm, a8.trans a7.symm⟩

/-- `calculateEdgeElectricFieldZ` on a cell with uniform surroundings: the
kernel returns and stores `L.EZ`, where the locals `L` are as described in
`edgeElectricFieldZ_uniform`. -/
theorem calculateEdgeElectricFieldZ_uniform (X : Externals K) (c : CellID) (g : ParGrid K)
    (hU : UniformCorners g c
      [calcNbrTypeID 1 2 2, calcNbrTypeID 1 1 2, calcNbrTypeID 2 1 2]
      [calcNbrTypeID 2 2 3, calcNbrTypeID 1 2 3, calcNbrTypeID 2 1 3, calcNbrTypeID 1 1 3]) :
    ∃ L, edgeElectricFieldZAt X c g = some L ∧
      calculateEdgeElectricFieldZ X c g = some (g.setCellParam c EZ L.EZ) ∧
      (L.Ez_SW_1st = g.cpu_cellParams c BX * (g.cpu_cellParams c RHOVY / g.cpu_cellParams c RHO)
          - g.cpu_cellParams c BY * (g.cpu_cellParams c RHOVX / g.cpu_cellParams c RHO) ∧
        L.Ez_SE_1st = L.Ez_SW_1st ∧ L.Ez_NW_1st = L.Ez_SW_1st ∧
        L.Ez_NE_1st = L.Ez_SW_1st ∧
        L.Ez_SW = L.Ez_SW_1st ∧ L.Ez_SE = L.Ez_SE_1st ∧ L.Ez_NW = L.Ez_NW_1st ∧
        L.Ez_NE = L.Ez_NE_1st) ∧
      (L.diffusive_y = 0 ∧ L.diffusive_x = 0) ∧
      (0 ≤ L.ax_pos ∧ 0 ≤ L.ax_neg ∧ 0 ≤ L.ay_pos ∧ 0 ≤ L.ay_neg) ∧
      L.EZ * ((L.ax_pos + L.ax_neg) * (L.ay_pos + L.ay_neg) + EPS)
        = (g.cpu_cellParams c BX * (g.cpu_cellParams c RHOVY / g.cpu_cellParams c RHO)
            - g.cpu_cellParams c BY * (g.cpu_cellParams c RHOVX / g.cpu_cellParams c RHO))
          * ((L.ax_pos + L.ax_neg) * (L.ay_pos + L.ay_neg)) := by
  obtain ⟨hc, -, d0, hcor, hfur⟩ := hU
  obtain ⟨vSE, sSE, dSE⟩ := hcor (calcNbrTypeID 1 2 2) (by simp)
  obtain ⟨vNE, sNE, dNE⟩ := hcor (calcNbrTypeID 1 1 2) (by simp)
  obtain ⟨vNW, sNW, dNW⟩ := hcor (calcNbrTypeID 2 1 2) (by simp)
  have p1 := hfur (calcNbrTypeID 2 2 3) (by simp)
  have p2 := hfur (calcNbrTypeID 1 2 3) (by simp)
  have p3 := hfur (calcNbrTypeID 2 1 3) (by simp)
  have p4 := hfur (calcNbrTypeID 1 1 3) (by simp)
  have hAt : edgeElectricFieldZAt X c g = some (edgeElectricFieldZ X
      (g.cpu_cellParams c)
      (g.cpu_cellParams (g.getNeighbour c (calcNbrTypeID 1 2 2)))
      (g.cpu_cellParams (g.getNeighbour c (calcNbrTypeID 1 1 2)))
      (g.cpu_cellParams (g.getNeighbour c (calcNbrTypeID 2 1 2)))
      (g.cpu_derivatives c)
      (g.cpu_derivatives (g.getNeighbour c (calcNbrTypeID 1 2 2)))
      (g.cpu_derivatives (g.getNeighbour c (calcNbrTypeID 1 1 2)))
      (g.cpu_derivatives (g.getNeighbour c (calcNbrTypeID 2 1 2)))
      (g.cpu_cellParams (g.getNeighbour c (calcNbrTypeID 2 2 3)))
      (g.cpu_cellParams (g.getNeighbour c (calcNbrTypeID 1 2 3)))
      (g.cpu_cellParams (g.getNeighbour c (calcNbrTypeID 2 1 3)))
      (g.cpu_cellParams (g.getNeighbour c (calcNbrTypeID 2 1 3)))
      (g.cpu_derivatives (g.getNeighbour c (calcNbrTypeID 2 2 3)))
      (g.cpu_derivatives (g.getNeighbour c (calcNbrTypeID 1 2 3)))
      (g.cpu_derivatives (g.getNeighbour c (calcNbrTypeID 2 1 3)))
      (g.cpu_derivatives (g.getNeighbour c (calcNbrTypeID 2 1 3)))) := by
    unfold edgeElectricFieldZAt
    exact if_pos ⟨hc, vSE, vNE, vNW, p1, p2, p3⟩
  obtain ⟨h1, h2, h3, h4⟩ := edgeElectricFieldZ_uniform X _ _ _ _ _ _ _ _ _ _ _ _ _ _ _ _
    sSE sNE sNW d0 dSE dNE dNW _ rfl _ rfl
  refine ⟨_, hAt, ?_, ?_, h2, h3, h4⟩
  · unfold calculateEdgeElectricFieldZ
    rw [hAt]
    rfl
  · obtain ⟨a1, a2, a3, a4, a5, a6, a7, a8⟩ := h1
    exact ⟨a1, a3.trans a1.symm, a5.trans a1.symm, a7.trans a1.symm, a2.trans a1.symm,
      a4.trans a3.symm, a6.trans a5.symm, a8.trans a7.symm⟩

/-- C4: uniform-field edge E. For `calculateEdgeElectricFieldX` on a cell
whose four corner cells hold the same `B`, the same density `rho > 0` and
momentum and all-zero stored derivatives (and whose `+x` neighbours exist):
the kernel returns, each of the four corner estimates equals
`E0 = By*Vz - Bz*Vy` with zero second-order correction, both diffusive terms
are zero, and the stored `EX` satisfies `EX*(S+EPS) = E0*S` with
`S = (ay_pos+ay_neg)*(az_pos+az_neg)`; the cyclically permuted statements hold
for `calculateEdgeElectricFieldY` and `calculateEdgeElectricFieldZ`. -/
theorem C4_uniform_field_edge_E (X : Externals K) (c : CellID) (g : ParGrid K) :
    (UniformCorners g c
        [calcNbrTypeID 2 1 2, calcNbrTypeID 2 1 1, calcNbrTypeID 2 2 1]
        [calcNbrTypeID 3 2 2, calcNbrTypeID 3 1 2, calcNbrTypeID 3 2 1, calcNbrTypeID 3 1 1] →
      ∃ L, edgeElectricFieldXAt X c g = some L ∧
        calculateEdgeElectricFieldX X c g = some (g.setCellParam c EX L.EX) ∧
        (L.Ex_SW_1st = g.cpu_cellParams c BY * (g.cpu_cellParams c RHOVZ / g.cpu_cellParams c RHO)
            - g.cpu_cellParams c BZ * (g.cpu_cellParams c RHOVY / g.cpu_cellParams c RHO) ∧
          L.Ex_SE_1st = L.Ex_SW_1st ∧ L.Ex_NW_1st = L.Ex_SW_1st ∧ L.Ex_NE_1st = L.Ex_SW_1st ∧
          L.Ex_SW = L.Ex_SW_1st ∧ L.Ex_SE = L.Ex_SE_1st ∧ L.Ex_NW = L.Ex_NW_1st ∧
          L.Ex_NE = L.Ex_NE_1st) ∧
        (L.diffusive_z = 0 ∧ L.diffusive_y = 0) ∧
        (0 ≤ L.ay_pos ∧ 0 ≤ L.ay_neg ∧ 0 ≤ L.az_pos ∧ 0 ≤ L.az_neg) ∧
        L.EX * ((L.ay_pos + L.ay_neg) * (L.az_pos + L.az_neg) + EPS)
          = (g.cpu_cellParams c BY * (g.cpu_cellParams c RHOVZ / g.cpu_cellParams c RHO)
              - g.cpu_cellParams c BZ * (g.cpu_cellParams c RHOVY / g.cpu_cellParams c RHO))
            * ((L.ay_pos + L.ay_neg) * (L.az_pos + L.az_neg))) ∧
    (UniformCorners g c
        [calcNbrTypeID 2 2 1, calcNbrTypeID 1 2 1, calcNbrTypeID 1 2 2]
        [calcNbrTypeID 2 3 2, calcNbrTypeID 2 3 1, calcNbrTypeID 1 3 2, calcNbrTypeID 1 3 1] →
      ∃ L, edgeElectricFieldYAt X c g = some L ∧
        calculateEdgeElectricFieldY X c g = some (g.setCellParam c EY L.EY) ∧
        (L.Ey_SW_1st = g.cpu_cellParams c BZ * (g.cpu_cellParams c RHOVX / g.cpu_cellParams c RHO)
            - g.cpu_cellParams c BX * (g.cpu_cellParams c RHOVZ / g.cpu_cellParams c RHO) ∧
          L.Ey_SE_1st = L.Ey_SW_1st ∧ L.Ey_NW_1st = L.Ey_SW_1st ∧ L.Ey_NE_1st = L.Ey_SW_1st ∧
          L.Ey_SW = L.Ey_SW_1st ∧ L.Ey_SE = L.Ey_SE_1st ∧ L.Ey_NW = L.Ey_NW_1st ∧
          L.Ey_NE = L.Ey_NE_1st) ∧
        (L.diffusive_x = 0 ∧ L.diffusive_z = 0) ∧
        (0 ≤ L.az_pos ∧ 0 ≤ L.az_neg ∧ 0 ≤ L.ax_pos ∧ 0 ≤ L.ax_neg) ∧
        L.EY * ((L.az_pos + L.az_neg) * (L.ax_pos + L.ax_neg) + EPS)
          = (g.cpu_cellParams c BZ * (g.cpu_cellParams c RHOVX / g.cpu_cellParams c RHO)
              - g.cpu_cellParams c BX * (g.cpu_cellParams c RHOVZ / g.cpu_cellParams c RHO))
            * ((L.az_pos + L.az_neg) * (L.ax_pos + L.ax_neg))) ∧
    (UniformCorners g c
        [calcNbrTypeID 1 2 2, calcNbrTypeID 1 1 2, calcNbrTypeID 2 1 2]
        [calcNbrTypeID 2 2 3, calcNbrTypeID 1 2 3, calcNbrTypeID 2 1 3, calcNbrTypeID 1 1 3] →
      ∃ L, edgeElectricFieldZAt X c g = some L ∧
        calculateEdgeElectricFieldZ X c g = some (g.setCellParam c EZ L.EZ) ∧
        (L.Ez_SW_1st = g.cpu_cellParams c BX * (g.cpu_cellParams c RHOVY / g.cpu_cellParams c RHO)
            - g.cpu_cellParams c BY * (g.cpu_cellParams c RHOVX / g.cpu_cellParams c RHO) ∧
          L.Ez_SE_1st = L.Ez_SW_1st ∧ L.Ez_NW_1st = L.Ez_SW_1st ∧ L.Ez_NE_1st = L.Ez_SW_1st ∧
          L.Ez_SW = L.Ez_SW_1st ∧ L.Ez_SE = L.Ez_SE_1st ∧ L.Ez_NW = L.Ez_NW_1st ∧
          L.Ez_NE = L.Ez_NE_1st) ∧
        (L.diffusive_y = 0 ∧ L.diffusive_x = 0) ∧
        (0 ≤ L.ax_pos ∧ 0 ≤ L.ax_neg ∧ 0 ≤ L.ay_pos ∧ 0 ≤ L.ay_neg) ∧
        L.EZ * ((L.ax_pos + L.ax_neg) * (L.ay_pos + L.ay_neg) + EPS)
          = (g.cpu_cellParams c BX * (g.cpu_cellParams c RHOVY / g.cpu_cellParams c RHO)
              - g.cpu_cellParams c BY * (g.cpu_cellParams c RHOVX / g.cpu_cellParams c RHO))
            * ((L.ax_pos + L.ax_neg) * (L.ay_pos + L.ay_neg))) :=
  ⟨calculateEdgeElectricFieldX_uniform X c g, calculateEdgeElectricFieldY_uniform X c g,
    calculateEdgeElectricFieldZ_uniform X c g⟩

end EdgeUniformMesh

end Vlasiator

namespace Vlasiator

open CellParams fieldsolver

/-- On the column of four cells with the same data on every cell, cell `1`
has uniform surroundings for each list of neighbour type ids whose entries
have z-offset `-1`, `0` or `+1`. -/
theorem column4_uniform (corners further : List Nat)
    (hc : ∀ t ∈ corners, t / 25 = 1 ∨ t / 25 = 2 ∨ t / 25 = 3)
    (hf : ∀ t ∈ further, t / 25 = 1 ∨ t / 25 = 2 ∨ t / 25 = 3) :
    UniformCorners (columnGrid 4 uniformCellParams (fun _ _ => 0)) 1 corners further := by
  have key : ∀ t : Nat, (t / 25 = 1 ∨ t / 25 = 2 ∨ t / 25 = 3) →
      columnGetNeighbour 4 1 t ≠ INVALID_CELLID := by
    intro t ht
    rcases ht with h | h | h <;> simp [columnGetNeighbour, h, INVALID_CELLID]
  refine ⟨by decide, by norm_num [columnGrid, uniformCellParams], fun _ => rfl, ?_, ?_⟩
  · intro t ht
    exact ⟨key t (hc t ht), ⟨rfl, rfl, rfl, rfl, rfl, rfl, rfl⟩, fun _ => rfl⟩
  · intro t ht
    exact key t (hf t ht)

/-- Witness for C4: on the column of four cells with the same data on every
cell (velocity `(1, 2, 3)`, field `(3, 2, 4)`), the three kernels on cell `1`
return with corner estimates `-2`, `-5` and `4` and zero diffusive terms. -/
theorem C4_uniform_field_edge_E_witness :
    (∃ L, edgeElectricFieldXAt sampleExternals 1
          (columnGrid 4 uniformCellParams (fun _ _ => 0)) = some L ∧
        L.Ex_SW = -2 ∧ L.Ex_NE = -2 ∧ L.diffusive_z = 0 ∧ L.diffusive_y = 0) ∧
    (∃ L, edgeElectricFieldYAt sampleExternals 1
          (columnGrid 4 uniformCellParams (fun _ _ => 0)) = some L ∧
        L.Ey_SW = -5 ∧ L.Ey_NE = -5 ∧ L.diffusive_x = 0 ∧ L.diffusive_z = 0) ∧
    (∃ L, edgeElectricFieldZAt sampleExternals 1
          (columnGrid 4 uniformCellParams (fun _ _ => 0)) = some L ∧
        L.Ez_SW = 4 ∧ L.Ez_NE = 4 ∧ L.diffusive_y = 0 ∧ L.diffusive_x = 0) := by
  have h := C4_uniform_field_edge_E sampleExternals 1
    (columnGrid 4 uniformCellParams (fun _ _ => 0))
  obtain ⟨LX, hX, -, ⟨x1, -, -, x4, x5, -, -, x8⟩, ⟨x9, x10⟩, -, -⟩ :=
    h.1 (column4_uniform _ _ (by decide) (by decide))
  obtain ⟨LY, hY, -, ⟨y1, -, -, y4, y5, -, -, y8⟩, ⟨y9, y10⟩, -, -⟩ :=
    h.2.1 (column4_uniform _ _ (by decide) (by decide))
  obtain ⟨LZ, hZ, -, ⟨z1, -, -, z4, z5, -, -, z8⟩, ⟨z9, z10⟩, -, -⟩ :=
    h.2.2 (column4_uniform _ _ (by decide) (by decide))
  have eX : LX.Ex_SW_1st = -2 := by
    rw [x1]; norm_num [columnGrid, uniformCellParams]
  have eY : LY.Ey_SW_1st = -5 := by
    rw [y1]; norm_num [columnGrid, uniformCellParams]
  have eZ : LZ.Ez_SW_1st = 4 := by
    rw [z1]; norm_num [columnGrid, uniformCellParams]
  exact ⟨⟨LX, hX, x5.trans eX, (x8.trans x4).trans eX, x9, x10⟩,
    ⟨LY, hY, y5.trans eY, (y8.trans y4).trans eY, y9, y10⟩,
    ⟨LZ, hZ, z5.trans eZ, (z8.trans z4).trans eZ, z9, z10⟩⟩

end Vlasiator

namespace Vlasiator

open CellParams fieldsolver

/-! ## The stages of `propagateFields` -/

section DerivativeStage

variable {K : Type} [LinearOrderedField K]

/-- The x-direction block on a cell whose x-neighbours hold the same plasma
state, when the boundary-condition function keeps the array: an all-zero
derivative array stays all-zero. -/
theorem calculateDerivativesX_zero (X : Externals K) (G : Globals) (c : CellID) (e ne : Nat)
    (g g1 : ParGrid K)
    (hbc : ∀ c a e ne g, X.fieldSolverBoundaryCondDerivX c a e ne a g = a)
    (hv : passes e G.masks.CALCULATE_DX →
      getNeighbourID g c (2 - 1) 2 2 ≠ INVALID_CELLID ∧ getNeighbourID g c (2 + 1) 2 2 ≠ INVALID_CELLID)
    (hS : ∀ t, g.getNeighbour c t ≠ INVALID_CELLID →
      SameState (g.cpu_cellParams c) (g.cpu_cellParams (g.getNeighbour c t)))
    (h0 : ∀ s, g.cpu_derivatives c s = 0)
    (r : calculateDerivativesX X G c e ne g = some g1) :
    ∀ s, g1.cpu_derivatives c s = 0 := by
  obtain ⟨g1', r', -, -, -, -, -, hp, hf⟩ := calculateDerivativesX_spec X G c e ne g hv
  have hg : g1' = g1 := Option.some.inj (r'.symm.trans r)
  subst hg
  by_cases t : passes e G.masks.CALCULATE_DX
  · obtain ⟨hl, hr⟩ := hv t
    have SL : SameState (g.cpu_cellParams c) (g.cpu_cellParams (getNeighbourID g c (2 - 1) 2 2)) :=
      hS _ hl
    have SR : SameState (g.cpu_cellParams c) (g.cpu_cellParams (getNeighbourID g c (2 + 1) 2 2)) :=
      hS _ hr
    obtain ⟨l1, l2, l3, l4, l5, l6, l7⟩ := SL
    obtain ⟨r1, r2, r3, r4, r5, r6, r7⟩ := SR
    obtain ⟨hk, e1, e2, e3, e4, e5, e6⟩ := hp t
    intro s
    by_cases hs : s ∈ xDerivativeSlots
    · simp only [xDerivativeSlots, List.mem_cons, List.mem_singleton, List.not_mem_nil,
        or_false] at hs
      rcases hs with rfl | rfl | rfl | rfl | rfl | rfl
      · rw [e1, l4, r4]; exact limiter_const _
      · rw [e2, l2, r2]; exact limiter_const _
      · rw [e3, l3, r3]; exact limiter_const _
      · rw [e4, l4, r4, l5, r5]; exact limiter_const _
      · rw [e5, l4, r4, l6, r6]; exact limiter_const _
      · rw [e6, l4, r4, l7, r7]; exact limiter_const _
    · rw [hk s hs]; exact h0 s
  · intro s
    rw [hf t, hbc]
    exact h0 s

/-- The y-direction block on a cell whose y-neighbours hold the same plasma
state, when the boundary-condition function keeps the array: an all-zero
derivative array stays all-zero. -/
theorem calculateDerivativesY_zero (X : Externals K) (G : Globals) (c : CellID) (e ne : Nat)
    (g g1 : ParGrid K)
    (hbc : ∀ c a e ne g, X.fieldSolverBoundaryCondDerivY c a e ne a g = a)
    (hv : passes e G.masks.CALCULATE_DY →
      getNeighbourID g c 2 (2 - 1) 2 ≠ INVALID_CELLID ∧ getNeighbourID g c 2 (2 + 1) 2 ≠ INVALID_CELLID)
    (hS : ∀ t, g.getNeighbour c t ≠ INVALID_CELLID →
      SameState (g.cpu_cellParams c) (g.cpu_cellParams (g.getNeighbour c t)))
    (h0 : ∀ s, g.cpu_derivatives c s = 0)
    (r : calculateDerivativesY X G c e ne g = some g1) :
    ∀ s, g1.cpu_derivatives c s = 0 := by
  obtain ⟨g1', r', -, -, -, -, -, hp, hf⟩ := calculateDerivativesY_spec X G c e ne g hv
  have hg : g1' = g1 := Option.some.inj (r'.symm.trans r)
  subst hg
  by_cases t : passes e G.masks.CALCULATE_DY
  · obtain ⟨hl, hr⟩ := hv t
    have SL : SameState (g.cpu_cellParams c) (g.cpu_cellParams (getNeighbourID g c 2 (2 - 1) 2)) :=
      hS _ hl
    have SR : SameState (g.cpu_cellParams c) (g.cpu_cellParams (getNeighbourID g c 2 (2 + 1) 2)) :=
      hS _ hr
    obtain ⟨l1, l2, l3, l4, l5, l6, l7⟩ := SL
    obtain ⟨r1, r2, r3, r4, r5, r6, r7⟩ := SR
    obtain ⟨hk, e1, e2, e3, e4, e5, e6⟩ := hp t
    intro s
    by_cases hs : s ∈ yDerivativeSlots
    · simp only [yDerivativeSlots, List.mem_cons, List.mem_singleton, List.not_mem_nil,
        or_false] at hs
      rcases hs with rfl | rfl | rfl | rfl | rfl | rfl
      · rw [e1, l4, r4]; exact limiter_const _
      · rw [e2, l1, r1]; exact limiter_const _
      · rw [e3, l3, r3]; exact limiter_const _
      · rw [e4, l4, r4, l5, r5]; exact limiter_const _
      · rw [e5, l4, r4, l6, r6]; exact limiter_const _
      · rw [e6, l4, r4, l7, r7]; exact limiter_const _
    · rw [hk s hs]; exact h0 s
  · intro s
    rw [hf t, hbc]
    exact h0 s

/-- The z-direction block on a cell whose z-neighbours hold the same plasma
state, when the boundary-condition function keeps the array: an all-zero
derivative array stays all-zero. -/
theorem calculateDerivativesZ_zero (X : Externals K) (G : Globals) (c : CellID) (e ne : Nat)
    (g g1 : ParGrid K)
    (hbc : ∀ c a e ne g, X.fieldSolverBoundaryCondDerivZ c a e ne a g = a)
    (hv : passes e G.masks.CALCULATE_DZ →
      getNeighbourID g c 2 2 (2 - 1) ≠ INVALID_CELLID ∧ getNeighbourID g c 2 2 (2 + 1) ≠ INVALID_CELLID)
    (hS : ∀ t, g.getNeighbour c t ≠ INVALID_CELLID →
      SameState (g.cpu_cellParams c) (g.cpu_cellParams (g.getNeighbour c t)))
    (h0 : ∀ s, g.cpu_derivatives c s = 0)
    (r : calculateDerivativesZ X G c e ne g = some g1) :
    ∀ s, g1.cpu_derivatives c s = 0 := by
  obtain ⟨g1', r', -, -, -, -, -, hp, hf⟩ := calculateDerivativesZ_spec X G c e ne g hv
  have hg : g1' = g1 := Option.some.inj (r'.symm.trans r)
  subst hg
  by_cases t : passes e G.masks.CALCULATE_DZ
  · obtain ⟨hl, hr⟩ := hv t
    have SL : SameState (g.cpu_cellParams c) (g.cpu_cellParams (getNeighbourID g c 2 2 (2 - 1))) :=
      hS _ hl
    have SR : SameState (g.cpu_cellParams c) (g.cpu_cellParams (getNeighbourID g c 2 2 (2 + 1))) :=
      hS _ hr
    obtain ⟨l1, l2, l3, l4, l5, l6, l7⟩ := SL
    obtain ⟨r1, r2, r3, r4, r5, r6, r7⟩ := SR
    obtain ⟨hk, e1, e2, e3, e4, e5, e6⟩ := hp t
    intro s
    by_cases hs : s ∈ zDerivativeSlots
    · simp only [zDerivativeSlots, List.mem_cons, List.mem_singleton, List.not_mem_nil,
        or_false] at hs
      rcases hs with rfl | rfl | rfl | rfl | rfl | rfl
      · rw [e1, l4, r4]; exact limiter_const _
      · rw [e2, l1, r1]; exact limiter_const _
      · rw [e3, l2, r2]; exact limiter_const _
      · rw [e4, l4, r4, l5, r5]; exact limiter_const _
      · rw [e5, l4, r4, l6, r6]; exact limiter_const _
      · rw [e6, l4, r4, l7, r7]; exact limiter_const _
    · rw [hk s hs]; exact h0 s
  · intro s
    rw [hf t, hbc]
    exact h0 s

/-- Readiness of a cell for `calculateDerivatives` only depends on the
neighbour lookup of the mesh. -/
theorem DerivativesReady_congr {G : Globals} {g g' : ParGrid K} {c : CellID}
    (h : g'.getNeighbour = g.getNeighbour) (hr : DerivativesReady G g c) :
    DerivativesReady G g' c := by
  unfold DerivativesReady getNeighbourID at *
  rw [h]
  exact hr

/-- One call of `calculateDerivatives` on a ready cell: it returns, and the
new mesh differs from the old one only in the derivative array of that cell.
If moreover the boundary-condition functions keep the array, the neighbours
of the cell hold the same plasma state as the cell, and the derivative array
of the cell is all-zero, then it is all-zero afterwards. -/
theorem calculateDerivatives_spec (X : Externals K) (G : Globals) (c : CellID) (g : ParGrid K)
    (hready : DerivativesReady G g c) :
    ∃ g', calculateDerivatives X G c g = some g' ∧
      g'.getNeighbour = g.getNeighbour ∧ g'.getCells = g.getCells ∧
      g'.isRemote = g.isRemote ∧ g'.cpu_cellParams = g.cpu_cellParams ∧
      (∀ c' s, c' ≠ c → g'.cpu_derivatives c' s = g.cpu_derivatives c' s) ∧
      (X.DerivBCsKeepArray →
        (∀ t, g.getNeighbour c t ≠ INVALID_CELLID →
          SameState (g.cpu_cellParams c) (g.cpu_cellParams (g.getNeighbour c t))) →
        (∀ s, g.cpu_derivatives c s = 0) → ∀ s, g'.cpu_derivatives c s = 0) := by
  obtain ⟨hc, hsome, hall⟩ := hready
  obtain ⟨e, he⟩ := Option.isSome_iff_exists.mp hsome
  obtain ⟨hx, hy, hz⟩ := hall e (by simp [he])
  have hN : ∀ (h : ParGrid K), h.getNeighbour = g.getNeighbour →
      ∀ i j k, getNeighbourID h c i j k = getNeighbourID g c i j k := by
    intro h hn i j k; unfold getNeighbourID; rw [hn]
  obtain ⟨g1, r1, n1, c1, m1, p1, o1, -, -⟩ :=
    calculateDerivativesX_spec X G c e (toUint (e ^^^ 4294967295)) g hx
  have hy1 : passes e G.masks.CALCULATE_DY →
      getNeighbourID g1 c 2 (2 - 1) 2 ≠ INVALID_CELLID ∧
      getNeighbourID g1 c 2 (2 + 1) 2 ≠ INVALID_CELLID := by
    rw [hN g1 n1, hN g1 n1]; exact hy
  obtain ⟨g2, r2, n2, c2, m2, p2, o2, -, -⟩ :=
    calculateDerivativesY_spec X G c e (toUint (e ^^^ 4294967295)) g1 hy1
  have hz2 : passes e G.masks.CALCULATE_DZ →
      getNeighbourID g2 c 2 2 (2 - 1) ≠ INVALID_CELLID ∧
      getNeighbourID g2 c 2 2 (2 + 1) ≠ INVALID_CELLID := by
    rw [hN g2 (n2.trans n1), hN g2 (n2.trans n1)]; exact hz
  obtain ⟨g3, r3, n3, c3, m3, p3, o3, -, -⟩ :=
    calculateDerivativesZ_spec X G c e (toUint (e ^^^ 4294967295)) g2 hz2
  refine ⟨g3, calculateDerivatives_eq X G c g g1 g2 g3 e hc he r1 r2 r3,
    n3.trans (n2.trans n1), c3.trans (c2.trans c1), m3.trans (m2.trans m1),
    p3.trans (p2.trans p1), ?_, ?_⟩
  · intro c' s hc'
    rw [o3 c' s hc', o2 c' s hc', o1 c' s hc']
  · intro hbc hS h0
    have z1 := calculateDerivativesX_zero X G c e _ g g1 hbc.1 hx hS h0 r1
    have hS1 : ∀ t, g1.getNeighbour c t ≠ INVALID_CELLID →
        SameState (g1.cpu_cellParams c) (g1.cpu_cellParams (g1.getNeighbour c t)) := by
      rw [n1, p1]; exact hS
    have z2 := calculateDerivativesY_zero X G c e _ g1 g2 hbc.2.1 hy1 hS1 z1 r2
    have hS2 : ∀ t, g2.getNeighbour c t ≠ INVALID_CELLID →
        SameState (g2.cpu_cellParams c) (g2.cpu_cellParams (g2.getNeighbour c t)) := by
      rw [n2, p2]; exact hS1
    exact calculateDerivativesZ_zero X G c e _ g2 g3 hbc.2.2 hz2 hS2 z2 r3

/-- A cell loop of `calculateDerivativesSimple` on a list of ready cells: it
returns and changes nothing but derivative arrays. If moreover the
boundary-condition functions keep the array, every listed cell holds the same
plasma state as its neighbours, and all derivative arrays are all-zero, then
they are all-zero afterwards. -/
theorem derivativesLoop_spec (X : Externals K) (G : Globals) (L : List CellID) (g : ParGrid K)
    (hready : ∀ c ∈ L, DerivativesReady G g c) :
    ∃ g', L.foldlM (fun g cellID => calculateDerivatives X G cellID g) g = some g' ∧
      g'.getNeighbour = g.getNeighbour ∧ g'.getCells = g.getCells ∧
      g'.isRemote = g.isRemote ∧ g'.cpu_cellParams = g.cpu_cellParams ∧
      (X.DerivBCsKeepArray →
        (∀ c ∈ L, ∀ t, g.getNeighbour c t ≠ INVALID_CELLID →
          SameState (g.cpu_cellParams c) (g.cpu_cellParams (g.getNeighbour c t))) →
        (∀ c s, g.cpu_derivatives c s = 0) → ∀ c s, g'.cpu_derivatives c s = 0) := by
  induction L generalizing g with
  | nil => exact ⟨g, rfl, rfl, rfl, rfl, rfl, fun _ _ h => h⟩
  | cons a L ih =>
    obtain ⟨ga, ra, na, ca, ma, pa, oa, za⟩ :=
      calculateDerivatives_spec X G a g (hready a (List.mem_cons_self _ _))
    obtain ⟨g', r', n', c', m', p', z'⟩ := ih ga
      (fun c hc => DerivativesReady_congr na (hready c (List.mem_cons_of_mem _ hc)))
    refine ⟨g', ?_, n'.trans na, c'.trans ca, m'.trans ma, p'.trans pa, ?_⟩
    · rw [List.foldlM_cons, ra]
      exact r'
    · intro hbc hS h0
      apply z' hbc
      · rw [na, pa]
        exact fun c hc => hS c (List.mem_cons_of_mem _ hc)
      · intro c s
        by_cases h : c = a
        · rw [h]
          exact za hbc (hS a (List.mem_cons_self _ _)) (h0 a) s
        · rw [oa c s h]
          exact h0 c s

/-- The derivative stage on ready cells: it returns and changes nothing but
derivative arrays; on uniform plasma with all-zero derivative arrays and
boundary-condition functions that keep the array, the arrays stay all-zero. -/
theorem calculateDerivativesSimple_spec (X : Externals K) (G : Globals) (g : ParGrid K)
    (localCells : List CellID)
    (hready : ∀ c ∈ G.stencil3.innerCells ++ G.stencil3.boundaryCells, DerivativesReady G g c) :
    ∃ g', calculateDerivativesSimple X G g localCells = some g' ∧
      g'.getNeighbour = g.getNeighbour ∧ g'.getCells = g.getCells ∧
      g'.isRemote = g.isRemote ∧ g'.cpu_cellParams = g.cpu_cellParams ∧
      (X.DerivBCsKeepArray →
        (∀ c ∈ G.stencil3.innerCells ++ G.stencil3.boundaryCells,
          ∀ t, g.getNeighbour c t ≠ INVALID_CELLID →
            SameState (g.cpu_cellParams c) (g.cpu_cellParams (g.getNeighbour c t))) →
        (∀ c s, g.cpu_derivatives c s = 0) → ∀ c s, g'.cpu_derivatives c s = 0) := by
  obtain ⟨g1, r1, n1, c1, m1, p1, z1⟩ := derivativesLoop_spec X G G.stencil3.innerCells g
    (fun c hc => hready c (List.mem_append_left _ hc))
  obtain ⟨g2, r2, n2, c2, m2, p2, z2⟩ := derivativesLoop_spec X G G.stencil3.boundaryCells g1
    (fun c hc => DerivativesReady_congr n1 (hready c (List.mem_append_right _ hc)))
  refine ⟨g2, ?_, n2.trans n1, c2.trans c1, m2.trans m1, p2.trans p1, ?_⟩
  · unfold calculateDerivativesSimple
    simp only [Option.bind_eq_bind, r1, Option.some_bind]
    exact r2
  · intro hbc hS h0
    apply z2 hbc
    · rw [n1, p1]
      exact fun c hc => hS c (List.mem_append_right _ hc)
    · exact z1 hbc (fun c hc => hS c (List.mem_append_left _ hc)) h0

end DerivativeStage

end Vlasiator

namespace Vlasiator

open CellParams fieldsolver

theorem setCellParam_apply {K : Type} (g : ParGrid K) (id : CellID) (slot : CellParams) (v : K)
    (c : CellID) (p : CellParams) :
    (g.setCellParam id slot v).cpu_cellParams c p =
      if c = id ∧ p = slot then v else g.cpu_cellParams c p := rfl

theorem setCellParam_frame {K : Type} (g : ParGrid K) (id : CellID) (slot : CellParams)
    (v : K) :
    (g.setCellParam id slot v).getNeighbour = g.getNeighbour ∧
    (g.setCellParam id slot v).getCells = g.getCells ∧
    (g.setCellParam id slot v).isRemote = g.isRemote ∧
    (g.setCellParam id slot v).cpu_derivatives = g.cpu_derivatives := ⟨rfl, rfl, rfl, rfl⟩

section EdgeStage

variable {K : Type} [LinearOrderedField K]

theorem SameButEdgeE_refl (g : ParGrid K) : SameButEdgeE g g :=
  ⟨rfl, rfl, rfl, rfl, fun _ _ _ _ _ => rfl⟩

theorem SameButEdgeE_trans {g1 g2 g3 : ParGrid K} (h12 : SameButEdgeE g1 g2)
    (h23 : SameButEdgeE g2 g3) : SameButEdgeE g1 g3 :=
  ⟨h23.1.trans h12.1, h23.2.1.trans h12.2.1, h23.2.2.1.trans h12.2.2.1,
    h23.2.2.2.1.trans h12.2.2.2.1,
    fun c p h1 h2 h3 => (h23.2.2.2.2 c p h1 h2 h3).trans (h12.2.2.2.2 c p h1 h2 h3)⟩

/-- A store into one of the edge electric field slots. -/
theorem SameButEdgeE_set (g : ParGrid K) (c : CellID) (slot : CellParams) (v : K)
    (hs : slot = EX ∨ slot = EY ∨ slot = EZ) : SameButEdgeE g (g.setCellParam c slot v) := by
  refine ⟨rfl, rfl, rfl, rfl, ?_⟩
  intro c' p h1 h2 h3
  rw [setCellParam_apply, if_neg]
  rintro ⟨-, rfl⟩
  rcases hs with h | h | h
  · exact h1 h
  · exact h2 h
  · exact h3 h

/-- Uniformity of the surroundings of an edge does not depend on the edge
electric field stored in the mesh. -/
theorem UniformCorners_congr {g g' : ParGrid K} (h : SameButEdgeE g g') {c : CellID}
    {corners further : List Nat} (hU : UniformCorners g c corners further) :
    UniformCorners g' c corners further := by
  obtain ⟨hn, -, -, hd, hp⟩ := h
  have hS : ∀ a b, SameState (g.cpu_cellParams a) (g.cpu_cellParams b) →
      SameState (g'.cpu_cellParams a) (g'.cpu_cellParams b) := by
    intro a b hab
    unfold SameState at *
    simp only [hp _ BX (by decide) (by decide) (by decide),
      hp _ BY (by decide) (by decide) (by decide), hp _ BZ (by decide) (by decide) (by decide),
      hp _ RHO (by decide) (by decide) (by decide),
      hp _ RHOVX (by decide) (by decide) (by decide),
      hp _ RHOVY (by decide) (by decide) (by decide),
      hp _ RHOVZ (by decide) (by decide) (by decide)]
    exact hab
  obtain ⟨h1, h2, h3, h4, h5⟩ := hU
  refine ⟨h1, ?_, ?_, ?_, ?_⟩
  · rw [hp _ RHO (by decide) (by decide) (by decide)]; exact h2
  · rw [hd]; exact h3
  · intro t ht
    rw [hn, hd]
    exact ⟨(h4 t ht).1, hS _ _ (h4 t ht).2.1, (h4 t ht).2.2⟩
  · rw [hn]; exact h5

theorem EdgeReady_congr {G : Globals} {g g' : ParGrid K} {c : CellID}
    (h : g'.getNeighbour = g.getNeighbour) (hr : EdgeReady G g c) : EdgeReady G g' c := by
  unfold EdgeReady EdgeXReady EdgeYReady EdgeZReady at *
  rw [h]
  exact hr

/-- `calculateEdgeElectricFieldX` on a cell whose surroundings are cells: it
returns and stores the value `EX` of the locals in the slot `EX` of the cell. -/
theorem calculateEdgeElectricFieldX_run (X : Externals K) (c : CellID) (g : ParGrid K)
    (h : EdgeXReady g c) :
    ∃ L, edgeElectricFieldXAt X c g = some L ∧
      calculateEdgeElectricFieldX X c g = some (g.setCellParam c EX L.EX) := by
  have hAt : ∃ L, edgeElectricFieldXAt X c g = some L := by
    unfold edgeElectricFieldXAt
    exact ⟨_, if_pos h⟩
  obtain ⟨L, hL⟩ := hAt
  refine ⟨L, hL, ?_⟩
  unfold calculateEdgeElectricFieldX
  rw [hL]
  rfl

/-- `calculateEdgeElectricFieldY` on a cell whose surroundings are cells. -/
theorem calculateEdgeElectricFieldY_run (X : Externals K) (c : CellID) (g : ParGrid K)
    (h : EdgeYReady g c) :
    ∃ L, edgeElectricFieldYAt X c g = some L ∧
      calculateEdgeElectricFieldY X c g = some (g.setCellParam c EY L.EY) := by
  have hAt : ∃ L, edgeElectricFieldYAt X c g = some L := by
    unfold edgeElectricFieldYAt
    exact ⟨_, if_pos h⟩
  obtain ⟨L, hL⟩ := hAt
  refine ⟨L, hL, ?_⟩
  unfold calculateEdgeElectricFieldY
  rw [hL]
  rfl

/-- `calculateEdgeElectricFieldZ` on a cell whose surroundings are cells. -/
theorem calculateEdgeElectricFieldZ_run (X : Externals K) (c : CellID) (g : ParGrid K)
    (h : EdgeZReady g c) :
    ∃ L, edgeElectricFieldZAt X c g = some L ∧
      calculateEdgeElectricFieldZ X c g = some (g.setCellParam c EZ L.EZ) := by
  have hAt : ∃ L, edgeElectricFieldZAt X c g = some L := by
    unfold edgeElectricFieldZAt
    exact ⟨_, if_pos h⟩
  obtain ⟨L, hL⟩ := hAt
  refine ⟨L, hL, ?_⟩
  unfold calculateEdgeElectricFieldZ
  rw [hL]
  rfl

/-- One guarded kernel call of the edge stage: the kernel runs iff the test
passes, and then stores its value in its slot of the cell; nothing else
changes. -/
theorem edgeStep {Loc : Type} (c : CellID) (slot : CellParams)
    (hs : slot = EX ∨ slot = EY ∨ slot = EZ)
    (kAt : ParGrid K → Option Loc) (val : Loc → K) (run : ParGrid K → Option (ParGrid K))
    (t : Prop) [Decidable t] (g : ParGrid K)
    (hr : t → ∃ l, kAt g = some l ∧ run g = some (g.setCellParam c slot (val l))) :
    ∃ g1, (if t then run g else pure g) = some g1 ∧ SameButEdgeE g g1 ∧
      (∀ c' p, (c' ≠ c ∨ p ≠ slot) → g1.cpu_cellParams c' p = g.cpu_cellParams c' p) ∧
      (t → ∃ l, kAt g = some l ∧ g1.cpu_cellParams c slot = val l) := by
  by_cases ht : t
  · obtain ⟨l, h1, h2⟩ := hr ht
    refine ⟨_, by rw [if_pos ht]; exact h2, SameButEdgeE_set g c slot _ hs, ?_, ?_⟩
    · intro c' p h
      rw [setCellParam_apply, if_neg]
      rintro ⟨rfl, rfl⟩
      rcases h with h | h <;> exact h rfl
    · intro _
      exact ⟨l, h1, by simp [setCellParam_apply]⟩
  · exact ⟨g, by rw [if_neg ht]; rfl, SameButEdgeE_refl g, fun _ _ _ => rfl,
      fun h => absurd h ht⟩

/-- The body of a cell loop of the edge stage on a ready cell: it returns; the
flag map gains the entry `0` for the cell if it had none; the mesh changes at
most in `EX`, `EY`, `EZ` of the cell; and each slot whose capability test
passes holds the value that the kernel computes on a mesh which differs from
the incoming one at most in edge electric field slots. -/
theorem upwindedElectricFieldCell_spec (X : Externals K) (masks : Masks) (c : CellID)
    (st : (CellID → Option Nat) × ParGrid K)
    (hx : passes ((st.1 c).getD 0) masks.CALCULATE_EX → EdgeXReady st.2 c)
    (hy : passes ((st.1 c).getD 0) masks.CALCULATE_EY → EdgeYReady st.2 c)
    (hz : passes ((st.1 c).getD 0) masks.CALCULATE_EZ → EdgeZReady st.2 c) :
    ∃ st', upwindedElectricFieldCell X masks c st = some st' ∧
      st'.1 = (fun c' => if c' = c then some ((st.1 c).getD 0) else st.1 c') ∧
      SameButEdgeE st.2 st'.2 ∧
      (∀ c' p, c' ≠ c → st'.2.cpu_cellParams c' p = st.2.cpu_cellParams c' p) ∧
      (passes ((st.1 c).getD 0) masks.CALCULATE_EX →
        ∃ gi L, SameButEdgeE st.2 gi ∧ edgeElectricFieldXAt X c gi = some L ∧
          st'.2.cpu_cellParams c EX = L.EX) ∧
      (passes ((st.1 c).getD 0) masks.CALCULATE_EY →
        ∃ gi L, SameButEdgeE st.2 gi ∧ edgeElectricFieldYAt X c gi = some L ∧
          st'.2.cpu_cellParams c EY = L.EY) ∧
      (passes ((st.1 c).getD 0) masks.CALCULATE_EZ →
        ∃ gi L, SameButEdgeE st.2 gi ∧ edgeElectricFieldZAt X c gi = some L ∧
          st'.2.cpu_cellParams c EZ = L.EZ) := by
  have rdy : ∀ (g' : ParGrid K), g'.getNeighbour = st.2.getNeighbour →
      (EdgeYReady st.2 c → EdgeYReady g' c) ∧ (EdgeZReady st.2 c → EdgeZReady g' c) := by
    intro g' hn
    unfold EdgeYReady EdgeZReady
    rw [hn]
    exact ⟨id, id⟩
  obtain ⟨g1, r1, s1, f1, v1⟩ := edgeStep c EX (Or.inl rfl)
    (edgeElectricFieldXAt X c) EdgeXLocals.EX (calculateEdgeElectricFieldX X c)
    (((st.1 c).getD 0) &&& masks.CALCULATE_EX = masks.CALCULATE_EX) st.2
    (fun t => calculateEdgeElectricFieldX_run X c st.2 (hx t))
  obtain ⟨g2, r2, s2, f2, v2⟩ := edgeStep c EY (Or.inr (Or.inl rfl))
    (edgeElectricFieldYAt X c) EdgeYLocals.EY (calculateEdgeElectricFieldY X c)
    (((st.1 c).getD 0) &&& masks.CALCULATE_EY = masks.CALCULATE_EY) g1
    (fun t => calculateEdgeElectricFieldY_run X c g1 ((rdy g1 s1.1).1 (hy t)))
  obtain ⟨g3, r3, s3, f3, v3⟩ := edgeStep c EZ (Or.inr (Or.inr rfl))
    (edgeElectricFieldZAt X c) EdgeZLocals.EZ (calculateEdgeElectricFieldZ X c)
    (((st.1 c).getD 0) &&& masks.CALCULATE_EZ = masks.CALCULATE_EZ) g2
    (fun t => calculateEdgeElectricFieldZ_run X c g2 ((rdy g2 (s2.1.trans s1.1)).2 (hz t)))
  refine ⟨(_, g3), ?_, rfl, SameButEdgeE_trans s1 (SameButEdgeE_trans s2 s3), ?_, ?_, ?_, ?_⟩
  · have key : upwindedElectricFieldCell X masks c st =
        ((if ((st.1 c).getD 0) &&& masks.CALCULATE_EX = masks.CALCULATE_EX
            then calculateEdgeElectricFieldX X c st.2 else pure st.2).bind fun g =>
          (if ((st.1 c).getD 0) &&& masks.CALCULATE_EY = masks.CALCULATE_EY
              then calculateEdgeElectricFieldY X c g else pure g).bind fun g =>
            (if ((st.1 c).getD 0) &&& masks.CALCULATE_EZ = masks.CALCULATE_EZ
                then calculateEdgeElectricFieldZ X c g else pure g).bind fun g =>
              some ((fun c' => if c' = c then some ((st.1 c).getD 0) else st.1 c'), g)) := by
      unfold upwindedElectricFieldCell
      by_cases t1 : ((st.1 c).getD 0) &&& masks.CALCULATE_EX = masks.CALCULATE_EX <;>
      by_cases t2 : ((st.1 c).getD 0) &&& masks.CALCULATE_EY = masks.CALCULATE_EY <;>
      by_cases t3 : ((st.1 c).getD 0) &&& masks.CALCULATE_EZ = masks.CALCULATE_EZ
      all_goals
        first
          | simp only [if_pos t1, if_pos t2, if_pos t3] <;> rfl
          | simp only [if_pos t1, if_pos t2, if_neg t3] <;> rfl
          | simp only [if_pos t1, if_neg t2, if_pos t3] <;> rfl
          | simp only [if_pos t1, if_neg t2, if_neg t3] <;> rfl
          | simp only [if_neg t1, if_pos t2, if_pos t3] <;> rfl
          | simp only [if_neg t1, if_pos t2, if_neg t3] <;> rfl
          | simp only [if_neg t1, if_neg t2, if_pos t3] <;> rfl
          | simp only [if_neg t1, if_neg t2, if_neg t3] <;> rfl
    rw [key, r1, Option.some_bind, r2, Option.some_bind, r3, Option.some_bind]
    rfl
  · intro c' p hc'
    show g3.cpu_cellParams c' p = st.2.cpu_cellParams c' p
    rw [f3 c' p (Or.inl hc'), f2 c' p (Or.inl hc'), f1 c' p (Or.inl hc')]
  · intro t
    obtain ⟨l, h1, h2⟩ := v1 t
    refine ⟨st.2, l, SameButEdgeE_refl _, h1, ?_⟩
    show g3.cpu_cellParams c EX = l.EX
    rw [f3 c EX (Or.inr (by decide)), f2 c EX (Or.inr (by decide)), h2]
  · intro t
    obtain ⟨l, h1, h2⟩ := v2 t
    refine ⟨g1, l, s1, h1, ?_⟩
    show g3.cpu_cellParams c EY = l.EY
    rw [f3 c EY (Or.inr (by decide)), h2]
  · intro t
    obtain ⟨l, h1, h2⟩ := v3 t
    exact ⟨g2, l, SameButEdgeE_trans s1 s2, h1, h2⟩

/-- A cell loop of the edge stage on a list of ready cells: it returns; the
flag words read through `boundaryFlags[...]` are unchanged, and so is the
flag map when every listed cell has an entry; the mesh changes at most in
`EX`, `EY`, `EZ` of listed cells; for a listed cell each slot whose test
passes holds the value that the kernel computes on a mesh which differs from
the incoming one at most in edge electric field slots. -/
theorem edgeLoop_spec (X : Externals K) (G : Globals) (L : List CellID)
    (st : (CellID → Option Nat) × ParGrid K)
    (hfl : ∀ c, (st.1 c).getD 0 = (G.boundaryFlags c).getD 0)
    (hready : ∀ c ∈ L, EdgeReady G st.2 c) :
    ∃ st', L.foldlM (fun st cellID => upwindedElectricFieldCell X G.masks cellID st) st
        = some st' ∧
      (∀ c, (st'.1 c).getD 0 = (G.boundaryFlags c).getD 0) ∧
      ((∀ c ∈ L, (st.1 c).isSome = true) → st'.1 = st.1) ∧
      SameButEdgeE st.2 st'.2 ∧
      (∀ c p, c ∉ L → st'.2.cpu_cellParams c p = st.2.cpu_cellParams c p) ∧
      (∀ c ∈ L,
        (passes ((G.boundaryFlags c).getD 0) G.masks.CALCULATE_EX →
          ∃ gi Loc, SameButEdgeE st.2 gi ∧ edgeElectricFieldXAt X c gi = some Loc ∧
            st'.2.cpu_cellParams c EX = Loc.EX) ∧
        (passes ((G.boundaryFlags c).getD 0) G.masks.CALCULATE_EY →
          ∃ gi Loc, SameButEdgeE st.2 gi ∧ edgeElectricFieldYAt X c gi = some Loc ∧
            st'.2.cpu_cellParams c EY = Loc.EY) ∧
        (passes ((G.boundaryFlags c).getD 0) G.masks.CALCULATE_EZ →
          ∃ gi Loc, SameButEdgeE st.2 gi ∧ edgeElectricFieldZAt X c gi = some Loc ∧
            st'.2.cpu_cellParams c EZ = Loc.EZ)) := by
  induction L generalizing st with
  | nil =>
    exact ⟨st, rfl, hfl, fun _ => rfl, SameButEdgeE_refl _, fun _ _ _ => rfl,
      fun c hc => absurd hc (List.not_mem_nil c)⟩
  | cons a L ih =>
    have hra := hready a (List.mem_cons_self _ _)
    unfold EdgeReady at hra
    rw [← hfl a] at hra
    obtain ⟨sa, ra, fa, sba, oa, vxa, vya, vza⟩ :=
      upwindedElectricFieldCell_spec X G.masks a st hra.1 hra.2.1 hra.2.2
    have hfla : ∀ c, (sa.1 c).getD 0 = (G.boundaryFlags c).getD 0 := by
      intro c
      rw [fa]
      dsimp only
      by_cases h : c = a
      · rw [if_pos h, h]; exact hfl a
      · rw [if_neg h]; exact hfl c
    obtain ⟨s', r', fl', fe', sb', o', v'⟩ := ih sa hfla
      (fun c hc => EdgeReady_congr sba.1 (hready c (List.mem_cons_of_mem _ hc)))
    refine ⟨s', ?_, fl', ?_, SameButEdgeE_trans sba sb', ?_, ?_⟩
    · rw [List.foldlM_cons, ra]
      exact r'
    · intro hsome
      rw [fe' ?_, fa]
      · funext c
        dsimp only
        by_cases h : c = a
        · rw [if_pos h, h]
          obtain ⟨e, he⟩ := Option.isSome_iff_exists.mp (hsome a (List.mem_cons_self _ _))
          rw [he]; rfl
        · rw [if_neg h]
      · intro c hc
        rw [fa]
        dsimp only
        by_cases h : c = a
        · rw [if_pos h]; rfl
        · rw [if_neg h]; exact hsome c (List.mem_cons_of_mem _ hc)
    · intro c p hc
      have h1 : c ≠ a := fun h => hc (h ▸ List.mem_cons_self _ _)
      have h2 : c ∉ L := fun h => hc (List.mem_cons_of_mem _ h)
      rw [o' c p h2, oa c p h1]
    · intro c hc
      by_cases hcL : c ∈ L
      · obtain ⟨wx, wy, wz⟩ := v' c hcL
        refine ⟨fun t => ?_, fun t => ?_, fun t => ?_⟩
        · obtain ⟨gi, Loc, h1, h2, h3⟩ := wx t
          exact ⟨gi, Loc, SameButEdgeE_trans sba h1, h2, h3⟩
        · obtain ⟨gi, Loc, h1, h2, h3⟩ := wy t
          exact ⟨gi, Loc, SameButEdgeE_trans sba h1, h2, h3⟩
        · obtain ⟨gi, Loc, h1, h2, h3⟩ := wz t
          exact ⟨gi, Loc, SameButEdgeE_trans sba h1, h2, h3⟩
      · have hca : c = a := by
          rcases List.mem_cons.mp hc with h | h
          · exact h
          · exact absurd h hcL
        subst hca
        rw [← hfl c]
        refine ⟨fun t => ?_, fun t => ?_, fun t => ?_⟩
        · obtain ⟨gi, Loc, h1, h2, h3⟩ := vxa t
          exact ⟨gi, Loc, h1, h2, by rw [o' c EX hcL, h3]⟩
        · obtain ⟨gi, Loc, h1, h2, h3⟩ := vya t
          exact ⟨gi, Loc, h1, h2, by rw [o' c EY hcL, h3]⟩
        · obtain ⟨gi, Loc, h1, h2, h3⟩ := vza t
          exact ⟨gi, Loc, h1, h2, by rw [o' c EZ hcL, h3]⟩

/-- The edge stage on ready cells: it returns; the flag map is unchanged when
every cell of `stencil3` has an entry; the mesh changes at most in `EX`, `EY`,
`EZ` of the cells of `stencil3`; for such a cell each slot whose test passes
holds the value that the kernel computes on a mesh which differs from the
incoming one at most in edge electric field slots. -/
theorem calculateUpwindedElectricFieldSimple_spec (X : Externals K) (G : Globals)
    (g : ParGrid K) (localCells : List CellID)
    (hready : ∀ c ∈ G.stencil3.innerCells ++ G.stencil3.boundaryCells, EdgeReady G g c) :
    ∃ st', calculateUpwindedElectricFieldSimple X G g localCells = some st' ∧
      (∀ c, (st'.1 c).getD 0 = (G.boundaryFlags c).getD 0) ∧
      ((∀ c ∈ G.stencil3.innerCells ++ G.stencil3.boundaryCells,
          (G.boundaryFlags c).isSome = true) → st'.1 = G.boundaryFlags) ∧
      SameButEdgeE g st'.2 ∧
      (∀ c p, c ∉ G.stencil3.innerCells ++ G.stencil3.boundaryCells →
        st'.2.cpu_cellParams c p = g.cpu_cellParams c p) ∧
      (∀ c ∈ G.stencil3.innerCells ++ G.stencil3.boundaryCells,
        (passes ((G.boundaryFlags c).getD 0) G.masks.CALCULATE_EX →
          ∃ gi Loc, SameButEdgeE g gi ∧ edgeElectricFieldXAt X c gi = some Loc ∧
            st'.2.cpu_cellParams c EX = Loc.EX) ∧
        (passes ((G.boundaryFlags c).getD 0) G.masks.CALCULATE_EY →
          ∃ gi Loc, SameButEdgeE g gi ∧ edgeElectricFieldYAt X c gi = some Loc ∧
            st'.2.cpu_cellParams c EY = Loc.EY) ∧
        (passes ((G.boundaryFlags c).getD 0) G.masks.CALCULATE_EZ →
          ∃ gi Loc, SameButEdgeE g gi ∧ edgeElectricFieldZAt X c gi = some Loc ∧
            st'.2.cpu_cellParams c EZ = Loc.EZ)) := by
  have key : calculateUpwindedElectricFieldSimple X G g localCells =
      (G.stencil3.innerCells ++ G.stencil3.boundaryCells).foldlM
        (fun st cellID => upwindedElectricFieldCell X G.masks cellID st)
        (G.boundaryFlags, g) := by
    unfold calculateUpwindedElectricFieldSimple
    rw [List.foldlM_append]
  rw [key]
  exact edgeLoop_spec X G _ (G.boundaryFlags, g) (fun _ => rfl) hready

end EdgeStage

end Vlasiator

namespace Vlasiator

open CellParams fieldsolver

theorem bind_some_of_isSome {α β : Type} {a : Option α} {f : α → Option β} {P : β → Prop}
    (ha : a.isSome = true) (hf : ∀ v, ∃ b, f v = some b ∧ P b) :
    ∃ b, a.bind f = some b ∧ P b := by
  obtain ⟨v, hv⟩ := Option.isSome_iff_exists.mp ha
  rw [hv, Option.some_bind]
  exact hf v

section FaceStage

variable {K : Type} [LinearOrderedField K]

theorem SameButFaceFields_refl (g : ParGrid K) : SameButFaceFields g g :=
  ⟨rfl, rfl, rfl, rfl, fun _ _ _ => rfl⟩

theorem SameButFaceFields_trans {g1 g2 g3 : ParGrid K} (h12 : SameButFaceFields g1 g2)
    (h23 : SameButFaceFields g2 g3) : SameButFaceFields g1 g3 :=
  ⟨h23.1.trans h12.1, h23.2.1.trans h12.2.1, h23.2.2.1.trans h12.2.2.1,
    h23.2.2.2.1.trans h12.2.2.2.1,
    fun c p h => (h23.2.2.2.2 c p h).trans (h12.2.2.2.2 c p h)⟩

/-- A store into one of the face-averaged field slots. -/
theorem SameButFaceFields_set (g : ParGrid K) (c : CellID) (slot : CellParams) (v : K)
    (hs : slot ∈ faceFieldSlots) : SameButFaceFields g (g.setCellParam c slot v) := by
  refine ⟨rfl, rfl, rfl, rfl, ?_⟩
  intro c' p hp
  rw [setCellParam_apply, if_neg]
  rintro ⟨-, rfl⟩
  exact hp hs

/-- Three stores through a pointer to face-averaged field slots. -/
theorem SameButFaceFields_setTriple (g : ParGrid K) (c : CellID) (s0 s1 s2 : CellParams)
    (v : K × K × K) (h0 : s0 ∈ faceFieldSlots) (h1 : s1 ∈ faceFieldSlots)
    (h2 : s2 ∈ faceFieldSlots) : SameButFaceFields g (g.setTriple c s0 s1 s2 v) := by
  unfold ParGrid.setTriple
  exact SameButFaceFields_trans
    (SameButFaceFields_trans (SameButFaceFields_set g c s0 _ h0)
      (SameButFaceFields_set _ c s1 _ h1))
    (SameButFaceFields_set _ c s2 _ h2)

/-- The loop that stores the averages of the face-averaged magnetic field. -/
theorem SameButFaceFields_store (c : CellID) (l : List (CellParams × K))
    (hl : ∀ sf ∈ l, sf.1 ∈ faceFieldSlots) (g : ParGrid K) :
    SameButFaceFields g
      (l.foldl (fun g sf => g.setCellParam c sf.1 (HALF * (g.cpu_cellParams c sf.1 + sf.2))) g) := by
  induction l generalizing g with
  | nil => exact SameButFaceFields_refl g
  | cons a l ih =>
    rw [List.foldl_cons]
    exact SameButFaceFields_trans (SameButFaceFields_set g c a.1 _ (hl a (List.mem_cons_self _ _)))
      (ih (fun sf h => hl sf (List.mem_cons_of_mem _ h)) _)

/-- Whether `averageFaceXElectricField` has a result does not depend on the
data of the mesh. -/
theorem averageFaceXElectricField_isSome (c n1 n2 n3 n4 n5 n6 n7 : CellID) (e : Nat)
    (g g' : ParGrid K) :
    (averageFaceXElectricField c n1 n2 n3 n4 n5 n6 n7 e g).isSome =
      (averageFaceXElectricField c n1 n2 n3 n4 n5 n6 n7 e g').isSome := by
  unfold averageFaceXElectricField
  dsimp only
  split_ifs <;> rfl

/-- Whether `averageFaceYElectricField` has a result does not depend on the
data of the mesh. -/
theorem averageFaceYElectricField_isSome (c n1 n2 n3 n4 n5 n6 n7 : CellID) (e : Nat)
    (g g' : ParGrid K) :
    (averageFaceYElectricField c n1 n2 n3 n4 n5 n6 n7 e g).isSome =
      (averageFaceYElectricField c n1 n2 n3 n4 n5 n6 n7 e g').isSome := by
  unfold averageFaceYElectricField
  dsimp only
  split_ifs <;> rfl

/-- Whether `averageFaceZElectricField` has a result does not depend on the
data of the mesh. -/
theorem averageFaceZElectricField_isSome (c n1 n2 n3 n4 n5 n6 n7 : CellID) (e : Nat)
    (g g' : ParGrid K) :
    (averageFaceZElectricField c n1 n2 n3 n4 n5 n6 n7 e g).isSome =
      (averageFaceZElectricField c n1 n2 n3 n4 n5 n6 n7 e g').isSome := by
  unfold averageFaceZElectricField
  dsimp only
  split_ifs <;> rfl

theorem FaceReady_congr {G G' : Globals} {g g' : ParGrid K} {c : CellID}
    (hG : (G'.boundaryFlags c).getD 0 = (G.boundaryFlags c).getD 0)
    (h : g'.getNeighbour = g.getNeighbour) (hr : FaceReady G g c) : FaceReady G' g' c := by
  unfold FaceReady at *
  rw [h, hG, averageFaceXElectricField_isSome _ _ _ _ _ _ _ _ _ g' g,
    averageFaceYElectricField_isSome _ _ _ _ _ _ _ _ _ g' g,
    averageFaceZElectricField_isSome _ _ _ _ _ _ _ _ _ g' g]
  exact hr

/-- The body of the cell loop of `calculateFaceAveragedFields` on a ready
cell: it returns, and the mesh changes at most in face-averaged field slots. -/
theorem faceAveragedFieldsCell_spec (X : Externals K) (G : Globals) (c : CellID)
    (g : ParGrid K) (hready : FaceReady G g c) :
    ∃ g', faceAveragedFieldsCell X G c g = some g' ∧ SameButFaceFields g g' := by
  obtain ⟨hc, hx, hy, hz⟩ := hready
  unfold faceAveragedFieldsCell
  simp only [cellParamsAt_of_ne g hc, Option.bind_eq_bind, Option.some_bind]
  have m : ∀ s, s ∈ [BXFACEX, BYFACEX, BZFACEX, BXFACEY, BYFACEY, BZFACEY, BXFACEZ, BYFACEZ,
      BZFACEZ, EXFACEX, EYFACEX, EZFACEX] → s ∈ faceFieldSlots := fun s hs => hs
  have t1 := SameButFaceFields_setTriple g c BXFACEX BYFACEX BZFACEX
    (averageFaceXMagnField c
      (reconstructionCoefficients X c (g.getNeighbour c (calcNbrTypeID (2 + 1) 2 2))
        (g.getNeighbour c (calcNbrTypeID 2 (2 + 1) 2))
        (g.getNeighbour c (calcNbrTypeID 2 2 (2 + 1))) g) g (-1))
    (m _ (by decide)) (m _ (by decide)) (m _ (by decide))
  refine bind_some_of_isSome
    ((averageFaceXElectricField_isSome _ _ _ _ _ _ _ _ _ _ g).trans hx) (fun eX => ?_)
  have t2 := fun gg => SameButFaceFields_setTriple gg c EXFACEX EYFACEX EZFACEX eX
    (m _ (by decide)) (m _ (by decide)) (m _ (by decide))
  refine bind_some_of_isSome
    ((averageFaceYElectricField_isSome _ _ _ _ _ _ _ _ _ _ g).trans hy) (fun eY => ?_)
  refine bind_some_of_isSome
    ((averageFaceZElectricField_isSome _ _ _ _ _ _ _ _ _ _ g).trans hz) (fun eZ => ?_)
  refine ⟨_, rfl, ?_⟩
  refine SameButFaceFields_trans ?_ (SameButFaceFields_store c _ ?_ _)
  · refine SameButFaceFields_trans ?_ (SameButFaceFields_setTriple _ c EXFACEX EYFACEX EZFACEX
      eZ (m _ (by decide)) (m _ (by decide)) (m _ (by decide)))
    refine SameButFaceFields_trans ?_ (SameButFaceFields_setTriple _ c BXFACEZ BYFACEZ BZFACEZ
      _ (m _ (by decide)) (m _ (by decide)) (m _ (by decide)))
    refine SameButFaceFields_trans ?_ (SameButFaceFields_setTriple _ c EXFACEX EYFACEX EZFACEX
      eY (m _ (by decide)) (m _ (by decide)) (m _ (by decide)))
    refine SameButFaceFields_trans ?_ (SameButFaceFields_setTriple _ c BXFACEY BYFACEY BZFACEY
      _ (m _ (by decide)) (m _ (by decide)) (m _ (by decide)))
    exact SameButFaceFields_trans t1 (t2 _)
  · intro sf hsf
    have h1 : sf.1 ∈ faceBSlots := (List.of_mem_zip hsf).1
    exact List.mem_append_left _ h1

/-- Readiness of every cell is kept by a mesh with the same neighbour lookup,
and `calculateFaceAveragedFields` on ready cells returns and changes the mesh
at most in face-averaged field slots. -/
theorem faceLoop_spec (X : Externals K) (G : Globals) (L : List CellID) (g : ParGrid K)
    (hready : ∀ c ∈ L, FaceReady G g c) :
    ∃ g', L.foldlM (fun g cellID => faceAveragedFieldsCell X G cellID g) g = some g' ∧
      SameButFaceFields g g' := by
  induction L generalizing g with
  | nil => exact ⟨g, rfl, SameButFaceFields_refl g⟩
  | cons a L ih =>
    obtain ⟨ga, ra, sa⟩ := faceAveragedFieldsCell_spec X G a g (hready a (List.mem_cons_self _ _))
    obtain ⟨g', r', s'⟩ := ih ga
      (fun c hc => FaceReady_congr rfl sa.1 (hready c (List.mem_cons_of_mem _ hc)))
    exact ⟨g', by rw [List.foldlM_cons, ra]; exact r', SameButFaceFields_trans sa s'⟩

/-- The face-averaging stage on ready cells. -/
theorem calculateFaceAveragedFields_spec (X : Externals K) (G : Globals) (g : ParGrid K)
    (hready : ∀ c ∈ g.getCells, FaceReady G g c) :
    ∃ g', calculateFaceAveragedFields X G g = some g' ∧ SameButFaceFields g g' := by
  unfold calculateFaceAveragedFields
  exact faceLoop_spec X G g.getCells g hready

end FaceStage

end Vlasiator

namespace Vlasiator

open CellParams fieldsolver

section PropagateFields

variable {K : Type} [LinearOrderedField K]

/-- The B-update stage on a list of distinct ready cells: it returns; it
changes nothing but `BX`, `BY`, `BZ`; on a listed cell every component whose
capability test passes holds its curl update computed from the incoming mesh,
and every other component holds a value of its boundary-condition function. -/
theorem propagateMagneticFieldSimple_spec (X : Externals K) (G : Globals) (g : ParGrid K)
    (dt : K) (L : List CellID) (hL : L.Nodup) (hready : ∀ c ∈ L, PropagateReady G g c) :
    ∃ g2, propagateMagneticFieldSimple X G g dt L = some g2 ∧
      g2.getNeighbour = g.getNeighbour ∧ g2.getCells = g.getCells ∧
      g2.isRemote = g.isRemote ∧ g2.cpu_derivatives = g.cpu_derivatives ∧
      (∀ c p, (p ≠ BX ∧ p ≠ BY ∧ p ≠ BZ) → g2.cpu_cellParams c p = g.cpu_cellParams c p) ∧
      (∀ c ∈ L, ∀ e, G.boundaryFlags c = some e →
        (if passes e G.masks.PROPAGATE_BX then
            g2.cpu_cellParams c BX = propagatedCellParams G g dt e c BX
          else ∃ gi, g2.cpu_cellParams c BX =
            X.fieldSolverBoundaryCondBx c e (toUint (e ^^^ 4294967295)) gi) ∧
        (if passes e G.masks.PROPAGATE_BY then
            g2.cpu_cellParams c BY = propagatedCellParams G g dt e c BY
          else ∃ gi, g2.cpu_cellParams c BY =
            X.fieldSolverBoundaryCondBy c e (toUint (e ^^^ 4294967295)) gi) ∧
        (if passes e G.masks.PROPAGATE_BZ then
            g2.cpu_cellParams c BZ = propagatedCellParams G g dt e c BZ
          else ∃ gi, g2.cpu_cellParams c BZ =
            X.fieldSolverBoundaryCondBz c e (toUint (e ^^^ 4294967295)) gi)) := by
  obtain ⟨g1, hg1, hn1, hc1, hm1, hd1, hcp1⟩ := propagateAllCells_spec G dt L hL g hready
  obtain ⟨g2, hg2, hn2, hc2, hm2, hd2, hoth2, -, hin2⟩ := boundaryLoop_spec X G L hL g1
    (fun c hc => ⟨(hready c hc).1, (hready c hc).2.1⟩)
  refine ⟨g2, ?_, hn2.trans hn1, hc2.trans hc1, hm2.trans hm1, hd2.trans hd1, ?_, ?_⟩
  · unfold propagateMagneticFieldSimple
    rw [hg1]
    exact hg2
  · intro c p hp
    rw [hoth2 c p hp, hcp1]
    by_cases hc : c ∈ L
    · rw [if_pos hc]
      exact propagatedCellParams_other G g dt _ c p hp
    · rw [if_neg hc]
  · intro c hc e he
    have hv : ∀ p, g1.cpu_cellParams c p = propagatedCellParams G g dt e c p := by
      intro p
      rw [hcp1, if_pos hc, he]
      rfl
    obtain ⟨h1, h2, h3⟩ := hin2 c hc e he
    refine ⟨?_, ?_, ?_⟩
    · by_cases t : passes e G.masks.PROPAGATE_BX
      · rw [if_pos t] at h1 ⊢
        rw [h1, hv]
      · rw [if_neg t] at h1 ⊢
        exact h1
    · by_cases t : passes e G.masks.PROPAGATE_BY
      · rw [if_pos t] at h2 ⊢
        rw [h2, hv]
      · rw [if_neg t] at h2 ⊢
        exact h2
    · by_cases t : passes e G.masks.PROPAGATE_BZ
      · rw [if_pos t] at h3 ⊢
        rw [h3, hv]
      · rw [if_neg t] at h3 ⊢
        exact h3

/-- The stages of `propagateFields` on a mesh that is ready for each of them:
the B-update stage runs on the incoming mesh, the derivative stage on its
result, the edge stage on the result of the derivative stage, and the face
averages on the result of the edge stage; the call returns the last mesh. -/
theorem propagateFields_spec (X : Externals K) (G : Globals) (g : ParGrid K) (dt : K)
    (hnd : g.getCells.Nodup)
    (hP : ∀ c ∈ g.getCells, PropagateReady (recalculateStencils G g g.getCells) g c)
    (hD : ∀ c ∈ (recalculateStencils G g g.getCells).stencil3.innerCells
        ++ (recalculateStencils G g g.getCells).stencil3.boundaryCells,
      DerivativesReady (recalculateStencils G g g.getCells) g c)
    (hE : ∀ c ∈ (recalculateStencils G g g.getCells).stencil3.innerCells
        ++ (recalculateStencils G g g.getCells).stencil3.boundaryCells,
      EdgeReady (recalculateStencils G g g.getCells) g c)
    (hF : ∀ c ∈ g.getCells, FaceReady (recalculateStencils G g g.getCells) g c) :
    ∃ g1 g2 st g4,
      propagateMagneticFieldSimple X (recalculateStencils G g g.getCells) g dt g.getCells
        = some g1 ∧
      calculateDerivativesSimple X (recalculateStencils G g g.getCells) g1 g.getCells
        = some g2 ∧
      calculateUpwindedElectricFieldSimple X (recalculateStencils G g g.getCells) g2 g.getCells
        = some st ∧
      calculateFaceAveragedFields X
        { recalculateStencils G g g.getCells with boundaryFlags := st.1 } st.2 = some g4 ∧
      propagateFields X G g dt
        = some ({ recalculateStencils G g g.getCells with boundaryFlags := st.1 }, g4) ∧
      g1.getNeighbour = g.getNeighbour ∧ g1.cpu_derivatives = g.cpu_derivatives ∧
      g2.getNeighbour = g.getNeighbour ∧ g2.cpu_cellParams = g1.cpu_cellParams ∧
      SameButEdgeE g2 st.2 ∧ SameButFaceFields st.2 g4 := by
  obtain ⟨g1, r1, n1, c1, -, d1, -, -⟩ :=
    propagateMagneticFieldSimple_spec X (recalculateStencils G g g.getCells) g dt g.getCells
      hnd hP
  obtain ⟨g2, r2, n2, c2, -, p2, -⟩ :=
    calculateDerivativesSimple_spec X (recalculateStencils G g g.getCells) g1 g.getCells
      (fun c hc => DerivativesReady_congr n1 (hD c hc))
  obtain ⟨st, r3, fl3, -, s3, -, -⟩ :=
    calculateUpwindedElectricFieldSimple_spec X (recalculateStencils G g g.getCells) g2
      g.getCells (fun c hc => EdgeReady_congr (n2.trans n1) (hE c hc))
  have hcells : st.2.getCells = g.getCells := s3.2.1.trans (c2.trans c1)
  obtain ⟨g4, r4, s4⟩ := calculateFaceAveragedFields_spec X
    { recalculateStencils G g g.getCells with boundaryFlags := st.1 } st.2
    (fun c hc => FaceReady_congr (fl3 c) (s3.1.trans (n2.trans n1)) (hF c (hcells ▸ hc)))
  refine ⟨g1, g2, st, g4, r1, r2, r3, r4, ?_, n1, d1, n2.trans n1, p2, s3, s4⟩
  unfold propagateFields
  simp only [Option.bind_eq_bind, r1, Option.some_bind, r2, r3, r4]
  rfl

end PropagateFields

end Vlasiator

namespace Vlasiator

open CellParams fieldsolver

section StageOrder

variable {K : Type} [LinearOrderedField K]

/-- C3 (amended): `propagateFields` applies its stages in the order B-update,
derivative, edge-field, reconstruction. On a mesh that is ready for each
stage the call returns; the B-update stage runs on the incoming mesh, the
derivative stage on its result `g1`, the edge stage on the result `g2` of the
derivative stage; the returned mesh carries the derivatives of `g2`, the edge
electric field left by the edge stage and the magnetic field of `g1`; and on
every local cell each component of `B` whose capability test passes is the
incoming value plus the discrete curl of the edge electric field that was
stored in the mesh before the call. -/
theorem C3_stage_order (X : Externals K) (G : Globals) (g : ParGrid K) (dt : K)
    (hnd : g.getCells.Nodup)
    (hP : ∀ c ∈ g.getCells, PropagateReady (recalculateStencils G g g.getCells) g c)
    (hD : ∀ c ∈ (recalculateStencils G g g.getCells).stencil3.innerCells
        ++ (recalculateStencils G g g.getCells).stencil3.boundaryCells,
      DerivativesReady (recalculateStencils G g g.getCells) g c)
    (hE : ∀ c ∈ (recalculateStencils G g g.getCells).stencil3.innerCells
        ++ (recalculateStencils G g g.getCells).stencil3.boundaryCells,
      EdgeReady (recalculateStencils G g g.getCells) g c)
    (hF : ∀ c ∈ g.getCells, FaceReady (recalculateStencils G g g.getCells) g c) :
    ∃ g1 g2 st out,
      propagateMagneticFieldSimple X (recalculateStencils G g g.getCells) g dt g.getCells
        = some g1 ∧
      calculateDerivativesSimple X (recalculateStencils G g g.getCells) g1 g.getCells
        = some g2 ∧
      calculateUpwindedElectricFieldSimple X (recalculateStencils G g g.getCells) g2 g.getCells
        = some st ∧
      propagateFields X G g dt = some out ∧
      out.2.cpu_derivatives = g2.cpu_derivatives ∧
      (∀ c, out.2.cpu_cellParams c EX = st.2.cpu_cellParams c EX ∧
        out.2.cpu_cellParams c EY = st.2.cpu_cellParams c EY ∧
        out.2.cpu_cellParams c EZ = st.2.cpu_cellParams c EZ) ∧
      (∀ c, out.2.cpu_cellParams c BX = g1.cpu_cellParams c BX ∧
        out.2.cpu_cellParams c BY = g1.cpu_cellParams c BY ∧
        out.2.cpu_cellParams c BZ = g1.cpu_cellParams c BZ) ∧
      (∀ c ∈ g.getCells, ∀ e,
        (recalculateStencils G g g.getCells).boundaryFlags c = some e →
        (passes e (recalculateStencils G g g.getCells).masks.PROPAGATE_BX →
          out.2.cpu_cellParams c BX = g.cpu_cellParams c BX
            + dt / g.cpu_cellParams c DZ
              * (g.cpu_cellParams (g.getNeighbour c (calcNbrTypeID 2 2 3)) EY
                - g.cpu_cellParams c EY)
            + dt / g.cpu_cellParams c DY
              * (g.cpu_cellParams c EZ
                - g.cpu_cellParams (g.getNeighbour c (calcNbrTypeID 2 3 2)) EZ)) ∧
        (passes e (recalculateStencils G g g.getCells).masks.PROPAGATE_BY →
          out.2.cpu_cellParams c BY = g.cpu_cellParams c BY
            + dt / g.cpu_cellParams c DX
              * (g.cpu_cellParams (g.getNeighbour c (calcNbrTypeID 3 2 2)) EZ
                - g.cpu_cellParams c EZ)
            + dt / g.cpu_cellParams c DZ
              * (g.cpu_cellParams c EX
                - g.cpu_cellParams (g.getNeighbour c (calcNbrTypeID 2 2 3)) EX)) ∧
        (passes e (recalculateStencils G g g.getCells).masks.PROPAGATE_BZ →
          out.2.cpu_cellParams c BZ = g.cpu_cellParams c BZ
            + dt / g.cpu_cellParams c DY
              * (g.cpu_cellParams (g.getNeighbour c (calcNbrTypeID 2 3 2)) EX
                - g.cpu_cellParams c EX)
            + dt / g.cpu_cellParams c DX
              * (g.cpu_cellParams c EY
                - g.cpu_cellParams (g.getNeighbour c (calcNbrTypeID 3 2 2)) EY))) := by
  obtain ⟨g1, g2, st, g4, r1, r2, r3, -, r5, -, -, -, p2, s3, s4⟩ :=
    propagateFields_spec X G g dt hnd hP hD hE hF
  obtain ⟨g1', r1', -, -, -, -, -, hval⟩ :=
    propagateMagneticFieldSimple_spec X (recalculateStencils G g g.getCells) g dt g.getCells
      hnd hP
  have e1 : g1' = g1 := Option.some.inj (r1'.symm.trans r1)
  subst e1
  have hB : ∀ c p, (p = BX ∨ p = BY ∨ p = BZ) →
      g4.cpu_cellParams c p = g1'.cpu_cellParams c p := by
    intro c p hp
    have h1 : g4.cpu_cellParams c p = st.2.cpu_cellParams c p :=
      s4.2.2.2.2 c p (by rcases hp with rfl | rfl | rfl <;> decide)
    have h2 : st.2.cpu_cellParams c p = g2.cpu_cellParams c p :=
      s3.2.2.2.2 c p (by rcases hp with rfl | rfl | rfl <;> decide)
        (by rcases hp with rfl | rfl | rfl <;> decide)
        (by rcases hp with rfl | rfl | rfl <;> decide)
    rw [h1, h2, p2]
  refine ⟨g1', g2, st, _, r1, r2, r3, r5, ?_, ?_, ?_, ?_⟩
  · exact s4.2.2.2.1.trans s3.2.2.2.1
  · intro c
    exact ⟨s4.2.2.2.2 c EX (by decide), s4.2.2.2.2 c EY (by decide),
      s4.2.2.2.2 c EZ (by decide)⟩
  · intro c
    exact ⟨hB c BX (Or.inl rfl), hB c BY (Or.inr (Or.inl rfl)), hB c BZ (Or.inr (Or.inr rfl))⟩
  · intro c hc e he
    obtain ⟨h1, h2, h3⟩ := hval c hc e he
    refine ⟨fun t => ?_, fun t => ?_, fun t => ?_⟩
    · rw [if_pos t] at h1
      show g4.cpu_cellParams c BX = _
      rw [hB c BX (Or.inl rfl), h1]
      simp [propagatedCellParams, t, add_assoc]
    · rw [if_pos t] at h2
      show g4.cpu_cellParams c BY = _
      rw [hB c BY (Or.inr (Or.inl rfl)), h2]
      simp [propagatedCellParams, t, add_assoc]
    · rw [if_pos t] at h3
      show g4.cpu_cellParams c BZ = _
      rw [hB c BZ (Or.inr (Or.inr rfl)), h3]
      simp [propagatedCellParams, t, add_assoc]

/-- A value that an edge kernel stores is zero when the flat-field value it
is blended from is zero. -/
theorem edge_value_zero (v a b c d : K) (ha : 0 ≤ a) (hb : 0 ≤ b) (hc : 0 ≤ c) (hd : 0 ≤ d)
    (h : v * ((a + b) * (c + d) + EPS) = 0 * ((a + b) * (c + d))) : v = 0 := by
  have hpos : 0 < (a + b) * (c + d) + EPS :=
    add_pos_of_nonneg_of_pos (mul_nonneg (add_nonneg ha hb) (add_nonneg hc hd)) EPS_pos
  rw [zero_mul] at h
  rcases mul_eq_zero.mp h with h | h
  · exact h
  · exact absurd h (ne_of_gt hpos)

end StageOrder

/-- A neighbour of a cell of a column is a cell of the column. -/
theorem columnGetNeighbour_lt (n : Nat) (hn : n < 4294967295) (c : CellID) (t : Nat)
    (h : columnGetNeighbour n c t ≠ INVALID_CELLID) : columnGetNeighbour n c t < n := by
  unfold columnGetNeighbour at *
  unfold INVALID_CELLID at h
  split_ifs at h ⊢ <;>
    first
      | assumption
      | exact lt_of_le_of_lt (Nat.sub_le _ _) (by assumption)
      | exact absurd rfl h

/-- The column of four cells with the edge field `EY = c - 1` is ready for
every stage of `propagateFields`. -/
theorem column4_stages_ready :
    (columnGrid 4 shearCellParams (fun _ _ => 0)).getCells.Nodup ∧
    (∀ c ∈ (columnGrid 4 shearCellParams (fun _ _ => 0)).getCells,
      PropagateReady (recalculateStencils (columnGlobals 4)
        (columnGrid 4 shearCellParams (fun _ _ => 0))
        (columnGrid 4 shearCellParams (fun _ _ => 0)).getCells)
        (columnGrid 4 shearCellParams (fun _ _ => 0)) c) ∧
    (∀ c ∈ (recalculateStencils (columnGlobals 4)
          (columnGrid 4 shearCellParams (fun _ _ => 0))
          (columnGrid 4 shearCellParams (fun _ _ => 0)).getCells).stencil3.innerCells
        ++ (recalculateStencils (columnGlobals 4)
          (columnGrid 4 shearCellParams (fun _ _ => 0))
          (columnGrid 4 shearCellParams (fun _ _ => 0)).getCells).stencil3.boundaryCells,
      DerivativesReady (recalculateStencils (columnGlobals 4)
        (columnGrid 4 shearCellParams (fun _ _ => 0))
        (columnGrid 4 shearCellParams (fun _ _ => 0)).getCells)
        (columnGrid 4 shearCellParams (fun _ _ => 0)) c) ∧
    (∀ c ∈ (recalculateStencils (columnGlobals 4)
          (columnGrid 4 shearCellParams (fun _ _ => 0))
          (columnGrid 4 shearCellParams (fun _ _ => 0)).getCells).stencil3.innerCells
        ++ (recalculateStencils (columnGlobals 4)
          (columnGrid 4 shearCellParams (fun _ _ => 0))
          (columnGrid 4 shearCellParams (fun _ _ => 0)).getCells).stencil3.boundaryCells,
      EdgeReady (recalculateStencils (columnGlobals 4)
        (columnGrid 4 shearCellParams (fun _ _ => 0))
        (columnGrid 4 shearCellParams (fun _ _ => 0)).getCells)
        (columnGrid 4 shearCellParams (fun _ _ => 0)) c) ∧
    (∀ c ∈ (columnGrid 4 shearCellParams (fun _ _ => 0)).getCells,
      FaceReady (recalculateStencils (columnGlobals 4)
        (columnGrid 4 shearCellParams (fun _ _ => 0))
        (columnGrid 4 shearCellParams (fun _ _ => 0)).getCells)
        (columnGrid 4 shearCellParams (fun _ _ => 0)) c) := by
  refine ⟨by decide, by decide, by decide, by decide, by decide⟩

/-- C3 (amended) at a concrete input: the column of four cells with the edge
field `EY = c - 1`, zero magnetic field and time step `1`. The call returns,
and `BX` of cell `1` is the incoming `0` plus the curl `EY(2) - EY(1) = 1` of
the edge field stored before the call. -/
theorem C3_stage_order_witness :
    ∃ out, propagateFields sampleExternals (columnGlobals 4)
        (columnGrid 4 shearCellParams (fun _ _ => 0)) 1 = some out ∧
      out.2.cpu_cellParams 1 BX = 1 := by
  obtain ⟨g1, g2, st, out, -, -, -, r, -, -, -, hval⟩ :=
    C3_stage_order sampleExternals (columnGlobals 4)
      (columnGrid 4 shearCellParams (fun _ _ => 0)) 1
      column4_stages_ready.1 column4_stages_ready.2.1 column4_stages_ready.2.2.1
      column4_stages_ready.2.2.2.1 column4_stages_ready.2.2.2.2
  refine ⟨out, r, ?_⟩
  have h := (hval 1 (by decide) 134217727 (by decide)).1 (by decide)
  rw [h]
  norm_num [columnGrid, columnGetNeighbour, shearCellParams, calcNbrTypeID, INVALID_CELLID]

end Vlasiator

namespace Vlasiator

open CellParams fieldsolver

/-- The plasma state of the column of four cells with the edge field
`EY = c - 1` after the B-update stage with time step `1`: on every cell of the
column the magnetic field is `(1, 0, 0)`, the density `1`, the momentum zero. -/
theorem column4_state_after_B (g1 : ParGrid ℚ)
    (r1 : propagateMagneticFieldSimple sampleExternals (columnGlobals 4)
      (columnGrid 4 shearCellParams (fun _ _ => 0)) 1
      (columnGrid 4 shearCellParams (fun _ _ => 0)).getCells = some g1) :
    ∀ c, c < 4 → g1.cpu_cellParams c BX = 1 ∧ g1.cpu_cellParams c BY = 0 ∧
      g1.cpu_cellParams c BZ = 0 ∧ g1.cpu_cellParams c RHO = 1 ∧
      g1.cpu_cellParams c RHOVX = 0 ∧ g1.cpu_cellParams c RHOVY = 0 ∧
      g1.cpu_cellParams c RHOVZ = 0 := by
  obtain ⟨g1', r1', -, -, -, -, hoth, hval⟩ :=
    propagateMagneticFieldSimple_spec sampleExternals (columnGlobals 4)
      (columnGrid 4 shearCellParams (fun _ _ => 0)) 1
      (columnGrid 4 shearCellParams (fun _ _ => 0)).getCells
      column4_stages_ready.1 column4_stages_ready.2.1
  have e1 : g1' = g1 := Option.some.inj (r1'.symm.trans r1)
  subst e1
  have hB : ∀ c : Nat, c < 4 → g1'.cpu_cellParams c BX = 1 ∧ g1'.cpu_cellParams c BY = 0 ∧
      g1'.cpu_cellParams c BZ = 0 := by
    intro c hc
    have hcases : c = 0 ∨ c = 1 ∨ c = 2 ∨ c = 3 := by omega
    rcases hcases with rfl | rfl | rfl | rfl
    · obtain ⟨hx, hy, hz⟩ := hval 0 (by decide) 134217216 column4_flags.1
      rw [if_neg (by decide)] at hx hy hz
      obtain ⟨_, hx⟩ := hx
      obtain ⟨_, hy⟩ := hy
      obtain ⟨_, hz⟩ := hz
      exact ⟨hx, hy, hz⟩
    · obtain ⟨hx, hy, hz⟩ := hval 1 (by decide) 134217727 column4_flags.2.1
      have tx : passes 134217727 (columnGlobals 4).masks.PROPAGATE_BX := by decide
      have ty : passes 134217727 (columnGlobals 4).masks.PROPAGATE_BY := by decide
      have tz : passes 134217727 (columnGlobals 4).masks.PROPAGATE_BZ := by decide
      rw [if_pos tx] at hx
      rw [if_pos ty] at hy
      rw [if_pos tz] at hz
      rw [hx, hy, hz]
      refine ⟨?_, ?_, ?_⟩ <;>
        simp [propagatedCellParams, tx, ty, tz, columnGrid, columnGetNeighbour,
          shearCellParams, calcNbrTypeID, INVALID_CELLID] <;> norm_num
    · obtain ⟨hx, hy, hz⟩ := hval 2 (by decide) 134217727 column4_flags.2.2.1
      have tx : passes 134217727 (columnGlobals 4).masks.PROPAGATE_BX := by decide
      have ty : passes 134217727 (columnGlobals 4).masks.PROPAGATE_BY := by decide
      have tz : passes 134217727 (columnGlobals 4).masks.PROPAGATE_BZ := by decide
      rw [if_pos tx] at hx
      rw [if_pos ty] at hy
      rw [if_pos tz] at hz
      rw [hx, hy, hz]
      refine ⟨?_, ?_, ?_⟩ <;>
        simp [propagatedCellParams, tx, ty, tz, columnGrid, columnGetNeighbour,
          shearCellParams, calcNbrTypeID, INVALID_CELLID] <;> norm_num
    · obtain ⟨hx, hy, hz⟩ := hval 3 (by decide) 262143 column4_flags.2.2.2
      have tz : passes 262143 (columnGlobals 4).masks.PROPAGATE_BZ := by decide
      rw [if_neg (by decide)] at hx hy
      rw [if_pos tz] at hz
      obtain ⟨_, hx⟩ := hx
      obtain ⟨_, hy⟩ := hy
      refine ⟨hx, hy, ?_⟩
      rw [hz]
      simp [propagatedCellParams, tz, columnGrid, columnGetNeighbour,
        shearCellParams, calcNbrTypeID, INVALID_CELLID]
  intro c hc
  obtain ⟨bx, by', bz⟩ := hB c hc
  exact ⟨bx, by', bz, hoth c RHO (by decide), hoth c RHOVX (by decide),
    hoth c RHOVY (by decide), hoth c RHOVZ (by decide)⟩

/-- C3 fails as stated: on the column of four cells with the edge field
`EY = c - 1`, zero magnetic field, plasma at rest and time step `1`,
`propagateFields` returns; cell `1` passes the `PROPAGATE_BX` test; the edge
stage of the call leaves `EY = 0` on cells `1` and `2`, yet `BX` of cell `1`
is `1`: it is not the incoming value plus the curl of the edge field produced
by the edge stage of the same call. -/
theorem C3_counterexample :
    ∃ out, propagateFields sampleExternals (columnGlobals 4)
        (columnGrid 4 shearCellParams (fun _ _ => 0)) 1 = some out ∧
      (columnGlobals 4).boundaryFlags 1 = some 134217727 ∧
      passes 134217727 (columnGlobals 4).masks.PROPAGATE_BX ∧
      out.2.cpu_cellParams 1 BX = 1 ∧
      out.2.cpu_cellParams 1 EY = 0 ∧ out.2.cpu_cellParams 2 EY = 0 ∧
      out.2.cpu_cellParams 1 BX ≠
        (columnGrid 4 shearCellParams (fun _ _ => 0)).cpu_cellParams 1 BX
          + 1 / (columnGrid 4 shearCellParams (fun _ _ => 0)).cpu_cellParams 1 DZ
            * (out.2.cpu_cellParams ((columnGrid 4 shearCellParams
                  (fun _ _ => 0)).getNeighbour 1 (calcNbrTypeID 2 2 3)) EY
              - out.2.cpu_cellParams 1 EY)
          + 1 / (columnGrid 4 shearCellParams (fun _ _ => 0)).cpu_cellParams 1 DY
            * (out.2.cpu_cellParams 1 EZ
              - out.2.cpu_cellParams ((columnGrid 4 shearCellParams
                  (fun _ _ => 0)).getNeighbour 1 (calcNbrTypeID 2 3 2)) EZ) := by
  obtain ⟨g1, g2, st, g4, r1, r2, r3, -, r5, n1, d1, n2, p2, s3, s4⟩ :=
    propagateFields_spec sampleExternals (columnGlobals 4)
      (columnGrid 4 shearCellParams (fun _ _ => 0)) 1
      column4_stages_ready.1 column4_stages_ready.2.1 column4_stages_ready.2.2.1
      column4_stages_ready.2.2.2.1 column4_stages_ready.2.2.2.2
  have hst := column4_state_after_B g1 r1
  -- the derivative stage leaves all-zero derivatives
  have hmem : ∀ c, c ∈ (recalculateStencils (columnGlobals 4)
        (columnGrid 4 shearCellParams (fun _ _ => 0))
        (columnGrid 4 shearCellParams (fun _ _ => 0)).getCells).stencil3.innerCells
      ++ (recalculateStencils (columnGlobals 4)
        (columnGrid 4 shearCellParams (fun _ _ => 0))
        (columnGrid 4 shearCellParams (fun _ _ => 0)).getCells).stencil3.boundaryCells
      ↔ c < 4 := by
    intro c
    have : (recalculateStencils (columnGlobals 4)
        (columnGrid 4 shearCellParams (fun _ _ => 0))
        (columnGrid 4 shearCellParams (fun _ _ => 0)).getCells).stencil3.innerCells
      ++ (recalculateStencils (columnGlobals 4)
        (columnGrid 4 shearCellParams (fun _ _ => 0))
        (columnGrid 4 shearCellParams (fun _ _ => 0)).getCells).stencil3.boundaryCells
      = List.range 4 := by decide
    rw [this, List.mem_range]
  have hnb : g1.getNeighbour = columnGetNeighbour 4 := n1
  obtain ⟨g2', r2', -, -, -, -, hzero⟩ :=
    calculateDerivativesSimple_spec sampleExternals
      (recalculateStencils (columnGlobals 4) (columnGrid 4 shearCellParams (fun _ _ => 0))
        (columnGrid 4 shearCellParams (fun _ _ => 0)).getCells) g1
      (columnGrid 4 shearCellParams (fun _ _ => 0)).getCells
      (fun c hc => DerivativesReady_congr n1 (column4_stages_ready.2.2.1 c hc))
  have e2 : g2' = g2 := Option.some.inj (r2'.symm.trans r2)
  subst e2
  have hsame : ∀ a b, a < 4 → b < 4 →
      SameState (g1.cpu_cellParams a) (g1.cpu_cellParams b) := by
    intro a b ha hb
    obtain ⟨a1, a2, a3, a4, a5, a6, a7⟩ := hst a ha
    obtain ⟨b1, b2, b3, b4, b5, b6, b7⟩ := hst b hb
    unfold SameState
    rw [a1, a2, a3, a4, a5, a6, a7, b1, b2, b3, b4, b5, b6, b7]
    exact ⟨rfl, rfl, rfl, rfl, rfl, rfl, rfl⟩
  have hd2 : ∀ c s, g2'.cpu_derivatives c s = 0 := by
    apply hzero ⟨fun _ _ _ _ _ => rfl, fun _ _ _ _ _ => rfl, fun _ _ _ _ _ => rfl⟩
    · intro c hc t ht
      rw [hnb] at ht ⊢
      exact hsame _ _ ((hmem c).mp hc) (columnGetNeighbour_lt 4 (by norm_num) c t ht)
    · intro c s
      rw [d1]
      rfl
  -- the edge stage stores `EY = 0` on cells `1` and `2`
  obtain ⟨st', r3', -, -, -, -, hv⟩ :=
    calculateUpwindedElectricFieldSimple_spec sampleExternals
      (recalculateStencils (columnGlobals 4) (columnGrid 4 shearCellParams (fun _ _ => 0))
        (columnGrid 4 shearCellParams (fun _ _ => 0)).getCells) g2'
      (columnGrid 4 shearCellParams (fun _ _ => 0)).getCells
      (fun c hc => EdgeReady_congr n2 (column4_stages_ready.2.2.2.1 c hc))
  have e3 : st' = st := Option.some.inj (r3'.symm.trans r3)
  subst e3
  have hnb2 : g2'.getNeighbour = columnGetNeighbour 4 := n2
  have hU : ∀ c, c = 1 ∨ c = 2 → UniformCorners g2' c
      [calcNbrTypeID 2 2 1, calcNbrTypeID 1 2 1, calcNbrTypeID 1 2 2]
      [calcNbrTypeID 2 3 2, calcNbrTypeID 2 3 1, calcNbrTypeID 1 3 2, calcNbrTypeID 1 3 1] := by
    intro c hc
    have hc4 : c < 4 := by rcases hc with rfl | rfl <;> decide
    refine ⟨by rcases hc with rfl | rfl <;> decide, ?_, hd2 c, ?_, ?_⟩
    · rw [p2, (hst c hc4).2.2.2.1]
      exact one_pos
    · intro t ht
      have hv : columnGetNeighbour 4 c t ≠ INVALID_CELLID := by
        simp only [List.mem_cons, List.mem_singleton, List.not_mem_nil, or_false] at ht
        rcases hc with rfl | rfl <;> rcases ht with rfl | rfl | rfl <;> decide
      rw [hnb2, p2]
      exact ⟨hv, hsame _ _ hc4 (columnGetNeighbour_lt 4 (by norm_num) c t hv), hd2 _⟩
    · intro t ht
      rw [hnb2]
      simp only [List.mem_cons, List.mem_singleton, List.not_mem_nil, or_false] at ht
      rcases hc with rfl | rfl <;> rcases ht with rfl | rfl | rfl | rfl <;> decide
  have hEY : ∀ c, c = 1 ∨ c = 2 → st'.2.cpu_cellParams c EY = 0 := by
    intro c hc
    have hc4 : c < 4 := by rcases hc with rfl | rfl <;> decide
    obtain ⟨gi, Loc, sgi, hAt, hval⟩ := (hv c ((hmem c).mpr hc4)).2.1
      (by rcases hc with rfl | rfl <;> decide)
    obtain ⟨L, hAt', -, -, -, ⟨q1, q2, q3, q4⟩, hEq⟩ :=
      calculateEdgeElectricFieldY_uniform sampleExternals c gi (UniformCorners_congr sgi (hU c hc))
    have eL : L = Loc := Option.some.inj (hAt'.symm.trans hAt)
    subst eL
    rw [hval]
    apply edge_value_zero _ _ _ _ _ q1 q2 q3 q4
    rw [hEq]
    congr 1
    rw [sgi.2.2.2.2 c BZ (by decide) (by decide) (by decide),
      sgi.2.2.2.2 c RHOVZ (by decide) (by decide) (by decide), p2,
      (hst c hc4).2.2.1, (hst c hc4).2.2.2.2.2.2]
    simp
  -- the returned mesh
  have o1 : g4.cpu_cellParams 1 BX = 1 := by
    rw [s4.2.2.2.2 1 BX (by decide), s3.2.2.2.2 1 BX (by decide) (by decide) (by decide), p2]
    exact (hst 1 (by decide)).1
  have o2 : ∀ c, c = 1 ∨ c = 2 → g4.cpu_cellParams c EY = 0 := by
    intro c hc
    rw [s4.2.2.2.2 c EY (by decide)]
    exact hEY c hc
  refine ⟨_, r5, by decide, by decide, o1, o2 1 (Or.inl rfl), o2 2 (Or.inr rfl), ?_⟩
  have h2 : (columnGrid 4 shearCellParams (fun _ _ => 0)).getNeighbour 1 (calcNbrTypeID 2 2 3)
      = 2 := by decide
  have h3 : (columnGrid 4 shearCellParams (fun _ _ => 0)).getNeighbour 1 (calcNbrTypeID 2 3 2)
      = 1 := by decide
  show g4.cpu_cellParams 1 BX ≠ _
  rw [h2, h3]
  show g4.cpu_cellParams 1 BX ≠
    (columnGrid 4 shearCellParams (fun _ _ => 0)).cpu_cellParams 1 BX
      + 1 / (columnGrid 4 shearCellParams (fun _ _ => 0)).cpu_cellParams 1 DZ
        * (g4.cpu_cellParams 2 EY - g4.cpu_cellParams 1 EY)
      + 1 / (columnGrid 4 shearCellParams (fun _ _ => 0)).cpu_cellParams 1 DY
        * (g4.cpu_cellParams 1 EZ - g4.cpu_cellParams 1 EZ)
  rw [o1, o2 1 (Or.inl rfl), o2 2 (Or.inr rfl)]
  norm_num [columnGrid, shearCellParams]

end Vlasiator

namespace Vlasiator

open CellParams fieldsolver

/-! ## Denominators of the edge kernels -/

section EdgeDenominators

variable {K : Type} [LinearOrderedField K]

theorem ite_mul_factor {c : Prop} [Decidable c] (a x y : K) :
    (if c then a * x else a * y) = a * (if c then x else y) := by
  split_ifs <;> rfl

theorem EPS_le_add {a b : K} (ha : 0 ≤ a) (hb : 0 ≤ b) : EPS ≤ a + b + EPS :=
  le_add_of_nonneg_left (add_nonneg ha hb)

theorem EPS_le_mul_add {a b c d : K} (ha : 0 ≤ a) (hb : 0 ≤ b) (hc : 0 ≤ c) (hd : 0 ≤ d) :
    EPS ≤ (a + b) * (c + d) + EPS :=
  le_add_of_nonneg_left (mul_nonneg (add_nonneg ha hb) (add_nonneg hc hd))

/-- The arithmetic of `calculateEdgeElectricFieldX` for arbitrary arrays: the
four characteristic speeds are not negative, the three denominators of the
flux-split formula are at least `EPS`, the stored value is the flux-split
quotient minus and plus the two diffusive terms, and each diffusive term is
a quotient over its own denominator times a difference. -/
theorem edgeElectricFieldX_denominators (X : Externals K)
    (cp_SW cp_SE cp_NE cp_NW : CellParams → K)
    (derivs_SW derivs_SE derivs_NE derivs_NW : fieldsolver → K)
    (nbr_cp_SW nbr_cp_SE nbr_cp_NW nbr_cp_NE : CellParams → K)
    (nbr_derivs_SW nbr_derivs_SE nbr_derivs_NW nbr_derivs_NE : fieldsolver → K) :
    let L := edgeElectricFieldX X cp_SW cp_SE cp_NE cp_NW derivs_SW derivs_SE derivs_NE derivs_NW nbr_cp_SW nbr_cp_SE nbr_cp_NW nbr_cp_NE nbr_derivs_SW nbr_derivs_SE nbr_derivs_NW nbr_derivs_NE
    (0 ≤ L.ay_pos ∧ 0 ≤ L.ay_neg ∧ 0 ≤ L.az_pos ∧ 0 ≤ L.az_neg) ∧
    EPS ≤ (L.ay_pos + L.ay_neg) * (L.az_pos + L.az_neg) + EPS ∧
    EPS ≤ L.az_pos + L.az_neg + EPS ∧
    EPS ≤ L.ay_pos + L.ay_neg + EPS ∧
    L.EX =
      (L.ay_pos * L.az_pos * L.Ex_NE + L.ay_pos * L.az_neg * L.Ex_SE
        + L.ay_neg * L.az_pos * L.Ex_NW + L.ay_neg * L.az_neg * L.Ex_SW)
        / ((L.ay_pos + L.ay_neg) * (L.az_pos + L.az_neg) + EPS)
      - L.diffusive_z + L.diffusive_y ∧
    (∃ d, L.diffusive_z = L.az_pos * L.az_neg / (L.az_pos + L.az_neg + EPS) * d) ∧
    (∃ d, L.diffusive_y = L.ay_pos * L.ay_neg / (L.ay_pos + L.ay_neg + EPS) * d) := by
  intro L
  have h1 : 0 ≤ L.ay_pos := max4_nonneg _ _ _ _
  have h2 : 0 ≤ L.ay_neg := max4_nonneg _ _ _ _
  have h3 : 0 ≤ L.az_pos := max4_nonneg _ _ _ _
  have h4 : 0 ≤ L.az_neg := max4_nonneg _ _ _ _
  exact ⟨⟨h1, h2, h3, h4⟩, EPS_le_mul_add h1 h2 h3 h4, EPS_le_add h3 h4, EPS_le_add h1 h2, rfl,
    ⟨_, ite_mul_factor _ _ _⟩, ⟨_, ite_mul_factor _ _ _⟩⟩

/-- The arithmetic of `calculateEdgeElectricFieldY` for arbitrary arrays: the
four characteristic speeds are not negative, the three denominators of the
flux-split formula are at least `EPS`, the stored value is the flux-split
quotient minus and plus the two diffusive terms, and each diffusive term is
a quotient over its own denominator times a difference. -/
theorem edgeElectricFieldY_denominators (X : Externals K)
    (cp_SW cp_SE cp_NE cp_NW : CellParams → K)
    (derivs_SW derivs_SE derivs_NE derivs_NW : fieldsolver → K)
    (nbr_cp_SW nbr_cp_SE nbr_cp_NW nbr_cp_NE : CellParams → K)
    (nbr_derivs_SW nbr_derivs_SE nbr_derivs_NW nbr_derivs_NE : fieldsolver → K) :
    let L := edgeElectricFieldY X cp_SW cp_SE cp_NE cp_NW derivs_SW derivs_SE derivs_NE derivs_NW nbr_cp_SW nbr_cp_SE nbr_cp_NW nbr_cp_NE nbr_derivs_SW nbr_derivs_SE nbr_derivs_NW nbr_derivs_NE
    (0 ≤ L.az_pos ∧ 0 ≤ L.az_neg ∧ 0 ≤ L.ax_pos ∧ 0 ≤ L.ax_neg) ∧
    EPS ≤ (L.az_pos + L.az_neg) * (L.ax_pos + L.ax_neg) + EPS ∧
    EPS ≤ L.ax_pos + L.ax_neg + EPS ∧
    EPS ≤ L.az_pos + L.az_neg + EPS ∧
    L.EY =
      (L.az_pos * L.ax_pos * L.Ey_NE + L.az_pos * L.ax_neg * L.Ey_SE
        + L.az_neg * L.ax_pos * L.Ey_NW + L.az_neg * L.ax_neg * L.Ey_SW)
        / ((L.az_pos + L.az_neg) * (L.ax_pos + L.ax_neg) + EPS)
      - L.diffusive_x + L.diffusive_z ∧
    (∃ d, L.diffusive_x = L.ax_pos * L.ax_neg / (L.ax_pos + L.ax_neg + EPS) * d) ∧
    (∃ d, L.diffusive_z = L.az_pos * L.az_neg / (L.az_pos + L.az_neg + EPS) * d) := by
  intro L
  have h1 : 0 ≤ L.az_pos := max4_nonneg _ _ _ _
  have h2 : 0 ≤ L.az_neg := max4_nonneg _ _ _ _
  have h3 : 0 ≤ L.ax_pos := max4_nonneg _ _ _ _
  have h4 : 0 ≤ L.ax_neg := max4_nonneg _ _ _ _
  exact ⟨⟨h1, h2, h3, h4⟩, EPS_le_mul_add h1 h2 h3 h4, EPS_le_add h3 h4, EPS_le_add h1 h2, rfl,
    ⟨_, ite_mul_factor _ _ _⟩, ⟨_, ite_mul_factor _ _ _⟩⟩

/-- The arithmetic of `calculateEdgeElectricFieldZ` for arbitrary arrays: the
four characteristic speeds are not negative, the three denominators of the
flux-split formula are at least `EPS`, the stored value is the flux-split
quotient minus and plus the two diffusive terms, and each diffusive term is
a quotient over its own denominator times a difference. -/
theorem edgeElectricFieldZ_denominators (X : Externals K)
    (cp_SW cp_SE cp_NE cp_NW : CellParams → K)
    (derivs_SW derivs_SE derivs_NE derivs_NW : fieldsolver → K)
    (nbr_cp_SW nbr_cp_SE nbr_cp_NW nbr_cp_NE : CellParams → K)
    (nbr_derivs_SW nbr_derivs_SE nbr_derivs_NW nbr_derivs_NE : fieldsolver → K) :
    let L := edgeElectricFieldZ X cp_SW cp_SE cp_NE cp_NW derivs_SW derivs_SE derivs_NE derivs_NW nbr_cp_SW nbr_cp_SE nbr_cp_NW nbr_cp_NE nbr_derivs_SW nbr_derivs_SE nbr_derivs_NW nbr_derivs_NE
    (0 ≤ L.ax_pos ∧ 0 ≤ L.ax_neg ∧ 0 ≤ L.ay_pos ∧ 0 ≤ L.ay_neg) ∧
    EPS ≤ (L.ax_pos + L.ax_neg) * (L.ay_pos + L.ay_neg) + EPS ∧
    EPS ≤ L.ay_pos + L.ay_neg + EPS ∧
    EPS ≤ L.ax_pos + L.ax_neg + EPS ∧
    L.EZ =
      (L.ax_pos * L.ay_pos * L.Ez_NE + L.ax_pos * L.ay_neg * L.Ez_SE
        + L.ax_neg * L.ay_pos * L.Ez_NW + L.ax_neg * L.ay_neg * L.Ez_SW)
        / ((L.ax_pos + L.ax_neg) * (L.ay_pos + L.ay_neg) + EPS)
      - L.diffusive_y + L.diffusive_x ∧
    (∃ d, L.diffusive_y = L.ay_pos * L.ay_neg / (L.ay_pos + L.ay_neg + EPS) * d) ∧
    (∃ d, L.diffusive_x = L.ax_pos * L.ax_neg / (L.ax_pos + L.ax_neg + EPS) * d) := by
  intro L
  have h1 : 0 ≤ L.ax_pos := max4_nonneg _ _ _ _
  have h2 : 0 ≤ L.ax_neg := max4_nonneg _ _ _ _
  have h3 : 0 ≤ L.ay_pos := max4_nonneg _ _ _ _
  have h4 : 0 ≤ L.ay_neg := max4_nonneg _ _ _ _
  exact ⟨⟨h1, h2, h3, h4⟩, EPS_le_mul_add h1 h2 h3 h4, EPS_le_add h3 h4, EPS_le_add h1 h2, rfl,
    ⟨_, ite_mul_factor _ _ _⟩, ⟨_, ite_mul_factor _ _ _⟩⟩

/-- Claim C11. For all inputs, in exact arithmetic, the four characteristic
speeds computed by each of the three edge kernels are at least zero, and the
three denominators of its flux-split formula (the product of the two speed
sums plus `EPS`, and each speed sum plus `EPS`) are at least
`EPS = 1e-30 > 0`; these are the only denominators of the normalisation: the
stored edge value is the weighted corner sum over the first denominator minus
and plus the two diffusive terms, each of which is a quotient over one of the
other two. So the normalisation never divides by zero, also when every speed
vanishes. -/
theorem C11_flux_split_denominators (X : Externals K)
    (cp_SW cp_SE cp_NE cp_NW : CellParams → K)
    (derivs_SW derivs_SE derivs_NE derivs_NW : fieldsolver → K)
    (nbr_cp_SW nbr_cp_SE nbr_cp_NW nbr_cp_NE : CellParams → K)
    (nbr_derivs_SW nbr_derivs_SE nbr_derivs_NW nbr_derivs_NE : fieldsolver → K) :
    (0 : K) < EPS ∧ (EPS : K) = 1 / 10 ^ 30 ∧
    (let L := edgeElectricFieldX X cp_SW cp_SE cp_NE cp_NW derivs_SW derivs_SE derivs_NE derivs_NW nbr_cp_SW nbr_cp_SE nbr_cp_NW nbr_cp_NE nbr_derivs_SW nbr_derivs_SE nbr_derivs_NW nbr_derivs_NE
     (0 ≤ L.ay_pos ∧ 0 ≤ L.ay_neg ∧ 0 ≤ L.az_pos ∧ 0 ≤ L.az_neg) ∧
     EPS ≤ (L.ay_pos + L.ay_neg) * (L.az_pos + L.az_neg) + EPS ∧
     EPS ≤ L.az_pos + L.az_neg + EPS ∧
     EPS ≤ L.ay_pos + L.ay_neg + EPS ∧
     L.EX =
       (L.ay_pos * L.az_pos * L.Ex_NE + L.ay_pos * L.az_neg * L.Ex_SE
         + L.ay_neg * L.az_pos * L.Ex_NW + L.ay_neg * L.az_neg * L.Ex_SW)
         / ((L.ay_pos + L.ay_neg) * (L.az_pos + L.az_neg) + EPS)
       - L.diffusive_z + L.diffusive_y ∧
     (∃ d, L.diffusive_z = L.az_pos * L.az_neg / (L.az_pos + L.az_neg + EPS) * d) ∧
     (∃ d, L.diffusive_y = L.ay_pos * L.ay_neg / (L.ay_pos + L.ay_neg + EPS) * d)) ∧
    (let L := edgeElectricFieldY X cp_SW cp_SE cp_NE cp_NW derivs_SW derivs_SE derivs_NE derivs_NW nbr_cp_SW nbr_cp_SE nbr_cp_NW nbr_cp_NE nbr_derivs_SW nbr_derivs_SE nbr_derivs_NW nbr_derivs_NE
     (0 ≤ L.az_pos ∧ 0 ≤ L.az_neg ∧ 0 ≤ L.ax_pos ∧ 0 ≤ L.ax_neg) ∧
     EPS ≤ (L.az_pos + L.az_neg) * (L.ax_pos + L.ax_neg) + EPS ∧
     EPS ≤ L.ax_pos + L.ax_neg + EPS ∧
     EPS ≤ L.az_pos + L.az_neg + EPS ∧
     L.EY =
       (L.az_pos * L.ax_pos * L.Ey_NE + L.az_pos * L.ax_neg * L.Ey_SE
         + L.az_neg * L.ax_pos * L.Ey_NW + L.az_neg * L.ax_neg * L.Ey_SW)
         / ((L.az_pos + L.az_neg) * (L.ax_pos + L.ax_neg) + EPS)
       - L.diffusive_x + L.diffusive_z ∧
     (∃ d, L.diffusive_x = L.ax_pos * L.ax_neg / (L.ax_pos + L.ax_neg + EPS) * d) ∧
     (∃ d, L.diffusive_z = L.az_pos * L.az_neg / (L.az_pos + L.az_neg + EPS) * d)) ∧
    (let L := edgeElectricFieldZ X cp_SW cp_SE cp_NE cp_NW derivs_SW derivs_SE derivs_NE derivs_NW nbr_cp_SW nbr_cp_SE nbr_cp_NW nbr_cp_NE nbr_derivs_SW nbr_derivs_SE nbr_derivs_NW nbr_derivs_NE
     (0 ≤ L.ax_pos ∧ 0 ≤ L.ax_neg ∧ 0 ≤ L.ay_pos ∧ 0 ≤ L.ay_neg) ∧
     EPS ≤ (L.ax_pos + L.ax_neg) * (L.ay_pos + L.ay_neg) + EPS ∧
     EPS ≤ L.ay_pos + L.ay_neg + EPS ∧
     EPS ≤ L.ax_pos + L.ax_neg + EPS ∧
     L.EZ =
       (L.ax_pos * L.ay_pos * L.Ez_NE + L.ax_pos * L.ay_neg * L.Ez_SE
         + L.ax_neg * L.ay_pos * L.Ez_NW + L.ax_neg * L.ay_neg * L.Ez_SW)
         / ((L.ax_pos + L.ax_neg) * (L.ay_pos + L.ay_neg) + EPS)
       - L.diffusive_y + L.diffusive_x ∧
     (∃ d, L.diffusive_y = L.ay_pos * L.ay_neg / (L.ay_pos + L.ay_neg + EPS) * d) ∧
     (∃ d, L.diffusive_x = L.ax_pos * L.ax_neg / (L.ax_pos + L.ax_neg + EPS) * d)) :=
  ⟨EPS_pos, rfl,
    edgeElectricFieldX_denominators X cp_SW cp_SE cp_NE cp_NW derivs_SW derivs_SE derivs_NE derivs_NW nbr_cp_SW nbr_cp_SE nbr_cp_NW nbr_cp_NE nbr_derivs_SW nbr_derivs_SE nbr_derivs_NW nbr_derivs_NE,
    edgeElectricFieldY_denominators X cp_SW cp_SE cp_NE cp_NW derivs_SW derivs_SE derivs_NE derivs_NW nbr_cp_SW nbr_cp_SE nbr_cp_NW nbr_cp_NE nbr_derivs_SW nbr_derivs_SE nbr_derivs_NW nbr_derivs_NE,
    edgeElectricFieldZ_denominators X cp_SW cp_SE cp_NE cp_NW derivs_SW derivs_SE derivs_NE derivs_NW nbr_cp_SW nbr_cp_SE nbr_cp_NW nbr_cp_NE nbr_derivs_SW nbr_derivs_SE nbr_derivs_NW nbr_derivs_NE⟩

end EdgeDenominators

end Vlasiator

namespace Vlasiator

open CellParams fieldsolver

/-! ## Divisions by the density -/

section DensityDenominators

variable {K : Type} [LinearOrderedField K]

theorem checkedDiv_of_ne {a b : K} (h : b ≠ 0) : checkedDiv a b = some (a / b) := if_neg h

theorem checkedDiv_zero (a : K) : checkedDiv a 0 = none := if_pos rfl

theorem velocityDerivativeChecked_eq (m : CellParams) (left cent rght : CellParams → K) :
    velocityDerivativeChecked m left cent rght =
      if left RHO = 0 ∨ cent RHO = 0 ∨ rght RHO = 0 then none
      else some (limiter (left m / left RHO) (cent m / cent RHO) (rght m / rght RHO)) := by
  unfold velocityDerivativeChecked checkedDiv
  by_cases h1 : left RHO = 0
  · simp [h1]
  · by_cases h2 : cent RHO = 0
    · simp [h1, h2]
    · by_cases h3 : rght RHO = 0
      · simp [h1, h2, h3]
      · simp [h1, h2, h3]

theorem map_checkedDiv (f : K → K) (a b : K) :
    (checkedDiv a b).map f = if b = 0 then none else some (f (a / b)) := by
  unfold checkedDiv
  split_ifs <;> rfl

/-- Claim C12 (amended). No epsilon is added to a density denominator. The
velocity divisions of `calculateDerivatives` and of the edge kernels divide
by the raw `RHO` of the cell concerned, so a checked evaluation is refused
exactly when one of these densities is zero, and otherwise yields the value
the code computes. The divisions of `calculateFastMSspeedYZ/XZ/XY` divide by
`MU_0 * rho` with `rho = m * (RHO + dir1 * drho/2 + dir2 * drho/2)`; a checked
evaluation is refused exactly when this product is zero, and otherwise yields
the value the code computes. -/
theorem C12_density_denominators (X : Externals K) (m : CellParams)
    (left cent rght cp nbr_cp : CellParams → K) (derivs nbr_derivs : fieldsolver → K)
    (B1 B2 d1 d2 d3 d4 dir1 dir2 : K) :
    velocityDerivativeChecked m left cent rght =
      (if left RHO = 0 ∨ cent RHO = 0 ∨ rght RHO = 0 then none
       else some (limiter (left m / left RHO) (cent m / cent RHO) (rght m / rght RHO))) ∧
    cornerVelocityChecked m cp = (if cp RHO = 0 then none else some (cp m / cp RHO)) ∧
    calculateFastMSspeedYZChecked X cp derivs nbr_cp nbr_derivs B1 B2 d1 d2 d3 d4 dir1 dir2 =
      (if X.MU_0 * (X.m * (cp RHO + dir1 * HALF * derivs drhody + dir2 * HALF * derivs drhodz)) = 0
       then none
       else some (calculateFastMSspeedYZ X cp derivs nbr_cp nbr_derivs B1 B2 d1 d2 d3 d4
         dir1 dir2)) ∧
    calculateFastMSspeedXZChecked X cp derivs nbr_cp nbr_derivs B1 B2 d1 d2 d3 d4 dir1 dir2 =
      (if X.MU_0 * (X.m * (cp RHO + dir1 * HALF * derivs drhodx + dir2 * HALF * derivs drhodz)) = 0
       then none
       else some (calculateFastMSspeedXZ X cp derivs nbr_cp nbr_derivs B1 B2 d1 d2 d3 d4
         dir1 dir2)) ∧
    calculateFastMSspeedXYChecked X cp derivs nbr_cp nbr_derivs B1 B2 d1 d2 d3 d4 dir1 dir2 =
      (if X.MU_0 * (X.m * (cp RHO + dir1 * HALF * derivs drhodx + dir2 * HALF * derivs drhody)) = 0
       then none
       else some (calculateFastMSspeedXY X cp derivs nbr_cp nbr_derivs B1 B2 d1 d2 d3 d4
         dir1 dir2)) :=
  ⟨velocityDerivativeChecked_eq m left cent rght, rfl,
    map_checkedDiv _ _ _, map_checkedDiv _ _ _, map_checkedDiv _ _ _⟩

end DensityDenominators

/-- Claim C12 (as stated, refuted). On empty cells (`RHO = 0`, magnetic field
`(3, 2, 4)`, zero derivatives) the denominator of the velocity divisions of
`calculateDerivatives`, of the corner velocity of the edge kernels and of the
quotient of `calculateFastMSspeedYZ` is exactly zero: each checked evaluation
is refused. -/
theorem C12_counterexample :
    vacuumCellParams 1 RHO = 0 ∧
    velocityDerivativeChecked RHOVX (vacuumCellParams 0) (vacuumCellParams 1)
      (vacuumCellParams 2) = none ∧
    cornerVelocityChecked RHOVY (vacuumCellParams 1) = none ∧
    sampleExternals.MU_0 * (sampleExternals.m * (vacuumCellParams 1 RHO
      + MINUS * HALF * (0 : ℚ) + MINUS * HALF * (0 : ℚ))) = 0 ∧
    calculateFastMSspeedYZChecked sampleExternals (vacuumCellParams 1) (fun _ => 0)
      (vacuumCellParams 1) (fun _ => 0) 2 4 0 0 0 0 MINUS MINUS = none := by
  have h : ∀ c, vacuumCellParams c RHO = 0 := fun _ => rfl
  refine ⟨rfl, ?_, ?_, ?_, ?_⟩
  · rw [velocityDerivativeChecked_eq, if_pos (Or.inl (h 0))]
  · exact checkedDiv_zero _
  · simp [h]
  · unfold calculateFastMSspeedYZChecked
    simp [h, checkedDiv]

end Vlasiator

namespace Vlasiator

open CellParams fieldsolver

/-! ## What `calculateDerivatives` writes -/

section DerivativesFrame

variable {K : Type} [LinearOrderedField K]

/-- Claim C13. `calculateDerivatives` on a cell runs its x-, y- and z-block
one after the other (`g`, `g1`, `g2`, `g3` are the meshes in between) and
returns. Afterwards the cell parameters of every cell, the mesh itself and
the derivative arrays of all other cells are as before. In the interior
branch for axis x the block leaves every slot other than `drhodx`, `dBydx`,
`dBzdx`, `dVxdx`, `dVydx`, `dVzdx` as it was and stores in these six the
limited differences of density, of the two magnetic-field components
transverse to x and of the three velocities; likewise for y and z. -/
theorem C13_derivatives_write_set (X : Externals K) (G : Globals) (c : CellID) (g : ParGrid K)
    (e : Nat) (he : G.boundaryFlags c = some e) (hready : DerivativesReady G g c) :
    ∃ g1 g2 g3,
      calculateDerivativesX X G c e (toUint (e ^^^ 4294967295)) g = some g1 ∧
      calculateDerivativesY X G c e (toUint (e ^^^ 4294967295)) g1 = some g2 ∧
      calculateDerivativesZ X G c e (toUint (e ^^^ 4294967295)) g2 = some g3 ∧
      calculateDerivatives X G c g = some g3 ∧
      g3.cpu_cellParams = g.cpu_cellParams ∧ g3.getCells = g.getCells ∧
      g3.getNeighbour = g.getNeighbour ∧ g3.isRemote = g.isRemote ∧
      (∀ c' s, c' ≠ c → g3.cpu_derivatives c' s = g.cpu_derivatives c' s) ∧
      (passes e G.masks.CALCULATE_DX →
        (∀ s, s ∉ [drhodx, dBydx, dBzdx, dVxdx, dVydx, dVzdx] →
          g1.cpu_derivatives c s = g.cpu_derivatives c s) ∧
        (∀ qd ∈ [(RHO, drhodx), (BY, dBydx), (BZ, dBzdx)],
          g1.cpu_derivatives c qd.2 =
            limiter (g.cpu_cellParams (getNeighbourID g c 1 2 2) qd.1) (g.cpu_cellParams c qd.1)
              (g.cpu_cellParams (getNeighbourID g c 3 2 2) qd.1)) ∧
        (∀ vd ∈ [(RHOVX, dVxdx), (RHOVY, dVydx), (RHOVZ, dVzdx)],
          g1.cpu_derivatives c vd.2 =
            limiter
              (g.cpu_cellParams (getNeighbourID g c 1 2 2) vd.1 / g.cpu_cellParams (getNeighbourID g c 1 2 2) RHO)
              (g.cpu_cellParams c vd.1 / g.cpu_cellParams c RHO)
              (g.cpu_cellParams (getNeighbourID g c 3 2 2) vd.1 / g.cpu_cellParams (getNeighbourID g c 3 2 2) RHO))) ∧
      (passes e G.masks.CALCULATE_DY →
        (∀ s, s ∉ [drhody, dBxdy, dBzdy, dVxdy, dVydy, dVzdy] →
          g2.cpu_derivatives c s = g1.cpu_derivatives c s) ∧
        (∀ qd ∈ [(RHO, drhody), (BX, dBxdy), (BZ, dBzdy)],
          g2.cpu_derivatives c qd.2 =
            limiter (g.cpu_cellParams (getNeighbourID g c 2 1 2) qd.1) (g.cpu_cellParams c qd.1)
              (g.cpu_cellParams (getNeighbourID g c 2 3 2) qd.1)) ∧
        (∀ vd ∈ [(RHOVX, dVxdy), (RHOVY, dVydy), (RHOVZ, dVzdy)],
          g2.cpu_derivatives c vd.2 =
            limiter
              (g.cpu_cellParams (getNeighbourID g c 2 1 2) vd.1 / g.cpu_cellParams (getNeighbourID g c 2 1 2) RHO)
              (g.cpu_cellParams c vd.1 / g.cpu_cellParams c RHO)
              (g.cpu_cellParams (getNeighbourID g c 2 3 2) vd.1 / g.cpu_cellParams (getNeighbourID g c 2 3 2) RHO))) ∧
      (passes e G.masks.CALCULATE_DZ →
        (∀ s, s ∉ [drhodz, dBxdz, dBydz, dVxdz, dVydz, dVzdz] →
          g3.cpu_derivatives c s = g2.cpu_derivatives c s) ∧
        (∀ qd ∈ [(RHO, drhodz), (BX, dBxdz), (BY, dBydz)],
          g3.cpu_derivatives c qd.2 =
            limiter (g.cpu_cellParams (getNeighbourID g c 2 2 1) qd.1) (g.cpu_cellParams c qd.1)
              (g.cpu_cellParams (getNeighbourID g c 2 2 3) qd.1)) ∧
        (∀ vd ∈ [(RHOVX, dVxdz), (RHOVY, dVydz), (RHOVZ, dVzdz)],
          g3.cpu_derivatives c vd.2 =
            limiter
              (g.cpu_cellParams (getNeighbourID g c 2 2 1) vd.1 / g.cpu_cellParams (getNeighbourID g c 2 2 1) RHO)
              (g.cpu_cellParams c vd.1 / g.cpu_cellParams c RHO)
              (g.cpu_cellParams (getNeighbourID g c 2 2 3) vd.1 / g.cpu_cellParams (getNeighbourID g c 2 2 3) RHO))) := by
  obtain ⟨hc, -, hall⟩ := hready
  obtain ⟨vx, vy, vz⟩ := hall e (by simp [he])
  obtain ⟨g1, r1, n1, c1, m1, p1, o1, x1, -⟩ :=
    calculateDerivativesX_spec X G c e (toUint (e ^^^ 4294967295)) g vx
  have vy1 : passes e G.masks.CALCULATE_DY →
      getNeighbourID g1 c 2 (2 - 1) 2 ≠ INVALID_CELLID ∧
      getNeighbourID g1 c 2 (2 + 1) 2 ≠ INVALID_CELLID := by
    unfold getNeighbourID at vy ⊢; rw [n1]; exact vy
  obtain ⟨g2, r2, n2, c2, m2, p2, o2, x2, -⟩ :=
    calculateDerivativesY_spec X G c e (toUint (e ^^^ 4294967295)) g1 vy1
  have vz2 : passes e G.masks.CALCULATE_DZ →
      getNeighbourID g2 c 2 2 (2 - 1) ≠ INVALID_CELLID ∧
      getNeighbourID g2 c 2 2 (2 + 1) ≠ INVALID_CELLID := by
    unfold getNeighbourID at vz ⊢; rw [n2, n1]; exact vz
  obtain ⟨g3, r3, n3, c3, m3, p3, o3, x3, -⟩ :=
    calculateDerivativesZ_spec X G c e (toUint (e ^^^ 4294967295)) g2 vz2
  have hN1 : ∀ i j k, getNeighbourID g1 c i j k = getNeighbourID g c i j k := by
    intro i j k; unfold getNeighbourID; rw [n1]
  have hN2 : ∀ i j k, getNeighbourID g2 c i j k = getNeighbourID g c i j k := by
    intro i j k; unfold getNeighbourID; rw [n2, n1]
  refine ⟨g1, g2, g3, r1, r2, r3, calculateDerivatives_eq X G c g g1 g2 g3 e hc he r1 r2 r3,
    p3.trans (p2.trans p1), c3.trans (c2.trans c1), n3.trans (n2.trans n1),
    m3.trans (m2.trans m1), ?_, ?_, ?_, ?_⟩
  · intro c' s hc'
    rw [o3 c' s hc', o2 c' s hc', o1 c' s hc']
  · intro t
    obtain ⟨k, a1, a2, a3, a4, a5, a6⟩ := x1 t
    refine ⟨k, ?_, ?_⟩
    · intro qd hqd
      simp only [List.mem_cons, List.mem_singleton, List.not_mem_nil, or_false] at hqd
      rcases hqd with rfl | rfl | rfl
      · exact a1
      · exact a2
      · exact a3
    · intro vd hvd
      simp only [List.mem_cons, List.mem_singleton, List.not_mem_nil, or_false] at hvd
      rcases hvd with rfl | rfl | rfl
      · exact a4
      · exact a5
      · exact a6
  · intro t
    obtain ⟨k, a1, a2, a3, a4, a5, a6⟩ := x2 t
    rw [p1, hN1, hN1] at a1 a2 a3 a4 a5 a6
    refine ⟨k, ?_, ?_⟩
    · intro qd hqd
      simp only [List.mem_cons, List.mem_singleton, List.not_mem_nil, or_false] at hqd
      rcases hqd with rfl | rfl | rfl
      · exact a1
      · exact a2
      · exact a3
    · intro vd hvd
      simp only [List.mem_cons, List.mem_singleton, List.not_mem_nil, or_false] at hvd
      rcases hvd with rfl | rfl | rfl
      · exact a4
      · exact a5
      · exact a6
  · intro t
    obtain ⟨k, a1, a2, a3, a4, a5, a6⟩ := x3 t
    rw [p2, p1, hN2, hN2] at a1 a2 a3 a4 a5 a6
    refine ⟨k, ?_, ?_⟩
    · intro qd hqd
      simp only [List.mem_cons, List.mem_singleton, List.not_mem_nil, or_false] at hqd
      rcases hqd with rfl | rfl | rfl
      · exact a1
      · exact a2
      · exact a3
    · intro vd hvd
      simp only [List.mem_cons, List.mem_singleton, List.not_mem_nil, or_false] at hvd
      rcases hvd with rfl | rfl | rfl
      · exact a4
      · exact a5
      · exact a6

end DerivativesFrame

/-- Claim C13 at a concrete input: cell `1` of a column of four cells with
linear data and every derivative slot holding `7`. The call returns, the cell
parameters are as before, the derivative array of cell `2` still holds `7`,
and in the array of cell `1` the slot `drhodz` holds the slope `1`. -/
theorem C13_derivatives_write_set_witness :
    ∃ g3, calculateDerivatives sampleExternals (columnGlobals 4) 1
        (columnGrid 4 linearCellParams (fun _ _ => 7)) = some g3 ∧
      g3.cpu_cellParams = linearCellParams ∧
      g3.cpu_derivatives 2 drhodz = 7 ∧
      g3.cpu_derivatives 1 drhodz = 1 := by
  obtain ⟨g1, g2, g3, -, -, -, hrun, hp, -, -, -, ho, -, -, hz⟩ :=
    C13_derivatives_write_set sampleExternals (columnGlobals 4) 1
      (columnGrid 4 linearCellParams (fun _ _ => 7)) 134217727 column4_flags.2.1 (by decide)
  refine ⟨g3, hrun, hp, ho 2 drhodz (by decide), ?_⟩
  have h := (hz (by decide)).2.1 (RHO, drhodz) (by simp)
  rw [h]
  have hn1 : getNeighbourID (columnGrid 4 linearCellParams (fun _ _ => 7)) 1 2 2 1 = 0 := by
    decide
  have hn3 : getNeighbourID (columnGrid 4 linearCellParams (fun _ _ => 7)) 1 2 2 3 = 2 := by
    decide
  rw [hn1, hn3]
  have := limiter_linear (2 : ℚ) 1
  norm_num [columnGrid, linearCellParams] at this ⊢
  exact this

end Vlasiator

namespace Vlasiator

open CellParams fieldsolver

/-! ## Reconstruction coefficients -/

section Reconstruction

variable {K : Type} [LinearOrderedField K]

/-- Claim C14. In the second-order build, for a cell and `+x`, `+y`, `+z`
neighbours that all exist, `reconstructionCoefficients` returns the linear
terms `a_x = BX(+x nbr) - BX(cell)`, `b_y = BY(+y nbr) - BY(cell)`,
`c_z = BZ(+z nbr) - BZ(cell)`; and when the cell and these neighbours all have
the face field `(1, 1, 1)` and all-zero stored derivatives, every linear and
quadratic coefficient is `0` and `a_0 = b_0 = c_0 = 1`. -/
theorem C14_reconstruction_interior (X : Externals K) (h2 : X.FS_1ST_ORDER = false)
    (c nx ny nz : CellID) (g : ParGrid K)
    (hc : c ≠ INVALID_CELLID) (hx : nx ≠ INVALID_CELLID) (hy : ny ≠ INVALID_CELLID)
    (hz : nz ≠ INVALID_CELLID) :
    (reconstructionCoefficients X c nx ny nz g Rec.a_x
        = g.cpu_cellParams nx BX - g.cpu_cellParams c BX ∧
      reconstructionCoefficients X c nx ny nz g Rec.b_y
        = g.cpu_cellParams ny BY - g.cpu_cellParams c BY ∧
      reconstructionCoefficients X c nx ny nz g Rec.c_z
        = g.cpu_cellParams nz BZ - g.cpu_cellParams c BZ) ∧
    ((∀ id ∈ [c, nx, ny, nz],
        g.cpu_cellParams id BX = 1 ∧ g.cpu_cellParams id BY = 1 ∧ g.cpu_cellParams id BZ = 1 ∧
        ∀ s, g.cpu_derivatives id s = 0) →
      ∀ r, reconstructionCoefficients X c nx ny nz g r =
        if r = Rec.a_0 ∨ r = Rec.b_0 ∨ r = Rec.c_0 then 1 else 0) := by
  refine ⟨⟨?_, ?_, ?_⟩, ?_⟩
  · simp [reconstructionCoefficients, hc, hx, h2]
  · simp [reconstructionCoefficients, hc, hy, h2]
  · simp [reconstructionCoefficients, hc, hz, h2]
  · intro hu r
    obtain ⟨c1, c2, c3, c4⟩ := hu c (by simp)
    obtain ⟨x1, x2, x3, x4⟩ := hu nx (by simp)
    obtain ⟨y1, y2, y3, y4⟩ := hu ny (by simp)
    obtain ⟨z1, z2, z3, z4⟩ := hu nz (by simp)
    cases r <;>
      simp [reconstructionCoefficients, hc, hx, hy, hz, h2, c1, c2, c3, c4, x1, x2, x3, x4,
        y1, y2, y3, y4, z1, z2, z3, z4, HALF, SIXTH] <;> norm_num

/-- Claim C15. Missing cells contribute zero to the reconstruction:
`reconstructionCoefficients` returns `0` for every one of the 21 coefficients
when the cell id is `INVALID_CELLID`; and with a `+x`, `+y` or `+z` neighbour
id equal to `INVALID_CELLID` the result is the one computed with a cell `z`
in its place whose parameters and derivatives are all zero. For a cell that
exists and a missing `+x` neighbour, in the second-order build,
`a_x = -BX(cell)` and `a_0 = BX(cell)/2 - a_xx/6`. -/
theorem C15_missing_cells_contribute_zero (X : Externals K) (c nx ny nz z : CellID)
    (g : ParGrid K) (hz : z ≠ INVALID_CELLID) (hp : ∀ p, g.cpu_cellParams z p = 0)
    (hd : ∀ s, g.cpu_derivatives z s = 0) :
    (∀ r, reconstructionCoefficients X INVALID_CELLID nx ny nz g r = 0) ∧
    reconstructionCoefficients X c INVALID_CELLID ny nz g
      = reconstructionCoefficients X c z ny nz g ∧
    reconstructionCoefficients X c nx INVALID_CELLID nz g
      = reconstructionCoefficients X c nx z nz g ∧
    reconstructionCoefficients X c nx ny INVALID_CELLID g
      = reconstructionCoefficients X c nx ny z g ∧
    (c ≠ INVALID_CELLID → X.FS_1ST_ORDER = false →
      reconstructionCoefficients X c INVALID_CELLID ny nz g Rec.a_x = -g.cpu_cellParams c BX ∧
      reconstructionCoefficients X c INVALID_CELLID ny nz g Rec.a_0
        = g.cpu_cellParams c BX / 2
          - reconstructionCoefficients X c INVALID_CELLID ny nz g Rec.a_xx / 6) := by
  have hp0 : g.cpu_cellParams z = fun _ => 0 := funext hp
  have hd0 : g.cpu_derivatives z = fun _ => 0 := funext hd
  refine ⟨?_, ?_, ?_, ?_, ?_⟩
  · intro r
    simp [reconstructionCoefficients]
  · unfold reconstructionCoefficients
    simp only [if_pos, if_neg hz, hp0, hd0]
  · unfold reconstructionCoefficients
    simp only [if_pos, if_neg hz, hp0, hd0]
  · unfold reconstructionCoefficients
    simp only [if_pos, if_neg hz, hp0, hd0]
  · intro hc h2
    constructor
    · simp [reconstructionCoefficients, hc, h2]
    · simp [reconstructionCoefficients, hc, h2, HALF, SIXTH]
      ring

end Reconstruction

/-- Claim C14 at concrete inputs: on a row of three cells with `BX = 2 c` the
coefficient `a_x` of cell `1` is `BX(2) - BX(1) = 2`; on a row with the face
field `(1, 1, 1)` everywhere `a_0` of cell `1` is `1` and `a_xx` is `0`. -/
theorem C14_reconstruction_interior_witness :
    reconstructionCoefficients sampleExternals 1 2 1 1
      (rowGrid 3 linearCellParams (fun _ _ => 0)) Rec.a_x = 2 ∧
    reconstructionCoefficients sampleExternals 1 2 1 1
      (rowGrid 3 unitFieldCellParams (fun _ _ => 0)) Rec.a_0 = 1 ∧
    reconstructionCoefficients sampleExternals 1 2 1 1
      (rowGrid 3 unitFieldCellParams (fun _ _ => 0)) Rec.a_xx = 0 := by
  have h1 := (C14_reconstruction_interior sampleExternals rfl 1 2 1 1
    (rowGrid 3 linearCellParams (fun _ _ => 0)) (by decide) (by decide) (by decide)
    (by decide)).1.1
  have h2 := (C14_reconstruction_interior sampleExternals rfl 1 2 1 1
    (rowGrid 3 unitFieldCellParams (fun _ _ => 0)) (by decide) (by decide) (by decide)
    (by decide)).2 (by
      intro id _
      exact ⟨rfl, rfl, rfl, fun _ => rfl⟩)
  refine ⟨?_, ?_, ?_⟩
  · rw [h1]; norm_num [rowGrid, linearCellParams]
  · rw [h2 Rec.a_0]; simp
  · rw [h2 Rec.a_xx]; simp

/-- Claim C15 at a concrete input: a row of three cells with the field
`(3, 2, 4)` on cells `0` and `1` and all-zero data on cell `2`. For cell `1`
the result with a missing `+x` neighbour is the result with cell `2` as `+x`
neighbour, and `a_x = -3`. -/
theorem C15_missing_cells_contribute_zero_witness :
    reconstructionCoefficients sampleExternals 1 INVALID_CELLID 1 1
        (rowGrid 3 gapCellParams (fun _ _ => 0))
      = reconstructionCoefficients sampleExternals 1 2 1 1
        (rowGrid 3 gapCellParams (fun _ _ => 0)) ∧
    reconstructionCoefficients sampleExternals 1 INVALID_CELLID 1 1
        (rowGrid 3 gapCellParams (fun _ _ => 0)) Rec.a_x = -3 := by
  have h := C15_missing_cells_contribute_zero sampleExternals 1 2 1 1 2
    (rowGrid 3 gapCellParams (fun _ _ => 0)) (by decide) (fun _ => rfl) (fun _ => rfl)
  refine ⟨h.2.1, ?_⟩
  rw [(h.2.2.2.2 (by decide) rfl).1]
  norm_num [rowGrid, gapCellParams, uniformCellParams]

end Vlasiator

namespace Vlasiator

open CellParams fieldsolver

/-! ## Volume-averaged fields -/

theorem passes_iff_testBit (e m : Nat) :
    passes e m ↔ ∀ b, m.testBit b = true → e.testBit b = true := by
  unfold passes
  constructor
  · intro h b hb
    have h1 : (e &&& m).testBit b = true := by rw [h]; exact hb
    rw [Nat.testBit_and] at h1
    simp at h1
    exact h1.1
  · intro h
    apply Nat.eq_of_testBit_eq
    intro i
    rw [Nat.testBit_and]
    cases hm : m.testBit i
    · simp
    · simp [h i hm]

theorem passes_iff_of_bits (m : Nat) (S : List Nat)
    (hS : ∀ b, m.testBit b = true ↔ b ∈ S) (e : Nat) :
    passes e m ↔ ∀ b ∈ S, e.testBit b = true := by
  rw [passes_iff_testBit]
  exact ⟨fun h b hb => h b ((hS b).2 hb), fun h b hb => h b ((hS b).1 hb)⟩

theorem EX_CELLS_bits (b : Nat) : EX_CELLS.testBit b = true ↔ b ∈ [13, 16, 22, 25] := by
  have h : EX_CELLS = 37822464 := by decide
  rw [h]
  exact testBit_iff_mem_of_lt _ _ (by decide) (by decide) (by decide) b

theorem EY_CELLS_bits (b : Nat) : EY_CELLS.testBit b = true ↔ b ∈ [13, 14, 22, 23] := by
  have h : EY_CELLS = 12607488 := by decide
  rw [h]
  exact testBit_iff_mem_of_lt _ _ (by decide) (by decide) (by decide) b

theorem EZ_CELLS_bits (b : Nat) : EZ_CELLS.testBit b = true ↔ b ∈ [13, 14, 16, 17] := by
  have h : EZ_CELLS = 221184 := by decide
  rw [h]
  exact testBit_iff_mem_of_lt _ _ (by decide) (by decide) (by decide) b

theorem passes_EX_CELLS (e : Nat) :
    passes e EX_CELLS ↔ e.testBit 13 = true ∧ e.testBit 16 = true ∧ e.testBit 22 = true ∧
      e.testBit 25 = true := by
  rw [passes_iff_of_bits EX_CELLS _ EX_CELLS_bits]
  simp

theorem passes_EY_CELLS (e : Nat) :
    passes e EY_CELLS ↔ e.testBit 13 = true ∧ e.testBit 14 = true ∧ e.testBit 22 = true ∧
      e.testBit 23 = true := by
  rw [passes_iff_of_bits EY_CELLS _ EY_CELLS_bits]
  simp

theorem passes_EZ_CELLS (e : Nat) :
    passes e EZ_CELLS ↔ e.testBit 13 = true ∧ e.testBit 14 = true ∧ e.testBit 16 = true ∧
      e.testBit 17 = true := by
  rw [passes_iff_of_bits EZ_CELLS _ EZ_CELLS_bits]
  simp

section Volume

variable {K : Type} [LinearOrderedField K]

/-- A bit of the flag word of a cell that belongs to a neighbour offset is set
iff that neighbour exists. -/
theorem boundaryFlagOf_testBit (mpiGrid : ParGrid K) (cellID : CellID) (x : Int × Int × Int)
    (hx : x ∈ nbrOffsets) (hne : ¬(x.1 = 0 ∧ (x.2.1 = 0 ∧ x.2.2 = 0))) :
    (boundaryFlagOf mpiGrid cellID).testBit
        (calcNbrNumber (toUchar (1 + x.1)) (toUchar (1 + x.2.1)) (toUchar (1 + x.2.2))) = true ↔
      mpiGrid.getNeighbour cellID
        (calcNbrTypeID (toUchar (2 + x.1)) (toUchar (2 + x.2.1)) (toUchar (2 + x.2.2)))
        ≠ INVALID_CELLID := by
  rw [(boundaryFlagOf_spec mpiGrid cellID _).2]
  constructor
  · rintro (h | ⟨y, hy, _, hv, hb⟩)
    · exfalso
      have h13 : calcNbrNumber (toUchar (1 + (0 : Int))) (toUchar (1 + (0 : Int)))
          (toUchar (1 + (0 : Int))) = 13 := by decide
      have := nbrOffsets_bit_injective x hx (0, 0, 0) (by decide) (by rw [h, h13])
      subst this
      exact hne ⟨rfl, rfl, rfl⟩
    · have hxe : y = x := nbrOffsets_bit_injective y hy x hx hb
      subst hxe
      exact hv
  · intro hv
    exact Or.inr ⟨x, hx, hne, hv, rfl⟩

theorem volumeAveragedEX_eq (c n1 n2 n3 : CellID) (e : Nat) (g : ParGrid K)
    (hv : passes e EX_CELLS →
      n1 ≠ INVALID_CELLID ∧ n2 ≠ INVALID_CELLID ∧ n3 ≠ INVALID_CELLID) :
    volumeAveragedEX c n1 n2 n3 e g =
      some (g.setCellParam c EXVOL
        (if passes e EX_CELLS then
          FOURTH * (g.cpu_cellParams c EX + g.cpu_cellParams n1 EX + g.cpu_cellParams n2 EX
            + g.cpu_cellParams n3 EX)
         else 0)) := by
  unfold volumeAveragedEX
  by_cases t : passes e EX_CELLS
  · have t' := t
    unfold passes at t'
    obtain ⟨h1, h2, h3⟩ := hv t
    rw [if_pos t', if_pos t]
    simp only [cellParamsAt_of_ne g h1, cellParamsAt_of_ne g h2, cellParamsAt_of_ne g h3,
      Option.bind_eq_bind, Option.some_bind, Option.pure_def]
  · have t' := t
    unfold passes at t'
    rw [if_neg t', if_neg t]
    rfl

theorem volumeAveragedEY_eq (c n1 n2 n3 : CellID) (e : Nat) (g : ParGrid K)
    (hv : passes e EY_CELLS →
      n1 ≠ INVALID_CELLID ∧ n2 ≠ INVALID_CELLID ∧ n3 ≠ INVALID_CELLID) :
    volumeAveragedEY c n1 n2 n3 e g =
      some (g.setCellParam c EYVOL
        (if passes e EY_CELLS then
          FOURTH * (g.cpu_cellParams c EY + g.cpu_cellParams n1 EY + g.cpu_cellParams n2 EY
            + g.cpu_cellParams n3 EY)
         else 0)) := by
  unfold volumeAveragedEY
  by_cases t : passes e EY_CELLS
  · have t' := t
    unfold passes at t'
    obtain ⟨h1, h2, h3⟩ := hv t
    rw [if_pos t', if_pos t]
    simp only [cellParamsAt_of_ne g h1, cellParamsAt_of_ne g h2, cellParamsAt_of_ne g h3,
      Option.bind_eq_bind, Option.some_bind, Option.pure_def]
  · have t' := t
    unfold passes at t'
    rw [if_neg t', if_neg t]
    rfl

theorem volumeAveragedEZ_eq (c n1 n2 n3 : CellID) (e : Nat) (g : ParGrid K)
    (hv : passes e EZ_CELLS →
      n1 ≠ INVALID_CELLID ∧ n2 ≠ INVALID_CELLID ∧ n3 ≠ INVALID_CELLID) :
    volumeAveragedEZ c n1 n2 n3 e g =
      some (g.setCellParam c EZVOL
        (if passes e EZ_CELLS then
          FOURTH * (g.cpu_cellParams c EZ + g.cpu_cellParams n1 EZ + g.cpu_cellParams n2 EZ
            + g.cpu_cellParams n3 EZ)
         else 0)) := by
  unfold volumeAveragedEZ
  by_cases t : passes e EZ_CELLS
  · have t' := t
    unfold passes at t'
    obtain ⟨h1, h2, h3⟩ := hv t
    rw [if_pos t', if_pos t]
    simp only [cellParamsAt_of_ne g h1, cellParamsAt_of_ne g h2, cellParamsAt_of_ne g h3,
      Option.bind_eq_bind, Option.some_bind, Option.pure_def]
  · have t' := t
    unfold passes at t'
    rw [if_neg t', if_neg t]
    rfl

/-- The reconstruction reads the mesh only through the derivative arrays and
the slots `BX`, `BY`, `BZ` of the cell parameters. -/
theorem reconstructionCoefficients_congr (X : Externals K) (c nx ny nz : CellID)
    (g h : ParGrid K) (hd : h.cpu_derivatives = g.cpu_derivatives)
    (hB : ∀ id, h.cpu_cellParams id BX = g.cpu_cellParams id BX ∧
      h.cpu_cellParams id BY = g.cpu_cellParams id BY ∧
      h.cpu_cellParams id BZ = g.cpu_cellParams id BZ) :
    reconstructionCoefficients X c nx ny nz h = reconstructionCoefficients X c nx ny nz g := by
  have h1 : ∀ id, h.cpu_cellParams id BX = g.cpu_cellParams id BX := fun id => (hB id).1
  have h2 : ∀ id, h.cpu_cellParams id BY = g.cpu_cellParams id BY := fun id => (hB id).2.1
  have h3 : ∀ id, h.cpu_cellParams id BZ = g.cpu_cellParams id BZ := fun id => (hB id).2.2
  unfold reconstructionCoefficients
  by_cases hc : c = INVALID_CELLID
  · simp only [if_pos hc]
  · simp only [if_neg hc, hd]
    by_cases hx : nx = INVALID_CELLID <;> by_cases hy : ny = INVALID_CELLID <;>
      by_cases hz : nz = INVALID_CELLID <;>
      simp only [hx, hy, hz, if_true, if_false, h1, h2, h3]

end Volume

end Vlasiator

namespace Vlasiator

open CellParams fieldsolver

section VolumeStage

variable {K : Type} [LinearOrderedField K]

theorem SameButVolumeFields_refl (g : ParGrid K) : SameButVolumeFields g g :=
  ⟨rfl, rfl, rfl, rfl, fun _ _ _ => rfl⟩

/-- The six volume averages of a cell depend on the data of that cell only. -/
theorem VolumeAveragesAt_congr (X : Externals K) (G : Globals) (g h h' : ParGrid K) (c : CellID)
    (hc : ∀ p, h'.cpu_cellParams c p = h.cpu_cellParams c p)
    (hv : VolumeAveragesAt X G g h c) : VolumeAveragesAt X G g h' c := by
  unfold VolumeAveragesAt at hv ⊢
  simp only [hc]
  exact hv

/-- One pass of the loop body of `calculateVolumeAveragedFields` on a mesh `h`
that differs from the mesh `g` at the start of the loop in volume averages
only: it returns, the new mesh still differs from `g` in volume averages
only, the six averages of the cell are those computed from `g`, and the data
of all other cells are as in `h`. -/
theorem volumeAveragedFieldsCell_spec (X : Externals K) (G : Globals) (c : CellID)
    (g h : ParGrid K) (hs : SameButVolumeFields g h) (hr : VolumeReady G g c) :
    ∃ h1, volumeAveragedFieldsCell X G c h = some h1 ∧ SameButVolumeFields g h1 ∧
      VolumeAveragesAt X G g h1 c ∧
      ∀ c' p, c' ≠ c → h1.cpu_cellParams c' p = h.cpu_cellParams c' p := by
  obtain ⟨sc, sn, sr, sd, sp⟩ := hs
  obtain ⟨hc, rx, ry, rz⟩ := hr
  have hB : ∀ id, h.cpu_cellParams id BX = g.cpu_cellParams id BX ∧
      h.cpu_cellParams id BY = g.cpu_cellParams id BY ∧
      h.cpu_cellParams id BZ = g.cpu_cellParams id BZ :=
    fun id => ⟨sp id BX (by decide), sp id BY (by decide), sp id BZ (by decide)⟩
  have hrc := fun nx ny nz => reconstructionCoefficients_congr X c nx ny nz g h sd hB
  have ex : ∀ id, h.cpu_cellParams id EX = g.cpu_cellParams id EX :=
    fun id => sp id EX (by decide)
  have ey : ∀ id, h.cpu_cellParams id EY = g.cpu_cellParams id EY :=
    fun id => sp id EY (by decide)
  have ez : ∀ id, h.cpu_cellParams id EZ = g.cpu_cellParams id EZ :=
    fun id => sp id EZ (by decide)
  unfold volumeAveragedFieldsCell
  simp only [cellParamsAt_of_ne h hc, Option.bind_eq_bind, Option.some_bind, sn, hrc]
  rw [volumeAveragedEX_eq _ _ _ _ _ _ rx, Option.some_bind,
    volumeAveragedEY_eq _ _ _ _ _ _ ry, Option.some_bind,
    volumeAveragedEZ_eq _ _ _ _ _ _ rz]
  refine ⟨_, rfl, ⟨sc, sn, sr, sd, ?_⟩, ?_, ?_⟩
  · intro c' p hp
    have hp' : p ≠ BXVOL ∧ p ≠ BYVOL ∧ p ≠ BZVOL ∧ p ≠ EXVOL ∧ p ≠ EYVOL ∧ p ≠ EZVOL := by
      simpa [volumeSlots] using hp
    obtain ⟨p1, p2, p3, p4, p5, p6⟩ := hp'
    simp only [setCellParam_apply, p1, p2, p3, p4, p5, p6, and_false, if_false]
    exact sp c' p hp
  · unfold VolumeAveragesAt
    simp [setCellParam_apply, ex, ey, ez]
  · intro c' p hc'
    simp [setCellParam_apply, hc']

/-- A cell loop of `calculateVolumeAveragedFields` over a list of ready cells,
started on a mesh `h` that differs from `g` in volume averages only. -/
theorem volumeLoop_spec (X : Externals K) (G : Globals) (g : ParGrid K) (L : List CellID)
    (hr : ∀ c ∈ L, VolumeReady G g c) (h : ParGrid K) (hs : SameButVolumeFields g h) :
    ∃ h', L.foldlM (fun m cellID => volumeAveragedFieldsCell X G cellID m) h = some h' ∧
      SameButVolumeFields g h' ∧
      (∀ c ∈ L, VolumeAveragesAt X G g h' c) ∧
      (∀ c, c ∉ L → ∀ p, h'.cpu_cellParams c p = h.cpu_cellParams c p) := by
  induction L generalizing h with
  | nil => exact ⟨h, rfl, hs, fun _ hc => absurd hc (List.not_mem_nil _), fun _ _ _ => rfl⟩
  | cons a L ih =>
    obtain ⟨h1, r1, s1, v1, o1⟩ :=
      volumeAveragedFieldsCell_spec X G a g h hs (hr a (List.mem_cons_self _ _))
    obtain ⟨h', r', s', v', o'⟩ :=
      ih (fun c hc => hr c (List.mem_cons_of_mem _ hc)) h1 s1
    refine ⟨h', ?_, s', ?_, ?_⟩
    · rw [List.foldlM_cons, r1]
      exact r'
    · intro c hc
      by_cases hL : c ∈ L
      · exact v' c hL
      · have hca : c = a := by
          rcases List.mem_cons.mp hc with e | e
          · exact e
          · exact absurd e hL
        subst hca
        exact VolumeAveragesAt_congr X G g h1 h' c (o' c hL) v1
    · intro c hc p
      have hL : c ∉ L := fun e => hc (List.mem_cons_of_mem _ e)
      have hca : c ≠ a := fun e => hc (e ▸ List.mem_cons_self _ _)
      rw [o' c hL p, o1 c p hca]

/-- `calculateVolumeAveragedFields` on a mesh whose cells are all ready: it
returns, changes nothing but the six volume-average slots of the local cells,
and stores in them the values computed from the mesh before the call. -/
theorem calculateVolumeAveragedFields_spec (X : Externals K) (G : Globals) (g : ParGrid K)
    (hr : ∀ c ∈ g.getCells, VolumeReady G g c) :
    ∃ g', calculateVolumeAveragedFields X G g = some g' ∧ SameButVolumeFields g g' ∧
      (∀ c ∈ g.getCells, VolumeAveragesAt X G g g' c) ∧
      (∀ c, c ∉ g.getCells → ∀ p, g'.cpu_cellParams c p = g.cpu_cellParams c p) :=
  volumeLoop_spec X G g g.getCells hr g (SameButVolumeFields_refl g)

end VolumeStage

end Vlasiator

namespace Vlasiator

open CellParams fieldsolver

section VolumeClaims

variable {K : Type} [LinearOrderedField K]

/-- Claim C16. On a mesh whose local cells are all ready,
`calculateVolumeAveragedFields` returns and for every local cell `c`, with
`e` the flag word of `c` (`0` when `c` has no entry in `boundaryFlags`):
`EXVOL` is the quarter of the sum of `EX` over `c`, `c+y`, `c+z`, `c+y+z`
when bits 13, 16, 22 and 25 of `e` are all set and `0` otherwise; `EYVOL` is
the quarter-sum of `EY` over `c`, `c+x`, `c+z`, `c+x+z` when bits 13, 14, 22,
23 are set and `0` otherwise; `EZVOL` is the quarter-sum of `EZ` over `c`,
`c+x`, `c+y`, `c+x+y` when bits 13, 14, 16, 17 are set and `0` otherwise. A
cell with no entry in `boundaryFlags` gets all three set to `0`. When the
flag word is the one computed by `calculateBoundaryFlags`, each bit test holds
exactly when the three neighbours of its quarter-sum exist, so a component
is `0` when one of its cells is missing. -/
theorem C16_volume_averaged_E (X : Externals K) (G : Globals) (g : ParGrid K)
    (hready : ∀ c ∈ g.getCells, VolumeReady G g c) :
    ∃ g', calculateVolumeAveragedFields X G g = some g' ∧
      ∀ c ∈ g.getCells,
        let e := (G.boundaryFlags c).getD 0
        let nbr := fun (i j k : Nat) => g.getNeighbour c (calcNbrTypeID i j k)
        g'.cpu_cellParams c EXVOL =
          (if e.testBit 13 = true ∧ e.testBit 16 = true ∧ e.testBit 22 = true ∧
              e.testBit 25 = true then
            (g.cpu_cellParams c EX + g.cpu_cellParams (nbr 2 3 2) EX
              + g.cpu_cellParams (nbr 2 2 3) EX + g.cpu_cellParams (nbr 2 3 3) EX) / 4
           else 0) ∧
        g'.cpu_cellParams c EYVOL =
          (if e.testBit 13 = true ∧ e.testBit 14 = true ∧ e.testBit 22 = true ∧
              e.testBit 23 = true then
            (g.cpu_cellParams c EY + g.cpu_cellParams (nbr 3 2 2) EY
              + g.cpu_cellParams (nbr 2 2 3) EY + g.cpu_cellParams (nbr 3 2 3) EY) / 4
           else 0) ∧
        g'.cpu_cellParams c EZVOL =
          (if e.testBit 13 = true ∧ e.testBit 14 = true ∧ e.testBit 16 = true ∧
              e.testBit 17 = true then
            (g.cpu_cellParams c EZ + g.cpu_cellParams (nbr 3 2 2) EZ
              + g.cpu_cellParams (nbr 2 3 2) EZ + g.cpu_cellParams (nbr 3 3 2) EZ) / 4
           else 0) ∧
        (G.boundaryFlags c = none →
          g'.cpu_cellParams c EXVOL = 0 ∧ g'.cpu_cellParams c EYVOL = 0 ∧
          g'.cpu_cellParams c EZVOL = 0) ∧
        (G.boundaryFlags c = some (boundaryFlagOf g c) →
          ((e.testBit 13 = true ∧ e.testBit 16 = true ∧ e.testBit 22 = true ∧
              e.testBit 25 = true) ↔
            (nbr 2 3 2 ≠ INVALID_CELLID ∧ nbr 2 2 3 ≠ INVALID_CELLID ∧
              nbr 2 3 3 ≠ INVALID_CELLID)) ∧
          ((e.testBit 13 = true ∧ e.testBit 14 = true ∧ e.testBit 22 = true ∧
              e.testBit 23 = true) ↔
            (nbr 3 2 2 ≠ INVALID_CELLID ∧ nbr 2 2 3 ≠ INVALID_CELLID ∧
              nbr 3 2 3 ≠ INVALID_CELLID)) ∧
          ((e.testBit 13 = true ∧ e.testBit 14 = true ∧ e.testBit 16 = true ∧
              e.testBit 17 = true) ↔
            (nbr 3 2 2 ≠ INVALID_CELLID ∧ nbr 2 3 2 ≠ INVALID_CELLID ∧
              nbr 3 3 2 ≠ INVALID_CELLID))) := by
  obtain ⟨g', hrun, -, hv, -⟩ := calculateVolumeAveragedFields_spec X G g hready
  refine ⟨g', hrun, ?_⟩
  intro c hc
  dsimp only
  obtain ⟨-, -, -, vx, vy, vz⟩ := hv c hc
  have q : ∀ a : K, FOURTH * a = a / 4 := by
    intro a; unfold FOURTH; ring
  simp only [passes_EX_CELLS, q] at vx
  simp only [passes_EY_CELLS, q] at vy
  simp only [passes_EZ_CELLS, q] at vz
  refine ⟨vx, vy, vz, ?_, ?_⟩
  · intro hn
    rw [vx, vy, vz, hn]
    simp
  · intro hf
    rw [hf]
    have b13 : (boundaryFlagOf g c).testBit 13 = true :=
      (boundaryFlagOf_spec g c 13).2.2 (Or.inl rfl)
    have b14 : (boundaryFlagOf g c).testBit 14 = true ↔
        g.getNeighbour c (calcNbrTypeID 3 2 2) ≠ INVALID_CELLID :=
      boundaryFlagOf_testBit g c (1, 0, 0) (by decide) (by decide)
    have b16 : (boundaryFlagOf g c).testBit 16 = true ↔
        g.getNeighbour c (calcNbrTypeID 2 3 2) ≠ INVALID_CELLID :=
      boundaryFlagOf_testBit g c (0, 1, 0) (by decide) (by decide)
    have b22 : (boundaryFlagOf g c).testBit 22 = true ↔
        g.getNeighbour c (calcNbrTypeID 2 2 3) ≠ INVALID_CELLID :=
      boundaryFlagOf_testBit g c (0, 0, 1) (by decide) (by decide)
    have b25 : (boundaryFlagOf g c).testBit 25 = true ↔
        g.getNeighbour c (calcNbrTypeID 2 3 3) ≠ INVALID_CELLID :=
      boundaryFlagOf_testBit g c (0, 1, 1) (by decide) (by decide)
    have b23 : (boundaryFlagOf g c).testBit 23 = true ↔
        g.getNeighbour c (calcNbrTypeID 3 2 3) ≠ INVALID_CELLID :=
      boundaryFlagOf_testBit g c (1, 0, 1) (by decide) (by decide)
    have b17 : (boundaryFlagOf g c).testBit 17 = true ↔
        g.getNeighbour c (calcNbrTypeID 3 3 2) ≠ INVALID_CELLID :=
      boundaryFlagOf_testBit g c (1, 1, 0) (by decide) (by decide)
    simp only [Option.getD_some]
    rw [b14, b16, b22, b25, b23, b17]
    simp only [b13, true_and]

/-- Claim C17 (amended). Volume-averaged B is not gated. On a mesh whose local
cells are all ready, `calculateVolumeAveragedFields` returns and for every
local cell sets `BXVOL`, `BYVOL`, `BZVOL` to the cell-centre values `a_0`,
`b_0`, `c_0` of the reconstruction for the cell and its `+x`, `+y`, `+z`
neighbours, whether or not these neighbours exist. A missing neighbour enters
the reconstruction as an all-zero cell: without a `+x` neighbour
`BXVOL = BX(cell)/2 - a_xx/6`, without a `+y` neighbour
`BYVOL = BY(cell)/2 - b_yy/6`, without a `+z` neighbour
`BZVOL = BZ(cell)/2 - c_zz/6`. -/
theorem C17_volume_averaged_B (X : Externals K) (G : Globals) (g : ParGrid K)
    (hready : ∀ c ∈ g.getCells, VolumeReady G g c) :
    ∃ g', calculateVolumeAveragedFields X G g = some g' ∧
      ∀ c ∈ g.getCells,
        let nbr := fun (i j k : Nat) => g.getNeighbour c (calcNbrTypeID i j k)
        let coefficients := reconstructionCoefficients X c (nbr 3 2 2) (nbr 2 3 2) (nbr 2 2 3) g
        g'.cpu_cellParams c BXVOL = coefficients Rec.a_0 ∧
        g'.cpu_cellParams c BYVOL = coefficients Rec.b_0 ∧
        g'.cpu_cellParams c BZVOL = coefficients Rec.c_0 ∧
        (nbr 3 2 2 = INVALID_CELLID →
          g'.cpu_cellParams c BXVOL = g.cpu_cellParams c BX / 2 - coefficients Rec.a_xx / 6) ∧
        (nbr 2 3 2 = INVALID_CELLID →
          g'.cpu_cellParams c BYVOL = g.cpu_cellParams c BY / 2 - coefficients Rec.b_yy / 6) ∧
        (nbr 2 2 3 = INVALID_CELLID →
          g'.cpu_cellParams c BZVOL = g.cpu_cellParams c BZ / 2 - coefficients Rec.c_zz / 6) := by
  obtain ⟨g', hrun, -, hv, -⟩ := calculateVolumeAveragedFields_spec X G g hready
  refine ⟨g', hrun, ?_⟩
  intro c hc
  dsimp only
  obtain ⟨va, vb, vc, -, -, -⟩ := hv c hc
  have hcv : c ≠ INVALID_CELLID := (hready c hc).1
  refine ⟨va, vb, vc, ?_, ?_, ?_⟩
  · intro hn
    rw [va, hn]
    cases hF : X.FS_1ST_ORDER <;>
      simp [reconstructionCoefficients, hcv, hF, HALF, SIXTH] <;> ring
  · intro hn
    rw [vb, hn]
    cases hF : X.FS_1ST_ORDER <;>
      simp [reconstructionCoefficients, hcv, hF, HALF, SIXTH] <;> ring
  · intro hn
    rw [vc, hn]
    cases hF : X.FS_1ST_ORDER <;>
      simp [reconstructionCoefficients, hcv, hF, HALF, SIXTH] <;> ring

end VolumeClaims

theorem column4_volume_ready (cp : CellID → CellParams → ℚ) (d : CellID → fieldsolver → ℚ) :
    ∀ c ∈ (columnGrid 4 cp d).getCells, VolumeReady (columnGlobals 4) (columnGrid 4 cp d) c := by
  intro c hc
  have hc' : c ∈ [0, 1, 2, 3] := hc
  have h0 : VolumeReady (columnGlobals 4) (columnGrid 4 (fun _ _ => (0 : ℚ)) (fun _ _ => 0)) 0 := by
    decide
  have h1 : VolumeReady (columnGlobals 4) (columnGrid 4 (fun _ _ => (0 : ℚ)) (fun _ _ => 0)) 1 := by
    decide
  have h2 : VolumeReady (columnGlobals 4) (columnGrid 4 (fun _ _ => (0 : ℚ)) (fun _ _ => 0)) 2 := by
    decide
  have h3 : VolumeReady (columnGlobals 4) (columnGrid 4 (fun _ _ => (0 : ℚ)) (fun _ _ => 0)) 3 := by
    decide
  simp only [List.mem_cons, List.mem_singleton, List.not_mem_nil, or_false] at hc'
  rcases hc' with rfl | rfl | rfl | rfl
  · exact h0
  · exact h1
  · exact h2
  · exact h3

/-- Claim C16 at a concrete input: a column of four cells with `EY = c - 1` on
cell `c`. Cell `1` has all neighbours and gets `EYVOL = (0 + 0 + 1 + 1)/4`;
cell `3` has no `+z` neighbour and gets `EYVOL = 0`. -/
theorem C16_volume_averaged_E_witness :
    ∃ g', calculateVolumeAveragedFields sampleExternals (columnGlobals 4)
        (columnGrid 4 shearCellParams (fun _ _ => 0)) = some g' ∧
      g'.cpu_cellParams 1 EYVOL = 1 / 2 ∧ g'.cpu_cellParams 3 EYVOL = 0 := by
  obtain ⟨g', hrun, hv⟩ := C16_volume_averaged_E sampleExternals (columnGlobals 4)
    (columnGrid 4 shearCellParams (fun _ _ => 0)) (column4_volume_ready _ _)
  have f1 : (columnGlobals 4).boundaryFlags 1 = some 134217727 := column4_flags.2.1
  have f3 : (columnGlobals 4).boundaryFlags 3 = some 262143 := column4_flags.2.2.2
  refine ⟨g', hrun, ?_, ?_⟩
  · have h := (hv 1 (by decide)).2.1
    dsimp only at h
    rw [h, f1]
    have t : (Nat.testBit 134217727 13 = true ∧ Nat.testBit 134217727 14 = true ∧
        Nat.testBit 134217727 22 = true ∧ Nat.testBit 134217727 23 = true) := by decide
    simp only [Option.getD_some]
    rw [if_pos t]
    have n1 : columnGetNeighbour 4 1 (calcNbrTypeID 3 2 2) = 1 := by decide
    have n2 : columnGetNeighbour 4 1 (calcNbrTypeID 2 2 3) = 2 := by decide
    have n3 : columnGetNeighbour 4 1 (calcNbrTypeID 3 2 3) = 2 := by decide
    simp only [columnGrid, n1, n2, n3]
    norm_num [shearCellParams]
  · have h := (hv 3 (by decide)).2.1
    dsimp only at h
    rw [h, f3]
    have t : ¬(Nat.testBit 262143 13 = true ∧ Nat.testBit 262143 14 = true ∧
        Nat.testBit 262143 22 = true ∧ Nat.testBit 262143 23 = true) := by decide
    simp only [Option.getD_some]
    rw [if_neg t]

/-- Claim C17 (as stated, refuted). On a column of four cells with the
magnetic field `(3, 2, 4)` everywhere, cell `3` has no `+z` neighbour, yet
`calculateVolumeAveragedFields` returns with `BZVOL = 2` on that cell, not
`0`. -/
theorem C17_counterexample :
    (columnGrid 4 uniformCellParams (fun _ _ => 0)).getNeighbour 3 (calcNbrTypeID 2 2 3)
      = INVALID_CELLID ∧
    ∃ g', calculateVolumeAveragedFields sampleExternals (columnGlobals 4)
        (columnGrid 4 uniformCellParams (fun _ _ => 0)) = some g' ∧
      g'.cpu_cellParams 3 BZVOL = 2 ∧ g'.cpu_cellParams 3 BZVOL ≠ 0 := by
  refine ⟨by decide, ?_⟩
  obtain ⟨g', hrun, -, hv, -⟩ := calculateVolumeAveragedFields_spec sampleExternals
    (columnGlobals 4) (columnGrid 4 uniformCellParams (fun _ _ => 0)) (column4_volume_ready _ _)
  have h := (hv 3 (by decide)).2.2.1
  have n1 : columnGetNeighbour 4 3 (calcNbrTypeID 3 2 2) = 3 := by decide
  have n2 : columnGetNeighbour 4 3 (calcNbrTypeID 2 3 2) = 3 := by decide
  have n3 : columnGetNeighbour 4 3 (calcNbrTypeID 2 2 3) = INVALID_CELLID := by decide
  have hval : g'.cpu_cellParams 3 BZVOL = 2 := by
    rw [h]
    simp only [columnGrid, n1, n2, n3]
    simp [reconstructionCoefficients, INVALID_CELLID, sampleExternals, uniformCellParams,
      HALF, SIXTH]
    norm_num
  exact ⟨g', hrun, hval, by rw [hval]; norm_num⟩

/-- Claim C17 (amended) at a concrete input: on the same column cell `1` gets
`BZVOL = 4`, the mean of its own `BZ` and that of its `+z` neighbour, and cell
`3`, without a `+z` neighbour, gets `BZVOL = BZ/2 - c_zz/6 = 2`. -/
theorem C17_volume_averaged_B_witness :
    ∃ g', calculateVolumeAveragedFields sampleExternals (columnGlobals 4)
        (columnGrid 4 uniformCellParams (fun _ _ => 0)) = some g' ∧
      g'.cpu_cellParams 1 BZVOL = 4 ∧ g'.cpu_cellParams 3 BZVOL = 2 := by
  obtain ⟨g', hrun, hv⟩ := C17_volume_averaged_B sampleExternals (columnGlobals 4)
    (columnGrid 4 uniformCellParams (fun _ _ => 0)) (column4_volume_ready _ _)
  refine ⟨g', hrun, ?_, ?_⟩
  · have h := (hv 1 (by decide)).2.2.1
    dsimp only at h
    rw [h]
    have n1 : columnGetNeighbour 4 1 (calcNbrTypeID 3 2 2) = 1 := by decide
    have n2 : columnGetNeighbour 4 1 (calcNbrTypeID 2 3 2) = 1 := by decide
    have n3 : columnGetNeighbour 4 1 (calcNbrTypeID 2 2 3) = 2 := by decide
    simp only [columnGrid, n1, n2, n3]
    simp [reconstructionCoefficients, INVALID_CELLID, sampleExternals, uniformCellParams,
      HALF, SIXTH]
    norm_num
  · have h := (hv 3 (by decide)).2.2.2.2.2 (by decide)
    dsimp only at h
    rw [h]
    have n1 : columnGetNeighbour 4 3 (calcNbrTypeID 3 2 2) = 3 := by decide
    have n2 : columnGetNeighbour 4 3 (calcNbrTypeID 2 3 2) = 3 := by decide
    have n3 : columnGetNeighbour 4 3 (calcNbrTypeID 2 2 3) = INVALID_CELLID := by decide
    simp only [columnGrid, n1, n2, n3]
    simp [reconstructionCoefficients, INVALID_CELLID, sampleExternals, uniformCellParams,
      HALF, SIXTH]
    norm_num

end Vlasiator

namespace Vlasiator

open CellParams fieldsolver

/-! ## Where the face-averaged electric field is stored -/

theorem bind_some_of_isSome_eq {α β : Type} {a : Option α} {f : α → Option β} {P : β → Prop}
    (ha : a.isSome = true) (hf : ∀ v, a = some v → ∃ b, f v = some b ∧ P b) :
    ∃ b, a.bind f = some b ∧ P b := by
  obtain ⟨v, hv⟩ := Option.isSome_iff_exists.mp ha
  rw [hv, Option.some_bind]
  exact hf v hv

section FaceE

variable {K : Type} [LinearOrderedField K]

/-- The z-face average reads the mesh data only through `EX`, `EY`, `EZ`. -/
theorem averageFaceZElectricField_congr (c n1 n2 n3 n4 n5 n6 n7 : CellID) (e : Nat)
    (g h : ParGrid K) (hs : SameButFaceFields g h) :
    averageFaceZElectricField c n1 n2 n3 n4 n5 n6 n7 e h =
      averageFaceZElectricField c n1 n2 n3 n4 n5 n6 n7 e g := by
  have ex : ∀ id, h.cpu_cellParams id EX = g.cpu_cellParams id EX :=
    fun id => hs.2.2.2.2 id EX (by decide)
  have ey : ∀ id, h.cpu_cellParams id EY = g.cpu_cellParams id EY :=
    fun id => hs.2.2.2.2 id EY (by decide)
  have ez : ∀ id, h.cpu_cellParams id EZ = g.cpu_cellParams id EZ :=
    fun id => hs.2.2.2.2 id EZ (by decide)
  unfold averageFaceZElectricField
  simp only [ex, ey, ez]

theorem setTriple_apply (g : ParGrid K) (c : CellID) (s0 s1 s2 : CellParams) (v : K × K × K)
    (c' : CellID) (p : CellParams) :
    (g.setTriple c s0 s1 s2 v).cpu_cellParams c' p =
      if c' = c ∧ p = s2 then v.2.2
      else if c' = c ∧ p = s1 then v.2.1
      else if c' = c ∧ p = s0 then v.1
      else g.cpu_cellParams c' p := rfl

/-- The loop that stores the averages of the face-averaged magnetic field
leaves the other slots of the cell and all other cells as they are. -/
theorem store_apply_of_not_mem (c : CellID) (l : List (CellParams × K)) (g : ParGrid K)
    (c' : CellID) (p : CellParams) (h : c' ≠ c ∨ ∀ sf ∈ l, sf.1 ≠ p) :
    (l.foldl (fun g sf => g.setCellParam c sf.1 (HALF * (g.cpu_cellParams c sf.1 + sf.2)))
      g).cpu_cellParams c' p = g.cpu_cellParams c' p := by
  induction l generalizing g with
  | nil => rfl
  | cons a l ih =>
    rw [List.foldl_cons, ih]
    · rw [setCellParam_apply, if_neg]
      rintro ⟨h1, h2⟩
      rcases h with h | h
      · exact h h1
      · exact h a (List.mem_cons_self _ _) h2.symm
    · rcases h with h | h
      · exact Or.inl h
      · exact Or.inr fun sf hsf => h sf (List.mem_cons_of_mem _ hsf)

/-- The body of the cell loop of `calculateFaceAveragedFields` on a ready
cell: it returns, the mesh changes at most in face-averaged field slots of
that cell, and the slots `EXFACEX`, `EYFACEX`, `EZFACEX` of the cell are left
holding the result of the last of the three electric-field calls,
`averageFaceZElectricField`. -/
theorem faceAveragedFieldsCell_faceE (X : Externals K) (G : Globals) (c : CellID)
    (g : ParGrid K) (hready : FaceReady G g c) :
    ∃ g', faceAveragedFieldsCell X G c g = some g' ∧ SameButFaceFields g g' ∧
      FaceEHoldsZAverage G g g' c ∧
      ∀ c' p, c' ≠ c → g'.cpu_cellParams c' p = g.cpu_cellParams c' p := by
  obtain ⟨g', hrun, hs⟩ := faceAveragedFieldsCell_spec X G c g hready
  refine ⟨g', hrun, hs, ?_⟩
  obtain ⟨hc, hx, hy, hz⟩ := hready
  revert hrun
  unfold faceAveragedFieldsCell
  simp only [cellParamsAt_of_ne g hc, Option.bind_eq_bind, Option.some_bind]
  have m : ∀ s, s ∈ [BXFACEX, BYFACEX, BZFACEX, BXFACEY, BYFACEY, BZFACEY, BXFACEZ, BYFACEZ,
      BZFACEZ, EXFACEX, EYFACEX, EZFACEX] → s ∈ faceFieldSlots := fun s hs => hs
  intro hrun
  obtain ⟨eX, hX, hrun⟩ := Option.bind_eq_some.mp hrun
  obtain ⟨eY, hY, hrun⟩ := Option.bind_eq_some.mp hrun
  obtain ⟨eZ, hZ, hrun⟩ := Option.bind_eq_some.mp hrun
  have hg' := Option.some.inj hrun
  have hZg := hZ
  rw [averageFaceZElectricField_congr (g := g)] at hZg
  swap
  · refine SameButFaceFields_trans ?_ (SameButFaceFields_setTriple _ c BXFACEZ BYFACEZ BZFACEZ
      _ (m _ (by decide)) (m _ (by decide)) (m _ (by decide)))
    refine SameButFaceFields_trans ?_ (SameButFaceFields_setTriple _ c EXFACEX EYFACEX EZFACEX
      eY (m _ (by decide)) (m _ (by decide)) (m _ (by decide)))
    refine SameButFaceFields_trans ?_ (SameButFaceFields_setTriple _ c BXFACEY BYFACEY BZFACEY
      _ (m _ (by decide)) (m _ (by decide)) (m _ (by decide)))
    refine SameButFaceFields_trans ?_ (SameButFaceFields_setTriple _ c EXFACEX EYFACEX EZFACEX
      eX (m _ (by decide)) (m _ (by decide)) (m _ (by decide)))
    exact SameButFaceFields_setTriple g c BXFACEX BYFACEX BZFACEX _
      (m _ (by decide)) (m _ (by decide)) (m _ (by decide))
  refine ⟨?_, ?_⟩
  · unfold FaceEHoldsZAverage
    rw [hZg, ← hg']
    have nm' : ∀ (l : List K) p, p ∈ [EXFACEX, EYFACEX, EZFACEX] →
        ∀ sf ∈ faceBSlots.zip l, sf.1 ≠ p := by
      intro l p hp sf hsf
      have h1 : sf.1 ∈ faceBSlots := (List.of_mem_zip hsf).1
      intro e
      rw [e] at h1
      revert h1
      simp only [List.mem_cons, List.mem_singleton, List.not_mem_nil, or_false] at hp
      rcases hp with rfl | rfl | rfl <;> decide
    rw [store_apply_of_not_mem c _ _ c EXFACEX (Or.inr (nm' _ _ (by decide))),
      store_apply_of_not_mem c _ _ c EYFACEX (Or.inr (nm' _ _ (by decide))),
      store_apply_of_not_mem c _ _ c EZFACEX (Or.inr (nm' _ _ (by decide)))]
    simp [setTriple_apply]
  · intro c' p hc'
    rw [← hg', store_apply_of_not_mem c _ _ c' p (Or.inl hc')]
    simp [setTriple_apply, hc']

/-- A cell loop of `calculateFaceAveragedFields` over ready cells, started on
a mesh `h` that differs from `g` at most in face-averaged field slots: every
visited cell ends with the result of `averageFaceZElectricField` in its slots
`EXFACEX`, `EYFACEX`, `EZFACEX`. -/
theorem faceLoop_faceE (X : Externals K) (G : Globals) (g : ParGrid K) (L : List CellID)
    (hready : ∀ c ∈ L, FaceReady G g c) (h : ParGrid K) (hs : SameButFaceFields g h) :
    ∃ h', L.foldlM (fun m cellID => faceAveragedFieldsCell X G cellID m) h = some h' ∧
      SameButFaceFields g h' ∧
      (∀ c ∈ L, FaceEHoldsZAverage G g h' c) ∧
      (∀ c, c ∉ L → ∀ p, h'.cpu_cellParams c p = h.cpu_cellParams c p) := by
  induction L generalizing h with
  | nil => exact ⟨h, rfl, hs, fun _ hc => absurd hc (List.not_mem_nil _), fun _ _ _ => rfl⟩
  | cons a L ih =>
    have ra : FaceReady G h a := FaceReady_congr rfl hs.1 (hready a (List.mem_cons_self _ _))
    obtain ⟨h1, r1, s1, v1, o1⟩ := faceAveragedFieldsCell_faceE X G a h ra
    have v1g : FaceEHoldsZAverage G g h1 a := by
      unfold FaceEHoldsZAverage at v1 ⊢
      rw [hs.1, averageFaceZElectricField_congr _ _ _ _ _ _ _ _ _ g h hs] at v1
      exact v1
    obtain ⟨h', r', s', v', o'⟩ :=
      ih (fun c hc => hready c (List.mem_cons_of_mem _ hc)) h1 (SameButFaceFields_trans hs s1)
    refine ⟨h', ?_, s', ?_, ?_⟩
    · rw [List.foldlM_cons, r1]
      exact r'
    · intro c hc
      by_cases hL : c ∈ L
      · exact v' c hL
      · have hca : c = a := by
          rcases List.mem_cons.mp hc with e | e
          · exact e
          · exact absurd e hL
        subst hca
        unfold FaceEHoldsZAverage at v1g ⊢
        rw [o' c hL, o' c hL, o' c hL]
        exact v1g
    · intro c hc p
      have hL : c ∉ L := fun e => hc (List.mem_cons_of_mem _ e)
      have hca : c ≠ a := fun e => hc (e ▸ List.mem_cons_self _ _)
      rw [o' c hL p, o1 c p hca]

/-- After `calculateFaceAveragedFields` on a mesh whose cells are all ready,
the slots `EXFACEX`, `EYFACEX`, `EZFACEX` of every local cell hold the result
of `averageFaceZElectricField`. -/
theorem calculateFaceAveragedFields_faceE (X : Externals K) (G : Globals) (g : ParGrid K)
    (hready : ∀ c ∈ g.getCells, FaceReady G g c) :
    ∃ g', calculateFaceAveragedFields X G g = some g' ∧ SameButFaceFields g g' ∧
      ∀ c ∈ g.getCells, FaceEHoldsZAverage G g g' c := by
  obtain ⟨g', r, s, v, -⟩ := faceLoop_faceE X G g g.getCells hready g (SameButFaceFields_refl g)
  exact ⟨g', r, s, v⟩

end FaceE

end Vlasiator

namespace Vlasiator

open CellParams fieldsolver

/-! ## The face-averaged electric field of the x-face is overwritten -/

theorem column4_face_ready :
    ∀ c ∈ (columnGrid 4 shearCellParams (fun _ _ => 0)).getCells,
      FaceReady (columnGlobals 4) (columnGrid 4 shearCellParams (fun _ _ => 0)) c := by
  decide

/-- Claim C18 (the code at the failing input). On a column of four cells with
the edge field `EY = c - 1`, `averageFaceXElectricField` computes for cell `1`
the x-face average `(0, 1/2, 0)`, whose second component is the mean of `EY`
over the cell and its `+z` neighbour. `calculateFaceAveragedFields` returns,
and afterwards the slot `EYFACEX` of cell `1` holds `0`, the second component
of the z-face average (the mean of `EY` over the cell and its `+x`
neighbour): the three slots written by the x-face call were written again by
the y-face and the z-face call. -/
theorem C18_face_E_overwritten :
    averageFaceXElectricField 1
      ((columnGrid 4 shearCellParams (fun _ _ => 0)).getNeighbour 1 (calcNbrTypeID 2 3 2))
      ((columnGrid 4 shearCellParams (fun _ _ => 0)).getNeighbour 1 (calcNbrTypeID 2 2 3))
      ((columnGrid 4 shearCellParams (fun _ _ => 0)).getNeighbour 1 (calcNbrTypeID 2 3 3))
      ((columnGrid 4 shearCellParams (fun _ _ => 0)).getNeighbour 1 (calcNbrTypeID 1 2 2))
      ((columnGrid 4 shearCellParams (fun _ _ => 0)).getNeighbour 1 (calcNbrTypeID 1 3 2))
      ((columnGrid 4 shearCellParams (fun _ _ => 0)).getNeighbour 1 (calcNbrTypeID 1 2 3))
      ((columnGrid 4 shearCellParams (fun _ _ => 0)).getNeighbour 1 (calcNbrTypeID 1 3 3))
      (((columnGlobals 4).boundaryFlags 1).getD 0)
      (columnGrid 4 shearCellParams (fun _ _ => 0)) = some (0, 1 / 2, 0) ∧
    ∃ g', calculateFaceAveragedFields sampleExternals (columnGlobals 4)
        (columnGrid 4 shearCellParams (fun _ _ => 0)) = some g' ∧
      g'.cpu_cellParams 1 EXFACEX = 0 ∧ g'.cpu_cellParams 1 EYFACEX = 0 ∧
      g'.cpu_cellParams 1 EZFACEX = 0 := by
  have f1 : (columnGlobals 4).boundaryFlags 1 = some 134217727 := column4_flags.2.1
  have a1 : columnGetNeighbour 4 1 (calcNbrTypeID 2 3 2) = 1 := by decide
  have a2 : columnGetNeighbour 4 1 (calcNbrTypeID 2 2 3) = 2 := by decide
  have a3 : columnGetNeighbour 4 1 (calcNbrTypeID 2 3 3) = 2 := by decide
  have a4 : columnGetNeighbour 4 1 (calcNbrTypeID 1 2 2) = 1 := by decide
  have a5 : columnGetNeighbour 4 1 (calcNbrTypeID 1 3 2) = 1 := by decide
  have a6 : columnGetNeighbour 4 1 (calcNbrTypeID 1 2 3) = 2 := by decide
  have a7 : columnGetNeighbour 4 1 (calcNbrTypeID 1 3 3) = 2 := by decide
  have b1 : columnGetNeighbour 4 1 (calcNbrTypeID (2 + 1) 2 2) = 1 := by decide
  have b2 : columnGetNeighbour 4 1 (calcNbrTypeID 2 (2 + 1) 2) = 1 := by decide
  have b3 : columnGetNeighbour 4 1 (calcNbrTypeID (2 + 1) (2 + 1) 2) = 1 := by decide
  have b4 : columnGetNeighbour 4 1 (calcNbrTypeID 2 2 (2 - 1)) = 0 := by decide
  have b5 : columnGetNeighbour 4 1 (calcNbrTypeID (2 + 1) 2 (2 - 1)) = 0 := by decide
  have b6 : columnGetNeighbour 4 1 (calcNbrTypeID 2 (2 + 1) (2 - 1)) = 0 := by decide
  have b7 : columnGetNeighbour 4 1 (calcNbrTypeID (2 + 1) (2 + 1) (2 - 1)) = 0 := by decide
  constructor
  · rw [f1]
    simp only [columnGrid, a1, a2, a3, a4, a5, a6, a7, Option.getD_some]
    have t : 134217727 &&& toUint
        (1 <<< calcNbrNumber 1 1 1 ||| 1 <<< calcNbrNumber 1 2 1 ||| 1 <<< calcNbrNumber 1 1 2
          ||| 1 <<< calcNbrNumber 1 2 2 ||| 1 <<< calcNbrNumber 0 1 1 ||| 1 <<< calcNbrNumber 0 2 1
          ||| 1 <<< calcNbrNumber 0 1 2 ||| 1 <<< calcNbrNumber 0 2 2) = toUint
        (1 <<< calcNbrNumber 1 1 1 ||| 1 <<< calcNbrNumber 1 2 1 ||| 1 <<< calcNbrNumber 1 1 2
          ||| 1 <<< calcNbrNumber 1 2 2 ||| 1 <<< calcNbrNumber 0 1 1 ||| 1 <<< calcNbrNumber 0 2 1
          ||| 1 <<< calcNbrNumber 0 1 2 ||| 1 <<< calcNbrNumber 0 2 2) := by decide
    unfold averageFaceXElectricField
    simp only [if_pos t]
    simp [INVALID_CELLID, shearCellParams, HALF, EIGTH]
    norm_num
  · obtain ⟨g', hrun, -, hv⟩ := calculateFaceAveragedFields_faceE sampleExternals
      (columnGlobals 4) (columnGrid 4 shearCellParams (fun _ _ => 0)) column4_face_ready
    refine ⟨g', hrun, ?_⟩
    have h := hv 1 (by decide)
    unfold FaceEHoldsZAverage at h
    rw [f1] at h
    simp only [columnGrid, b1, b2, b3, b4, b5, b6, b7, Option.getD_some] at h
    have t : 134217727 &&& toUint
        (1 <<< calcNbrNumber 1 1 1 ||| 1 <<< calcNbrNumber 2 1 1 ||| 1 <<< calcNbrNumber 1 2 1
          ||| 1 <<< calcNbrNumber 2 2 1 ||| 1 <<< calcNbrNumber 1 1 0 ||| 1 <<< calcNbrNumber 2 1 0
          ||| 1 <<< calcNbrNumber 1 2 0 ||| 1 <<< calcNbrNumber 2 2 0) = toUint
        (1 <<< calcNbrNumber 1 1 1 ||| 1 <<< calcNbrNumber 2 1 1 ||| 1 <<< calcNbrNumber 1 2 1
          ||| 1 <<< calcNbrNumber 2 2 1 ||| 1 <<< calcNbrNumber 1 1 0 ||| 1 <<< calcNbrNumber 2 1 0
          ||| 1 <<< calcNbrNumber 1 2 0 ||| 1 <<< calcNbrNumber 2 2 0) := by decide
    unfold averageFaceZElectricField at h
    simp only [if_pos t] at h
    simp [INVALID_CELLID, shearCellParams, HALF, EIGTH] at h
    have h0 := h.symm
    simp only [Prod.mk_eq_zero] at h0
    exact h0

end Vlasiator

namespace Vlasiator

open CellParams fieldsolver

/-! ## Transfer stencils -/

/-- Claim C19 (as stated, refuted). The receive list of
`calculateTransferStencil2` contains the neighbour type id of the offset
`(1, 1, 0)`, which has two non-zero coordinates and so is an edge neighbour,
not a face neighbour; it is the id of no other offset. So not every offset
registered by `calculateTransferStencil2` is a face neighbour. -/
theorem C19_counterexample :
    nbrTypeIDOf (1, 1, 0) ∈ stencil2Receives ∧
    isFaceOffset (1, 1, 0) = false ∧ isEdgeOffset (1, 1, 0) = true ∧
    (∀ o ∈ nbrOffsets, nbrTypeIDOf o = nbrTypeIDOf (1, 1, 0) → o = (1, 1, 0)) ∧
    ¬(∀ t ∈ stencil2Receives, ∃ o ∈ neighbourOffsets, nbrTypeIDOf o = t ∧ isFaceOffset o = true) := by
  decide

/-- Claim C19 (amended). There are 26 neighbour offsets, with pairwise
distinct neighbour type ids. `calculateTransferStencil1` registers 18 of them
for receive and 18 for send. `calculateTransferStencil2` registers 6 for
receive, the three face neighbours `+x`, `+y`, `+z` and the three edge
neighbours `+x+y`, `+x+z`, `+y+z`, and 6 for send, the mirrored offsets `-x`,
`-y`, `-z`, `-x-y`, `-x-z`, `-y-z`. `calculateTransferStencil3` registers all
26 for both. -/
theorem C19_stencil_footprints :
    (neighbourOffsets.length = 26 ∧ (neighbourOffsets.map nbrTypeIDOf).Nodup) ∧
    (stencil1Receives.length = 18 ∧ stencil1Receives.Nodup ∧
      ∀ t ∈ stencil1Receives, t ∈ neighbourOffsets.map nbrTypeIDOf) ∧
    (stencil1Sends.length = 18 ∧ stencil1Sends.Nodup ∧
      ∀ t ∈ stencil1Sends, t ∈ neighbourOffsets.map nbrTypeIDOf) ∧
    (stencil2Receives =
        [(1, 0, 0), (0, 1, 0), (0, 0, 1), (1, 1, 0), (1, 0, 1), (0, 1, 1)].map nbrTypeIDOf ∧
      stencil2Receives.length = 6 ∧ stencil2Receives.Nodup ∧
      [((1, 0, 0) : Int × Int × Int), (0, 1, 0), (0, 0, 1), (1, 1, 0), (1, 0, 1),
        (0, 1, 1)].map isFaceOffset = [true, true, true, false, false, false] ∧
      [((1, 0, 0) : Int × Int × Int), (0, 1, 0), (0, 0, 1), (1, 1, 0), (1, 0, 1),
        (0, 1, 1)].map isEdgeOffset = [false, false, false, true, true, true]) ∧
    (stencil2Sends =
        [(-1, 0, 0), (0, -1, 0), (0, 0, -1), (-1, -1, 0), (-1, 0, -1), (0, -1, -1)].map
          nbrTypeIDOf ∧
      stencil2Sends.length = 6 ∧ stencil2Sends.Nodup ∧
      [((-1, 0, 0) : Int × Int × Int), (0, -1, 0), (0, 0, -1), (-1, -1, 0), (-1, 0, -1),
        (0, -1, -1)].map isFaceOffset = [true, true, true, false, false, false] ∧
      [((-1, 0, 0) : Int × Int × Int), (0, -1, 0), (0, 0, -1), (-1, -1, 0), (-1, 0, -1),
        (0, -1, -1)].map isEdgeOffset = [false, false, false, true, true, true]) ∧
    (stencil3NbrIDs = neighbourOffsets.map nbrTypeIDOf ∧ stencil3NbrIDs.length = 26 ∧
      stencil3NbrIDs.Nodup) := by
  refine ⟨by decide, by decide, by decide, by decide, by decide, by decide⟩

theorem count_filter_not_add_count_filter (p : CellID → Bool) (l : List CellID) (c : CellID) :
    (l.filter fun x => !p x).count c + (l.filter p).count c = l.count c := by
  induction l with
  | nil => rfl
  | cons a l ih =>
    cases ha : p a
    · simp only [List.filter_cons, ha, Bool.not_false, if_true, List.count_cons]
      simp only [Bool.false_eq_true, if_false]
      omega
    · simp only [List.filter_cons, ha, Bool.not_true, if_true, List.count_cons]
      simp only [Bool.false_eq_true, if_false]
      omega

section StencilPartition

variable {K : Type} [LinearOrderedField K]

/-- The split of the local cells made by `addReceives`: the inner and the
boundary cells are disjoint, together they are the local cells, each local
cell with its multiplicity, and a cell is a boundary cell iff it is a local
cell with a registered offset that resolves to a cell of another process. -/
theorem addReceives_partition (S0 : TransferStencil) (g : ParGrid K) (ids : List Nat) :
    (S0.addReceives g ids).recvNbrTypeIDs = ids ∧
    (∀ c, c ∈ (S0.addReceives g ids).innerCells → c ∉ (S0.addReceives g ids).boundaryCells) ∧
    (∀ c, c ∈ (S0.addReceives g ids).innerCells ∨ c ∈ (S0.addReceives g ids).boundaryCells
      ↔ c ∈ g.getCells) ∧
    (∀ c, c ∈ (S0.addReceives g ids).boundaryCells ↔
      c ∈ g.getCells ∧ ∃ t ∈ ids, g.getNeighbour c t ≠ INVALID_CELLID ∧
        g.isRemote (g.getNeighbour c t) = true) ∧
    (∀ c, ((S0.addReceives g ids).innerCells ++ (S0.addReceives g ids).boundaryCells).count c
      = g.getCells.count c) ∧
    (g.getCells.Nodup → ∀ c ∈ g.getCells,
      ((S0.addReceives g ids).innerCells ++ (S0.addReceives g ids).boundaryCells).count c = 1)
    := by
  have hcount : ∀ c,
      ((S0.addReceives g ids).innerCells ++ (S0.addReceives g ids).boundaryCells).count c
        = g.getCells.count c := by
    intro c
    unfold TransferStencil.addReceives
    dsimp only
    rw [List.count_append]
    exact count_filter_not_add_count_filter _ _ c
  refine ⟨rfl, ?_, ?_, ?_, hcount, fun hd c hc => (hcount c).trans (List.count_eq_one_of_mem hd hc)⟩
  all_goals unfold TransferStencil.addReceives
  all_goals dsimp only
  · intro c hi hb
    rw [List.mem_filter] at hi hb
    have h1 := hi.2
    rw [hb.2] at h1
    exact absurd h1 (by decide)
  · intro c
    rw [List.mem_filter, List.mem_filter]
    constructor
    · rintro (h | h)
      · exact h.1
      · exact h.1
    · intro hc
      cases hn : (ids.any fun t =>
          decide (g.getNeighbour c t ≠ INVALID_CELLID) && g.isRemote (g.getNeighbour c t))
      · exact Or.inl ⟨hc, by simp [hn]⟩
      · exact Or.inr ⟨hc, rfl⟩
  · intro c
    rw [List.mem_filter, List.any_eq_true]
    constructor
    · rintro ⟨hc, t, ht, h⟩
      rw [Bool.and_eq_true, decide_eq_true_eq] at h
      exact ⟨hc, t, ht, h.1, h.2⟩
    · rintro ⟨hc, t, ht, h1, h2⟩
      refine ⟨hc, t, ht, ?_⟩
      rw [Bool.and_eq_true, decide_eq_true_eq]
      exact ⟨h1, h2⟩

/-- Claim C20. For any mesh and each of the three stencils built by the field
solver, the inner cells and the boundary cells are disjoint, their union is
the set of local cells, and a cell is a boundary cell iff it is a local cell
for which at least one offset of the receive footprint of the stencil resolves
to a cell owned by another process. Inner cells followed by boundary cells,
the visit order of a two-phase stage, contain every cell as often as the list
of local cells does, so exactly once when that list has no duplicates. -/
theorem C20_stencil_partition (g : ParGrid K) (cells : List CellID)
    (flags : CellID → Option Nat) (S0 : TransferStencil) :
    ∀ S ∈ [(calculateTransferStencil1 g cells flags S0).2, calculateTransferStencil2 g cells S0,
        calculateTransferStencil3 g cells S0],
      (∀ c, c ∈ S.innerCells → c ∉ S.boundaryCells) ∧
      (∀ c, c ∈ S.innerCells ∨ c ∈ S.boundaryCells ↔ c ∈ g.getCells) ∧
      (∀ c, c ∈ S.boundaryCells ↔
        c ∈ g.getCells ∧ ∃ t ∈ S.recvNbrTypeIDs, g.getNeighbour c t ≠ INVALID_CELLID ∧
          g.isRemote (g.getNeighbour c t) = true) ∧
      (∀ c, (S.innerCells ++ S.boundaryCells).count c = g.getCells.count c) ∧
      (g.getCells.Nodup → ∀ c ∈ g.getCells, (S.innerCells ++ S.boundaryCells).count c = 1) := by
  intro S hS
  simp only [List.mem_cons, List.mem_singleton, List.not_mem_nil, or_false] at hS
  rcases hS with rfl | rfl | rfl
  · exact (addReceives_partition S0 g stencil1Receives).2
  · exact (addReceives_partition S0 g stencil2Receives).2
  · exact (addReceives_partition S0 g stencil3NbrIDs).2

end StencilPartition

/-- Claim C20 at a concrete input: a row of three cells of which cell `2`
belongs to another process. For the stencil of `calculateTransferStencil2`
cell `1`, whose `+x` neighbour is cell `2`, is a boundary cell, cell `0` is
not, and the two-phase visit order contains cell `1` exactly once. -/
theorem C20_stencil_partition_witness :
    1 ∈ (calculateTransferStencil2 splitRowGrid [0, 1] ⟨[], [], [], []⟩).boundaryCells ∧
    0 ∉ (calculateTransferStencil2 splitRowGrid [0, 1] ⟨[], [], [], []⟩).boundaryCells ∧
    ((calculateTransferStencil2 splitRowGrid [0, 1] ⟨[], [], [], []⟩).innerCells
      ++ (calculateTransferStencil2 splitRowGrid [0, 1] ⟨[], [], [], []⟩).boundaryCells).count 1
      = 1 := by
  have h := C20_stencil_partition splitRowGrid [0, 1] (fun _ => none) ⟨[], [], [], []⟩
    (calculateTransferStencil2 splitRowGrid [0, 1] ⟨[], [], [], []⟩) (by simp)
  refine ⟨?_, ?_, ?_⟩
  · exact (h.2.2.1 1).2 ⟨by decide, calcNbrTypeID 3 2 2, by decide, by decide, by decide⟩
  · intro h0
    have h1 := h.1 0
    have hi : (0 : CellID) ∈
        (calculateTransferStencil2 splitRowGrid [0, 1] ⟨[], [], [], []⟩).innerCells := by decide
    exact h1 hi h0
  · exact h.2.2.2.2 (by decide) 1 (by decide)

end Vlasiator

namespace Vlasiator

open CellParams fieldsolver

/-! ## Topology flags and the capability tests of the derivative and propagation stages -/

/-- The bits of the derivative and propagation masks assigned by
`initializeFieldPropagator`. -/
theorem derivative_propagation_mask_bits (old : Masks) (b : Nat) :
    ((initializeFieldPropagator_masks old).CALCULATE_DX.testBit b = true ↔ b ∈ [12, 14]) ∧
    ((initializeFieldPropagator_masks old).CALCULATE_DY.testBit b = true ↔ b ∈ [10, 16]) ∧
    ((initializeFieldPropagator_masks old).CALCULATE_DZ.testBit b = true ↔ b ∈ [4, 22]) ∧
    ((initializeFieldPropagator_masks old).PROPAGATE_BX.testBit b = true
      ↔ b ∈ [12, 10, 16, 4, 22]) ∧
    ((initializeFieldPropagator_masks old).PROPAGATE_BY.testBit b = true
      ↔ b ∈ [10, 12, 14, 4, 22]) ∧
    ((initializeFieldPropagator_masks old).PROPAGATE_BZ.testBit b = true
      ↔ b ∈ [4, 12, 14, 10, 16]) := by
  rw [masks_values]
  refine ⟨?_, ?_, ?_, ?_, ?_, ?_⟩ <;>
    exact testBit_iff_mem_of_lt _ _ (by decide) (by decide) (by decide) b

/-- The bits of the edge masks assigned by `initializeFieldPropagator`. -/
theorem edge_mask_bits (old : Masks) (b : Nat) :
    ((initializeFieldPropagator_masks old).CALCULATE_EX.testBit b = true ↔ b ∈ [4, 10, 12, 14]) ∧
    ((initializeFieldPropagator_masks old).CALCULATE_EY.testBit b = true ↔ b ∈ [4, 10, 12, 16]) ∧
    ((initializeFieldPropagator_masks old).CALCULATE_EZ.testBit b = true
      ↔ b ∈ [4, 10, 12, 22]) := by
  rw [masks_values]
  refine ⟨?_, ?_, ?_⟩ <;>
    exact testBit_iff_mem_of_lt _ _ (by decide) (by decide) (by decide) b

section Flags

variable {K : Type} [LinearOrderedField K]

/-- The flag word that `calculateTransferStencil1` computes for a cell is the
one that `calculateBoundaryFlags` computes. -/
theorem stencil1BoundaryFlagOf_eq (g : ParGrid K) (c : CellID) :
    stencil1BoundaryFlagOf g c = boundaryFlagOf g c := rfl

/-- The flags left by `calculateTransferStencil1` are those that
`calculateBoundaryFlags` leaves when started on the same flags. -/
theorem calculateTransferStencil1_flags (g : ParGrid K) (cells : List CellID)
    (flags : CellID → Option Nat) (S : TransferStencil) :
    (calculateTransferStencil1 g cells flags S).1 = calculateBoundaryFlags g cells flags := rfl

/-- The bit `b` of the flag word of a cell that belongs to the neighbour offset
`x` is set iff the neighbour with the type id `t` of that offset exists. -/
theorem boundaryFlagOf_testBit_at (g : ParGrid K) (c : CellID) (x : Int × Int × Int)
    (b t : Nat) (hx : x ∈ nbrOffsets) (hne : ¬(x.1 = 0 ∧ (x.2.1 = 0 ∧ x.2.2 = 0)))
    (hb : calcNbrNumber (toUchar (1 + x.1)) (toUchar (1 + x.2.1)) (toUchar (1 + x.2.2)) = b)
    (ht : calcNbrTypeID (toUchar (2 + x.1)) (toUchar (2 + x.2.1)) (toUchar (2 + x.2.2)) = t) :
    (boundaryFlagOf g c).testBit b = true ↔ g.getNeighbour c t ≠ INVALID_CELLID := by
  subst hb
  subst ht
  exact boundaryFlagOf_testBit g c x hx hne

/-- The bits of the six face neighbours in the flag word of a cell. -/
theorem boundaryFlagOf_face_bits (g : ParGrid K) (c : CellID) :
    ((boundaryFlagOf g c).testBit 12 = true ↔
      g.getNeighbour c (calcNbrTypeID (2 - 1) 2 2) ≠ INVALID_CELLID) ∧
    ((boundaryFlagOf g c).testBit 14 = true ↔
      g.getNeighbour c (calcNbrTypeID (2 + 1) 2 2) ≠ INVALID_CELLID) ∧
    ((boundaryFlagOf g c).testBit 10 = true ↔
      g.getNeighbour c (calcNbrTypeID 2 (2 - 1) 2) ≠ INVALID_CELLID) ∧
    ((boundaryFlagOf g c).testBit 16 = true ↔
      g.getNeighbour c (calcNbrTypeID 2 (2 + 1) 2) ≠ INVALID_CELLID) ∧
    ((boundaryFlagOf g c).testBit 4 = true ↔
      g.getNeighbour c (calcNbrTypeID 2 2 (2 - 1)) ≠ INVALID_CELLID) ∧
    ((boundaryFlagOf g c).testBit 22 = true ↔
      g.getNeighbour c (calcNbrTypeID 2 2 (2 + 1)) ≠ INVALID_CELLID) := by
  refine ⟨?_, ?_, ?_, ?_, ?_, ?_⟩
  · exact boundaryFlagOf_testBit_at g c (-1, 0, 0) _ _ (by decide) (by decide) (by decide)
      (by decide)
  · exact boundaryFlagOf_testBit_at g c (1, 0, 0) _ _ (by decide) (by decide) (by decide)
      (by decide)
  · exact boundaryFlagOf_testBit_at g c (0, -1, 0) _ _ (by decide) (by decide) (by decide)
      (by decide)
  · exact boundaryFlagOf_testBit_at g c (0, 1, 0) _ _ (by decide) (by decide) (by decide)
      (by decide)
  · exact boundaryFlagOf_testBit_at g c (0, 0, -1) _ _ (by decide) (by decide) (by decide)
      (by decide)
  · exact boundaryFlagOf_testBit_at g c (0, 0, 1) _ _ (by decide) (by decide) (by decide)
      (by decide)

/-- Claim C21. Running `calculateBoundaryFlags` a second time on the same mesh
and the same cells leaves the flags as they are after the first run. For every
local cell the flag word is the one computed from the neighbour lookups of the
mesh, whatever the flags were before, and the recomputation inside
`calculateTransferStencil1` gives the same word, also when it is reached
through the stencil rebuild of `propagateFields`. -/
theorem C21_flags_idempotent (g : ParGrid K) (cells : List CellID)
    (flags : CellID → Option Nat) (S : TransferStencil) :
    calculateBoundaryFlags g cells (calculateBoundaryFlags g cells flags)
      = calculateBoundaryFlags g cells flags ∧
    (∀ c ∈ cells, calculateBoundaryFlags g cells flags c = some (boundaryFlagOf g c)) ∧
    (∀ c ∈ cells, ∀ flags1 : CellID → Option Nat,
      (calculateTransferStencil1 g cells flags1 S).1 c
        = calculateBoundaryFlags g cells flags c) ∧
    (calculateTransferStencil1 g cells (calculateBoundaryFlags g cells flags) S).1
      = calculateBoundaryFlags g cells flags ∧
    (∀ G : Globals, G.recalculateStencils = true → ∀ c ∈ cells,
      (recalculateStencils G g cells).boundaryFlags c
        = calculateBoundaryFlags g cells flags c) := by
  have idem : calculateBoundaryFlags g cells (calculateBoundaryFlags g cells flags)
      = calculateBoundaryFlags g cells flags := by
    funext c
    rw [calculateBoundaryFlags_apply g cells (calculateBoundaryFlags g cells flags) c,
      calculateBoundaryFlags_apply g cells flags c]
    by_cases hc : c ∈ cells
    · rw [if_pos hc, if_pos hc]
    · rw [if_neg hc, if_neg hc]
  refine ⟨idem, ?_, ?_, ?_, ?_⟩
  · intro c hc
    rw [calculateBoundaryFlags_apply, if_pos hc]
  · intro c hc flags1
    rw [calculateTransferStencil1_flags, calculateBoundaryFlags_apply, if_pos hc,
      calculateBoundaryFlags_apply, if_pos hc]
  · rw [calculateTransferStencil1_flags]
    exact idem
  · intro G hG c hc
    unfold recalculateStencils
    rw [if_pos hG]
    show (calculateTransferStencil1 g cells G.boundaryFlags G.stencil1).1 c = _
    rw [calculateTransferStencil1_flags, calculateBoundaryFlags_apply, if_pos hc,
      calculateBoundaryFlags_apply, if_pos hc]

/-- With the masks assigned by `initializeFieldPropagator`, a flag word that
passes the test of a derivative direction or of a magnetic field component
has the bits of both neighbours read behind that test. On a cell whose flag
word is the one computed by `calculateBoundaryFlags`, every neighbour read
behind a passed test is a cell, and `calculateDerivatives` and
`propagateMagneticField` both return. -/
theorem masks_cover_reads_cell (X : Externals K) (old : Masks) (G : Globals) (g : ParGrid K)
    (c : CellID) (dt : K)
    (hmask : G.masks = initializeFieldPropagator_masks old)
    (hc : c ≠ INVALID_CELLID)
    (hflag : G.boundaryFlags c = some (boundaryFlagOf g c)) :
    (∀ e : Nat,
      (passes e G.masks.CALCULATE_DX →
        e.testBit (calcNbrNumber 0 1 1) = true ∧ e.testBit (calcNbrNumber 2 1 1) = true) ∧
      (passes e G.masks.CALCULATE_DY →
        e.testBit (calcNbrNumber 1 0 1) = true ∧ e.testBit (calcNbrNumber 1 2 1) = true) ∧
      (passes e G.masks.CALCULATE_DZ →
        e.testBit (calcNbrNumber 1 1 0) = true ∧ e.testBit (calcNbrNumber 1 1 2) = true) ∧
      (passes e G.masks.PROPAGATE_BX →
        e.testBit (calcNbrNumber 1 2 1) = true ∧ e.testBit (calcNbrNumber 1 1 2) = true) ∧
      (passes e G.masks.PROPAGATE_BY →
        e.testBit (calcNbrNumber 1 1 2) = true ∧ e.testBit (calcNbrNumber 2 1 1) = true) ∧
      (passes e G.masks.PROPAGATE_BZ →
        e.testBit (calcNbrNumber 2 1 1) = true ∧ e.testBit (calcNbrNumber 1 2 1) = true)) ∧
    DerivativesReady G g c ∧ PropagateReady G g c ∧
    (∃ g1, calculateDerivatives X G c g = some g1) ∧
    (∃ g1, propagateMagneticField G c g dt = some g1) := by
  have bits : ∀ e : Nat,
      (passes e G.masks.CALCULATE_DX → e.testBit 12 = true ∧ e.testBit 14 = true) ∧
      (passes e G.masks.CALCULATE_DY → e.testBit 10 = true ∧ e.testBit 16 = true) ∧
      (passes e G.masks.CALCULATE_DZ → e.testBit 4 = true ∧ e.testBit 22 = true) ∧
      (passes e G.masks.PROPAGATE_BX → e.testBit 16 = true ∧ e.testBit 22 = true) ∧
      (passes e G.masks.PROPAGATE_BY → e.testBit 22 = true ∧ e.testBit 14 = true) ∧
      (passes e G.masks.PROPAGATE_BZ → e.testBit 14 = true ∧ e.testBit 16 = true) := by
    intro e
    rw [hmask]
    refine ⟨?_, ?_, ?_, ?_, ?_, ?_⟩
    · intro h
      rw [passes_iff_of_bits _ _ (fun b => (derivative_propagation_mask_bits old b).1)] at h
      exact ⟨h 12 (by decide), h 14 (by decide)⟩
    · intro h
      rw [passes_iff_of_bits _ _ (fun b => (derivative_propagation_mask_bits old b).2.1)] at h
      exact ⟨h 10 (by decide), h 16 (by decide)⟩
    · intro h
      rw [passes_iff_of_bits _ _ (fun b => (derivative_propagation_mask_bits old b).2.2.1)] at h
      exact ⟨h 4 (by decide), h 22 (by decide)⟩
    · intro h
      rw [passes_iff_of_bits _ _
        (fun b => (derivative_propagation_mask_bits old b).2.2.2.1)] at h
      exact ⟨h 16 (by decide), h 22 (by decide)⟩
    · intro h
      rw [passes_iff_of_bits _ _
        (fun b => (derivative_propagation_mask_bits old b).2.2.2.2.1)] at h
      exact ⟨h 22 (by decide), h 14 (by decide)⟩
    · intro h
      rw [passes_iff_of_bits _ _
        (fun b => (derivative_propagation_mask_bits old b).2.2.2.2.2)] at h
      exact ⟨h 14 (by decide), h 16 (by decide)⟩
  obtain ⟨f12, f14, f10, f16, f4, f22⟩ := boundaryFlagOf_face_bits g c
  have hD : DerivativesReady G g c := by
    refine ⟨hc, by rw [hflag]; rfl, ?_⟩
    intro e he
    rw [hflag] at he
    have he1 : boundaryFlagOf g c = e := by simpa using he
    subst he1
    obtain ⟨bx, by1, bz, -, -, -⟩ := bits (boundaryFlagOf g c)
    exact ⟨fun h => ⟨f12.1 (bx h).1, f14.1 (bx h).2⟩,
      fun h => ⟨f10.1 (by1 h).1, f16.1 (by1 h).2⟩,
      fun h => ⟨f4.1 (bz h).1, f22.1 (bz h).2⟩⟩
  have hP : PropagateReady G g c := by
    refine ⟨hc, by rw [hflag]; rfl, ?_⟩
    intro e he
    rw [hflag] at he
    have he1 : boundaryFlagOf g c = e := by simpa using he
    subst he1
    obtain ⟨-, -, -, px, py, pz⟩ := bits (boundaryFlagOf g c)
    exact ⟨fun h => ⟨f16.1 (px h).1, f22.1 (px h).2⟩,
      fun h => ⟨f22.1 (py h).1, f14.1 (py h).2⟩,
      fun h => ⟨f14.1 (pz h).1, f16.1 (pz h).2⟩⟩
  refine ⟨bits, hD, hP, ?_, ?_⟩
  · obtain ⟨g1, h1, -⟩ := calculateDerivatives_spec X G c g hD
    exact ⟨g1, h1⟩
  · obtain ⟨g1, h1, -⟩ := propagateMagneticField_spec G c g dt _ hflag hP
    exact ⟨g1, h1⟩

/-- Claim C25. With the masks assigned by `initializeFieldPropagator`, a flag
word that passes the test of a derivative direction has the bits of both
neighbours read along that direction, and a flag word that passes the test of
a magnetic field component has the bits of both neighbours read for that
component. So when the flag words of the local cells are those computed by
`calculateBoundaryFlags`, every neighbour read behind a passed test is a
cell, `calculateDerivatives` and `propagateMagneticField` return on every
local cell, and the derivative stage and the stage that propagates the
magnetic field run to their end. -/
theorem C25_masks_cover_reads (X : Externals K) (old : Masks) (G : Globals) (g : ParGrid K)
    (dt : K) (cells : List CellID)
    (hmask : G.masks = initializeFieldPropagator_masks old)
    (hnd : cells.Nodup)
    (hvalid : ∀ c ∈ cells, c ≠ INVALID_CELLID)
    (hflags : ∀ c ∈ cells, G.boundaryFlags c = some (boundaryFlagOf g c))
    (hst : ∀ c ∈ G.stencil3.innerCells ++ G.stencil3.boundaryCells, c ∈ cells) :
    (∀ e : Nat,
      (passes e G.masks.CALCULATE_DX →
        e.testBit (calcNbrNumber 0 1 1) = true ∧ e.testBit (calcNbrNumber 2 1 1) = true) ∧
      (passes e G.masks.CALCULATE_DY →
        e.testBit (calcNbrNumber 1 0 1) = true ∧ e.testBit (calcNbrNumber 1 2 1) = true) ∧
      (passes e G.masks.CALCULATE_DZ →
        e.testBit (calcNbrNumber 1 1 0) = true ∧ e.testBit (calcNbrNumber 1 1 2) = true) ∧
      (passes e G.masks.PROPAGATE_BX →
        e.testBit (calcNbrNumber 1 2 1) = true ∧ e.testBit (calcNbrNumber 1 1 2) = true) ∧
      (passes e G.masks.PROPAGATE_BY →
        e.testBit (calcNbrNumber 1 1 2) = true ∧ e.testBit (calcNbrNumber 2 1 1) = true) ∧
      (passes e G.masks.PROPAGATE_BZ →
        e.testBit (calcNbrNumber 2 1 1) = true ∧ e.testBit (calcNbrNumber 1 2 1) = true)) ∧
    (∀ c ∈ cells, DerivativesReady G g c ∧ PropagateReady G g c ∧
      (∃ g1, calculateDerivatives X G c g = some g1) ∧
      (∃ g1, propagateMagneticField G c g dt = some g1)) ∧
    (∃ g1, calculateDerivativesSimple X G g cells = some g1) ∧
    (∃ g1, propagateMagneticFieldSimple X G g dt cells = some g1) := by
  have cell := fun c (hc : c ∈ cells) =>
    masks_cover_reads_cell X old G g c dt hmask (hvalid c hc) (hflags c hc)
  refine ⟨fun e => ?_, fun c hc => (cell c hc).2, ?_, ?_⟩
  · cases cells with
    | nil =>
      have bits := derivative_propagation_mask_bits old
      rw [hmask]
      refine ⟨?_, ?_, ?_, ?_, ?_, ?_⟩
      · intro h
        rw [passes_iff_of_bits _ _ (fun b => (bits b).1)] at h
        exact ⟨h 12 (by decide), h 14 (by decide)⟩
      · intro h
        rw [passes_iff_of_bits _ _ (fun b => (bits b).2.1)] at h
        exact ⟨h 10 (by decide), h 16 (by decide)⟩
      · intro h
        rw [passes_iff_of_bits _ _ (fun b => (bits b).2.2.1)] at h
        exact ⟨h 4 (by decide), h 22 (by decide)⟩
      · intro h
        rw [passes_iff_of_bits _ _ (fun b => (bits b).2.2.2.1)] at h
        exact ⟨h 16 (by decide), h 22 (by decide)⟩
      · intro h
        rw [passes_iff_of_bits _ _ (fun b => (bits b).2.2.2.2.1)] at h
        exact ⟨h 22 (by decide), h 14 (by decide)⟩
      · intro h
        rw [passes_iff_of_bits _ _ (fun b => (bits b).2.2.2.2.2)] at h
        exact ⟨h 14 (by decide), h 16 (by decide)⟩
    | cons a l => exact (cell a (List.mem_cons_self _ _)).1 e
  · obtain ⟨g1, h1, -⟩ := calculateDerivativesSimple_spec X G g cells
      (fun c hc => (cell c (hst c hc)).2.1)
    exact ⟨g1, h1⟩
  · obtain ⟨g1, h1, -⟩ := propagateMagneticFieldSimple_spec X G g dt cells hnd
      (fun c hc => (cell c hc).2.2.1)
    exact ⟨g1, h1⟩

end Flags

/-- Claim C25 at a concrete input: the column of four cells, whose lowest
cell has no `-z` neighbour and whose highest cell has no `+z` neighbour. Both
stages run to their end. -/
theorem C25_masks_cover_reads_witness :
    ((columnGlobals 4).masks = initializeFieldPropagator_masks ⟨0, 0, 0, 0, 0, 0, 0, 0, 0⟩ ∧
      (List.range 4).Nodup ∧
      (∀ c ∈ List.range 4, c ≠ INVALID_CELLID) ∧
      (∀ c ∈ List.range 4, (columnGlobals 4).boundaryFlags c
        = some (boundaryFlagOf (columnGrid 4 linearCellParams (fun _ _ => 0)) c)) ∧
      (∀ c ∈ (columnGlobals 4).stencil3.innerCells ++ (columnGlobals 4).stencil3.boundaryCells,
        c ∈ List.range 4)) ∧
    (∃ g1, calculateDerivativesSimple sampleExternals (columnGlobals 4)
      (columnGrid 4 linearCellParams (fun _ _ => 0)) (List.range 4) = some g1) ∧
    (∃ g1, propagateMagneticFieldSimple sampleExternals (columnGlobals 4)
      (columnGrid 4 linearCellParams (fun _ _ => 0)) 1 (List.range 4) = some g1) :=
  ⟨⟨rfl, by decide, by decide, by decide, by decide⟩,
    (C25_masks_cover_reads sampleExternals ⟨0, 0, 0, 0, 0, 0, 0, 0, 0⟩ (columnGlobals 4)
      (columnGrid 4 linearCellParams (fun _ _ => 0)) 1 (List.range 4) rfl (by decide)
      (by decide) (by decide) (by decide)).2.2⟩

end Vlasiator

namespace Vlasiator

open CellParams fieldsolver

/-! ## Characteristic speeds of the edge kernels -/

theorem rat_sqrt_zero : Rat.sqrt 0 = 0 := by
  have h : Rat.sqrt (0 * 0) = |0| := Rat.sqrt_eq 0
  rw [show (0 : ℚ) * 0 = 0 by norm_num, abs_zero] at h
  exact h

theorem rat_sqrt_one : Rat.sqrt 1 = 1 := by
  have h : Rat.sqrt (1 * 1) = |1| := Rat.sqrt_eq 1
  rw [show (1 : ℚ) * 1 = 1 by norm_num, abs_of_pos (by norm_num)] at h
  exact h

theorem rat_sqrt_nine : Rat.sqrt 9 = 3 := by
  have h : Rat.sqrt (3 * 3) = |3| := Rat.sqrt_eq 3
  rw [show (3 : ℚ) * 3 = 9 by norm_num, abs_of_pos (by norm_num)] at h
  exact h

theorem rat_sqrt_169 : Rat.sqrt 169 = 13 := by
  have h : Rat.sqrt (13 * 13) = |13| := Rat.sqrt_eq 13
  rw [show (13 : ℚ) * 13 = 169 by norm_num, abs_of_pos (by norm_num)] at h
  exact h

section Speeds

variable {K : Type} [LinearOrderedField K]

/-- The four characteristic speeds of `calculateEdgeElectricFieldX` are the
largest of zero and of `-V + c` (`V + c`) over the four corner cells. -/
theorem edgeElectricFieldX_speeds (X : Externals K)
    (cp_SW cp_SE cp_NE cp_NW : CellParams → K)
    (derivs_SW derivs_SE derivs_NE derivs_NW : fieldsolver → K)
    (nbr_cp_SW nbr_cp_SE nbr_cp_NW nbr_cp_NE : CellParams → K)
    (nbr_derivs_SW nbr_derivs_SE nbr_derivs_NW nbr_derivs_NE : fieldsolver → K) :
    let L := edgeElectricFieldX X cp_SW cp_SE cp_NE cp_NW derivs_SW derivs_SE derivs_NE
      derivs_NW nbr_cp_SW nbr_cp_SE nbr_cp_NW nbr_cp_NE nbr_derivs_SW nbr_derivs_SE
      nbr_derivs_NW nbr_derivs_NE
    let cs := cornerSpeedsX X cp_SW cp_SE cp_NE cp_NW derivs_SW derivs_SE derivs_NE
      derivs_NW nbr_cp_SW nbr_cp_SE nbr_cp_NW nbr_cp_NE nbr_derivs_SW nbr_derivs_SE
      nbr_derivs_NW nbr_derivs_NE
    L.ay_neg = maxNegSpeed (cs.map fun v => (v.1, v.2.2)) ∧
    L.ay_pos = maxPosSpeed (cs.map fun v => (v.1, v.2.2)) ∧
    L.az_neg = maxNegSpeed (cs.map fun v => (v.2.1, v.2.2)) ∧
    L.az_pos = maxPosSpeed (cs.map fun v => (v.2.1, v.2.2)) :=
  ⟨rfl, rfl, rfl, rfl⟩

/-- The four characteristic speeds of `calculateEdgeElectricFieldZ` are the
largest of zero and of `-V + c` (`V + c`) over the four corner cells, with the
corner speeds that the function computes. -/
theorem edgeElectricFieldZ_speeds (X : Externals K)
    (cp_SW cp_SE cp_NE cp_NW : CellParams → K)
    (derivs_SW derivs_SE derivs_NE derivs_NW : fieldsolver → K)
    (nbr_cp_SW nbr_cp_SE nbr_cp_NW nbr_cp_NE : CellParams → K)
    (nbr_derivs_SW nbr_derivs_SE nbr_derivs_NW nbr_derivs_NE : fieldsolver → K) :
    let L := edgeElectricFieldZ X cp_SW cp_SE cp_NE cp_NW derivs_SW derivs_SE derivs_NE
      derivs_NW nbr_cp_SW nbr_cp_SE nbr_cp_NW nbr_cp_NE nbr_derivs_SW nbr_derivs_SE
      nbr_derivs_NW nbr_derivs_NE
    let cs := cornerSpeedsZ X cp_SW cp_SE cp_NE cp_NW derivs_SW derivs_SE derivs_NE
      derivs_NW nbr_cp_SW nbr_cp_SE nbr_cp_NW nbr_cp_NE nbr_derivs_SW nbr_derivs_SE
      nbr_derivs_NW nbr_derivs_NE
    L.ax_neg = maxNegSpeed (cs.map fun v => (v.1, v.2.2)) ∧
    L.ax_pos = maxPosSpeed (cs.map fun v => (v.1, v.2.2)) ∧
    L.ay_neg = maxNegSpeed (cs.map fun v => (v.2.1, v.2.2)) ∧
    L.ay_pos = maxPosSpeed (cs.map fun v => (v.2.1, v.2.2)) :=
  ⟨rfl, rfl, rfl, rfl⟩

/-- The characteristic speeds of `calculateEdgeElectricFieldY`: the two
positive ones are the largest of zero and of `V + c` over the four corner
cells; the two negative ones are the largest of zero and of `-V + c` over the
corners `SW`, `NW`, `NE` and of `-V - c` for the corner `SE`. -/
theorem edgeElectricFieldY_speeds (X : Externals K)
    (cp_SW cp_SE cp_NE cp_NW : CellParams → K)
    (derivs_SW derivs_SE derivs_NE derivs_NW : fieldsolver → K)
    (nbr_cp_SW nbr_cp_SE nbr_cp_NW nbr_cp_NE : CellParams → K)
    (nbr_derivs_SW nbr_derivs_SE nbr_derivs_NW nbr_derivs_NE : fieldsolver → K) :
    let L := edgeElectricFieldY X cp_SW cp_SE cp_NE cp_NW derivs_SW derivs_SE derivs_NE
      derivs_NW nbr_cp_SW nbr_cp_SE nbr_cp_NW nbr_cp_NE nbr_derivs_SW nbr_derivs_SE
      nbr_derivs_NW nbr_derivs_NE
    let cs := cornerSpeedsY X cp_SW cp_SE cp_NE cp_NW derivs_SW derivs_SE derivs_NE
      derivs_NW nbr_cp_SW nbr_cp_SE nbr_cp_NW nbr_cp_NE nbr_derivs_SW nbr_derivs_SE
      nbr_derivs_NW nbr_derivs_NE
    L.ax_neg = maxNegSpeed (negateSecondSpeed (cs.map fun v => (v.1, v.2.2))) ∧
    L.ax_pos = maxPosSpeed (cs.map fun v => (v.1, v.2.2)) ∧
    L.az_neg = maxNegSpeed (negateSecondSpeed (cs.map fun v => (v.2.1, v.2.2))) ∧
    L.az_pos = maxPosSpeed (cs.map fun v => (v.2.1, v.2.2)) := by
  intro L cs
  refine ⟨?_, rfl, ?_, rfl⟩
  · show L.ax_neg = max (max (max (max 0 _) (-_ + -_)) _) _
    simp only [← sub_eq_add_neg]
    rfl
  · show L.az_neg = max (max (max (max 0 _) (-_ + -_)) _) _
    simp only [← sub_eq_add_neg]
    rfl

/-- The result of `calculateEdgeElectricFieldZ` does not depend on the data
of the `+z` neighbour of the `NE` corner cell: two meshes with the same
neighbour lookup whose data agree on the cell, on its three corner
neighbours and on the `+z` neighbours of the corners `SW`, `SE` and `NW` give
the same result. -/
theorem edgeElectricFieldZAt_data (X : Externals K) (c : CellID) (g h : ParGrid K)
    (hn : h.getNeighbour = g.getNeighbour)
    (hd : ∀ n, (n = c ∨ n = g.getNeighbour c (calcNbrTypeID (2 - 1) 2 2)
        ∨ n = g.getNeighbour c (calcNbrTypeID (2 - 1) (2 - 1) 2)
        ∨ n = g.getNeighbour c (calcNbrTypeID 2 (2 - 1) 2)
        ∨ n = g.getNeighbour c (calcNbrTypeID 2 2 (2 + 1))
        ∨ n = g.getNeighbour c (calcNbrTypeID (2 - 1) 2 (2 + 1))
        ∨ n = g.getNeighbour c (calcNbrTypeID 2 (2 - 1) (2 + 1))) →
      h.cpu_cellParams n = g.cpu_cellParams n ∧ h.cpu_derivatives n = g.cpu_derivatives n) :
    edgeElectricFieldZAt X c h = edgeElectricFieldZAt X c g := by
  unfold edgeElectricFieldZAt
  simp only [hn]
  rw [(hd c (Or.inl rfl)).1, (hd c (Or.inl rfl)).2,
    (hd _ (Or.inr (Or.inl rfl))).1, (hd _ (Or.inr (Or.inl rfl))).2,
    (hd _ (Or.inr (Or.inr (Or.inl rfl)))).1, (hd _ (Or.inr (Or.inr (Or.inl rfl)))).2,
    (hd _ (Or.inr (Or.inr (Or.inr (Or.inl rfl))))).1,
    (hd _ (Or.inr (Or.inr (Or.inr (Or.inl rfl))))).2,
    (hd _ (Or.inr (Or.inr (Or.inr (Or.inr (Or.inl rfl)))))).1,
    (hd _ (Or.inr (Or.inr (Or.inr (Or.inr (Or.inl rfl)))))).2,
    (hd _ (Or.inr (Or.inr (Or.inr (Or.inr (Or.inr (Or.inl rfl))))))).1,
    (hd _ (Or.inr (Or.inr (Or.inr (Or.inr (Or.inr (Or.inl rfl))))))).2,
    (hd _ (Or.inr (Or.inr (Or.inr (Or.inr (Or.inr (Or.inr rfl))))))).1,
    (hd _ (Or.inr (Or.inr (Or.inr (Or.inr (Or.inr (Or.inr rfl))))))).2]

end Speeds

/-- The result of `calculateEdgeElectricFieldY` on cell `13` of the periodic
mesh with the data `cornerSpeedCellParams`. -/
theorem edgeElectricFieldYAt_torus :
    edgeElectricFieldYAt sampleExternals 13 (torusGrid cornerSpeedCellParams (fun _ _ => 0)) =
      some (edgeElectricFieldY sampleExternals
        (cornerSpeedCellParams 13) (cornerSpeedCellParams 4) (cornerSpeedCellParams 3)
        (cornerSpeedCellParams 12) (fun _ => 0) (fun _ => 0) (fun _ => 0) (fun _ => 0)
        (cornerSpeedCellParams 16) (cornerSpeedCellParams 7) (cornerSpeedCellParams 15)
        (cornerSpeedCellParams 6) (fun _ => 0) (fun _ => 0) (fun _ => 0) (fun _ => 0)) := by
  unfold edgeElectricFieldYAt
  rw [if_pos (by decide)]
  rfl

/-- The corner velocities and corner speeds of `calculateEdgeElectricFieldY`
on cell `13` of the periodic mesh with the data `cornerSpeedCellParams`. -/
theorem cornerSpeedsY_torus :
    cornerSpeedsY sampleExternals
      (cornerSpeedCellParams 13) (cornerSpeedCellParams 4) (cornerSpeedCellParams 3)
      (cornerSpeedCellParams 12) (fun _ => 0) (fun _ => 0) (fun _ => 0) (fun _ => 0)
      (cornerSpeedCellParams 16) (cornerSpeedCellParams 7) (cornerSpeedCellParams 15)
      (cornerSpeedCellParams 6) (fun _ => 0) (fun _ => 0) (fun _ => 0) (fun _ => 0)
      = [(0, 0, 0), (-2, -2, 3), (0, 0, 0), (0, 0, 3)] := by
  simp [cornerSpeedsY, calculateFastMSspeedXZ, cornerSpeedCellParams, sampleExternals, HALF,
    TWELWTH, MINUS, PLUS]
  norm_num [rat_sqrt_nine, rat_sqrt_zero]

/-- Claim C22 (the code departs from it). The periodic mesh of 3 x 3 x 3
cells with unit density, no derivatives, and `BX = 3`, momentum `(-2, 0, -2)`
on cell `4`, the `-z` neighbour of cell `13`. For `calculateEdgeElectricFieldY`
on cell `13` the corner `SE` is cell `4`, with velocity components
`Vx0 = Vz0 = -2` and speed `3`; the corner `NE` has velocity `0` and speed `3`,
the corners `SW` and `NW` velocity `0` and speed `0`. The largest of zero and
of `-V + c` over the four corners is `5` in both transverse directions. The
function returns with `ax_neg = 3` and `az_neg = 3`. -/
theorem C22_edge_Y_corner_speed :
    (torusGrid cornerSpeedCellParams (fun _ _ => 0)).getNeighbour 13
      (calcNbrTypeID 2 2 (2 - 1)) = 4 ∧
    cornerSpeedsY sampleExternals
      (cornerSpeedCellParams 13) (cornerSpeedCellParams 4) (cornerSpeedCellParams 3)
      (cornerSpeedCellParams 12) (fun _ => 0) (fun _ => 0) (fun _ => 0) (fun _ => 0)
      (cornerSpeedCellParams 16) (cornerSpeedCellParams 7) (cornerSpeedCellParams 15)
      (cornerSpeedCellParams 6) (fun _ => 0) (fun _ => 0) (fun _ => 0) (fun _ => 0)
      = [(0, 0, 0), (-2, -2, 3), (0, 0, 0), (0, 0, 3)] ∧
    maxNegSpeed [((0 : ℚ), (0 : ℚ)), (-2, 3), (0, 0), (0, 3)] = 5 ∧
    ∃ L, edgeElectricFieldYAt sampleExternals 13
        (torusGrid cornerSpeedCellParams (fun _ _ => 0)) = some L ∧
      L.ax_neg = 3 ∧ L.az_neg = 3 ∧ L.ax_pos = 3 ∧ L.az_pos = 3 := by
  refine ⟨by decide, cornerSpeedsY_torus, ?_, _, edgeElectricFieldYAt_torus, ?_, ?_, ?_, ?_⟩
  · norm_num [maxNegSpeed, max_def]
  · rw [(edgeElectricFieldY_speeds _ _ _ _ _ _ _ _ _ _ _ _ _ _ _ _ _).1, cornerSpeedsY_torus]
    norm_num [maxNegSpeed, negateSecondSpeed, max_def]
  · rw [(edgeElectricFieldY_speeds _ _ _ _ _ _ _ _ _ _ _ _ _ _ _ _ _).2.2.1, cornerSpeedsY_torus]
    norm_num [maxNegSpeed, negateSecondSpeed, max_def]
  · rw [(edgeElectricFieldY_speeds _ _ _ _ _ _ _ _ _ _ _ _ _ _ _ _ _).2.1, cornerSpeedsY_torus]
    norm_num [maxPosSpeed, max_def]
  · rw [(edgeElectricFieldY_speeds _ _ _ _ _ _ _ _ _ _ _ _ _ _ _ _ _).2.2.2, cornerSpeedsY_torus]
    norm_num [maxPosSpeed, max_def]

/-- The result of `calculateEdgeElectricFieldZ` on cell `13` of the periodic
mesh with the data `pairingCellParams`: the arrays passed for the `+z`
neighbour of the `NE` corner are those of cell `19`, the `+z` neighbour of the
`NW` corner. -/
theorem edgeElectricFieldZAt_torus :
    edgeElectricFieldZAt sampleExternals 13 (torusGrid pairingCellParams (fun _ _ => 0)) =
      some (edgeElectricFieldZ sampleExternals
        (pairingCellParams 13) (pairingCellParams 12) (pairingCellParams 9)
        (pairingCellParams 10) (fun _ => 0) (fun _ => 0) (fun _ => 0) (fun _ => 0)
        (pairingCellParams 22) (pairingCellParams 21) (pairingCellParams 19)
        (pairingCellParams 19) (fun _ => 0) (fun _ => 0) (fun _ => 0) (fun _ => 0)) := by
  unfold edgeElectricFieldZAt
  rw [if_pos (by decide)]
  rfl

/-- The corner speeds that `calculateEdgeElectricFieldZ` computes on cell
`13` of the periodic mesh with the data `pairingCellParams`. -/
theorem cornerSpeedsZ_torus :
    cornerSpeedsZ sampleExternals
      (pairingCellParams 13) (pairingCellParams 12) (pairingCellParams 9)
      (pairingCellParams 10) (fun _ => 0) (fun _ => 0) (fun _ => 0) (fun _ => 0)
      (pairingCellParams 22) (pairingCellParams 21) (pairingCellParams 19)
      (pairingCellParams 19) (fun _ => 0) (fun _ => 0) (fun _ => 0) (fun _ => 0)
      = [(0, 0, 0), (0, 0, 0), (0, 0, 1), (0, 0, 1)] := by
  simp [cornerSpeedsZ, calculateFastMSspeedXY, pairingCellParams, sampleExternals, HALF,
    TWELWTH, MINUS, PLUS]
  norm_num [rat_sqrt_one, rat_sqrt_zero]

/-- The corner speeds of the edge-`z` kernel on cell `13` of the periodic
mesh with the data `pairingCellParams` when every corner cell is paired with
its own `+z` neighbour, the `NE` corner cell `9` with cell `18`. -/
theorem cornerSpeedsZ_torus_paired :
    cornerSpeedsZ sampleExternals
      (pairingCellParams 13) (pairingCellParams 12) (pairingCellParams 9)
      (pairingCellParams 10) (fun _ => 0) (fun _ => 0) (fun _ => 0) (fun _ => 0)
      (pairingCellParams 22) (pairingCellParams 21) (pairingCellParams 19)
      (pairingCellParams 18) (fun _ => 0) (fun _ => 0) (fun _ => 0) (fun _ => 0)
      = [(0, 0, 0), (0, 0, 0), (0, 0, 1), (0, 0, 13)] := by
  simp [cornerSpeedsZ, calculateFastMSspeedXY, pairingCellParams, sampleExternals, HALF,
    TWELWTH, MINUS, PLUS]
  norm_num [rat_sqrt_one, rat_sqrt_zero, rat_sqrt_169]

/-- Claim C23 (the code departs from it). The periodic mesh of 3 x 3 x 3
cells with unit density, plasma at rest, no derivatives, `BZ = 1` on the cells
`9`, `10`, `19` and `BZ = 22` on cell `18`. For `calculateEdgeElectricFieldZ`
on cell `13` the `NE` corner is cell `9` and its `+z` neighbour is cell `18`,
while cell `19` is the `+z` neighbour of the `NW` corner, cell `10`. With
every corner paired with its own `+z` neighbour the corner speeds are `0`, `0`,
`1`, `13`. The function computes the corner speeds `0`, `0`, `1`, `1`, the
`NE` one from the arrays of cell `19`, and returns with all four
characteristic speeds equal to `1`. -/
theorem C23_edge_Z_north_east_pairing :
    ((torusGrid pairingCellParams (fun _ _ => 0)).getNeighbour 13
        (calcNbrTypeID (2 - 1) (2 - 1) 2) = 9 ∧
      (torusGrid pairingCellParams (fun _ _ => 0)).getNeighbour 13
        (calcNbrTypeID (2 - 1) (2 - 1) (2 + 1)) = 18 ∧
      (torusGrid pairingCellParams (fun _ _ => 0)).getNeighbour 9
        (calcNbrTypeID 2 2 (2 + 1)) = 18 ∧
      (torusGrid pairingCellParams (fun _ _ => 0)).getNeighbour 13
        (calcNbrTypeID 2 (2 - 1) 2) = 10 ∧
      (torusGrid pairingCellParams (fun _ _ => 0)).getNeighbour 13
        (calcNbrTypeID 2 (2 - 1) (2 + 1)) = 19) ∧
    cornerSpeedsZ sampleExternals
      (pairingCellParams 13) (pairingCellParams 12) (pairingCellParams 9)
      (pairingCellParams 10) (fun _ => 0) (fun _ => 0) (fun _ => 0) (fun _ => 0)
      (pairingCellParams 22) (pairingCellParams 21) (pairingCellParams 19)
      (pairingCellParams 18) (fun _ => 0) (fun _ => 0) (fun _ => 0) (fun _ => 0)
      = [(0, 0, 0), (0, 0, 0), (0, 0, 1), (0, 0, 13)] ∧
    maxNegSpeed [((0 : ℚ), (0 : ℚ)), (0, 0), (0, 1), (0, 13)] = 13 ∧
    ∃ L, edgeElectricFieldZAt sampleExternals 13
        (torusGrid pairingCellParams (fun _ _ => 0)) = some L ∧
      L = edgeElectricFieldZ sampleExternals
        (pairingCellParams 13) (pairingCellParams 12) (pairingCellParams 9)
        (pairingCellParams 10) (fun _ => 0) (fun _ => 0) (fun _ => 0) (fun _ => 0)
        (pairingCellParams 22) (pairingCellParams 21) (pairingCellParams 19)
        (pairingCellParams 19) (fun _ => 0) (fun _ => 0) (fun _ => 0) (fun _ => 0) ∧
      L.ax_neg = 1 ∧ L.ay_neg = 1 ∧ L.ax_pos = 1 ∧ L.ay_pos = 1 := by
  refine ⟨by decide, cornerSpeedsZ_torus_paired, ?_, _, edgeElectricFieldZAt_torus, rfl,
    ?_, ?_, ?_, ?_⟩
  · norm_num [maxNegSpeed, max_def]
  · rw [(edgeElectricFieldZ_speeds _ _ _ _ _ _ _ _ _ _ _ _ _ _ _ _ _).1, cornerSpeedsZ_torus]
    norm_num [maxNegSpeed, max_def]
  · rw [(edgeElectricFieldZ_speeds _ _ _ _ _ _ _ _ _ _ _ _ _ _ _ _ _).2.2.1, cornerSpeedsZ_torus]
    norm_num [maxNegSpeed, max_def]
  · rw [(edgeElectricFieldZ_speeds _ _ _ _ _ _ _ _ _ _ _ _ _ _ _ _ _).2.1, cornerSpeedsZ_torus]
    norm_num [maxPosSpeed, max_def]
  · rw [(edgeElectricFieldZ_speeds _ _ _ _ _ _ _ _ _ _ _ _ _ _ _ _ _).2.2.2, cornerSpeedsZ_torus]
    norm_num [maxPosSpeed, max_def]

end Vlasiator

namespace Vlasiator

open CellParams fieldsolver

/-! ## What the capability tests of the edge stage guarantee -/

section EdgeMasks

variable {K : Type} [LinearOrderedField K]

/-- `calculateEdgeElectricFieldX` stops on a cell one of whose surrounding
cells is missing. -/
theorem calculateEdgeElectricFieldX_none (X : Externals K) (c : CellID) (g : ParGrid K)
    (h : ¬EdgeXReady g c) : calculateEdgeElectricFieldX X c g = none := by
  have hAt : edgeElectricFieldXAt X c g = none := by
    unfold edgeElectricFieldXAt
    exact if_neg h
  unfold calculateEdgeElectricFieldX
  rw [hAt]
  rfl

/-- `calculateEdgeElectricFieldY` stops on a cell one of whose surrounding
cells is missing. -/
theorem calculateEdgeElectricFieldY_none (X : Externals K) (c : CellID) (g : ParGrid K)
    (h : ¬EdgeYReady g c) : calculateEdgeElectricFieldY X c g = none := by
  have hAt : edgeElectricFieldYAt X c g = none := by
    unfold edgeElectricFieldYAt
    exact if_neg h
  unfold calculateEdgeElectricFieldY
  rw [hAt]
  rfl

/-- `calculateEdgeElectricFieldZ` stops on a cell one of whose dereferenced
surrounding cells is missing. -/
theorem calculateEdgeElectricFieldZ_none (X : Externals K) (c : CellID) (g : ParGrid K)
    (h : ¬EdgeZReady g c) : calculateEdgeElectricFieldZ X c g = none := by
  have hAt : edgeElectricFieldZAt X c g = none := by
    unfold edgeElectricFieldZAt
    exact if_neg h
  unfold calculateEdgeElectricFieldZ
  rw [hAt]
  rfl

/-- `calculateEdgeElectricFieldX` has a result exactly on a cell whose
surroundings are cells. -/
theorem calculateEdgeElectricFieldX_isSome (X : Externals K) (c : CellID) (g : ParGrid K) :
    (calculateEdgeElectricFieldX X c g).isSome = true ↔ EdgeXReady g c := by
  constructor
  · intro h
    by_contra hn
    rw [calculateEdgeElectricFieldX_none X c g hn] at h
    exact absurd h (by simp)
  · intro h
    obtain ⟨L, -, hr⟩ := calculateEdgeElectricFieldX_run X c g h
    rw [hr]
    rfl

/-- `calculateEdgeElectricFieldY` has a result exactly on a cell whose
surroundings are cells. -/
theorem calculateEdgeElectricFieldY_isSome (X : Externals K) (c : CellID) (g : ParGrid K) :
    (calculateEdgeElectricFieldY X c g).isSome = true ↔ EdgeYReady g c := by
  constructor
  · intro h
    by_contra hn
    rw [calculateEdgeElectricFieldY_none X c g hn] at h
    exact absurd h (by simp)
  · intro h
    obtain ⟨L, -, hr⟩ := calculateEdgeElectricFieldY_run X c g h
    rw [hr]
    rfl

/-- `calculateEdgeElectricFieldZ` has a result exactly on a cell whose
dereferenced surroundings are cells. -/
theorem calculateEdgeElectricFieldZ_isSome (X : Externals K) (c : CellID) (g : ParGrid K) :
    (calculateEdgeElectricFieldZ X c g).isSome = true ↔ EdgeZReady g c := by
  constructor
  · intro h
    by_contra hn
    rw [calculateEdgeElectricFieldZ_none X c g hn] at h
    exact absurd h (by simp)
  · intro h
    obtain ⟨L, -, hr⟩ := calculateEdgeElectricFieldZ_run X c g h
    rw [hr]
    rfl

/-- Claim C24 (amended). With the masks assigned by `initializeFieldPropagator`
a flag word passes the test of an edge kernel exactly when it has the bits of
four face neighbours: `-z`, `-y`, `-x` and `+x` for `CALCULATE_EX`, `-z`, `-y`,
`-x` and `+y` for `CALCULATE_EY`, `-z`, `-y`, `-x` and `+z` for `CALCULATE_EZ`.
For the flag word computed by `calculateBoundaryFlags` this means that these
four face neighbours exist. The tests say nothing about the edge and corner
neighbours that the kernels read: a kernel has a result exactly when the cell
and every neighbour it dereferences exist, and stops otherwise. -/
theorem C24_edge_masks_cover_faces (X : Externals K) (old : Masks) (g : ParGrid K)
    (c : CellID) :
    (∀ e : Nat,
      (passes e (initializeFieldPropagator_masks old).CALCULATE_EX ↔
        e.testBit (calcNbrNumber 1 1 0) = true ∧ e.testBit (calcNbrNumber 1 0 1) = true ∧
        e.testBit (calcNbrNumber 0 1 1) = true ∧ e.testBit (calcNbrNumber 2 1 1) = true) ∧
      (passes e (initializeFieldPropagator_masks old).CALCULATE_EY ↔
        e.testBit (calcNbrNumber 1 1 0) = true ∧ e.testBit (calcNbrNumber 1 0 1) = true ∧
        e.testBit (calcNbrNumber 0 1 1) = true ∧ e.testBit (calcNbrNumber 1 2 1) = true) ∧
      (passes e (initializeFieldPropagator_masks old).CALCULATE_EZ ↔
        e.testBit (calcNbrNumber 1 1 0) = true ∧ e.testBit (calcNbrNumber 1 0 1) = true ∧
        e.testBit (calcNbrNumber 0 1 1) = true ∧ e.testBit (calcNbrNumber 1 1 2) = true)) ∧
    (passes (boundaryFlagOf g c) (initializeFieldPropagator_masks old).CALCULATE_EX ↔
      g.getNeighbour c (calcNbrTypeID 2 2 (2 - 1)) ≠ INVALID_CELLID ∧
      g.getNeighbour c (calcNbrTypeID 2 (2 - 1) 2) ≠ INVALID_CELLID ∧
      g.getNeighbour c (calcNbrTypeID (2 - 1) 2 2) ≠ INVALID_CELLID ∧
      g.getNeighbour c (calcNbrTypeID (2 + 1) 2 2) ≠ INVALID_CELLID) ∧
    (passes (boundaryFlagOf g c) (initializeFieldPropagator_masks old).CALCULATE_EY ↔
      g.getNeighbour c (calcNbrTypeID 2 2 (2 - 1)) ≠ INVALID_CELLID ∧
      g.getNeighbour c (calcNbrTypeID 2 (2 - 1) 2) ≠ INVALID_CELLID ∧
      g.getNeighbour c (calcNbrTypeID (2 - 1) 2 2) ≠ INVALID_CELLID ∧
      g.getNeighbour c (calcNbrTypeID 2 (2 + 1) 2) ≠ INVALID_CELLID) ∧
    (passes (boundaryFlagOf g c) (initializeFieldPropagator_masks old).CALCULATE_EZ ↔
      g.getNeighbour c (calcNbrTypeID 2 2 (2 - 1)) ≠ INVALID_CELLID ∧
      g.getNeighbour c (calcNbrTypeID 2 (2 - 1) 2) ≠ INVALID_CELLID ∧
      g.getNeighbour c (calcNbrTypeID (2 - 1) 2 2) ≠ INVALID_CELLID ∧
      g.getNeighbour c (calcNbrTypeID 2 2 (2 + 1)) ≠ INVALID_CELLID) ∧
    ((calculateEdgeElectricFieldX X c g).isSome = true ↔ EdgeXReady g c) ∧
    ((calculateEdgeElectricFieldY X c g).isSome = true ↔ EdgeYReady g c) ∧
    ((calculateEdgeElectricFieldZ X c g).isSome = true ↔ EdgeZReady g c) := by
  have bits : ∀ e : Nat,
      (passes e (initializeFieldPropagator_masks old).CALCULATE_EX ↔
        e.testBit 4 = true ∧ e.testBit 10 = true ∧ e.testBit 12 = true ∧
        e.testBit 14 = true) ∧
      (passes e (initializeFieldPropagator_masks old).CALCULATE_EY ↔
        e.testBit 4 = true ∧ e.testBit 10 = true ∧ e.testBit 12 = true ∧
        e.testBit 16 = true) ∧
      (passes e (initializeFieldPropagator_masks old).CALCULATE_EZ ↔
        e.testBit 4 = true ∧ e.testBit 10 = true ∧ e.testBit 12 = true ∧
        e.testBit 22 = true) := by
    intro e
    refine ⟨?_, ?_, ?_⟩
    · rw [passes_iff_of_bits _ _ (fun b => (edge_mask_bits old b).1)]
      simp
    · rw [passes_iff_of_bits _ _ (fun b => (edge_mask_bits old b).2.1)]
      simp
    · rw [passes_iff_of_bits _ _ (fun b => (edge_mask_bits old b).2.2)]
      simp
  obtain ⟨f12, f14, f10, f16, f4, f22⟩ := boundaryFlagOf_face_bits g c
  refine ⟨bits, ?_, ?_, ?_, calculateEdgeElectricFieldX_isSome X c g,
    calculateEdgeElectricFieldY_isSome X c g, calculateEdgeElectricFieldZ_isSome X c g⟩
  · rw [(bits _).1, f4, f10, f12, f14]
  · rw [(bits _).2.1, f4, f10, f12, f16]
  · rw [(bits _).2.2, f4, f10, f12, f22]

end EdgeMasks

/-- Claim C24 (as stated, refuted). On the mesh of three cells around a
missing corner cell, cell `0` has its `-y` and `-z` neighbours and, the mesh
being periodic in x, its `-x` and `+x` neighbours, so the flag word computed
by `calculateBoundaryFlags` passes the test `CALCULATE_EX`. The neighbour at
`(0,-1,-1)`, which `calculateEdgeElectricFieldX` dereferences, does not exist
and its bit is not set in the flag word; the kernel stops on this cell. -/
theorem C24_counterexample :
    passes (boundaryFlagOf (notchGrid staleEdgeCellParams (fun _ _ => 0)) 0)
      (initializeFieldPropagator_masks ⟨0, 0, 0, 0, 0, 0, 0, 0, 0⟩).CALCULATE_EX ∧
    (boundaryFlagOf (notchGrid staleEdgeCellParams (fun _ _ => 0)) 0).testBit
      (calcNbrNumber 1 0 0) = false ∧
    (notchGrid staleEdgeCellParams (fun _ _ => 0)).getNeighbour 0
      (calcNbrTypeID 2 (2 - 1) (2 - 1)) = INVALID_CELLID ∧
    calculateEdgeElectricFieldX sampleExternals 0
      (notchGrid staleEdgeCellParams (fun _ _ => 0)) = none ∧
    ¬(∀ e : Nat, passes e (initializeFieldPropagator_masks ⟨0, 0, 0, 0, 0, 0, 0, 0, 0⟩).CALCULATE_EX →
      e.testBit (calcNbrNumber 1 0 0) = true) := by
  refine ⟨by decide, by decide, by decide, ?_, ?_⟩
  · exact calculateEdgeElectricFieldX_none _ _ _ (by decide)
  · intro h
    exact absurd (h (boundaryFlagOf (notchGrid staleEdgeCellParams (fun _ _ => 0)) 0)
      (by decide)) (by decide)

end Vlasiator

namespace Vlasiator

open CellParams fieldsolver

/-! ## The footprints of the first and of the rebuilt third stencil -/

section Lookups

variable {K : Type} [LinearOrderedField K]

/-- The arithmetic and the lookups of `calculateEdgeElectricFieldX` depend on
the neighbour lookup of the mesh only at the ids of `edgeXLookups`. -/
theorem edgeElectricFieldXAt_lookups (X : Externals K) (c : CellID) (g h : ParGrid K)
    (hcp : h.cpu_cellParams = g.cpu_cellParams) (hd : h.cpu_derivatives = g.cpu_derivatives)
    (hn : ∀ t ∈ edgeXLookups, h.getNeighbour c t = g.getNeighbour c t) :
    edgeElectricFieldXAt X c h = edgeElectricFieldXAt X c g := by
  have h1 := hn (calcNbrTypeID 2 (2 - 1) 2) (by decide)
  have h2 := hn (calcNbrTypeID 2 (2 - 1) (2 - 1)) (by decide)
  have h3 := hn (calcNbrTypeID 2 2 (2 - 1)) (by decide)
  have h4 := hn (calcNbrTypeID (2 + 1) 2 2) (by decide)
  have h5 := hn (calcNbrTypeID (2 + 1) (2 - 1) 2) (by decide)
  have h6 := hn (calcNbrTypeID (2 + 1) 2 (2 - 1)) (by decide)
  have h7 := hn (calcNbrTypeID (2 + 1) (2 - 1) (2 - 1)) (by decide)
  unfold edgeElectricFieldXAt
  simp only [h1, h2, h3, h4, h5, h6, h7, hcp, hd]

/-- The arithmetic and the lookups of `calculateEdgeElectricFieldY` depend on
the neighbour lookup of the mesh only at the ids of `edgeYLookups`. -/
theorem edgeElectricFieldYAt_lookups (X : Externals K) (c : CellID) (g h : ParGrid K)
    (hcp : h.cpu_cellParams = g.cpu_cellParams) (hd : h.cpu_derivatives = g.cpu_derivatives)
    (hn : ∀ t ∈ edgeYLookups, h.getNeighbour c t = g.getNeighbour c t) :
    edgeElectricFieldYAt X c h = edgeElectricFieldYAt X c g := by
  have h1 := hn (calcNbrTypeID 2 2 (2 - 1)) (by decide)
  have h2 := hn (calcNbrTypeID (2 - 1) 2 2) (by decide)
  have h3 := hn (calcNbrTypeID (2 - 1) 2 (2 - 1)) (by decide)
  have h4 := hn (calcNbrTypeID 2 (2 + 1) 2) (by decide)
  have h5 := hn (calcNbrTypeID 2 (2 + 1) (2 - 1)) (by decide)
  have h6 := hn (calcNbrTypeID (2 - 1) (2 + 1) 2) (by decide)
  have h7 := hn (calcNbrTypeID (2 - 1) (2 + 1) (2 - 1)) (by decide)
  unfold edgeElectricFieldYAt
  simp only [h1, h2, h3, h4, h5, h6, h7, hcp, hd]

/-- The arithmetic and the lookups of `calculateEdgeElectricFieldZ` depend on
the neighbour lookup of the mesh only at the ids of `edgeZLookups`. -/
theorem edgeElectricFieldZAt_lookups (X : Externals K) (c : CellID) (g h : ParGrid K)
    (hcp : h.cpu_cellParams = g.cpu_cellParams) (hd : h.cpu_derivatives = g.cpu_derivatives)
    (hn : ∀ t ∈ edgeZLookups, h.getNeighbour c t = g.getNeighbour c t) :
    edgeElectricFieldZAt X c h = edgeElectricFieldZAt X c g := by
  have h1 := hn (calcNbrTypeID (2 - 1) 2 2) (by decide)
  have h2 := hn (calcNbrTypeID (2 - 1) (2 - 1) 2) (by decide)
  have h3 := hn (calcNbrTypeID 2 (2 - 1) 2) (by decide)
  have h4 := hn (calcNbrTypeID 2 2 (2 + 1)) (by decide)
  have h5 := hn (calcNbrTypeID (2 - 1) 2 (2 + 1)) (by decide)
  have h6 := hn (calcNbrTypeID 2 (2 - 1) (2 + 1)) (by decide)
  unfold edgeElectricFieldZAt
  simp only [h1, h2, h3, h4, h5, h6, hcp, hd]

/-- The neighbours whose existence `calculateDerivatives` needs behind its
three tests are those with the ids of `derivativesLookups`. -/
theorem DerivativesReady_of_lookups (G : Globals) (g : ParGrid K) (c : CellID)
    (hc : c ≠ INVALID_CELLID) (hf : (G.boundaryFlags c).isSome = true)
    (hn : ∀ t ∈ derivativesLookups, g.getNeighbour c t ≠ INVALID_CELLID) :
    DerivativesReady G g c :=
  ⟨hc, hf, fun _ _ =>
    ⟨fun _ => ⟨hn _ (by decide), hn _ (by decide)⟩,
     fun _ => ⟨hn _ (by decide), hn _ (by decide)⟩,
     fun _ => ⟨hn _ (by decide), hn _ (by decide)⟩⟩⟩

/-- When `Parameters::recalculateStencils` is set, the stencil rebuild of
`propagateFields` leaves in `stencil3` what `calculateTransferStencil2` makes
of it. -/
theorem recalculateStencils_stencil3 (G : Globals) (g : ParGrid K) (cells : List CellID)
    (h : G.recalculateStencils = true) :
    (recalculateStencils G g cells).stencil3 = calculateTransferStencil2 g cells G.stencil3 := by
  unfold recalculateStencils
  rw [if_pos h]

/-- The file-level state that `initializeFieldPropagator` returns holds in
`stencil3` what `calculateTransferStencil3` makes of it. -/
theorem initializeFieldPropagator_stencil3 (X : Externals K) (G : Globals) (g : ParGrid K)
    (r : Globals × ParGrid K) (h : initializeFieldPropagator X G g = some r) :
    r.1.stencil3 = calculateTransferStencil3 g g.getCells G.stencil3 := by
  unfold initializeFieldPropagator at h
  simp only [Option.bind_eq_bind, Option.pure_def] at h
  obtain ⟨g1, -, h⟩ := Option.bind_eq_some.mp h
  obtain ⟨st, -, h⟩ := Option.bind_eq_some.mp h
  obtain ⟨g2, -, h⟩ := Option.bind_eq_some.mp h
  rw [← Option.some.inj h]

end Lookups

/-- The receive list of `calculateTransferStencil1` holds eighteen distinct
neighbour type ids. An id is among them exactly when it is in one of the
lists `derivativesLookups`, `edgeXLookups`, `edgeYLookups`, `edgeZLookups`,
and exactly when it is the id of one of the eighteen offsets that the
specification lists: the six face offsets and twelve further ones. The listed
offsets are distinct neighbour offsets. -/
theorem stencil1Receives_lookups :
    stencil1Receives.length = 18 ∧ stencil1Receives.Nodup ∧
    (∀ t, t ∈ stencil1Receives ↔
      t ∈ derivativesLookups ++ edgeXLookups ++ edgeYLookups ++ edgeZLookups) ∧
    (∀ t, t ∈ stencil1Receives ↔ t ∈ listedStencil1Offsets.map nbrTypeIDOf) ∧
    listedStencil1Offsets.length = 18 ∧ listedStencil1Offsets.Nodup ∧
    (∀ o ∈ listedStencil1Offsets, o ∈ neighbourOffsets) ∧
    (∀ o ∈ listedStencil1Offsets, isFaceOffset o = true ↔
      o ∈ [(-1, 0, 0), (1, 0, 0), (0, -1, 0), (0, 1, 0), (0, 0, -1), (0, 0, 1)]) := by
  have a1 : ∀ t ∈ stencil1Receives,
      t ∈ derivativesLookups ++ edgeXLookups ++ edgeYLookups ++ edgeZLookups := by decide
  have a2 : ∀ t ∈ derivativesLookups ++ edgeXLookups ++ edgeYLookups ++ edgeZLookups,
      t ∈ stencil1Receives := by decide
  have b1 : ∀ t ∈ stencil1Receives, t ∈ listedStencil1Offsets.map nbrTypeIDOf := by decide
  have b2 : ∀ t ∈ listedStencil1Offsets.map nbrTypeIDOf, t ∈ stencil1Receives := by decide
  refine ⟨by decide, by decide, fun t => ⟨a1 t, a2 t⟩, fun t => ⟨b1 t, b2 t⟩, by decide,
    by decide, by decide, by decide⟩

/-- Claim C27 (the code departs from it). A row of three cells, cell `0` held
by another process, cells `1` and `2` by this one, `recalculateStencils` set.
After the stencil rebuild of `propagateFields` the receive list of `stencil3`
is the six-id list of `calculateTransferStencil2`, not the 26-id list that
`calculateTransferStencil3` registers. The id of the `-x` neighbour, which
`calculateDerivatives` looks up, is not in it, and cell `1`, whose `-x`
neighbour is the remote cell `0`, is an inner cell of the rebuilt stencil
while `calculateTransferStencil3` makes it a boundary cell. -/
theorem C27_rebuilt_stencil3_footprint :
    (recalculateStencils { rowGlobals 3 with recalculateStencils := true } leftSplitRowGrid
      leftSplitRowGrid.getCells).stencil3.recvNbrTypeIDs = stencil2Receives ∧
    stencil2Receives.length = 6 ∧
    (calculateTransferStencil3 leftSplitRowGrid leftSplitRowGrid.getCells
      (rowGlobals 3).stencil3).recvNbrTypeIDs = stencil3NbrIDs ∧
    stencil3NbrIDs.length = 26 ∧
    calcNbrTypeID (2 - 1) 2 2 ∈ derivativesLookups ∧
    calcNbrTypeID (2 - 1) 2 2 ∈ stencil3NbrIDs ∧
    calcNbrTypeID (2 - 1) 2 2 ∉ (recalculateStencils
      { rowGlobals 3 with recalculateStencils := true } leftSplitRowGrid
      leftSplitRowGrid.getCells).stencil3.recvNbrTypeIDs ∧
    leftSplitRowGrid.getNeighbour 1 (calcNbrTypeID (2 - 1) 2 2) = 0 ∧
    leftSplitRowGrid.isRemote 0 = true ∧
    (1 : CellID) ∈ (recalculateStencils { rowGlobals 3 with recalculateStencils := true }
      leftSplitRowGrid leftSplitRowGrid.getCells).stencil3.innerCells ∧
    (1 : CellID) ∈ (calculateTransferStencil3 leftSplitRowGrid leftSplitRowGrid.getCells
      (rowGlobals 3).stencil3).boundaryCells := by
  refine ⟨rfl, rfl, rfl, rfl, ?_, ?_, ?_, ?_, ?_, ?_, ?_⟩ <;> decide

end Vlasiator

namespace Vlasiator

open CellParams fieldsolver

/-! ## The edge stage on a cell whose capability test fails -/

section EdgeSkip

variable {K : Type} [LinearOrderedField K]

/-- A result of `calculateEdgeElectricFieldX` differs from the incoming mesh
at most in the slot `EX` of the cell. -/
theorem calculateEdgeElectricFieldX_frame (X : Externals K) (c : CellID) (g g1 : ParGrid K)
    (h : calculateEdgeElectricFieldX X c g = some g1) (c1 : CellID) (p : CellParams)
    (hp : c1 ≠ c ∨ p ≠ EX) : g1.cpu_cellParams c1 p = g.cpu_cellParams c1 p := by
  unfold calculateEdgeElectricFieldX at h
  obtain ⟨L, -, h2⟩ := Option.bind_eq_some.mp h
  rw [← Option.some.inj h2, setCellParam_apply, if_neg]
  rintro ⟨rfl, rfl⟩
  rcases hp with hp | hp <;> exact hp rfl

/-- A result of `calculateEdgeElectricFieldY` differs from the incoming mesh
at most in the slot `EY` of the cell. -/
theorem calculateEdgeElectricFieldY_frame (X : Externals K) (c : CellID) (g g1 : ParGrid K)
    (h : calculateEdgeElectricFieldY X c g = some g1) (c1 : CellID) (p : CellParams)
    (hp : c1 ≠ c ∨ p ≠ EY) : g1.cpu_cellParams c1 p = g.cpu_cellParams c1 p := by
  unfold calculateEdgeElectricFieldY at h
  obtain ⟨L, -, h2⟩ := Option.bind_eq_some.mp h
  rw [← Option.some.inj h2, setCellParam_apply, if_neg]
  rintro ⟨rfl, rfl⟩
  rcases hp with hp | hp <;> exact hp rfl

/-- A result of `calculateEdgeElectricFieldZ` differs from the incoming mesh
at most in the slot `EZ` of the cell. -/
theorem calculateEdgeElectricFieldZ_frame (X : Externals K) (c : CellID) (g g1 : ParGrid K)
    (h : calculateEdgeElectricFieldZ X c g = some g1) (c1 : CellID) (p : CellParams)
    (hp : c1 ≠ c ∨ p ≠ EZ) : g1.cpu_cellParams c1 p = g.cpu_cellParams c1 p := by
  unfold calculateEdgeElectricFieldZ at h
  obtain ⟨L, -, h2⟩ := Option.bind_eq_some.mp h
  rw [← Option.some.inj h2, setCellParam_apply, if_neg]
  rintro ⟨rfl, rfl⟩
  rcases hp with hp | hp <;> exact hp rfl

/-- One guarded kernel call of the edge stage that returned: outside the slot
of the kernel nothing changed, and when the test fails nothing changed at
all. -/
theorem edgeStep_keeps (c : CellID) (slot : CellParams) (run : ParGrid K → Option (ParGrid K))
    (t : Prop) [Decidable t] (g g1 : ParGrid K)
    (hrun : ∀ g2, run g = some g2 → ∀ c1 p, (c1 ≠ c ∨ p ≠ slot) →
      g2.cpu_cellParams c1 p = g.cpu_cellParams c1 p)
    (h : (if t then run g else pure g) = some g1) :
    (∀ c1 p, (c1 ≠ c ∨ p ≠ slot) → g1.cpu_cellParams c1 p = g.cpu_cellParams c1 p) ∧
    (¬t → g1 = g) := by
  by_cases ht : t
  · rw [if_pos ht] at h
    exact ⟨hrun g1 h, fun hn => absurd ht hn⟩
  · rw [if_neg ht] at h
    have e : g = g1 := Option.some.inj h
    subst e
    exact ⟨fun _ _ _ => rfl, fun _ => rfl⟩

/-- The body of a cell loop of the edge stage, written as a chain of its
three guarded kernel calls. -/
theorem upwindedElectricFieldCell_eq (X : Externals K) (masks : Masks) (c : CellID)
    (st : (CellID → Option Nat) × ParGrid K) :
    upwindedElectricFieldCell X masks c st =
      ((if ((st.1 c).getD 0) &&& masks.CALCULATE_EX = masks.CALCULATE_EX
          then calculateEdgeElectricFieldX X c st.2 else pure st.2).bind fun g =>
        (if ((st.1 c).getD 0) &&& masks.CALCULATE_EY = masks.CALCULATE_EY
            then calculateEdgeElectricFieldY X c g else pure g).bind fun g =>
          (if ((st.1 c).getD 0) &&& masks.CALCULATE_EZ = masks.CALCULATE_EZ
              then calculateEdgeElectricFieldZ X c g else pure g).bind fun g =>
            some ((fun c1 => if c1 = c then some ((st.1 c).getD 0) else st.1 c1), g)) := by
  unfold upwindedElectricFieldCell
  by_cases t1 : ((st.1 c).getD 0) &&& masks.CALCULATE_EX = masks.CALCULATE_EX <;>
  by_cases t2 : ((st.1 c).getD 0) &&& masks.CALCULATE_EY = masks.CALCULATE_EY <;>
  by_cases t3 : ((st.1 c).getD 0) &&& masks.CALCULATE_EZ = masks.CALCULATE_EZ
  all_goals
    first
      | (simp only [if_pos t1, if_pos t2, if_pos t3]; rfl)
      | simp only [if_pos t1, if_pos t2, if_neg t3] <;> rfl
      | simp only [if_pos t1, if_neg t2, if_pos t3] <;> rfl
      | simp only [if_pos t1, if_neg t2, if_neg t3] <;> rfl
      | simp only [if_neg t1, if_pos t2, if_pos t3] <;> rfl
      | simp only [if_neg t1, if_pos t2, if_neg t3] <;> rfl
      | simp only [if_neg t1, if_neg t2, if_pos t3] <;> rfl
      | simp only [if_neg t1, if_neg t2, if_neg t3] <;> rfl

/-- The body of a cell loop of the edge stage, once it has returned: the flag
map gained at most the entry of the cell, the other cells are as they were,
and each of `EX`, `EY`, `EZ` of the cell whose capability test fails holds the
value it held before. -/
theorem upwindedElectricFieldCell_keeps (X : Externals K) (masks : Masks) (c : CellID)
    (st st1 : (CellID → Option Nat) × ParGrid K)
    (h : upwindedElectricFieldCell X masks c st = some st1) :
    st1.1 = (fun c1 => if c1 = c then some ((st.1 c).getD 0) else st.1 c1) ∧
    (∀ c1 p, c1 ≠ c → st1.2.cpu_cellParams c1 p = st.2.cpu_cellParams c1 p) ∧
    (¬passes ((st.1 c).getD 0) masks.CALCULATE_EX →
      st1.2.cpu_cellParams c EX = st.2.cpu_cellParams c EX) ∧
    (¬passes ((st.1 c).getD 0) masks.CALCULATE_EY →
      st1.2.cpu_cellParams c EY = st.2.cpu_cellParams c EY) ∧
    (¬passes ((st.1 c).getD 0) masks.CALCULATE_EZ →
      st1.2.cpu_cellParams c EZ = st.2.cpu_cellParams c EZ) := by
  rw [upwindedElectricFieldCell_eq] at h
  obtain ⟨g1, r1, h⟩ := Option.bind_eq_some.mp h
  obtain ⟨g2, r2, h⟩ := Option.bind_eq_some.mp h
  obtain ⟨g3, r3, h⟩ := Option.bind_eq_some.mp h
  have e := Option.some.inj h
  obtain ⟨f1, k1⟩ := edgeStep_keeps c EX (calculateEdgeElectricFieldX X c) _ st.2 g1
    (fun g2 hr => calculateEdgeElectricFieldX_frame X c st.2 g2 hr) r1
  obtain ⟨f2, k2⟩ := edgeStep_keeps c EY (calculateEdgeElectricFieldY X c) _ g1 g2
    (fun g3 hr => calculateEdgeElectricFieldY_frame X c g1 g3 hr) r2
  obtain ⟨f3, k3⟩ := edgeStep_keeps c EZ (calculateEdgeElectricFieldZ X c) _ g2 g3
    (fun g4 hr => calculateEdgeElectricFieldZ_frame X c g2 g4 hr) r3
  rw [← e]
  refine ⟨rfl, ?_, ?_, ?_, ?_⟩
  · intro c1 p hc1
    show g3.cpu_cellParams c1 p = st.2.cpu_cellParams c1 p
    rw [f3 c1 p (Or.inl hc1), f2 c1 p (Or.inl hc1), f1 c1 p (Or.inl hc1)]
  · intro t
    show g3.cpu_cellParams c EX = st.2.cpu_cellParams c EX
    rw [f3 c EX (Or.inr (by decide)), f2 c EX (Or.inr (by decide)), k1 t]
  · intro t
    show g3.cpu_cellParams c EY = st.2.cpu_cellParams c EY
    rw [f3 c EY (Or.inr (by decide)), k2 t, f1 c EY (Or.inr (by decide))]
  · intro t
    show g3.cpu_cellParams c EZ = st.2.cpu_cellParams c EZ
    rw [k3 t, f2 c EZ (Or.inr (by decide)), f1 c EZ (Or.inr (by decide))]

/-- A cell loop of the edge stage, once it has returned: each of `EX`, `EY`,
`EZ` of a cell whose capability test fails holds the value it held before the
loop. -/
theorem edgeLoop_keeps (X : Externals K) (G : Globals) (L : List CellID)
    (st st1 : (CellID → Option Nat) × ParGrid K)
    (hfl : ∀ c, (st.1 c).getD 0 = (G.boundaryFlags c).getD 0)
    (h : L.foldlM (fun st cellID => upwindedElectricFieldCell X G.masks cellID st) st
      = some st1) (c : CellID) :
    (¬passes ((G.boundaryFlags c).getD 0) G.masks.CALCULATE_EX →
      st1.2.cpu_cellParams c EX = st.2.cpu_cellParams c EX) ∧
    (¬passes ((G.boundaryFlags c).getD 0) G.masks.CALCULATE_EY →
      st1.2.cpu_cellParams c EY = st.2.cpu_cellParams c EY) ∧
    (¬passes ((G.boundaryFlags c).getD 0) G.masks.CALCULATE_EZ →
      st1.2.cpu_cellParams c EZ = st.2.cpu_cellParams c EZ) := by
  induction L generalizing st with
  | nil =>
    have e : st = st1 := Option.some.inj h
    subst e
    exact ⟨fun _ => rfl, fun _ => rfl, fun _ => rfl⟩
  | cons a L ih =>
    rw [List.foldlM_cons] at h
    obtain ⟨sa, ra, h⟩ := Option.bind_eq_some.mp h
    obtain ⟨fa, oa, kx, ky, kz⟩ := upwindedElectricFieldCell_keeps X G.masks a st sa ra
    have hfla : ∀ c, (sa.1 c).getD 0 = (G.boundaryFlags c).getD 0 := by
      intro c
      rw [fa]
      dsimp only
      by_cases hca : c = a
      · rw [if_pos hca, hca]; exact hfl a
      · rw [if_neg hca]; exact hfl c
    obtain ⟨ix, iy, iz⟩ := ih sa hfla h
    by_cases hca : c = a
    · subst hca
      rw [hfl c] at kx ky kz
      exact ⟨fun t => (ix t).trans (kx t), fun t => (iy t).trans (ky t),
        fun t => (iz t).trans (kz t)⟩
    · exact ⟨fun t => (ix t).trans (oa c EX hca), fun t => (iy t).trans (oa c EY hca),
        fun t => (iz t).trans (oa c EZ hca)⟩

/-- The edge stage, once it has returned: each of `EX`, `EY`, `EZ` of a cell
whose capability test fails holds the value it held before the stage. -/
theorem calculateUpwindedElectricFieldSimple_keeps (X : Externals K) (G : Globals)
    (g : ParGrid K) (localCells : List CellID) (st1 : (CellID → Option Nat) × ParGrid K)
    (h : calculateUpwindedElectricFieldSimple X G g localCells = some st1) (c : CellID) :
    (¬passes ((G.boundaryFlags c).getD 0) G.masks.CALCULATE_EX →
      st1.2.cpu_cellParams c EX = g.cpu_cellParams c EX) ∧
    (¬passes ((G.boundaryFlags c).getD 0) G.masks.CALCULATE_EY →
      st1.2.cpu_cellParams c EY = g.cpu_cellParams c EY) ∧
    (¬passes ((G.boundaryFlags c).getD 0) G.masks.CALCULATE_EZ →
      st1.2.cpu_cellParams c EZ = g.cpu_cellParams c EZ) := by
  have key : calculateUpwindedElectricFieldSimple X G g localCells =
      (G.stencil3.innerCells ++ G.stencil3.boundaryCells).foldlM
        (fun st cellID => upwindedElectricFieldCell X G.masks cellID st)
        (G.boundaryFlags, g) := by
    unfold calculateUpwindedElectricFieldSimple
    rw [List.foldlM_append]
  rw [key] at h
  exact edgeLoop_keeps X G _ (G.boundaryFlags, g) st1 (fun _ => rfl) h c

/-! ### The edge stage does not consult the boundary-condition functions -/

theorem calculateFastMSspeedYZ_externals (X Y : Externals K) (h1 : Y.sqrt = X.sqrt)
    (h2 : Y.MU_0 = X.MU_0) (h3 : Y.m = X.m) :
    calculateFastMSspeedYZ Y = calculateFastMSspeedYZ X := by
  funext cp derivs nbr_cp nbr_derivs a b c d e f y z
  unfold calculateFastMSspeedYZ
  rw [h1, h2, h3]

theorem calculateFastMSspeedXZ_externals (X Y : Externals K) (h1 : Y.sqrt = X.sqrt)
    (h2 : Y.MU_0 = X.MU_0) (h3 : Y.m = X.m) :
    calculateFastMSspeedXZ Y = calculateFastMSspeedXZ X := by
  funext cp derivs nbr_cp nbr_derivs a b c d e f y z
  unfold calculateFastMSspeedXZ
  rw [h1, h2, h3]

theorem calculateFastMSspeedXY_externals (X Y : Externals K) (h1 : Y.sqrt = X.sqrt)
    (h2 : Y.MU_0 = X.MU_0) (h3 : Y.m = X.m) :
    calculateFastMSspeedXY Y = calculateFastMSspeedXY X := by
  funext cp derivs nbr_cp nbr_derivs a b c d e f y z
  unfold calculateFastMSspeedXY
  rw [h1, h2, h3]

/-- The edge stage reads the external collaborators only through the square
root, the two constants and the order switch: two sets of collaborators that
agree in these give the same stage, whatever their boundary-condition
functions are. -/
theorem calculateUpwindedElectricFieldSimple_externals (X Y : Externals K)
    (h1 : Y.sqrt = X.sqrt) (h2 : Y.MU_0 = X.MU_0) (h3 : Y.m = X.m)
    (h4 : Y.FS_1ST_ORDER = X.FS_1ST_ORDER) :
    calculateUpwindedElectricFieldSimple Y = calculateUpwindedElectricFieldSimple X := by
  have ex : edgeElectricFieldX Y = edgeElectricFieldX X := by
    funext a1 a2 a3 a4 a5 a6 a7 a8 a9 a10 a11 a12 a13 a14 a15 a16
    unfold edgeElectricFieldX
    rw [calculateFastMSspeedYZ_externals X Y h1 h2 h3, h4]
  have ey : edgeElectricFieldY Y = edgeElectricFieldY X := by
    funext a1 a2 a3 a4 a5 a6 a7 a8 a9 a10 a11 a12 a13 a14 a15 a16
    unfold edgeElectricFieldY
    rw [calculateFastMSspeedXZ_externals X Y h1 h2 h3, h4]
  have ez : edgeElectricFieldZ Y = edgeElectricFieldZ X := by
    funext a1 a2 a3 a4 a5 a6 a7 a8 a9 a10 a11 a12 a13 a14 a15 a16
    unfold edgeElectricFieldZ
    rw [calculateFastMSspeedXY_externals X Y h1 h2 h3, h4]
  have cx : calculateEdgeElectricFieldX Y = calculateEdgeElectricFieldX X := by
    funext c g
    unfold calculateEdgeElectricFieldX edgeElectricFieldXAt
    rw [ex]
  have cy : calculateEdgeElectricFieldY Y = calculateEdgeElectricFieldY X := by
    funext c g
    unfold calculateEdgeElectricFieldY edgeElectricFieldYAt
    rw [ey]
  have cz : calculateEdgeElectricFieldZ Y = calculateEdgeElectricFieldZ X := by
    funext c g
    unfold calculateEdgeElectricFieldZ edgeElectricFieldZAt
    rw [ez]
  have cc : upwindedElectricFieldCell Y = upwindedElectricFieldCell X := by
    funext masks c st
    rw [upwindedElectricFieldCell_eq, upwindedElectricFieldCell_eq, cx, cy, cz]
  funext G g localCells
  unfold calculateUpwindedElectricFieldSimple
  rw [cc]

/-- Claim C28 (amended). On a mesh whose cells are ready the edge stage
returns, and for every cell each of `EX`, `EY`, `EZ` whose capability test
fails holds the value it held before the stage: the kernel is not run and
nothing else is put in its place. The stage does not consult the
boundary-condition functions: with any other set of external collaborators
that has the same square root, constants and order switch it returns the same
result. -/
theorem C28_failed_edge_test_keeps_value (X : Externals K) (G : Globals) (g : ParGrid K)
    (localCells : List CellID)
    (hready : ∀ c ∈ G.stencil3.innerCells ++ G.stencil3.boundaryCells, EdgeReady G g c) :
    ∃ st1, calculateUpwindedElectricFieldSimple X G g localCells = some st1 ∧
      (∀ c,
        (¬passes ((G.boundaryFlags c).getD 0) G.masks.CALCULATE_EX →
          st1.2.cpu_cellParams c EX = g.cpu_cellParams c EX) ∧
        (¬passes ((G.boundaryFlags c).getD 0) G.masks.CALCULATE_EY →
          st1.2.cpu_cellParams c EY = g.cpu_cellParams c EY) ∧
        (¬passes ((G.boundaryFlags c).getD 0) G.masks.CALCULATE_EZ →
          st1.2.cpu_cellParams c EZ = g.cpu_cellParams c EZ)) ∧
      (∀ Y : Externals K, Y.sqrt = X.sqrt → Y.MU_0 = X.MU_0 → Y.m = X.m →
        Y.FS_1ST_ORDER = X.FS_1ST_ORDER →
        calculateUpwindedElectricFieldSimple Y G g localCells = some st1) := by
  obtain ⟨st1, r, -⟩ := calculateUpwindedElectricFieldSimple_spec X G g localCells hready
  refine ⟨st1, r, calculateUpwindedElectricFieldSimple_keeps X G g localCells st1 r, ?_⟩
  intro Y h1 h2 h3 h4
  rw [calculateUpwindedElectricFieldSimple_externals X Y h1 h2 h3 h4]
  exact r

end EdgeSkip

/-- The column of four cells with the edge field `(5, 6, 7)` on every cell is
ready for the edge stage. -/
theorem column4_edge_ready :
    ∀ c ∈ (columnGlobals 4).stencil3.innerCells ++ (columnGlobals 4).stencil3.boundaryCells,
      EdgeReady (columnGlobals 4) (columnGrid 4 staleEdgeCellParams (fun _ _ => 0)) c := by
  decide

/-- Claim C28 (amended) at a concrete input: the column of four cells with
the edge field `(5, 6, 7)` on every cell. The lowest cell has no `-z`
neighbour and fails all three tests; its edge field is `(5, 6, 7)` after the
stage. -/
theorem C28_failed_edge_test_keeps_value_witness :
    (∀ c ∈ (columnGlobals 4).stencil3.innerCells ++ (columnGlobals 4).stencil3.boundaryCells,
      EdgeReady (columnGlobals 4) (columnGrid 4 staleEdgeCellParams (fun _ _ => 0)) c) ∧
    ∃ st1, calculateUpwindedElectricFieldSimple sampleExternals (columnGlobals 4)
        (columnGrid 4 staleEdgeCellParams (fun _ _ => 0)) (List.range 4) = some st1 ∧
      st1.2.cpu_cellParams 0 EX = 5 ∧ st1.2.cpu_cellParams 0 EY = 6 ∧
      st1.2.cpu_cellParams 0 EZ = 7 := by
  refine ⟨column4_edge_ready, ?_⟩
  obtain ⟨st1, r, k, -⟩ := C28_failed_edge_test_keeps_value sampleExternals (columnGlobals 4)
    (columnGrid 4 staleEdgeCellParams (fun _ _ => 0)) (List.range 4) column4_edge_ready
  exact ⟨st1, r, (k 0).1 (by decide), (k 0).2.1 (by decide), (k 0).2.2 (by decide)⟩

/-- Claim C28 (as stated, refuted). On the column of four cells with the edge
field `(5, 6, 7)` on every cell, the lowest cell fails the test
`CALCULATE_EX`. After the edge stage its `EX` is `5`, the value it held
before, and likewise `EY` is `6` and `EZ` is `7`. The same holds when the
magnetic-field boundary-condition functions of the external collaborators
return `9` instead of `1`, `0`, `0`: the stage returns the same result, so no
value of a collaborator reaches the edge field. -/
theorem C28_counterexample :
    ¬passes (((columnGlobals 4).boundaryFlags 0).getD 0) (columnGlobals 4).masks.CALCULATE_EX ∧
    (columnGrid 4 staleEdgeCellParams (fun _ _ => 0)).cpu_cellParams 0 EX = 5 ∧
    (∃ st1, calculateUpwindedElectricFieldSimple sampleExternals (columnGlobals 4)
        (columnGrid 4 staleEdgeCellParams (fun _ _ => 0)) (List.range 4) = some st1 ∧
      st1.2.cpu_cellParams 0 EX = 5 ∧ st1.2.cpu_cellParams 0 EY = 6 ∧
      st1.2.cpu_cellParams 0 EZ = 7 ∧
      calculateUpwindedElectricFieldSimple nineBoundaryExternals
        (columnGlobals 4) (columnGrid 4 staleEdgeCellParams (fun _ _ => 0)) (List.range 4)
        = some st1) := by
  refine ⟨by decide, rfl, ?_⟩
  obtain ⟨st1, r, -⟩ := calculateUpwindedElectricFieldSimple_spec sampleExternals
    (columnGlobals 4) (columnGrid 4 staleEdgeCellParams (fun _ _ => 0)) (List.range 4)
    column4_edge_ready
  have k := calculateUpwindedElectricFieldSimple_keeps sampleExternals (columnGlobals 4)
    (columnGrid 4 staleEdgeCellParams (fun _ _ => 0)) (List.range 4) st1 r 0
  refine ⟨st1, r, k.1 (by decide), k.2.1 (by decide), k.2.2 (by decide), ?_⟩
  rw [calculateUpwindedElectricFieldSimple_externals sampleExternals nineBoundaryExternals
    rfl rfl rfl rfl]
  exact r

end Vlasiator

namespace Vlasiator

open CellParams fieldsolver

/-! ## The normal component of the face-averaged magnetic field -/

section FaceB

variable {K : Type} [LinearOrderedField K]

/-- The first value returned by `averageFaceXMagnField` is `BX` of the cell
whose id it is given, whatever the side `I` and the coefficients are. -/
theorem averageFaceXMagnField_fst (n : CellID) (co : Rec → K) (h : ParGrid K) (I : Int) :
    (averageFaceXMagnField n co h I).1 =
      if n = INVALID_CELLID then 0 else h.cpu_cellParams n BX := by
  unfold averageFaceXMagnField
  split_ifs <;> rfl

/-- The second value returned by `averageFaceYMagnField` is `BY` of the cell
whose id it is given. -/
theorem averageFaceYMagnField_snd (n : CellID) (co : Rec → K) (h : ParGrid K) (J : Int) :
    (averageFaceYMagnField n co h J).2.1 =
      if n = INVALID_CELLID then 0 else h.cpu_cellParams n BY := by
  unfold averageFaceYMagnField
  split_ifs <;> rfl

/-- The third value returned by `averageFaceZMagnField` is `BZ` of the cell
whose id it is given. -/
theorem averageFaceZMagnField_trd (n : CellID) (co : Rec → K) (h : ParGrid K) (Kdir : Int) :
    (averageFaceZMagnField n co h Kdir).2.2 =
      if n = INVALID_CELLID then 0 else h.cpu_cellParams n BZ := by
  unfold averageFaceZMagnField
  split_ifs <;> rfl

/-- The body of the cell loop of `calculateFaceAveragedFields` on a ready
cell leaves in `BXFACEX` (`BYFACEY`, `BZFACEZ`) of the cell one half of the
sum of `BX` (`BY`, `BZ`) of the cell and of its `-x` (`-y`, `-z`) neighbour. -/
theorem faceAveragedFieldsCell_faceB (X : Externals K) (G : Globals) (c : CellID)
    (g : ParGrid K) (hready : FaceReady G g c) :
    ∃ g1, faceAveragedFieldsCell X G c g = some g1 ∧ FaceBHoldsCellMean g g1 c := by
  obtain ⟨g1, hrun, -⟩ := faceAveragedFieldsCell_spec X G c g hready
  refine ⟨g1, hrun, ?_⟩
  obtain ⟨hc, -, -, -⟩ := hready
  revert hrun
  unfold faceAveragedFieldsCell
  simp only [cellParamsAt_of_ne g hc, Option.bind_eq_bind, Option.some_bind]
  intro hrun
  obtain ⟨eX, -, hrun⟩ := Option.bind_eq_some.mp hrun
  obtain ⟨eY, -, hrun⟩ := Option.bind_eq_some.mp hrun
  obtain ⟨eZ, -, hrun⟩ := Option.bind_eq_some.mp hrun
  have hg1 := Option.some.inj hrun
  unfold FaceBHoldsCellMean
  rw [← hg1]
  simp only [averageFaceXMagnField_fst, averageFaceYMagnField_snd, averageFaceZMagnField_trd,
    faceBSlots, List.zip_cons_cons, List.zip_nil_right, List.foldl_cons, List.foldl_nil,
    setCellParam_apply, setTriple_apply, if_neg hc]
  simp

/-- The statement about the normal components reads the first mesh only
through its neighbour lookup and through `BX`, `BY`, `BZ`. -/
theorem FaceBHoldsCellMean_congr {g h k : ParGrid K} (hs : SameButFaceFields g h)
    {c : CellID} (hb : FaceBHoldsCellMean h k c) : FaceBHoldsCellMean g k c := by
  have bx : ∀ id, h.cpu_cellParams id BX = g.cpu_cellParams id BX :=
    fun id => hs.2.2.2.2 id BX (by decide)
  have by1 : ∀ id, h.cpu_cellParams id BY = g.cpu_cellParams id BY :=
    fun id => hs.2.2.2.2 id BY (by decide)
  have bz : ∀ id, h.cpu_cellParams id BZ = g.cpu_cellParams id BZ :=
    fun id => hs.2.2.2.2 id BZ (by decide)
  unfold FaceBHoldsCellMean at hb ⊢
  simp only [averageFaceXMagnField_fst, averageFaceYMagnField_snd, averageFaceZMagnField_trd,
    hs.1, bx, by1, bz] at hb ⊢
  exact hb

/-- A cell loop of `calculateFaceAveragedFields` over ready cells, started on
a mesh `h` that differs from `g` at most in face-averaged field slots: every
visited cell ends with one half of the sum of its own and of its neighbour's
normal component in `BXFACEX`, `BYFACEY`, `BZFACEZ`. -/
theorem faceLoop_faceB (X : Externals K) (G : Globals) (g : ParGrid K) (L : List CellID)
    (hready : ∀ c ∈ L, FaceReady G g c) (h : ParGrid K) (hs : SameButFaceFields g h) :
    ∃ h1, L.foldlM (fun m cellID => faceAveragedFieldsCell X G cellID m) h = some h1 ∧
      SameButFaceFields g h1 ∧
      (∀ c ∈ L, FaceBHoldsCellMean g h1 c) ∧
      (∀ c, c ∉ L → ∀ p, h1.cpu_cellParams c p = h.cpu_cellParams c p) := by
  induction L generalizing h with
  | nil => exact ⟨h, rfl, hs, fun _ hc => absurd hc (List.not_mem_nil _), fun _ _ _ => rfl⟩
  | cons a L ih =>
    have ra : FaceReady G h a := FaceReady_congr rfl hs.1 (hready a (List.mem_cons_self _ _))
    obtain ⟨h1, r1, s1, -, o1⟩ := faceAveragedFieldsCell_faceE X G a h ra
    obtain ⟨h2, r2, b2⟩ := faceAveragedFieldsCell_faceB X G a h ra
    have e12 : h2 = h1 := Option.some.inj (r2.symm.trans r1)
    subst e12
    have b1g : FaceBHoldsCellMean g h2 a := FaceBHoldsCellMean_congr hs b2
    obtain ⟨h3, r3, s3, v3, o3⟩ :=
      ih (fun c hc => hready c (List.mem_cons_of_mem _ hc)) h2 (SameButFaceFields_trans hs s1)
    refine ⟨h3, ?_, s3, ?_, ?_⟩
    · rw [List.foldlM_cons, r1]
      exact r3
    · intro c hc
      by_cases hL : c ∈ L
      · exact v3 c hL
      · have hca : c = a := by
          rcases List.mem_cons.mp hc with e | e
          · exact e
          · exact absurd e hL
        subst hca
        unfold FaceBHoldsCellMean at b1g ⊢
        rw [o3 c hL, o3 c hL, o3 c hL]
        exact b1g
    · intro c hc p
      have hL : c ∉ L := fun e => hc (List.mem_cons_of_mem _ e)
      have hca : c ≠ a := fun e => hc (e ▸ List.mem_cons_self _ _)
      rw [o3 c hL p, o1 c p hca]

/-- After `calculateFaceAveragedFields` on a mesh whose cells are all ready,
the slot `BXFACEX` (`BYFACEY`, `BZFACEZ`) of every local cell holds one half
of the sum of `BX` (`BY`, `BZ`) of the cell and of its `-x` (`-y`, `-z`)
neighbour, where a missing neighbour counts as zero. -/
theorem calculateFaceAveragedFields_faceB (X : Externals K) (G : Globals) (g : ParGrid K)
    (hready : ∀ c ∈ g.getCells, FaceReady G g c) :
    ∃ g1, calculateFaceAveragedFields X G g = some g1 ∧
      ∀ c ∈ g.getCells, FaceBHoldsCellMean g g1 c := by
  obtain ⟨g1, r, -, v, -⟩ := faceLoop_faceB X G g g.getCells hready g (SameButFaceFields_refl g)
  exact ⟨g1, r, v⟩

end FaceB

/-- The row of three cells with the linear data is ready for the
face-averaging stage. -/
theorem row3_face_ready :
    ∀ c ∈ (rowGrid 3 linearCellParams (fun _ _ => 0)).getCells,
      FaceReady (rowGlobals 3) (rowGrid 3 linearCellParams (fun _ _ => 0)) c := by
  decide

/-- Claim C29 (the code departs from it). A row of three cells along x with
`BX = 2 c` on cell `c`. Cell `1` has the `-x` neighbour `0`, and its
face-centred `BX` is `2`. After `calculateFaceAveragedFields` its slot
`BXFACEX` holds `1`, one half of the sum of `BX` of cell `1` and `BX` of
cell `0`. -/
theorem C29_face_B_normal_component :
    (rowGrid 3 linearCellParams (fun _ _ => 0)).getNeighbour 1 (calcNbrTypeID (2 - 1) 2 2) = 0 ∧
    (rowGrid 3 linearCellParams (fun _ _ => 0)).cpu_cellParams 1 BX = 2 ∧
    (rowGrid 3 linearCellParams (fun _ _ => 0)).cpu_cellParams 0 BX = 0 ∧
    ∃ g1, calculateFaceAveragedFields sampleExternals (rowGlobals 3)
        (rowGrid 3 linearCellParams (fun _ _ => 0)) = some g1 ∧
      g1.cpu_cellParams 1 BXFACEX = 1 := by
  refine ⟨by decide, by norm_num [rowGrid, linearCellParams],
    by norm_num [rowGrid, linearCellParams], ?_⟩
  obtain ⟨g1, r, v⟩ := calculateFaceAveragedFields_faceB sampleExternals (rowGlobals 3)
    (rowGrid 3 linearCellParams (fun _ _ => 0)) row3_face_ready
  refine ⟨g1, r, ?_⟩
  have h := (v 1 (by decide)).1
  rw [h, averageFaceXMagnField_fst]
  have e : (rowGrid 3 linearCellParams (fun _ _ => 0)).getNeighbour 1
      (calcNbrTypeID (2 - 1) 2 2) = 0 := by decide
  rw [e, if_neg (by decide)]
  norm_num [rowGrid, linearCellParams, HALF]

end Vlasiator

namespace Vlasiator

open CellParams fieldsolver

/-! ## The normal component of the z-face electric field average -/

section FaceZ

variable {K : Type} [LinearOrderedField K]

/-- When all required cells exist, the third value returned by
`averageFaceZElectricField` is one eighth of a sum of eight values of `EZ` in
which the cell `c-z` enters twice and the cell `c+y-z` not at all. -/
theorem averageFaceZElectricField_normal
    (c n_x n_y n_xy n_z n_xz n_yz n_xyz : CellID) (e : Nat) (g : ParGrid K)
    (hc : c ≠ INVALID_CELLID) (he : passes e (toUint
      (1 <<< calcNbrNumber 1 1 1 ||| 1 <<< calcNbrNumber 2 1 1 ||| 1 <<< calcNbrNumber 1 2 1
        ||| 1 <<< calcNbrNumber 2 2 1 ||| 1 <<< calcNbrNumber 1 1 0 ||| 1 <<< calcNbrNumber 2 1 0
        ||| 1 <<< calcNbrNumber 1 2 0 ||| 1 <<< calcNbrNumber 2 2 0)))
    (hn : n_x ≠ INVALID_CELLID ∧ n_y ≠ INVALID_CELLID ∧ n_xy ≠ INVALID_CELLID
      ∧ n_z ≠ INVALID_CELLID ∧ n_xz ≠ INVALID_CELLID ∧ n_xyz ≠ INVALID_CELLID) :
    ∃ r, averageFaceZElectricField c n_x n_y n_xy n_z n_xz n_yz n_xyz e g = some r ∧
      r.2.2 = EIGTH * (g.cpu_cellParams c EZ + g.cpu_cellParams n_x EZ
        + g.cpu_cellParams n_y EZ + g.cpu_cellParams n_xy EZ + g.cpu_cellParams n_z EZ
        + g.cpu_cellParams n_xz EZ + g.cpu_cellParams n_z EZ + g.cpu_cellParams n_xyz EZ) := by
  unfold averageFaceZElectricField
  unfold passes at he
  rw [if_neg hc]
  dsimp only
  rw [if_pos he, if_pos hn]
  exact ⟨_, rfl, rfl⟩

/-- When all required cells exist, the first value returned by
`averageFaceXElectricField` is one eighth of the sum of `EX` over the eight
cells passed to it, each entering once. -/
theorem averageFaceXElectricField_normal
    (c n1 n2 n3 n4 n5 n6 n7 : CellID) (e : Nat) (g : ParGrid K)
    (hc : c ≠ INVALID_CELLID) (he : passes e (toUint
      (1 <<< calcNbrNumber 1 1 1 ||| 1 <<< calcNbrNumber 1 2 1 ||| 1 <<< calcNbrNumber 1 1 2
        ||| 1 <<< calcNbrNumber 1 2 2 ||| 1 <<< calcNbrNumber 0 1 1 ||| 1 <<< calcNbrNumber 0 2 1
        ||| 1 <<< calcNbrNumber 0 1 2 ||| 1 <<< calcNbrNumber 0 2 2)))
    (hn : n1 ≠ INVALID_CELLID ∧ n2 ≠ INVALID_CELLID ∧ n3 ≠ INVALID_CELLID
      ∧ n4 ≠ INVALID_CELLID ∧ n5 ≠ INVALID_CELLID ∧ n6 ≠ INVALID_CELLID
      ∧ n7 ≠ INVALID_CELLID) :
    ∃ r, averageFaceXElectricField c n1 n2 n3 n4 n5 n6 n7 e g = some r ∧
      r.1 = EIGTH * (g.cpu_cellParams c EX + g.cpu_cellParams n1 EX
        + g.cpu_cellParams n2 EX + g.cpu_cellParams n3 EX + g.cpu_cellParams n4 EX
        + g.cpu_cellParams n5 EX + g.cpu_cellParams n6 EX + g.cpu_cellParams n7 EX) := by
  unfold averageFaceXElectricField
  unfold passes at he
  rw [if_neg hc]
  dsimp only
  rw [if_pos he, if_pos hn]
  exact ⟨_, rfl, rfl⟩

/-- When all required cells exist, the second value returned by
`averageFaceYElectricField` is one eighth of the sum of `EY` over the eight
cells passed to it, each entering once. -/
theorem averageFaceYElectricField_normal
    (c n1 n2 n3 n4 n5 n6 n7 : CellID) (e : Nat) (g : ParGrid K)
    (hc : c ≠ INVALID_CELLID) (he : passes e (toUint
      (1 <<< calcNbrNumber 1 1 1 ||| 1 <<< calcNbrNumber 2 1 1 ||| 1 <<< calcNbrNumber 1 1 2
        ||| 1 <<< calcNbrNumber 2 1 2 ||| 1 <<< calcNbrNumber 1 0 1 ||| 1 <<< calcNbrNumber 2 0 1
        ||| 1 <<< calcNbrNumber 1 0 2 ||| 1 <<< calcNbrNumber 2 0 2)))
    (hn : n1 ≠ INVALID_CELLID ∧ n2 ≠ INVALID_CELLID ∧ n3 ≠ INVALID_CELLID
      ∧ n4 ≠ INVALID_CELLID ∧ n5 ≠ INVALID_CELLID ∧ n6 ≠ INVALID_CELLID
      ∧ n7 ≠ INVALID_CELLID) :
    ∃ r, averageFaceYElectricField c n1 n2 n3 n4 n5 n6 n7 e g = some r ∧
      r.2.1 = EIGTH * (g.cpu_cellParams c EY + g.cpu_cellParams n1 EY
        + g.cpu_cellParams n2 EY + g.cpu_cellParams n3 EY + g.cpu_cellParams n4 EY
        + g.cpu_cellParams n5 EY + g.cpu_cellParams n6 EY + g.cpu_cellParams n7 EY) := by
  unfold averageFaceYElectricField
  unfold passes at he
  rw [if_neg hc]
  dsimp only
  rw [if_pos he, if_pos hn]
  exact ⟨_, rfl, rfl⟩

end FaceZ

/-- Claim C30 (the code departs from it). The periodic mesh of 3 x 3 x 3
cells with `EZ = 8` on cell `7` and `EZ = 0` elsewhere. For cell `13` the
eight cells `c`, `c+x`, `c+y`, `c+x+y`, `c-z`, `c+x-z`, `c+y-z`, `c+x+y-z` are
the distinct cells `13`, `14`, `16`, `17`, `4`, `5`, `7`, `8`, all present in
the flag word of the cell, and one eighth of the sum of `EZ` over them is `1`.
`averageFaceZElectricField`, called as `calculateFaceAveragedFields` calls it,
returns the normal component `0`. -/
theorem C30_face_Z_average_of_eight_cells :
    ([torusGetNeighbour 13 (calcNbrTypeID (2 + 1) 2 2),
      torusGetNeighbour 13 (calcNbrTypeID 2 (2 + 1) 2),
      torusGetNeighbour 13 (calcNbrTypeID (2 + 1) (2 + 1) 2),
      torusGetNeighbour 13 (calcNbrTypeID 2 2 (2 - 1)),
      torusGetNeighbour 13 (calcNbrTypeID (2 + 1) 2 (2 - 1)),
      torusGetNeighbour 13 (calcNbrTypeID 2 (2 + 1) (2 - 1)),
      torusGetNeighbour 13 (calcNbrTypeID (2 + 1) (2 + 1) (2 - 1))]
        = [14, 16, 17, 4, 5, 7, 8]) ∧
    boundaryFlagOf (torusGrid singleEZCellParams (fun _ _ => 0)) 13 = 134217727 ∧
    EIGTH * (singleEZCellParams 13 EZ + singleEZCellParams 14 EZ + singleEZCellParams 16 EZ
      + singleEZCellParams 17 EZ + singleEZCellParams 4 EZ + singleEZCellParams 5 EZ
      + singleEZCellParams 7 EZ + singleEZCellParams 8 EZ) = 1 ∧
    ∃ r, averageFaceZElectricField 13
        (torusGetNeighbour 13 (calcNbrTypeID (2 + 1) 2 2))
        (torusGetNeighbour 13 (calcNbrTypeID 2 (2 + 1) 2))
        (torusGetNeighbour 13 (calcNbrTypeID (2 + 1) (2 + 1) 2))
        (torusGetNeighbour 13 (calcNbrTypeID 2 2 (2 - 1)))
        (torusGetNeighbour 13 (calcNbrTypeID (2 + 1) 2 (2 - 1)))
        (torusGetNeighbour 13 (calcNbrTypeID 2 (2 + 1) (2 - 1)))
        (torusGetNeighbour 13 (calcNbrTypeID (2 + 1) (2 + 1) (2 - 1)))
        (boundaryFlagOf (torusGrid singleEZCellParams (fun _ _ => 0)) 13)
        (torusGrid singleEZCellParams (fun _ _ => 0)) = some r ∧
      r.2.2 = 0 := by
  refine ⟨by decide, by decide, ?_, ?_⟩
  · norm_num [singleEZCellParams, EIGTH]
  · obtain ⟨r, hr, hv⟩ := averageFaceZElectricField_normal 13
      (torusGetNeighbour 13 (calcNbrTypeID (2 + 1) 2 2))
      (torusGetNeighbour 13 (calcNbrTypeID 2 (2 + 1) 2))
      (torusGetNeighbour 13 (calcNbrTypeID (2 + 1) (2 + 1) 2))
      (torusGetNeighbour 13 (calcNbrTypeID 2 2 (2 - 1)))
      (torusGetNeighbour 13 (calcNbrTypeID (2 + 1) 2 (2 - 1)))
      (torusGetNeighbour 13 (calcNbrTypeID 2 (2 + 1) (2 - 1)))
      (torusGetNeighbour 13 (calcNbrTypeID (2 + 1) (2 + 1) (2 - 1)))
      (boundaryFlagOf (torusGrid singleEZCellParams (fun _ _ => 0)) 13)
      (torusGrid singleEZCellParams (fun _ _ => 0)) (by decide) (by decide) (by decide)
    refine ⟨r, hr, ?_⟩
    rw [hv]
    have e1 : torusGetNeighbour 13 (calcNbrTypeID (2 + 1) 2 2) = 14 := by decide
    have e2 : torusGetNeighbour 13 (calcNbrTypeID 2 (2 + 1) 2) = 16 := by decide
    have e3 : torusGetNeighbour 13 (calcNbrTypeID (2 + 1) (2 + 1) 2) = 17 := by decide
    have e4 : torusGetNeighbour 13 (calcNbrTypeID 2 2 (2 - 1)) = 4 := by decide
    have e5 : torusGetNeighbour 13 (calcNbrTypeID (2 + 1) 2 (2 - 1)) = 5 := by decide
    have e7 : torusGetNeighbour 13 (calcNbrTypeID (2 + 1) (2 + 1) (2 - 1)) = 8 := by decide
    rw [e1, e2, e3, e4, e5, e7]
    norm_num [torusGrid, singleEZCellParams, EIGTH]

end Vlasiator

namespace Vlasiator

open CellParams fieldsolver

/-! ## Reciprocity of the send and receive lists -/

section Reciprocal

variable {K : Type} [LinearOrderedField K]

/-- C35: each of `calculateTransferStencil1`, `calculateTransferStencil2` and
`calculateTransferStencil3` registers its receive list and its send list in
the stencil, and for every offset `(i, j, k)` of the iteration space `-1..1`
the neighbour type id of the offset is in the send list if and only if the id
of the reflected offset `(-i, -j, -k)` is in the receive list. -/
theorem C35_send_receive_reciprocal (mpiGrid : ParGrid K) (localCells : List CellID)
    (boundaryFlags : CellID → Option Nat) (stencil : TransferStencil) :
    ((calculateTransferStencil1 mpiGrid localCells boundaryFlags stencil).2.recvNbrTypeIDs
        = stencil1Receives ∧
      (calculateTransferStencil1 mpiGrid localCells boundaryFlags stencil).2.sendNbrTypeIDs
        = stencil1Sends ∧
      (calculateTransferStencil2 mpiGrid localCells stencil).recvNbrTypeIDs = stencil2Receives ∧
      (calculateTransferStencil2 mpiGrid localCells stencil).sendNbrTypeIDs = stencil2Sends ∧
      (calculateTransferStencil3 mpiGrid localCells stencil).recvNbrTypeIDs = stencil3NbrIDs ∧
      (calculateTransferStencil3 mpiGrid localCells stencil).sendNbrTypeIDs = stencil3NbrIDs) ∧
    (∀ o ∈ nbrOffsets, reflectOffset o ∈ nbrOffsets ∧
      (nbrTypeIDOf o ∈ stencil1Sends ↔ nbrTypeIDOf (reflectOffset o) ∈ stencil1Receives) ∧
      (nbrTypeIDOf o ∈ stencil2Sends ↔ nbrTypeIDOf (reflectOffset o) ∈ stencil2Receives) ∧
      (nbrTypeIDOf o ∈ stencil3NbrIDs ↔ nbrTypeIDOf (reflectOffset o) ∈ stencil3NbrIDs)) :=
  ⟨⟨rfl, rfl, rfl, rfl, rfl, rfl⟩, by decide⟩

end Reciprocal

end Vlasiator

namespace Vlasiator

open CellParams fieldsolver

/-! ## The complement mask -/

section Complement

variable {K : Type} [LinearOrderedField K]

end Complement

end Vlasiator

namespace Vlasiator

open CellParams fieldsolver

section ComplementClaim

variable {K : Type} [LinearOrderedField K]

end ComplementClaim

end Vlasiator

namespace Vlasiator

open CellParams fieldsolver

/-! ## Divergence of the reconstructed field -/

section Reconstruction

variable {K : Type} [LinearOrderedField K]

/-- C33: in the second-order build (`FS_1ST_ORDER` not defined), for every
cell and every choice of the three neighbour ids (a missing neighbour counts
as the all-zero dummy array), the coefficients that
`reconstructionCoefficients` returns satisfy `2*a_xx + b_yx + c_zx = 0`,
`2*b_yy + a_xy + c_zy = 0`, `2*c_zz + a_xz + b_yz = 0`, and
`a_x + b_y + c_z` is the undivided discrete divergence
`(BX(+x)-BX) + (BY(+y)-BY) + (BZ(+z)-BZ)` of the cell. The divergence of the
reconstructed field is therefore the same at every point, equal to the
discrete divergence, and vanishes identically when the discrete divergence
is zero. For the id `INVALID_CELLID` all coefficients are zero. -/
theorem C33_reconstruction_divergence_consistent (X : Externals K)
    (cellID nbr_i2j1k1 nbr_i1j2k1 nbr_i1j1k2 : CellID) (mpiGrid : ParGrid K) :
    X.FS_1ST_ORDER = false →
    let co := reconstructionCoefficients X cellID nbr_i2j1k1 nbr_i1j2k1 nbr_i1j1k2 mpiGrid
    2 * co Rec.a_xx + co Rec.b_yx + co Rec.c_zx = 0 ∧
    2 * co Rec.b_yy + co Rec.a_xy + co Rec.c_zy = 0 ∧
    2 * co Rec.c_zz + co Rec.a_xz + co Rec.b_yz = 0 ∧
    (cellID ≠ INVALID_CELLID →
      co Rec.a_x + co Rec.b_y + co Rec.c_z =
        undividedDivergence cellID nbr_i2j1k1 nbr_i1j2k1 nbr_i1j1k2 mpiGrid) ∧
    (cellID = INVALID_CELLID → ∀ r, co r = 0) ∧
    (∀ x y z, reconstructionDivergence co x y z = co Rec.a_x + co Rec.b_y + co Rec.c_z) ∧
    (cellID ≠ INVALID_CELLID →
      undividedDivergence cellID nbr_i2j1k1 nbr_i1j2k1 nbr_i1j1k2 mpiGrid = 0 →
      ∀ x y z, reconstructionDivergence co x y z = 0) := by
  intro hF co
  have h1 : 2 * co Rec.a_xx + co Rec.b_yx + co Rec.c_zx = 0 := by
    by_cases hc : cellID = INVALID_CELLID
    · simp [co, reconstructionCoefficients, hc]
    · simp only [co, reconstructionCoefficients, hc, hF, if_false, HALF]
      norm_num
      ring
  have h2 : 2 * co Rec.b_yy + co Rec.a_xy + co Rec.c_zy = 0 := by
    by_cases hc : cellID = INVALID_CELLID
    · simp [co, reconstructionCoefficients, hc]
    · simp only [co, reconstructionCoefficients, hc, hF, if_false, HALF]
      norm_num
      ring
  have h3 : 2 * co Rec.c_zz + co Rec.a_xz + co Rec.b_yz = 0 := by
    by_cases hc : cellID = INVALID_CELLID
    · simp [co, reconstructionCoefficients, hc]
    · simp only [co, reconstructionCoefficients, hc, hF, if_false, HALF]
      norm_num
      ring
  have h4 : cellID ≠ INVALID_CELLID →
      co Rec.a_x + co Rec.b_y + co Rec.c_z =
        undividedDivergence cellID nbr_i2j1k1 nbr_i1j2k1 nbr_i1j1k2 mpiGrid := by
    intro hc
    simp only [co, reconstructionCoefficients, hc, hF, if_false, undividedDivergence]
    by_cases a : nbr_i2j1k1 = INVALID_CELLID <;> by_cases b : nbr_i1j2k1 = INVALID_CELLID <;>
      by_cases d : nbr_i1j1k2 = INVALID_CELLID <;> simp [a, b, d]
  have h5 : ∀ x y z, reconstructionDivergence co x y z = co Rec.a_x + co Rec.b_y + co Rec.c_z := by
    intro x y z
    unfold reconstructionDivergence
    linear_combination x * h1 + y * h2 + z * h3
  refine ⟨h1, h2, h3, h4, ?_, h5, ?_⟩
  · intro hc r
    simp [co, reconstructionCoefficients, hc]
  · intro hc h0 x y z
    rw [h5, h4 hc, h0]

end Reconstruction

/-- C33 at a concrete input: the second cell of the column of four cells with
linear data, whose `+x` and `+y` neighbours are missing. -/
theorem C33_reconstruction_divergence_consistent_witness :
    sampleExternals.FS_1ST_ORDER = false ∧
    (∀ x y z : ℚ, reconstructionDivergence
        (reconstructionCoefficients sampleExternals 1 INVALID_CELLID INVALID_CELLID 2
          (columnGrid 4 linearCellParams (fun _ _ => 0))) x y z =
      reconstructionCoefficients sampleExternals 1 INVALID_CELLID INVALID_CELLID 2
          (columnGrid 4 linearCellParams (fun _ _ => 0)) Rec.a_x +
      reconstructionCoefficients sampleExternals 1 INVALID_CELLID INVALID_CELLID 2
          (columnGrid 4 linearCellParams (fun _ _ => 0)) Rec.b_y +
      reconstructionCoefficients sampleExternals 1 INVALID_CELLID INVALID_CELLID 2
          (columnGrid 4 linearCellParams (fun _ _ => 0)) Rec.c_z) :=
  ⟨rfl, (C33_reconstruction_divergence_consistent sampleExternals 1 INVALID_CELLID
    INVALID_CELLID 2 (columnGrid 4 linearCellParams (fun _ _ => 0)) rfl).2.2.2.2.2.1⟩

end Vlasiator

namespace Vlasiator

open CellParams fieldsolver

/-! ## Face precedence in `SetByUser` -/

section Faces

variable {K : Type} [LinearOrderedField K]

/-- The first element that passes a test depends on the test only at the
elements of the list. -/
theorem find?_congr_mem {α : Type} (p q : α → Bool) (l : List α) (h : ∀ a ∈ l, p a = q a) :
    l.find? p = l.find? q := by
  induction l with
  | nil => rfl
  | cons a l ih =>
    rw [List.find?_cons, List.find?_cons, h a (List.mem_cons_self _ _),
      ih fun b hb => h b (List.mem_cons_of_mem _ hb)]

/-- The face loop of `setCellsFromTemplate` selects the face that the
specification names. -/
theorem setCellsFromTemplateFace_eq (facesToProcess isThisCellOnAFace : Nat → Bool) :
    setCellsFromTemplateFace facesToProcess isThisCellOnAFace =
      firstProcessedFace facesToProcess isThisCellOnAFace := by
  unfold setCellsFromTemplateFace firstProcessedFace firstFace
  have : List.range 6 = [0, 1, 2, 3, 4, 5] := by decide
  rw [this]
  congr 1
  funext i
  exact Bool.and_comm _ _

/-- When every face is processed, the face loop of
`fieldSolverBoundaryCondMagneticField` selects the same face as the one of
`setCellsFromTemplate`. -/
theorem fieldSolverBoundaryCondMagneticFieldFace_all (facesToProcess isThisCellOnAFace : Nat → Bool)
    (h : ∀ i, i < 6 → isThisCellOnAFace i = true → facesToProcess i = true) :
    fieldSolverBoundaryCondMagneticFieldFace isThisCellOnAFace =
      setCellsFromTemplateFace facesToProcess isThisCellOnAFace := by
  unfold fieldSolverBoundaryCondMagneticFieldFace setCellsFromTemplateFace firstFace
  apply find?_congr_mem
  intro i hi
  have hi6 : i < 6 := List.mem_range.mp hi
  cases hon : isThisCellOnAFace i
  · simp
  · simp [h i hi6 hon]

end Faces

/-- C40 (the code departs from it). The face list of the configuration names
`y+` only, so `initSysBoundary` sets `facesToProcess[2]` alone, and the cell
lies on the faces `x+` and `y+`. `setCellsFromTemplate` copies from the
template of face `2`, the first face that the cell lies on and that is
processed, and stores its entry `5` in the cell.
`fieldSolverBoundaryCondMagneticField` does not test `facesToProcess`: it
reads the template of face `0`, which was never generated, and returns `0`. -/
theorem C40_face_precedence_differs :
    initSysBoundary_facesToProcess ["y+"] 2 = true ∧
    (∀ i ∈ [0, 1, 3, 4, 5], initSysBoundary_facesToProcess ["y+"] i = false) ∧
    firstProcessedFace (initSysBoundary_facesToProcess ["y+"]) cornerXPlusYPlus = some 2 ∧
    setCellsFromTemplateFace (initSysBoundary_facesToProcess ["y+"]) cornerXPlusYPlus = some 2 ∧
    fieldSolverBoundaryCondMagneticFieldFace cornerXPlusYPlus = some 0 ∧
    setCellsFromTemplateCell onlyYPlusTemplates 0 1 2 3 4 (fun _ p => p)
      (initSysBoundary_facesToProcess ["y+"]) cornerXPlusYPlus (fun _ => 0) 0 = 5 ∧
    fieldSolverBoundaryCondMagneticField onlyYPlusTemplates 0 10 cornerXPlusYPlus 0 0 = 0 := by
  refine ⟨by decide, by decide, by decide, by decide, by decide, ?_, ?_⟩
  · have h : setCellsFromTemplateFace (initSysBoundary_facesToProcess ["y+"]) cornerXPlusYPlus
        = some 2 := by decide
    simp [setCellsFromTemplateCell, h, onlyYPlusTemplates]
  · have h : fieldSolverBoundaryCondMagneticFieldFace cornerXPlusYPlus = some 0 := by decide
    simp [fieldSolverBoundaryCondMagneticField, h, onlyYPlusTemplates]

end Vlasiator
namespace Vlasiator

open CellParams fieldsolver

/-! ## Acceleration subcycles -/

/-- A value stored in an `int` is below `2 ^ 31`. -/
theorem toInt_lt (z : Int) : toInt z < 2147483648 := by
  unfold toInt
  omega

section SubcycleClaims

variable {K : Type} [LinearOrderedField K] [FloorRing K]

/-- The number of subcycles in exact arithmetic when the conversion to `int`
keeps the value. -/
theorem getAccerelationSubcycles_eq (convert : Int → Int) (maxVdt dt : K)
    (hdt : 0 < dt) (hmax : 0 < maxVdt)
    (hconv : toInt (convert ⌈dt / maxVdt⌉) = ⌈dt / maxVdt⌉) :
    getAccerelationSubcycles id convert maxVdt dt = ⌈dt / maxVdt⌉ ∧
    1 ≤ ⌈dt / maxVdt⌉ := by
  have hpos : 0 < dt / maxVdt := div_pos hdt hmax
  have h1 : 1 ≤ ⌈dt / maxVdt⌉ := Int.one_le_ceil_iff.mpr hpos
  refine ⟨?_, h1⟩
  unfold getAccerelationSubcycles
  rw [id, hconv]
  exact max_eq_left h1

/-- The length of a subcycle in exact arithmetic. -/
theorem subcycleDt_id (step : Nat) (maxVdt dt : K) :
    subcycleDt id step maxVdt dt =
      if ((toUint (step + 1) : Nat) : K) * maxVdt > dt then dt - (step : K) * maxVdt
      else maxVdt := rfl

/-- A subcycle before the last one has the full length. -/
theorem subcycleDt_full (step : Nat) (maxVdt dt : K) (hmax : 0 < maxVdt)
    (hrange : ⌈dt / maxVdt⌉ < 2147483648) (hs : (step : Int) < ⌈dt / maxVdt⌉ - 1) :
    subcycleDt id step maxVdt dt = maxVdt := by
  have hu : toUint (step + 1) = step + 1 := by
    unfold toUint
    apply Nat.mod_eq_of_lt
    omega
  rw [subcycleDt_id, hu, if_neg]
  have h1 : ((step + 1 : Nat) : Int) < ⌈dt / maxVdt⌉ := by push_cast; omega
  have h2 : (((step + 1 : Nat) : Int) : K) < dt / maxVdt := Int.lt_ceil.mp h1
  have h3 : ((step + 1 : Nat) : K) * maxVdt < dt := by
    rw [lt_div_iff₀ hmax] at h2
    exact_mod_cast h2
  exact not_lt.mpr (le_of_lt h3)

/-- The last subcycle takes what is left of the time step. -/
theorem subcycleDt_last (step : Nat) (maxVdt dt : K) (hmax : 0 < maxVdt)
    (hrange : ⌈dt / maxVdt⌉ < 2147483648) (hs : (step : Int) = ⌈dt / maxVdt⌉ - 1) :
    subcycleDt id step maxVdt dt = dt - (step : K) * maxVdt ∧
    0 < dt - (step : K) * maxVdt ∧ dt - (step : K) * maxVdt ≤ maxVdt := by
  have hu : toUint (step + 1) = step + 1 := by
    unfold toUint
    apply Nat.mod_eq_of_lt
    omega
  have h1 : ((step + 1 : Nat) : Int) = ⌈dt / maxVdt⌉ := by push_cast; omega
  have hle : dt / maxVdt ≤ (((step + 1 : Nat) : Int) : K) := by
    rw [h1]; exact Int.le_ceil _
  have hle2 : dt ≤ ((step + 1 : Nat) : K) * maxVdt := by
    rw [div_le_iff₀ hmax] at hle
    exact_mod_cast hle
  have hlt : ((step : Int) : K) < dt / maxVdt := by
    apply Int.lt_ceil.mp
    omega
  have hlt2 : (step : K) * maxVdt < dt := by
    rw [lt_div_iff₀ hmax] at hlt
    exact_mod_cast hlt
  have hval : dt - (step : K) * maxVdt ≤ maxVdt := by
    have : ((step + 1 : Nat) : K) * maxVdt = (step : K) * maxVdt + maxVdt := by
      push_cast; ring
    linarith
  refine ⟨?_, by linarith, hval⟩
  rw [subcycleDt_id, hu]
  by_cases h : ((step + 1 : Nat) : K) * maxVdt > dt
  · rw [if_pos h]
  · rw [if_neg h]
    have : ((step + 1 : Nat) : K) * maxVdt = dt := le_antisymm (not_lt.mp h) hle2
    have h2 : ((step + 1 : Nat) : K) * maxVdt = (step : K) * maxVdt + maxVdt := by
      push_cast; ring
    linarith

/-- The subcycles up to and including `step` add up to `(step+1) * maxVdt`
as long as `step` is not the last one. -/
theorem subcycleDt_sum_full (m : Nat) (maxVdt dt : K) (hmax : 0 < maxVdt)
    (hrange : ⌈dt / maxVdt⌉ < 2147483648) (hm : (m : Int) ≤ ⌈dt / maxVdt⌉ - 1) :
    ∑ s in Finset.range m, subcycleDt id s maxVdt dt = (m : K) * maxVdt := by
  induction m with
  | zero => simp
  | succ m ih =>
    rw [Finset.sum_range_succ, ih (by push_cast at hm ⊢; omega),
      subcycleDt_full m maxVdt dt hmax hrange (by push_cast at hm; omega)]
    push_cast
    ring

/-- C39, amended: in exact arithmetic (the rounding of `Real` is the
identity), for `dt > 0` and `maxVdt > 0` such that the conversion
`convert<int>` keeps the value of `ceil(dt/maxVdt)` (which therefore is below
`2 ^ 31`), the number `n` of subcycles returned by
`getAccerelationSubcycles` is `max(ceil(dt/maxVdt), 1)`, at least `1`; the
length computed in `calculateAcceleration` at step `s` is `maxVdt` for every
`s < n-1` and `dt - (n-1)*maxVdt`, a value in `(0, maxVdt]`, for `s = n-1`;
the `n` lengths add up to `dt`. -/
theorem C39_subcycles_partition_time_step (convert : Int → Int) (maxVdt dt : K)
    (hdt : 0 < dt) (hmax : 0 < maxVdt)
    (hconv : toInt (convert ⌈dt / maxVdt⌉) = ⌈dt / maxVdt⌉) :
    getAccerelationSubcycles id convert maxVdt dt = max ⌈dt / maxVdt⌉ 1 ∧
    1 ≤ getAccerelationSubcycles id convert maxVdt dt ∧
    (∀ s : Nat, (s : Int) < getAccerelationSubcycles id convert maxVdt dt - 1 →
      subcycleDt id s maxVdt dt = maxVdt) ∧
    subcycleDt id (getAccerelationSubcycles id convert maxVdt dt - 1).toNat maxVdt dt
      = dt - ((getAccerelationSubcycles id convert maxVdt dt - 1 : Int) : K) * maxVdt ∧
    0 < dt - ((getAccerelationSubcycles id convert maxVdt dt - 1 : Int) : K) * maxVdt ∧
    dt - ((getAccerelationSubcycles id convert maxVdt dt - 1 : Int) : K) * maxVdt ≤ maxVdt ∧
    ∑ s in Finset.range (getAccerelationSubcycles id convert maxVdt dt).toNat,
      subcycleDt id s maxVdt dt = dt := by
  have hrange : ⌈dt / maxVdt⌉ < 2147483648 := by
    rw [← hconv]; exact toInt_lt _
  generalize hn0 : getAccerelationSubcycles id convert maxVdt dt = n
  obtain ⟨hn, h1⟩ := getAccerelationSubcycles_eq convert maxVdt dt hdt hmax hconv
  have hn' : n = ⌈dt / maxVdt⌉ := hn0.symm.trans hn
  have hlast : (((n - 1).toNat : Nat) : Int) = ⌈dt / maxVdt⌉ - 1 := by
    rw [hn']; omega
  have hcast : (((n - 1).toNat : Nat) : K) = ((n - 1 : Int) : K) := by
    have : ((((n - 1).toNat : Nat) : Int) : K) = ((n - 1 : Int) : K) := by
      rw [hlast, hn']
    exact_mod_cast this
  obtain ⟨l1, l2, l3⟩ := subcycleDt_last (n - 1).toNat maxVdt dt hmax hrange hlast
  rw [hcast] at l1 l2 l3
  refine ⟨?_, by rw [hn']; exact h1, ?_, l1, l2, l3, ?_⟩
  · rw [hn']; exact (max_eq_left h1).symm
  · intro s hs
    exact subcycleDt_full s maxVdt dt hmax hrange (by rw [← hn']; exact hs)
  · have hsplit : n.toNat = (n - 1).toNat + 1 := by omega
    rw [hsplit, Finset.sum_range_succ,
      subcycleDt_sum_full (n - 1).toNat maxVdt dt hmax hrange (le_of_eq hlast), l1, hcast]
    ring

end SubcycleClaims

/-- C39 at a concrete input: a time step `7/2` with the limit `1` is split
into four subcycles whose lengths add up to `7/2`. -/
theorem C39_subcycles_partition_time_step_witness :
    ((0 : ℚ) < 7 / 2 ∧ (0 : ℚ) < 1 ∧ toInt (id ⌈(7 / 2 : ℚ) / 1⌉) = ⌈(7 / 2 : ℚ) / 1⌉) ∧
    getAccerelationSubcycles id id (1 : ℚ) (7 / 2) = 4 ∧
    subcycleDt id 3 (1 : ℚ) (7 / 2) = 1 / 2 ∧
    ∑ s in Finset.range (getAccerelationSubcycles id id (1 : ℚ) (7 / 2)).toNat,
      subcycleDt id s (1 : ℚ) (7 / 2) = 7 / 2 := by
  have hc : ⌈(7 / 2 : ℚ) / 1⌉ = 4 := by
    rw [Int.ceil_eq_iff]; norm_num
  have hconv : toInt (id ⌈(7 / 2 : ℚ) / 1⌉) = ⌈(7 / 2 : ℚ) / 1⌉ := by
    rw [hc]; decide
  have h := C39_subcycles_partition_time_step id (1 : ℚ) (7 / 2) (by norm_num) (by norm_num)
    hconv
  have hn : getAccerelationSubcycles id id (1 : ℚ) (7 / 2) = 4 := by
    rw [h.1, hc]; decide
  refine ⟨⟨by norm_num, by norm_num, hconv⟩, hn, ?_, h.2.2.2.2.2.2⟩
  have h4 := h.2.2.2.1
  rw [hn] at h4
  have e : ((4 - 1 : Int)).toNat = 3 := by decide
  rw [e] at h4
  rw [h4]
  norm_num

/-! ### Rounded arithmetic -/

/-- The exponent of the leading bit of a positive rational. -/
theorem int_log_two_eq (q : ℚ) (k : Int) (h1 : (2 : ℚ) ^ k ≤ q) (h2 : q < 2 ^ (k + 1)) :
    Int.log 2 q = k := by
  have hpos : 0 < q := lt_of_lt_of_le (zpow_pos (by norm_num) k) h1
  have a : k ≤ Int.log 2 q :=
    (Int.zpow_le_iff_le_log (by norm_num) hpos).mp (by exact_mod_cast h1)
  have b : Int.log 2 q < k + 1 :=
    (Int.lt_zpow_iff_log_lt (by norm_num) hpos).mp (by exact_mod_cast h2)
  omega

theorem roundHalfEven_down (x : ℚ) (f : Int) (h1 : (f : ℚ) ≤ x) (h2 : x < f + 1 / 2) :
    roundHalfEven x = f := by
  have hf : ⌊x⌋ = f := by
    rw [Int.floor_eq_iff]; constructor <;> linarith
  unfold roundHalfEven
  rw [hf, if_pos (by linarith)]

theorem roundHalfEven_up (x : ℚ) (f : Int) (h1 : (f : ℚ) + 1 / 2 < x) (h2 : x < f + 1) :
    roundHalfEven x = f + 1 := by
  have hf : ⌊x⌋ = f := by
    rw [Int.floor_eq_iff]; constructor <;> linarith
  unfold roundHalfEven
  rw [hf, if_neg (by linarith), if_pos (by linarith)]

theorem roundHalfEven_tie (x : ℚ) (f : Int) (h : x = f + 1 / 2) :
    roundHalfEven x = if f % 2 = 0 then f else f + 1 := by
  have hf : ⌊x⌋ = f := by
    rw [Int.floor_eq_iff]; constructor <;> linarith
  unfold roundHalfEven
  rw [hf, if_neg (by linarith), if_neg (by linarith)]

/-- The stored value of a positive normal result with leading bit `2 ^ k`. -/
theorem roundBinary64_eq (q : ℚ) (k m : Int) (h1 : (2 : ℚ) ^ k ≤ q) (h2 : q < 2 ^ (k + 1))
    (hk : -1022 ≤ k) (hm : roundHalfEven (q / 2 ^ (k - 52)) = m) :
    roundBinary64 q = m * 2 ^ (k - 52) := by
  have hpos : 0 < q := lt_of_lt_of_le (zpow_pos (by norm_num) k) h1
  have hl := int_log_two_eq q k h1 h2
  unfold roundBinary64
  rw [if_neg (ne_of_gt hpos), abs_of_pos hpos, hl, max_eq_left (by omega), hm]

/-- A positive normal result that is a multiple of the last bit is stored
unchanged. -/
theorem roundBinary64_exact (q : ℚ) (k m : Int) (h1 : (2 : ℚ) ^ k ≤ q)
    (h2 : q < 2 ^ (k + 1)) (hk : -1022 ≤ k) (hq : q / 2 ^ (k - 52) = m) :
    roundBinary64 q = q := by
  have hm : roundHalfEven (q / 2 ^ (k - 52)) = m := by
    rw [hq]
    exact roundHalfEven_down _ m le_rfl (by linarith)
  rw [roundBinary64_eq q k m h1 h2 hk hm, ← hq]
  have : (2 : ℚ) ^ (k - 52) ≠ 0 := ne_of_gt (zpow_pos (by norm_num) _)
  field_simp

/-- The `double` nearest to `1/10` and the `double` that `3 * 0.1` yields:
the roundings that the code performs on them. -/
theorem roundBinary64_tenths :
    roundBinary64 (3602879701896397 / 36028797018963968) = 3602879701896397 / 36028797018963968 ∧
    roundBinary64 (5404319552844596 / 18014398509481984) = 5404319552844596 / 18014398509481984 ∧
    roundBinary64 1 = 1 ∧ roundBinary64 2 = 2 ∧ roundBinary64 3 = 3 ∧ roundBinary64 4 = 4 ∧
    roundBinary64 (1 * (3602879701896397 / 36028797018963968))
      = 3602879701896397 / 36028797018963968 ∧
    roundBinary64 (2 * (3602879701896397 / 36028797018963968))
      = 7205759403792794 / 36028797018963968 ∧
    roundBinary64 (3 * (3602879701896397 / 36028797018963968))
      = 5404319552844596 / 18014398509481984 ∧
    roundBinary64 (4 * (3602879701896397 / 36028797018963968))
      = 14411518807585588 / 36028797018963968 ∧
    roundBinary64 (5404319552844596 / 18014398509481984 / (3602879701896397 / 36028797018963968))
      = 6755399441055745 / 2251799813685248 := by
  have t1 : roundBinary64 (3602879701896397 / 36028797018963968)
      = 3602879701896397 / 36028797018963968 :=
    roundBinary64_exact _ (-4) 7205759403792794 (by norm_num) (by norm_num) (by norm_num)
      (by norm_num)
  refine ⟨t1, ?_, ?_, ?_, ?_, ?_, ?_, ?_, ?_, ?_, ?_⟩
  · exact roundBinary64_exact _ (-2) 5404319552844596 (by norm_num) (by norm_num) (by norm_num)
      (by norm_num)
  · exact roundBinary64_exact _ 0 4503599627370496 (by norm_num) (by norm_num) (by norm_num)
      (by norm_num)
  · exact roundBinary64_exact _ 1 4503599627370496 (by norm_num) (by norm_num) (by norm_num)
      (by norm_num)
  · exact roundBinary64_exact _ 1 6755399441055744 (by norm_num) (by norm_num) (by norm_num)
      (by norm_num)
  · exact roundBinary64_exact _ 2 4503599627370496 (by norm_num) (by norm_num) (by norm_num)
      (by norm_num)
  · rw [one_mul]; exact t1
  · rw [roundBinary64_exact _ (-3) 7205759403792794 (by norm_num) (by norm_num) (by norm_num)
      (by norm_num)]
    norm_num
  · rw [roundBinary64_eq _ (-2) 5404319552844596 (by norm_num) (by norm_num) (by norm_num)]
    · norm_num
    · rw [roundHalfEven_tie _ 5404319552844595 (by norm_num)]
      decide
  · rw [roundBinary64_exact _ (-2) 7205759403792794 (by norm_num) (by norm_num) (by norm_num)
      (by norm_num)]
    norm_num
  · rw [roundBinary64_eq _ 1 6755399441055745 (by norm_num) (by norm_num) (by norm_num)]
    · norm_num
    · have := roundHalfEven_up
        (5404319552844596 / 18014398509481984 / (3602879701896397 / 36028797018963968)
          / 2 ^ ((1 : Int) - 52)) 6755399441055744 (by norm_num) (by norm_num)
      rw [this]; norm_num

/-- C39 fails for rounded arithmetic and beyond the range of `int`. With the
rounding of `double` arithmetic, `maxVdt` the `double` nearest to `0.1`
(`3602879701896397 / 2^55`) and `dt` the `double` that `3 * 0.1` yields
(`5404319552844596 / 2^54`), both stored unchanged: the quotient
`dt / maxVdt` is stored as `3 + 2^-51`, so that `n = 4 = max(ceil(dt/maxVdt), 1)`;
the length is `maxVdt` at the steps `0`, `1` and `2`, because `3 * maxVdt` is
stored as `dt`, which is not greater than `dt`; and the length at the last
step `3` is `0`, not `dt - 3*maxVdt = 2^-55` and not a value in
`(0, maxVdt]`. In exact arithmetic, for `dt = 2^31` and `maxVdt = 1`, the
number of subcycles, an `int`, is below `2^31 = max(ceil(dt/maxVdt), 1)`
whatever `convert<int>` does. -/
theorem C39_subcycles_rounding_counterexample :
    ((0 : ℚ) < 5404319552844596 / 18014398509481984 ∧
      (0 : ℚ) < 3602879701896397 / 36028797018963968 ∧
      roundBinary64 (5404319552844596 / 18014398509481984)
        = 5404319552844596 / 18014398509481984 ∧
      roundBinary64 (3602879701896397 / 36028797018963968)
        = 3602879701896397 / 36028797018963968) ∧
    getAccerelationSubcycles roundBinary64 id (3602879701896397 / 36028797018963968)
      (5404319552844596 / 18014398509481984) = 4 ∧
    max ⌈(5404319552844596 / 18014398509481984 : ℚ) / (3602879701896397 / 36028797018963968)⌉ 1
      = 4 ∧
    (∀ s ∈ [0, 1, 2], subcycleDt roundBinary64 s (3602879701896397 / 36028797018963968)
      (5404319552844596 / 18014398509481984) = 3602879701896397 / 36028797018963968) ∧
    subcycleDt roundBinary64 3 (3602879701896397 / 36028797018963968)
      (5404319552844596 / 18014398509481984) = 0 ∧
    (5404319552844596 / 18014398509481984 : ℚ) - 3 * (3602879701896397 / 36028797018963968)
      = 1 / 36028797018963968 ∧
    ∑ s in Finset.range 4, subcycleDt roundBinary64 s (3602879701896397 / 36028797018963968)
      (5404319552844596 / 18014398509481984) ≠ 5404319552844596 / 18014398509481984 ∧
    (∀ convert : Int → Int,
      getAccerelationSubcycles id convert (1 : ℚ) 2147483648 < 2147483648) ∧
    max ⌈(2147483648 : ℚ) / 1⌉ 1 = 2147483648 := by
  obtain ⟨r1, r2, i1, i2, i3, i4, m1, m2, m3, m4, rq⟩ := roundBinary64_tenths
  have hu : ∀ s : Nat, s < 10 → toUint (s + 1) = s + 1 := by decide
  have r0 : roundBinary64 0 = 0 := if_pos rfl
  have c1 : ((0 + 1 : Nat) : ℚ) = 1 := by norm_num
  have c2 : ((1 + 1 : Nat) : ℚ) = 2 := by norm_num
  have c3 : ((2 + 1 : Nat) : ℚ) = 3 := by norm_num
  have c4 : ((3 + 1 : Nat) : ℚ) = 4 := by norm_num
  have d3 : ((3 : Nat) : ℚ) = 3 := by norm_num
  have s0 : subcycleDt roundBinary64 0 (3602879701896397 / 36028797018963968)
      (5404319552844596 / 18014398509481984) = 3602879701896397 / 36028797018963968 := by
    unfold subcycleDt
    rw [hu 0 (by decide), c1, i1, m1, if_neg (by norm_num)]
  have s1 : subcycleDt roundBinary64 1 (3602879701896397 / 36028797018963968)
      (5404319552844596 / 18014398509481984) = 3602879701896397 / 36028797018963968 := by
    unfold subcycleDt
    rw [hu 1 (by decide), c2, i2, m2, if_neg (by norm_num)]
  have s2 : subcycleDt roundBinary64 2 (3602879701896397 / 36028797018963968)
      (5404319552844596 / 18014398509481984) = 3602879701896397 / 36028797018963968 := by
    unfold subcycleDt
    rw [hu 2 (by decide), c3, i3, m3, if_neg (by norm_num)]
  have s3 : subcycleDt roundBinary64 3 (3602879701896397 / 36028797018963968)
      (5404319552844596 / 18014398509481984) = 0 := by
    unfold subcycleDt
    rw [hu 3 (by decide), c4, i4, m4, if_pos (by norm_num), d3, i3, m3, sub_self, r0]
  refine ⟨⟨by norm_num, by norm_num, r2, r1⟩, ?_, ?_, ?_, s3, by norm_num, ?_, ?_, ?_⟩
  · unfold getAccerelationSubcycles
    rw [rq]
    have hc : ⌈(6755399441055745 / 2251799813685248 : ℚ)⌉ = 4 := by
      rw [Int.ceil_eq_iff]; norm_num
    rw [hc]; decide
  · have hc : ⌈(5404319552844596 / 18014398509481984 : ℚ)
        / (3602879701896397 / 36028797018963968)⌉ = 4 := by
      rw [Int.ceil_eq_iff]; norm_num
    rw [hc]; decide
  · intro s hs
    simp only [List.mem_cons, List.mem_singleton, List.not_mem_nil, or_false] at hs
    rcases hs with rfl | rfl | rfl
    · exact s0
    · exact s1
    · exact s2
  · rw [Finset.sum_range_succ, Finset.sum_range_succ, Finset.sum_range_succ,
      Finset.sum_range_one, s0, s1, s2, s3]
    norm_num
  · intro convert
    unfold getAccerelationSubcycles
    have := toInt_lt (convert ⌈id ((2147483648 : ℚ) / 1)⌉)
    exact max_lt this (by norm_num)
  · have hc : ⌈(2147483648 : ℚ) / 1⌉ = 2147483648 := by
      rw [Int.ceil_eq_iff]; norm_num
    rw [hc]; decide

end Vlasiator

namespace Vlasiator

open CellParams fieldsolver

/-! ## `SetByUser::interpolate` -/

section InterpolateLemmas

variable {K : Type} [LinearOrderedField K]

theorem row_time_get (r : List K) (hr : r ≠ []) : r[0]? = some (rowTime r) := by
  cases r with
  | nil => exact absurd rfl hr
  | cons a l => simp [rowTime]

theorem tableRow_get (inputData : List (List K)) (i : Nat) (h : i < inputData.length) :
    inputData[i]? = some (tableRow inputData i) := by
  unfold tableRow
  rw [List.getD_eq_getElem?_getD, List.getElem?_eq_getElem h]
  rfl

theorem tableRow_mem (inputData : List (List K)) (i : Nat) (h : i < inputData.length) :
    tableRow inputData i ∈ inputData := by
  unfold tableRow
  rw [List.getD_eq_getElem?_getD, List.getElem?_eq_getElem h]
  simp

theorem tableRow_cons_succ (r : List K) (rest : List (List K)) (k : Nat) :
    tableRow (r :: rest) (k + 1) = tableRow rest k := rfl

/-- The search loop over rows that all hold a time: it either stops at the
first row whose time is `>= t`, or runs to its end when every time is below
`t`. -/
theorem interpolateSearch_spec (t : K) (rows : List (List K)) (i : Nat)
    (h : ∀ r ∈ rows, r ≠ []) :
    (∃ k, k < rows.length ∧ interpolateSearch t rows i = some (some (i + k)) ∧
      t ≤ rowTime (tableRow rows k) ∧ ∀ m, m < k → rowTime (tableRow rows m) < t) ∨
    (interpolateSearch t rows i = some none ∧ ∀ r ∈ rows, rowTime r < t) := by
  induction rows generalizing i with
  | nil => exact Or.inr ⟨rfl, by simp⟩
  | cons r rest ih =>
    have hr := h r (List.mem_cons_self _ _)
    have hrest : ∀ r ∈ rest, r ≠ [] := fun q hq => h q (List.mem_cons_of_mem _ hq)
    unfold interpolateSearch
    rw [row_time_get r hr]
    by_cases ht : rowTime r ≥ t
    · left
      refine ⟨0, by simp, by simp [ht], ht, fun m hm => absurd hm (Nat.not_lt_zero m)⟩
    · simp only [ht, if_false]
      rcases ih (i + 1) hrest with ⟨k, hk, hs, hle, hlt⟩ | ⟨hs, hall⟩
      · left
        refine ⟨k + 1, by simp [hk], ?_, hle, ?_⟩
        · rw [hs]; congr 2; omega
        · intro m hm
          cases m with
          | zero => exact not_le.mp ht
          | succ m => exact hlt m (by omega)
      · right
        refine ⟨hs, ?_⟩
        intro q hq
        rcases List.mem_cons.mp hq with rfl | hq
        · exact not_le.mp ht
        · exact hall q hq

/-- The locals when `t` lies before the first time. -/
theorem interpolateLocals_before (inputData : List (List K)) (t : K) (hne : inputData ≠ [])
    (hrows : ∀ r ∈ inputData, r ≠ []) (ht : t < rowTime (tableRow inputData 0)) :
    interpolateLocals inputData t = some (0, 0, 0) := by
  have hlen : 0 < inputData.length := List.length_pos.mpr hne
  unfold interpolateLocals
  rw [tableRow_get inputData 0 hlen]
  simp only [row_time_get _ (hrows _ (tableRow_mem inputData 0 hlen)), ht, if_true]

/-- The locals when the search runs to its end. -/
theorem interpolateLocals_after (inputData : List (List K)) (t : K) (hne : inputData ≠ [])
    (hrows : ∀ r ∈ inputData, r ≠ []) (ht : ¬t < rowTime (tableRow inputData 0))
    (hs : interpolateSearch t inputData 0 = some none) :
    interpolateLocals inputData t =
      some ((inputData.length : Int) - 1, (inputData.length : Int) - 1, 0) := by
  have hlen : 0 < inputData.length := List.length_pos.mpr hne
  unfold interpolateLocals
  rw [tableRow_get inputData 0 hlen]
  simp only [row_time_get _ (hrows _ (tableRow_mem inputData 0 hlen)), ht, if_false, hs]

/-- The locals when the search stops at row `0`. -/
theorem interpolateLocals_first (inputData : List (List K)) (t : K) (hne : inputData ≠ [])
    (hrows : ∀ r ∈ inputData, r ≠ []) (ht : ¬t < rowTime (tableRow inputData 0))
    (hs : interpolateSearch t inputData 0 = some (some 0)) :
    interpolateLocals inputData t = some (0, 0, 0) := by
  have hlen : 0 < inputData.length := List.length_pos.mpr hne
  unfold interpolateLocals
  rw [tableRow_get inputData 0 hlen]
  simp only [row_time_get _ (hrows _ (tableRow_mem inputData 0 hlen)), ht, if_false, hs]
  simp

/-- The locals in the interpolating branch: the search stops at row `k+1`. -/
theorem interpolateLocals_between (inputData : List (List K)) (t : K) (k : Nat)
    (hk : k + 1 < inputData.length)
    (hrows : ∀ r ∈ inputData, r ≠ []) (ht : ¬t < rowTime (tableRow inputData 0))
    (hs : interpolateSearch t inputData 0 = some (some (k + 1))) :
    interpolateLocals inputData t =
      some ((k : Int), ((k + 1 : Nat) : Int),
        (t - rowTime (tableRow inputData k))
          / (rowTime (tableRow inputData (k + 1)) - rowTime (tableRow inputData k))) := by
  have hlen : 0 < inputData.length := by omega
  have hk0 : k < inputData.length := by omega
  unfold interpolateLocals
  rw [tableRow_get inputData 0 hlen]
  simp only [row_time_get _ (hrows _ (tableRow_mem inputData 0 hlen)), ht, if_false, hs]
  have e1 : ((k + 1 : Nat) : Int) - 1 = (k : Int) := by push_cast; ring
  rw [e1]
  have e2 : ¬((k : Int) < 0) := by omega
  simp only [e2, if_false, Int.toNat_ofNat, tableRow_get inputData k hk0,
    tableRow_get inputData (k + 1) hk,
    row_time_get _ (hrows _ (tableRow_mem inputData k hk0)),
    row_time_get _ (hrows _ (tableRow_mem inputData (k + 1) hk))]

end InterpolateLemmas

end Vlasiator

namespace Vlasiator

open CellParams fieldsolver

section InterpolateClaims

variable {K : Type} [LinearOrderedField K]

/-- C38: on every non-empty table whose rows start with a time, sorted or
not and with or without repeated times, `SetByUser::interpolate` reaches the
output loop with row indices `0 <= i1 <= i2 < size`. Either the interpolating
branch was taken (`t` is not below the first time and the search stopped at a
row `i2 > 0`): then `i1 = i2 - 1`, `time[i1] < t <= time[i2]`, the
denominator `time[i2] - time[i1]` is positive, and
`s = (t - time[i1]) / (time[i2] - time[i1])` satisfies `0 < s <= 1`. Or
another branch was taken (`t` is below the first time, or the search stopped
at row `0`, or it ran to its end): then `s = 0` and `i1 = i2`. -/
theorem C38_interpolate_never_divides_by_zero (inputData : List (List K)) (t : K)
    (hne : inputData ≠ []) (hrows : ∀ r ∈ inputData, r ≠ []) :
    ∃ i1 i2 : Nat, ∃ s : K,
      interpolateLocals inputData t = some ((i1 : Int), (i2 : Int), s) ∧
      i1 ≤ i2 ∧ i2 < inputData.length ∧
      ((¬t < rowTime (tableRow inputData 0) ∧
          interpolateSearch t inputData 0 = some (some i2) ∧ 0 < i2 ∧ i2 = i1 + 1 ∧
          rowTime (tableRow inputData i1) < t ∧ t ≤ rowTime (tableRow inputData i2) ∧
          0 < rowTime (tableRow inputData i2) - rowTime (tableRow inputData i1) ∧
          s = (t - rowTime (tableRow inputData i1))
            / (rowTime (tableRow inputData i2) - rowTime (tableRow inputData i1)) ∧
          0 < s ∧ s ≤ 1) ∨
        ((t < rowTime (tableRow inputData 0) ∨ interpolateSearch t inputData 0 = some none ∨
            interpolateSearch t inputData 0 = some (some 0)) ∧
          s = 0 ∧ i1 = i2)) := by
  have hlen : 0 < inputData.length := List.length_pos.mpr hne
  by_cases ht : t < rowTime (tableRow inputData 0)
  · exact ⟨0, 0, 0, interpolateLocals_before inputData t hne hrows ht, le_refl _, hlen,
      Or.inr ⟨Or.inl ht, rfl, rfl⟩⟩
  · rcases interpolateSearch_spec t inputData 0 hrows with ⟨k, hk, hs, hle, hlt⟩ | ⟨hs, -⟩
    · rw [Nat.zero_add] at hs
      cases k with
      | zero =>
        exact ⟨0, 0, 0, interpolateLocals_first inputData t hne hrows ht hs, le_refl _, hlen,
          Or.inr ⟨Or.inr (Or.inr hs), rfl, rfl⟩⟩
      | succ k =>
        have h1 : rowTime (tableRow inputData k) < t := hlt k (Nat.lt_succ_self k)
        have hd : 0 < rowTime (tableRow inputData (k + 1)) - rowTime (tableRow inputData k) := by
          linarith
        refine ⟨k, k + 1, _, interpolateLocals_between inputData t k hk hrows ht hs,
          Nat.le_succ k, hk, Or.inl ⟨ht, hs, Nat.succ_pos k, rfl, h1, hle, hd, rfl, ?_, ?_⟩⟩
        · exact div_pos (by linarith) hd
        · rw [div_le_one hd]
          linarith
    · refine ⟨inputData.length - 1, inputData.length - 1, 0, ?_, le_refl _, by omega,
        Or.inr ⟨Or.inr (Or.inl hs), rfl, rfl⟩⟩
      rw [interpolateLocals_after inputData t hne hrows ht hs]
      have : ((inputData.length - 1 : Nat) : Int) = (inputData.length : Int) - 1 := by omega
      rw [this]

/-- The output loop on two rows that are long enough: entry by entry the
blend of the two rows. -/
theorem interpolateOutput_eq (inputData : List (List K)) (i1 i2 : Nat) (s1 s : K)
    (r1 r2 : List K) (h1 : inputData[i1]? = some r1) (h2 : inputData[i2]? = some r2)
    (count i : Nat) (l1 : i + count + 1 ≤ r1.length) (l2 : i + count + 1 ≤ r2.length) :
    interpolateOutput inputData i1 i2 s1 s count i =
      some (List.zipWith (fun a b => s1 * a + s * b) ((r1.drop (i + 1)).take count)
        ((r2.drop (i + 1)).take count)) := by
  induction count generalizing i with
  | zero => simp [interpolateOutput]
  | succ count ih =>
    have g1 : i + 1 < r1.length := by omega
    have g2 : i + 1 < r2.length := by omega
    unfold interpolateOutput
    simp only [h1, h2, List.getElem?_eq_getElem g1, List.getElem?_eq_getElem g2]
    rw [ih (i + 1) (by omega) (by omega), List.drop_eq_getElem_cons g1,
      List.drop_eq_getElem_cons g2]
    simp only [Option.map_some', List.take_succ_cons, List.zipWith_cons_cons]

theorem zipWith_blend_zero (v : List K) :
    List.zipWith (fun a b => (1 - (0 : K)) * a + 0 * b) v v = v := by
  induction v with
  | nil => rfl
  | cons a v ih => simp [ih]

theorem zipWith_blend_one (v w : List K) (h : v.length = w.length) :
    List.zipWith (fun a b => (1 - (1 : K)) * a + 1 * b) v w = w := by
  induction v generalizing w with
  | nil =>
    cases w with
    | nil => rfl
    | cons b w => simp at h
  | cons a v ih =>
    cases w with
    | nil => simp at h
    | cons b w =>
      simp only [List.length_cons, add_left_inj] at h
      simp only [List.zipWith_cons_cons, ih w h]
      simp

/-- The output of `interpolate` on a table with rows of `nParams` entries,
from the locals. -/
theorem interpolate_of_locals (inputData : List (List K)) (nParams : Nat) (t : K)
    (hn : 1 ≤ nParams) (hn2 : nParams < 4294967296)
    (hrows : ∀ r ∈ inputData, r.length = nParams) (i1 i2 : Nat) (s : K)
    (hl : interpolateLocals inputData t = some ((i1 : Int), (i2 : Int), s))
    (h1 : i1 < inputData.length) (h2 : i2 < inputData.length) :
    interpolate inputData nParams t =
      some (blendRows s (tableRow inputData i1) (tableRow inputData i2)) := by
  have hu : toUint (nParams + 4294967295) = nParams - 1 := by
    unfold toUint; omega
  have e1 := hrows _ (tableRow_mem inputData i1 h1)
  have e2 := hrows _ (tableRow_mem inputData i2 h2)
  unfold interpolate
  rw [hl]
  have hneg : ¬((i1 : Int) < 0 ∨ (i2 : Int) < 0) := by omega
  simp only [hneg, if_false, Int.toNat_ofNat, hu]
  rw [interpolateOutput_eq inputData i1 i2 (1 - s) s _ _ (tableRow_get inputData i1 h1)
    (tableRow_get inputData i2 h2) (nParams - 1) 0 (by omega) (by omega)]
  unfold blendRows rowValues
  rw [← List.drop_one, ← List.drop_one, List.take_of_length_le (by simp; omega),
    List.take_of_length_le (by simp; omega)]

end InterpolateClaims

end Vlasiator

namespace Vlasiator

open CellParams fieldsolver

section InterpolateCases

variable {K : Type} [LinearOrderedField K]

theorem rowTime_lt_of_pairwise (inputData : List (List K))
    (h : inputData.Pairwise fun r r' => rowTime r < rowTime r') (i j : Nat) (hij : i < j)
    (hj : j < inputData.length) :
    rowTime (tableRow inputData i) < rowTime (tableRow inputData j) := by
  have hi : i < inputData.length := by omega
  have := List.pairwise_iff_getElem.mp h i j hi hj hij
  unfold tableRow
  rw [List.getD_eq_getElem _ _ hi, List.getD_eq_getElem _ _ hj]
  exact this

theorem blendRows_zero (r : List K) : blendRows 0 r r = rowValues r := by
  unfold blendRows
  exact zipWith_blend_zero _

theorem blendRows_one (r r' : List K) (h : r.length = r'.length) :
    blendRows 1 r r' = rowValues r' := by
  unfold blendRows
  apply zipWith_blend_one
  unfold rowValues
  rw [List.length_tail, List.length_tail, h]

theorem blendRows_length (s : K) (r r' : List K) (n : Nat) (h : r.length = n)
    (h' : r'.length = n) : (blendRows s r r').length = n - 1 := by
  unfold blendRows rowValues
  rw [List.length_zipWith, List.length_tail, List.length_tail, h, h']
  simp

/-- The branches of `interpolate` on a table with rows of `nParams` entries:
the function returns, and its output is the first row's values, the last
row's values, or the blend of the two rows around `t`. -/
theorem interpolate_cases (inputData : List (List K)) (nParams : Nat) (t : K)
    (hne : inputData ≠ []) (hn : 1 ≤ nParams) (hn2 : nParams < 4294967296)
    (hrows : ∀ r ∈ inputData, r.length = nParams) :
    ∃ out, interpolate inputData nParams t = some out ∧ out.length = nParams - 1 ∧
      ((t < rowTime (tableRow inputData 0) ∧ out = rowValues (tableRow inputData 0)) ∨
        (¬t < rowTime (tableRow inputData 0) ∧ (∀ r ∈ inputData, rowTime r < t) ∧
          out = rowValues (tableRow inputData (inputData.length - 1))) ∨
        (¬t < rowTime (tableRow inputData 0) ∧ t ≤ rowTime (tableRow inputData 0) ∧
          out = rowValues (tableRow inputData 0)) ∨
        (¬t < rowTime (tableRow inputData 0) ∧ ∃ k, k + 1 < inputData.length ∧
          t ≤ rowTime (tableRow inputData (k + 1)) ∧
          (∀ m, m < k + 1 → rowTime (tableRow inputData m) < t) ∧
          out = blendRows ((t - rowTime (tableRow inputData k))
              / (rowTime (tableRow inputData (k + 1)) - rowTime (tableRow inputData k)))
            (tableRow inputData k) (tableRow inputData (k + 1)))) := by
  have hlen : 0 < inputData.length := List.length_pos.mpr hne
  have hrows' : ∀ r ∈ inputData, r ≠ [] := by
    intro r hr h0
    have := hrows r hr
    rw [h0] at this
    simp at this
    omega
  have hL : ∀ i, i < inputData.length → (tableRow inputData i).length = nParams :=
    fun i hi => hrows _ (tableRow_mem inputData i hi)
  by_cases ht : t < rowTime (tableRow inputData 0)
  · have hl := interpolateLocals_before inputData t hne hrows' ht
    refine ⟨_, interpolate_of_locals inputData nParams t hn hn2 hrows 0 0 0 hl hlen hlen,
      blendRows_length _ _ _ _ (hL 0 hlen) (hL 0 hlen), Or.inl ⟨ht, blendRows_zero _⟩⟩
  · rcases interpolateSearch_spec t inputData 0 hrows' with ⟨k, hk, hs, hle, hlt⟩ | ⟨hs, hall⟩
    · rw [Nat.zero_add] at hs
      cases k with
      | zero =>
        have hl := interpolateLocals_first inputData t hne hrows' ht hs
        refine ⟨_, interpolate_of_locals inputData nParams t hn hn2 hrows 0 0 0 hl hlen hlen,
          blendRows_length _ _ _ _ (hL 0 hlen) (hL 0 hlen),
          Or.inr (Or.inr (Or.inl ⟨ht, hle, blendRows_zero _⟩))⟩
      | succ k =>
        have hl := interpolateLocals_between inputData t k hk hrows' ht hs
        have hk0 : k < inputData.length := by omega
        refine ⟨_, interpolate_of_locals inputData nParams t hn hn2 hrows k (k + 1) _ hl hk0 hk,
          blendRows_length _ _ _ _ (hL k hk0) (hL (k + 1) hk),
          Or.inr (Or.inr (Or.inr ⟨ht, k, hk, hle, hlt, rfl⟩))⟩
    · have hl := interpolateLocals_after inputData t hne hrows' ht hs
      have hc : ((inputData.length - 1 : Nat) : Int) = (inputData.length : Int) - 1 := by omega
      rw [← hc] at hl
      have hlast : inputData.length - 1 < inputData.length := by omega
      refine ⟨_, interpolate_of_locals inputData nParams t hn hn2 hrows _ _ 0 hl hlast hlast,
        blendRows_length _ _ _ _ (hL _ hlast) (hL _ hlast),
        Or.inr (Or.inl ⟨ht, hall, blendRows_zero _⟩)⟩

/-- C37: `SetByUser::interpolate` on a non-empty table whose rows have
`nParams` entries, the first of them a time, returns an output of
`nParams - 1` entries. If `t` is smaller than the first row's time the output
is the first row's values; if `t` is larger than every row's time it is the
last row's values; otherwise, with `i2` the first row whose time is `>= t`,
it is row `0`'s values when `i2 = 0` and else the blend
`(1-s)*row[i2-1] + s*row[i2]` with
`s = (t - time[i2-1]) / (time[i2] - time[i2-1])`. At a sample time of a
strictly ascending table the output is that row's values. -/
theorem C37_interpolate_output (inputData : List (List K)) (nParams : Nat) (t : K)
    (hne : inputData ≠ []) (hn : 1 ≤ nParams) (hn2 : nParams < 4294967296)
    (hrows : ∀ r ∈ inputData, r.length = nParams) :
    ∃ out, interpolate inputData nParams t = some out ∧ out.length = nParams - 1 ∧
      (t < rowTime (tableRow inputData 0) → out = rowValues (tableRow inputData 0)) ∧
      ((∀ r ∈ inputData, rowTime r < t) →
        out = rowValues (tableRow inputData (inputData.length - 1))) ∧
      (∀ i2, i2 < inputData.length → ¬t < rowTime (tableRow inputData 0) →
        t ≤ rowTime (tableRow inputData i2) →
        (∀ m, m < i2 → rowTime (tableRow inputData m) < t) →
        (i2 = 0 → out = rowValues (tableRow inputData 0)) ∧
        (0 < i2 → out = blendRows ((t - rowTime (tableRow inputData (i2 - 1)))
              / (rowTime (tableRow inputData i2) - rowTime (tableRow inputData (i2 - 1))))
            (tableRow inputData (i2 - 1)) (tableRow inputData i2))) ∧
      ((inputData.Pairwise fun r r' => rowTime r < rowTime r') →
        ∀ j, j < inputData.length → t = rowTime (tableRow inputData j) →
          out = rowValues (tableRow inputData j)) := by
  have hlen : 0 < inputData.length := List.length_pos.mpr hne
  have hL : ∀ i, i < inputData.length → (tableRow inputData i).length = nParams :=
    fun i hi => hrows _ (tableRow_mem inputData i hi)
  have hmem0 := tableRow_mem inputData 0 hlen
  obtain ⟨out, hout, hlen', hcase⟩ := interpolate_cases inputData nParams t hne hn hn2 hrows
  refine ⟨out, hout, hlen', ?_, ?_, ?_, ?_⟩
  · intro ht
    rcases hcase with ⟨-, h⟩ | ⟨h, -⟩ | ⟨h, -⟩ | ⟨h, -⟩
    · exact h
    all_goals exact absurd ht h
  · intro hall
    rcases hcase with ⟨h, -⟩ | ⟨-, -, h⟩ | ⟨-, h, -⟩ | ⟨-, k, hk, h, -⟩
    · exact absurd (hall _ hmem0) (not_lt.mpr (le_of_lt h))
    · exact h
    · exact absurd (hall _ hmem0) (not_lt.mpr h)
    · exact absurd (hall _ (tableRow_mem inputData (k + 1) hk)) (not_lt.mpr h)
  · intro i2 hi2 ht hle hlt
    rcases hcase with ⟨h, -⟩ | ⟨-, hall, -⟩ | ⟨-, h0, h⟩ | ⟨-, k, hk, hk1, hk2, h⟩
    · exact absurd h ht
    · exact absurd (hall _ (tableRow_mem inputData i2 hi2)) (not_lt.mpr hle)
    · have : i2 = 0 := by
        by_contra hne0
        exact absurd (hlt 0 (Nat.pos_of_ne_zero hne0)) (not_lt.mpr h0)
      subst this
      exact ⟨fun _ => h, fun h' => absurd h' (lt_irrefl 0)⟩
    · have : i2 = k + 1 := by
        rcases lt_trichotomy i2 (k + 1) with h1 | h1 | h1
        · exact absurd (hk2 i2 h1) (not_lt.mpr hle)
        · exact h1
        · exact absurd (hlt (k + 1) h1) (not_lt.mpr hk1)
      subst this
      exact ⟨fun h' => absurd h' (Nat.succ_ne_zero k), fun _ => h⟩
  · intro hasc j hj htj
    rcases hcase with ⟨h, -⟩ | ⟨-, hall, -⟩ | ⟨ht, h0, h⟩ | ⟨-, k, hk, hk1, hk2, h⟩
    · exfalso
      rcases Nat.eq_zero_or_pos j with h0 | h0
      · subst h0; rw [htj] at h; exact lt_irrefl _ h
      · have := rowTime_lt_of_pairwise inputData hasc 0 j h0 hj
        rw [htj] at h
        exact lt_asymm h this
    · exfalso
      have := hall _ (tableRow_mem inputData j hj)
      rw [htj] at this
      exact lt_irrefl _ this
    · have : j = 0 := by
        by_contra hne0
        have := rowTime_lt_of_pairwise inputData hasc 0 j (Nat.pos_of_ne_zero hne0) hj
        rw [← htj] at this
        exact absurd this (not_lt.mpr h0)
      subst this
      exact h
    · have hj' : j = k + 1 := by
        rcases lt_trichotomy j (k + 1) with h1 | h1 | h1
        · have := hk2 j h1
          rw [htj] at this
          exact absurd this (lt_irrefl _)
        · exact h1
        · have := rowTime_lt_of_pairwise inputData hasc (k + 1) j h1 hj
          rw [← htj] at this
          exact absurd this (not_lt.mpr hk1)
      subst hj'
      have hd : rowTime (tableRow inputData (k + 1)) - rowTime (tableRow inputData k) ≠ 0 := by
        have := hk2 k (Nat.lt_succ_self k)
        rw [htj] at this
        exact ne_of_gt (by linarith)
      rw [h, htj, div_self hd]
      exact blendRows_one _ _ ((hL k (by omega)).trans (hL (k + 1) hk).symm)

end InterpolateCases

end Vlasiator

namespace Vlasiator

open CellParams fieldsolver

/-- C37 at a concrete input: the table of three rows at `t = 1`, halfway
between the first two sample times. -/
theorem C37_interpolate_output_witness :
    (sampleTable ≠ [] ∧ 1 ≤ 3 ∧ 3 < 4294967296 ∧ ∀ r ∈ sampleTable, r.length = 3) ∧
    ∃ out, interpolate sampleTable 3 1 = some out ∧ out.length = 3 - 1 ∧
      out = blendRows ((1 - rowTime (tableRow sampleTable (1 - 1)))
              / (rowTime (tableRow sampleTable 1) - rowTime (tableRow sampleTable (1 - 1))))
            (tableRow sampleTable (1 - 1)) (tableRow sampleTable 1) :=
  ⟨⟨by simp [sampleTable], by norm_num, by norm_num, by simp [sampleTable]⟩,
    (C37_interpolate_output sampleTable 3 1 (by simp [sampleTable]) (by norm_num) (by norm_num)
      (by simp [sampleTable])).imp fun _ h =>
      ⟨h.1, h.2.1, (h.2.2.2.2.1 1 (by simp [sampleTable])
        (by norm_num [sampleTable, tableRow, rowTime])
        (by norm_num [sampleTable, tableRow, rowTime])
        (by
          intro m hm
          have : m = 0 := by omega
          subst this
          norm_num [sampleTable, tableRow, rowTime])).2 (by norm_num)⟩⟩

/-- The output of `interpolate` on the table of three rows at `t = 1`. -/
theorem interpolate_sampleTable : interpolate sampleTable 3 1 = some [20, 200] := by
  norm_num [interpolate, interpolateLocals, interpolateSearch, interpolateOutput, sampleTable,
    toUint]

/-- C38 at a concrete input: the table that is not sorted and repeats a time,
at `t = 4`. -/
theorem C38_interpolate_never_divides_by_zero_witness :
    (unsortedTable ≠ [] ∧ ∀ r ∈ unsortedTable, r ≠ []) ∧
    ∃ i1 i2 : Nat, ∃ s : ℚ,
      interpolateLocals unsortedTable 4 = some ((i1 : Int), (i2 : Int), s) ∧
      i1 ≤ i2 ∧ i2 < unsortedTable.length :=
  ⟨⟨by simp [unsortedTable], by simp [unsortedTable]⟩,
    (C38_interpolate_never_divides_by_zero unsortedTable 4 (by simp [unsortedTable])
      (by simp [unsortedTable])).imp fun _ h => h.imp fun _ h => h.imp fun _ h =>
        ⟨h.1, h.2.1, h.2.2.1⟩⟩

/-- The locals of `interpolate` on the unsorted table at `t = 4`: the search
stops at row `3`, and `s = (4 - 1) / (5 - 1)`. -/
theorem interpolateLocals_unsortedTable :
    interpolateLocals unsortedTable 4 = some (2, 3, 3 / 4) := by
  have h2 : Int.toNat 2 = 2 := rfl
  norm_num [interpolateLocals, interpolateSearch, unsortedTable, h2]

end Vlasiator

namespace Vlasiator

open CellParams fieldsolver

/-! ## Upwinding on supersonic flow -/

section Upwind

variable {K : Type} [LinearOrderedField K]

/-- When no corner has its speed above its velocity, the largest of zero and
of `-V + c` over the corners is zero. -/
theorem maxNegSpeed_eq_zero (l : List (K × K)) (h : ∀ vc ∈ l, vc.2 ≤ vc.1) :
    maxNegSpeed l = 0 := by
  unfold maxNegSpeed
  induction l with
  | nil => rfl
  | cons vc l ih =>
    rw [List.foldl_cons, max_eq_left (by linarith [h vc (List.mem_cons_self _ _)])]
    exact ih fun w hw => h w (List.mem_cons_of_mem _ hw)

/-- The arithmetic of `calculateEdgeElectricFieldX` when at each corner both
transverse velocities are at least the corner's speed. -/
theorem edgeElectricFieldX_supersonic (X : Externals K)
    (cp_SW cp_SE cp_NE cp_NW : CellParams → K)
    (derivs_SW derivs_SE derivs_NE derivs_NW : fieldsolver → K)
    (nbr_cp_SW nbr_cp_SE nbr_cp_NW nbr_cp_NE : CellParams → K)
    (nbr_derivs_SW nbr_derivs_SE nbr_derivs_NW nbr_derivs_NE : fieldsolver → K)
    (h : ∀ v ∈ cornerSpeedsX X cp_SW cp_SE cp_NE cp_NW derivs_SW derivs_SE derivs_NE
      derivs_NW nbr_cp_SW nbr_cp_SE nbr_cp_NW nbr_cp_NE nbr_derivs_SW nbr_derivs_SE
      nbr_derivs_NW nbr_derivs_NE, v.2.2 ≤ v.1 ∧ v.2.2 ≤ v.2.1) :
    let L := edgeElectricFieldX X cp_SW cp_SE cp_NE cp_NW derivs_SW derivs_SE derivs_NE
      derivs_NW nbr_cp_SW nbr_cp_SE nbr_cp_NW nbr_cp_NE nbr_derivs_SW nbr_derivs_SE
      nbr_derivs_NW nbr_derivs_NE
    L.ay_neg = 0 ∧ L.az_neg = 0 ∧ L.diffusive_z = 0 ∧ L.diffusive_y = 0 ∧
    L.EX * (L.ay_pos * L.az_pos + EPS) = L.ay_pos * L.az_pos * L.Ex_NE := by
  intro L
  obtain ⟨s1, -, s3, -⟩ := edgeElectricFieldX_speeds X cp_SW cp_SE cp_NE cp_NW derivs_SW
    derivs_SE derivs_NE derivs_NW nbr_cp_SW nbr_cp_SE nbr_cp_NW nbr_cp_NE nbr_derivs_SW
    nbr_derivs_SE nbr_derivs_NW nbr_derivs_NE
  obtain ⟨⟨p1, -, p3, -⟩, -, -, -, hEX, ⟨dz, hdz⟩, ⟨dy, hdy⟩⟩ :=
    edgeElectricFieldX_denominators X cp_SW cp_SE cp_NE cp_NW derivs_SW
      derivs_SE derivs_NE derivs_NW nbr_cp_SW nbr_cp_SE nbr_cp_NW nbr_cp_NE nbr_derivs_SW
      nbr_derivs_SE nbr_derivs_NW nbr_derivs_NE
  have hy : L.ay_neg = 0 := by
    rw [show L.ay_neg = _ from s1]
    apply maxNegSpeed_eq_zero
    intro vc hvc
    obtain ⟨v, hv, rfl⟩ := List.mem_map.mp hvc
    exact (h v hv).1
  have hz : L.az_neg = 0 := by
    rw [show L.az_neg = _ from s3]
    apply maxNegSpeed_eq_zero
    intro vc hvc
    obtain ⟨v, hv, rfl⟩ := List.mem_map.mp hvc
    exact (h v hv).2
  have hdz0 : L.diffusive_z = 0 := by
    rw [show L.diffusive_z = _ from hdz, hz]; simp
  have hdy0 : L.diffusive_y = 0 := by
    rw [show L.diffusive_y = _ from hdy, hy]; simp
  refine ⟨hy, hz, hdz0, hdy0, ?_⟩
  have hpos : L.ay_pos * L.az_pos + EPS ≠ 0 := by
    have := EPS_pos (K := K)
    have := mul_nonneg (show 0 ≤ L.ay_pos from p1) (show 0 ≤ L.az_pos from p3)
    linarith
  rw [show L.EX = _ from hEX, hdz0, hdy0, hy, hz]
  simp only [add_zero, zero_mul, mul_zero, sub_zero]
  rw [div_mul_cancel₀ _ hpos]

/-- C34: `calculateEdgeElectricFieldX` on a cell whose surroundings are cells.
`SW` is the cell, `SE` its `-y` neighbour, `NW` its `-z` neighbour, `NE` its
`-y,-z` neighbour, the upstream `(j-1,k-1)` corner; `Vy`, `Vz` and `c` are the
velocity components and the fast-magnetosonic speed that the function
computes for a corner. If at each of the four corners `Vy >= c` and
`Vz >= c`, the function returns with `ay_neg = az_neg = 0` and both diffusive
terms zero; `ay_pos` (`az_pos`) is the largest of zero and of `Vy + c`
(`Vz + c`) over the corners; `Ex_NE` is the estimate computed from the data
of the corner `NE`; and the value stored in the slot `EX` of the cell
satisfies `EX*(ay_pos*az_pos + EPS) = ay_pos*az_pos*Ex_NE`. -/
theorem C34_upwinding_selects_upstream_corner (X : Externals K) (c : CellID) (g : ParGrid K)
    (hready : EdgeXReady g c) :
    let cp_SW := g.cpu_cellParams c
    let cp_SE := g.cpu_cellParams (g.getNeighbour c (calcNbrTypeID 2 (2 - 1) 2))
    let cp_NE := g.cpu_cellParams (g.getNeighbour c (calcNbrTypeID 2 (2 - 1) (2 - 1)))
    let cp_NW := g.cpu_cellParams (g.getNeighbour c (calcNbrTypeID 2 2 (2 - 1)))
    let derivs_SW := g.cpu_derivatives c
    let derivs_SE := g.cpu_derivatives (g.getNeighbour c (calcNbrTypeID 2 (2 - 1) 2))
    let derivs_NE := g.cpu_derivatives (g.getNeighbour c (calcNbrTypeID 2 (2 - 1) (2 - 1)))
    let derivs_NW := g.cpu_derivatives (g.getNeighbour c (calcNbrTypeID 2 2 (2 - 1)))
    let nbr_cp_SW := g.cpu_cellParams (g.getNeighbour c (calcNbrTypeID (2 + 1) 2 2))
    let nbr_cp_SE := g.cpu_cellParams (g.getNeighbour c (calcNbrTypeID (2 + 1) (2 - 1) 2))
    let nbr_cp_NW := g.cpu_cellParams (g.getNeighbour c (calcNbrTypeID (2 + 1) 2 (2 - 1)))
    let nbr_cp_NE := g.cpu_cellParams (g.getNeighbour c (calcNbrTypeID (2 + 1) (2 - 1) (2 - 1)))
    let nbr_derivs_SW := g.cpu_derivatives (g.getNeighbour c (calcNbrTypeID (2 + 1) 2 2))
    let nbr_derivs_SE := g.cpu_derivatives (g.getNeighbour c (calcNbrTypeID (2 + 1) (2 - 1) 2))
    let nbr_derivs_NW := g.cpu_derivatives (g.getNeighbour c (calcNbrTypeID (2 + 1) 2 (2 - 1)))
    let nbr_derivs_NE :=
      g.cpu_derivatives (g.getNeighbour c (calcNbrTypeID (2 + 1) (2 - 1) (2 - 1)))
    let Vy_SW := cp_SW RHOVY / cp_SW RHO
    let Vz_SW := cp_SW RHOVZ / cp_SW RHO
    let Vy_SE := cp_SE RHOVY / cp_SE RHO
    let Vz_SE := cp_SE RHOVZ / cp_SE RHO
    let Vy_NW := cp_NW RHOVY / cp_NW RHO
    let Vz_NW := cp_NW RHOVZ / cp_NW RHO
    let Vy_NE := cp_NE RHOVY / cp_NE RHO
    let Vz_NE := cp_NE RHOVZ / cp_NE RHO
    let c_SW := calculateFastMSspeedYZ X cp_SW derivs_SW nbr_cp_SW nbr_derivs_SW
      (cp_SW BY) (cp_SW BZ) (derivs_SW dBydx) (derivs_SW dBydz) (derivs_SW dBzdx)
      (derivs_SW dBzdy) MINUS MINUS
    let c_SE := calculateFastMSspeedYZ X cp_SE derivs_SE nbr_cp_SE nbr_derivs_SE
      (cp_SW BY) (cp_SE BZ) (derivs_SW dBydx) (derivs_SW dBydz) (derivs_SE dBzdx)
      (derivs_SE dBzdy) PLUS MINUS
    let c_NW := calculateFastMSspeedYZ X cp_NW derivs_NW nbr_cp_NW nbr_derivs_NW
      (cp_NW BY) (cp_SW BZ) (derivs_NW dBydx) (derivs_NW dBydz) (derivs_SW dBzdx)
      (derivs_SW dBzdy) MINUS PLUS
    let c_NE := calculateFastMSspeedYZ X cp_NE derivs_NE nbr_cp_NE nbr_derivs_NE
      (cp_NW BY) (cp_SE BZ) (derivs_NW dBydx) (derivs_NW dBydz) (derivs_SE dBzdx)
      (derivs_SE dBzdy) PLUS PLUS
    (c_SW ≤ Vy_SW ∧ c_SW ≤ Vz_SW) ∧ (c_SE ≤ Vy_SE ∧ c_SE ≤ Vz_SE) ∧
      (c_NW ≤ Vy_NW ∧ c_NW ≤ Vz_NW) ∧ (c_NE ≤ Vy_NE ∧ c_NE ≤ Vz_NE) →
    ∃ L g', edgeElectricFieldXAt X c g = some L ∧
      calculateEdgeElectricFieldX X c g = some g' ∧
      g' = g.setCellParam c EX L.EX ∧ g'.cpu_cellParams c EX = L.EX ∧
      L.ay_neg = 0 ∧ L.az_neg = 0 ∧ L.diffusive_z = 0 ∧ L.diffusive_y = 0 ∧
      L.ay_pos = max (max (max (max 0 (Vy_SW + c_SW)) (Vy_SE + c_SE)) (Vy_NW + c_NW))
        (Vy_NE + c_NE) ∧
      L.az_pos = max (max (max (max 0 (Vz_SW + c_SW)) (Vz_SE + c_SE)) (Vz_NW + c_NW))
        (Vz_NE + c_NE) ∧
      L.Ex_NE_1st = cp_NW BY * Vz_NE - cp_SE BZ * Vy_NE ∧
      L.Ex_NE =
        (if X.FS_1ST_ORDER then L.Ex_NE_1st
          else L.Ex_NE_1st
            + HALF * ((cp_NW BY + HALF * derivs_NW dBydz) * (derivs_NE dVzdy + derivs_NE dVzdz)
                + derivs_NW dBydz * Vz_NE + SIXTH * derivs_NW dBydx * derivs_NE dVzdx)
            + (-HALF) * ((cp_SE BZ + HALF * derivs_SE dBzdy)
                  * (derivs_NE dVydy + derivs_NE dVydz)
                + derivs_SE dBzdy * Vy_NE + SIXTH * derivs_SE dBzdx * derivs_NE dVydx)) ∧
      g'.cpu_cellParams c EX * (L.ay_pos * L.az_pos + EPS) = L.ay_pos * L.az_pos * L.Ex_NE := by
  intro cp_SW cp_SE cp_NE cp_NW derivs_SW derivs_SE derivs_NE derivs_NW nbr_cp_SW nbr_cp_SE
    nbr_cp_NW nbr_cp_NE nbr_derivs_SW nbr_derivs_SE nbr_derivs_NW nbr_derivs_NE
    Vy_SW Vz_SW Vy_SE Vz_SE Vy_NW Vz_NW Vy_NE Vz_NE c_SW c_SE c_NW c_NE hsup
  obtain ⟨L, hL, hrun⟩ := calculateEdgeElectricFieldX_run X c g hready
  have hL' : edgeElectricFieldXAt X c g = some (edgeElectricFieldX X cp_SW cp_SE cp_NE cp_NW
      derivs_SW derivs_SE derivs_NE derivs_NW nbr_cp_SW nbr_cp_SE nbr_cp_NW nbr_cp_NE
      nbr_derivs_SW nbr_derivs_SE nbr_derivs_NW nbr_derivs_NE) := if_pos hready
  have hL2 := hL
  rw [hL'] at hL2
  have hLe := Option.some.inj hL2
  have hcs : ∀ v ∈ cornerSpeedsX X cp_SW cp_SE cp_NE cp_NW derivs_SW derivs_SE derivs_NE
      derivs_NW nbr_cp_SW nbr_cp_SE nbr_cp_NW nbr_cp_NE nbr_derivs_SW nbr_derivs_SE
      nbr_derivs_NW nbr_derivs_NE, v.2.2 ≤ v.1 ∧ v.2.2 ≤ v.2.1 := by
    intro v hv
    unfold cornerSpeedsX at hv
    simp only [List.mem_cons, List.mem_singleton, List.not_mem_nil, or_false] at hv
    rcases hv with rfl | rfl | rfl | rfl
    · exact hsup.1
    · exact hsup.2.1
    · exact hsup.2.2.1
    · exact hsup.2.2.2
  obtain ⟨a1, a2, a3, a4, a5⟩ := edgeElectricFieldX_supersonic X cp_SW cp_SE cp_NE cp_NW
    derivs_SW derivs_SE derivs_NE derivs_NW nbr_cp_SW nbr_cp_SE nbr_cp_NW nbr_cp_NE
    nbr_derivs_SW nbr_derivs_SE nbr_derivs_NW nbr_derivs_NE hcs
  refine ⟨L, g.setCellParam c EX L.EX, hL, hrun, rfl, ?_, ?_, ?_, ?_, ?_, ?_, ?_, ?_, ?_, ?_⟩
  · rw [setCellParam_apply, if_pos ⟨rfl, rfl⟩]
  · rw [← hLe]; exact a1
  · rw [← hLe]; exact a2
  · rw [← hLe]; exact a3
  · rw [← hLe]; exact a4
  · rw [← hLe]; rfl
  · rw [← hLe]; rfl
  · rw [← hLe]; rfl
  · rw [← hLe]; rfl
  · rw [setCellParam_apply, if_pos ⟨rfl, rfl⟩, ← hLe]
    exact a5

end Upwind

/-- The corner velocities and corner speeds of `calculateEdgeElectricFieldX`
on the mesh with the data `supersonicCellParams`: velocity `4`, speed `3`. -/
theorem cornerSpeedsX_supersonic :
    cornerSpeedsX sampleExternals
      (supersonicCellParams 13) (supersonicCellParams 10) (supersonicCellParams 1)
      (supersonicCellParams 4) (fun _ => 0) (fun _ => 0) (fun _ => 0) (fun _ => 0)
      (supersonicCellParams 14) (supersonicCellParams 11) (supersonicCellParams 5)
      (supersonicCellParams 2) (fun _ => 0) (fun _ => 0) (fun _ => 0) (fun _ => 0)
      = [(4, 4, 3), (4, 4, 3), (4, 4, 3), (4, 4, 3)] := by
  simp [cornerSpeedsX, calculateFastMSspeedYZ, supersonicCellParams, sampleExternals, HALF,
    TWELWTH, MINUS, PLUS]
  norm_num [rat_sqrt_nine]

/-- The fast-magnetosonic speed that `calculateEdgeElectricFieldX` computes
from the data `supersonicCellParams` is `3` at every corner. -/
theorem supersonic_corner_speed (a b : CellID) (ydir zdir : ℚ) :
    calculateFastMSspeedYZ sampleExternals (supersonicCellParams a) (fun _ => 0)
      (supersonicCellParams b) (fun _ => 0) 3 0 0 0 0 0 ydir zdir = 3 := by
  simp [calculateFastMSspeedYZ, supersonicCellParams, sampleExternals, HALF, TWELWTH]
  norm_num [rat_sqrt_nine]

/-- C34 at a concrete input: cell `13` of the periodic mesh of 3 x 3 x 3
cells, all of which hold plasma of density `1` that moves with velocity `4`
along `y` and `z` in the field `BY = 3`, so that the speed is `3` at every
corner. The function returns with `ay_pos = az_pos = 7`, the estimate
`Ex_NE = 3*4 - 0*4 = 12` of the upstream corner, and the stored value
satisfies `EX * (49 + EPS) = 588`. -/
theorem C34_upwinding_selects_upstream_corner_witness :
    EdgeXReady (torusGrid supersonicCellParams (fun _ _ => 0)) 13 ∧
    ∃ L g', edgeElectricFieldXAt sampleExternals 13
        (torusGrid supersonicCellParams (fun _ _ => 0)) = some L ∧
      calculateEdgeElectricFieldX sampleExternals 13
          (torusGrid supersonicCellParams (fun _ _ => 0)) = some g' ∧
      L.ay_neg = 0 ∧ L.az_neg = 0 ∧ L.diffusive_z = 0 ∧ L.diffusive_y = 0 ∧
      L.ay_pos = 7 ∧ L.az_pos = 7 ∧ L.Ex_NE_1st = 12 ∧ L.Ex_NE = 12 ∧
      g'.cpu_cellParams 13 EX * (49 + EPS) = 588 := by
  refine ⟨by decide, ?_⟩
  have h := C34_upwinding_selects_upstream_corner sampleExternals 13
    (torusGrid supersonicCellParams (fun _ _ => 0)) (by decide)
  have hv : (torusGrid supersonicCellParams (fun _ _ => 0)).cpu_cellParams
      = supersonicCellParams := rfl
  have hd : (torusGrid supersonicCellParams (fun _ _ => 0)).cpu_derivatives
      = fun _ _ => 0 := rfl
  have r1 : ∀ n : CellID, supersonicCellParams n RHO = 1 := fun _ => rfl
  have r2 : ∀ n : CellID, supersonicCellParams n RHOVY = 4 := fun _ => rfl
  have r3 : ∀ n : CellID, supersonicCellParams n RHOVZ = 4 := fun _ => rfl
  have b1 : ∀ n : CellID, supersonicCellParams n BY = 3 := fun _ => rfl
  have b2 : ∀ n : CellID, supersonicCellParams n BZ = 0 := fun _ => rfl
  have hf : sampleExternals.FS_1ST_ORDER = false := rfl
  simp only [hv, hd, r1, r2, r3, b1, b2, supersonic_corner_speed, hf] at h
  obtain ⟨L, g', hL, hg', -, -, n1, n2, d1, d2, p1, p2, e1, e2, hEX⟩ := h (by norm_num)
  have p1' : L.ay_pos = 7 := by rw [p1]; norm_num
  have p2' : L.az_pos = 7 := by rw [p2]; norm_num
  have e1' : L.Ex_NE_1st = 12 := by rw [e1]; norm_num
  have e2' : L.Ex_NE = 12 := by rw [e2, e1']; norm_num [HALF, SIXTH]
  refine ⟨L, g', hL, hg', n1, n2, d1, d2, p1', p2', e1', e2', ?_⟩
  rw [p1', p2', e2'] at hEX
  linarith

end Vlasiator

namespace Vlasiator

open CellParams fieldsolver

/-! ## The order of the calls of a stage driver -/

theorem calculatedCells_append (a b : List Event) :
    calculatedCells (a ++ b) = calculatedCells a ++ calculatedCells b := by
  induction a with
  | nil => rfl
  | cons e a ih => cases e <;> simp [calculatedCells, ih]

theorem calculatedCells_map (L : List CellID) : calculatedCells (L.map Event.calculate) = L := by
  induction L with
  | nil => rfl
  | cons c L ih => simp [calculatedCells, ih]

theorem calculatedCells_of_isPost (l : List Event) (h : ∀ e ∈ l, e.isPost = true) :
    calculatedCells l = [] := by
  induction l with
  | nil => rfl
  | cons e l ih =>
    have he := h e (List.mem_cons_self _ _)
    have hl := ih fun x hx => h x (List.mem_cons_of_mem _ hx)
    cases e <;> simp_all [calculatedCells, Event.isPost]

theorem postTransfers_isPost (recvs : List ((Int × Int) × CellID))
    (sends : List (CellID × (Int × Int))) : ∀ e ∈ postTransfers recvs sends, e.isPost = true := by
  intro e he
  unfold postTransfers at he
  simp only [List.mem_cons, List.mem_append, List.mem_map] at he
  rcases he with (rfl | ⟨it, -, rfl⟩) | ⟨it, -, rfl⟩ <;> rfl

theorem postTransfers_head (recvs : List ((Int × Int) × CellID))
    (sends : List (CellID × (Int × Int))) :
    (postTransfers recvs sends).head? = some Event.startSingleMode := rfl

/-- The calls of a two-phase exchange in program order have the two-phase
order. -/
theorem TwoPhaseOrder_exchange (recvs : List ((Int × Int) × CellID))
    (sends : List (CellID × (Int × Int))) (inner boundary : List CellID) :
    TwoPhaseOrder inner boundary
      (postTransfers recvs sends ++ inner.map Event.calculate ++ [Event.waitAllReceives]
        ++ boundary.map Event.calculate ++ [Event.waitAllSends]) := by
  have hp := postTransfers_isPost recvs sends
  have hnp : ∀ L : List CellID, ∀ e ∈ L.map Event.calculate, e.isPost = false := by
    intro L e he
    obtain ⟨c, -, rfl⟩ := List.mem_map.mp he
    rfl
  have hnc : ∀ e ∈ postTransfers recvs sends, e.isCalculate = false := by
    intro e he
    have := hp e he
    cases e <;> simp_all [Event.isPost, Event.isCalculate]
  have hrest : ∀ e ∈ inner.map Event.calculate ++ [Event.waitAllReceives]
      ++ boundary.map Event.calculate ++ [Event.waitAllSends], e.isPost = false := by
    intro e he
    simp only [List.mem_append, List.mem_singleton] at he
    rcases he with ((he | rfl) | he) | rfl
    · exact hnp inner e he
    · rfl
    · exact hnp boundary e he
    · rfl
  have hsplit : postTransfers recvs sends ++ inner.map Event.calculate ++ [Event.waitAllReceives]
        ++ boundary.map Event.calculate ++ [Event.waitAllSends]
      = postTransfers recvs sends ++ (inner.map Event.calculate ++ [Event.waitAllReceives]
        ++ boundary.map Event.calculate ++ [Event.waitAllSends]) := by
    simp only [List.append_assoc]
  refine ⟨?_, ⟨postTransfers recvs sends ++ inner.map Event.calculate,
    boundary.map Event.calculate ++ [Event.waitAllSends], by simp, ?_, ?_, ?_, ?_⟩,
    ⟨postTransfers recvs sends ++ inner.map Event.calculate ++ [Event.waitAllReceives]
        ++ boundary.map Event.calculate, rfl, ?_⟩⟩
  · rw [hsplit, List.pairwise_append]
    refine ⟨List.pairwise_of_forall_mem_list ?_, List.pairwise_of_forall_mem_list ?_, ?_⟩
    · intro a ha b _ hc
      rw [hnc a ha] at hc
      exact absurd hc (by simp)
    · intro a _ b hb _
      exact hrest b hb
    · intro a ha b _ hc
      rw [hnc a ha] at hc
      exact absurd hc (by simp)
  · intro h
    rcases List.mem_append.mp h with h | h
    · exact absurd (hp _ h) (by simp [Event.isPost])
    · obtain ⟨c, -, hc⟩ := List.mem_map.mp h
      exact Event.noConfusion hc
  · intro h
    rcases List.mem_append.mp h with h | h
    · obtain ⟨c, -, hc⟩ := List.mem_map.mp h
      exact Event.noConfusion hc
    · simp at h
  · rw [calculatedCells_append, calculatedCells_of_isPost _ hp, calculatedCells_map]
    rfl
  · rw [calculatedCells_append, calculatedCells_map]
    simp [calculatedCells]
  · intro h
    simp only [List.mem_append, List.mem_map, List.mem_singleton] at h
    rcases h with ((h | ⟨c, -, hc⟩) | h) | ⟨c, -, hc⟩
    · exact absurd (hp _ h) (by simp [Event.isPost])
    · exact Event.noConfusion hc
    · exact Event.noConfusion h
    · exact Event.noConfusion hc

/-- A cell loop that records its computations: the record is extended by one
computation per cell, and the state is the one of the loop without record. -/
theorem tracedLoop_eq {σ : Type} (f : CellID → σ → Option σ) (L : List CellID)
    (tr : List Event) (s : σ) :
    L.foldlM (fun (st : List Event × σ) cellID =>
        (f cellID st.2).bind fun s' => some (st.1 ++ [Event.calculate cellID], s')) (tr, s) =
      (L.foldlM (fun s cellID => f cellID s) s).map fun s' =>
        (tr ++ L.map Event.calculate, s') := by
  induction L generalizing tr s with
  | nil => simp
  | cons c L ih =>
    rw [List.foldlM_cons, List.foldlM_cons]
    cases h : f c s with
    | none => simp [h]
    | some s' =>
      simp only [h, Option.bind_eq_bind, Option.some_bind]
      rw [ih]
      simp

section TracedStages

variable {K : Type} [LinearOrderedField K]

/-- The recorded derivative stage: the mesh is the one of
`calculateDerivativesSimple`, the record is the two-phase exchange. -/
theorem calculateDerivativesSimpleTraced_eq (X : Externals K) (G : Globals)
    (recvs : List ((Int × Int) × CellID)) (sends : List (CellID × (Int × Int)))
    (g : ParGrid K) (localCells : List CellID) :
    calculateDerivativesSimpleTraced X G recvs sends g localCells =
      (calculateDerivativesSimple X G g localCells).map fun g' =>
        (postTransfers recvs sends ++ G.stencil3.innerCells.map Event.calculate
          ++ [Event.waitAllReceives] ++ G.stencil3.boundaryCells.map Event.calculate
          ++ [Event.waitAllSends], g') := by
  unfold calculateDerivativesSimpleTraced calculateDerivativesSimple
  simp only [Option.bind_eq_bind, Option.pure_def]
  rw [tracedLoop_eq (fun c g => calculateDerivatives X G c g)]
  cases h : G.stencil3.innerCells.foldlM (fun g cellID => calculateDerivatives X G cellID g) g with
  | none => simp
  | some g1 =>
    simp only [Option.map_some', Option.some_bind]
    rw [tracedLoop_eq (fun c g => calculateDerivatives X G c g)]
    cases h2 : G.stencil3.boundaryCells.foldlM
        (fun g cellID => calculateDerivatives X G cellID g) g1 with
    | none => simp
    | some g2 => simp

/-- The recorded derivative exchange of the edge stage: the state is the one
of `calculateUpwindedElectricFieldSimple`, the record is the two-phase
exchange. -/
theorem upwindedDerivativeExchangeTraced_eq (X : Externals K) (G : Globals)
    (recvs : List ((Int × Int) × CellID)) (sends : List (CellID × (Int × Int)))
    (g : ParGrid K) (localCells : List CellID) :
    upwindedDerivativeExchangeTraced X G recvs sends g =
      (calculateUpwindedElectricFieldSimple X G g localCells).map fun st =>
        (postTransfers recvs sends ++ G.stencil3.innerCells.map Event.calculate
          ++ [Event.waitAllReceives] ++ G.stencil3.boundaryCells.map Event.calculate
          ++ [Event.waitAllSends], st) := by
  unfold upwindedDerivativeExchangeTraced calculateUpwindedElectricFieldSimple
  simp only [Option.bind_eq_bind, Option.pure_def]
  rw [tracedLoop_eq (fun c st => upwindedElectricFieldCell X G.masks c st)]
  cases h : G.stencil3.innerCells.foldlM
      (fun st cellID => upwindedElectricFieldCell X G.masks cellID st) (G.boundaryFlags, g) with
  | none => simp
  | some g1 =>
    simp only [Option.map_some', Option.some_bind]
    rw [tracedLoop_eq (fun c st => upwindedElectricFieldCell X G.masks c st)]
    cases h2 : G.stencil3.boundaryCells.foldlM
        (fun st cellID => upwindedElectricFieldCell X G.masks cellID st) g1 with
    | none => simp
    | some g2 => simp

/-- C32: the calls of `calculateDerivativesSimple` and of
`calculateUpwindedElectricFieldSimple` on the mesh, recorded in program order.
Whenever a stage returns, the record of its derivative exchange is
`startSingleMode`, one `singleReceive` for every entry of `stencil3.recvs`,
one `singleSend` for every entry of `stencil3.sends`, one computation for
every inner cell, `waitAllReceives`, one computation for every boundary cell,
`waitAllSends`, in this order. So every receive and every send is posted
before any cell is computed, no receive or send is posted after a cell
computation, `waitAllReceives` is called once, with the inner cells computed
before it and the boundary cells after it, and `waitAllSends` is called once,
as the last call. The edge stage then appends the exchange of the electric
field: `startSingleMode`, the receives, the sends and the two waits, after
that `waitAllSends`. The recorded stages compute the same mesh as the stages,
and they return when the cells of the stencil are ready. The completion of
the transfers is taken to be the return of the wait calls. -/
theorem C32_two_phase_exchange_order (X : Externals K) (G : Globals)
    (recvs : List ((Int × Int) × CellID)) (sends : List (CellID × (Int × Int)))
    (g : ParGrid K) (localCells : List CellID) :
    (∀ tr g', calculateDerivativesSimpleTraced X G recvs sends g localCells = some (tr, g') →
      calculateDerivativesSimple X G g localCells = some g' ∧
      tr = [Event.startSingleMode]
        ++ recvs.map (fun it => Event.singleReceive it.2 it.1.2)
        ++ sends.map (fun it => Event.singleSend it.2.1 it.2.2 it.1)
        ++ G.stencil3.innerCells.map Event.calculate
        ++ [Event.waitAllReceives]
        ++ G.stencil3.boundaryCells.map Event.calculate
        ++ [Event.waitAllSends] ∧
      tr.head? = some Event.startSingleMode ∧
      TwoPhaseOrder G.stencil3.innerCells G.stencil3.boundaryCells tr) ∧
    (∀ tr st,
      calculateUpwindedElectricFieldSimpleTraced X G recvs sends g localCells = some (tr, st) →
      calculateUpwindedElectricFieldSimple X G g localCells = some st ∧
      ∃ tr1, upwindedDerivativeExchangeTraced X G recvs sends g = some (tr1, st) ∧
        tr = tr1 ++ electricFieldExchange recvs sends ∧
        tr1 = [Event.startSingleMode]
          ++ recvs.map (fun it => Event.singleReceive it.2 it.1.2)
          ++ sends.map (fun it => Event.singleSend it.2.1 it.2.2 it.1)
          ++ G.stencil3.innerCells.map Event.calculate
          ++ [Event.waitAllReceives]
          ++ G.stencil3.boundaryCells.map Event.calculate
          ++ [Event.waitAllSends] ∧
        electricFieldExchange recvs sends = [Event.startSingleMode]
          ++ recvs.map (fun it => Event.singleReceive it.2 it.1.2)
          ++ sends.map (fun it => Event.singleSend it.2.1 it.2.2 it.1)
          ++ [Event.waitAllReceives, Event.waitAllSends] ∧
        tr1.head? = some Event.startSingleMode ∧
        TwoPhaseOrder G.stencil3.innerCells G.stencil3.boundaryCells tr1 ∧
        (electricFieldExchange recvs sends).head? = some Event.startSingleMode ∧
        calculatedCells (electricFieldExchange recvs sends) = []) ∧
    ((∀ c ∈ G.stencil3.innerCells ++ G.stencil3.boundaryCells, DerivativesReady G g c) →
      ∃ tr g', calculateDerivativesSimpleTraced X G recvs sends g localCells = some (tr, g')) ∧
    ((∀ c ∈ G.stencil3.innerCells ++ G.stencil3.boundaryCells, EdgeReady G g c) →
      ∃ tr st,
        calculateUpwindedElectricFieldSimpleTraced X G recvs sends g localCells
          = some (tr, st)) := by
  refine ⟨?_, ?_, ?_, ?_⟩
  · intro tr g' h
    rw [calculateDerivativesSimpleTraced_eq] at h
    obtain ⟨g1, hg1, heq⟩ := Option.map_eq_some'.mp h
    obtain ⟨rfl, rfl⟩ := Prod.mk.inj heq
    exact ⟨hg1, rfl, rfl, TwoPhaseOrder_exchange recvs sends _ _⟩
  · intro tr st h
    unfold calculateUpwindedElectricFieldSimpleTraced at h
    rw [upwindedDerivativeExchangeTraced_eq X G recvs sends g localCells] at h
    cases hs : calculateUpwindedElectricFieldSimple X G g localCells with
    | none => rw [hs] at h; simp at h
    | some st1 =>
      rw [hs] at h
      simp only [Option.map_some', Option.bind_eq_bind, Option.some_bind, Option.pure_def,
        Option.some.injEq, Prod.mk.injEq] at h
      obtain ⟨rfl, rfl⟩ := h
      refine ⟨rfl, _, ?_, rfl, rfl, rfl, rfl, TwoPhaseOrder_exchange recvs sends _ _, rfl, ?_⟩
      · rw [upwindedDerivativeExchangeTraced_eq X G recvs sends g localCells, hs]
        rfl
      · unfold electricFieldExchange
        rw [calculatedCells_append,
          calculatedCells_of_isPost _ (postTransfers_isPost recvs sends)]
        rfl
  · intro hready
    obtain ⟨g', hg', -⟩ := calculateDerivativesSimple_spec X G g localCells hready
    rw [calculateDerivativesSimpleTraced_eq, hg']
    exact ⟨_, _, rfl⟩
  · intro hready
    obtain ⟨st, hst, -⟩ := calculateUpwindedElectricFieldSimple_spec X G g localCells hready
    unfold calculateUpwindedElectricFieldSimpleTraced
    rw [upwindedDerivativeExchangeTraced_eq X G recvs sends g localCells, hst]
    exact ⟨_, _, rfl⟩

end TracedStages

/-- C32 at a concrete input: the row `splitRowGrid` of which this process
holds the inner cell `0` and the boundary cell `1`, with one receive (the
remote cell `2`, from process `1` with tag `0`) and one send (cell `1`, to
process `1` with tag `0`). Both stages return; the derivative stage makes the
calls `startSingleMode`, the receive, the send, the computation of cell `0`,
`waitAllReceives`, the computation of cell `1`, `waitAllSends`, and the edge
stage makes the same calls followed by `startSingleMode`, the receive, the
send, `waitAllReceives`, `waitAllSends`. -/
theorem C32_two_phase_exchange_order_witness :
    (∃ g', calculateDerivativesSimpleTraced sampleExternals splitRowGlobals splitRowRecvs
        splitRowSends splitRowGrid [0, 1] =
      some ([Event.startSingleMode, Event.singleReceive 2 0, Event.singleSend 1 0 1,
        Event.calculate 0, Event.waitAllReceives, Event.calculate 1, Event.waitAllSends],
        g') ∧
      calculateDerivativesSimple sampleExternals splitRowGlobals splitRowGrid [0, 1] = some g') ∧
    (∃ st, calculateUpwindedElectricFieldSimpleTraced sampleExternals splitRowGlobals
        splitRowRecvs splitRowSends splitRowGrid [0, 1] =
      some ([Event.startSingleMode, Event.singleReceive 2 0, Event.singleSend 1 0 1,
        Event.calculate 0, Event.waitAllReceives, Event.calculate 1, Event.waitAllSends,
        Event.startSingleMode, Event.singleReceive 2 0, Event.singleSend 1 0 1,
        Event.waitAllReceives, Event.waitAllSends], st) ∧
      calculateUpwindedElectricFieldSimple sampleExternals splitRowGlobals splitRowGrid [0, 1]
        = some st) := by
  obtain ⟨h1, h2, h3, h4⟩ := C32_two_phase_exchange_order sampleExternals splitRowGlobals
    splitRowRecvs splitRowSends splitRowGrid [0, 1]
  have hi : splitRowGlobals.stencil3.innerCells = [0] := by decide
  have hb : splitRowGlobals.stencil3.boundaryCells = [1] := by decide
  constructor
  · obtain ⟨tr, g', h⟩ := h3 (by decide)
    obtain ⟨hs, htr, -, -⟩ := h1 tr g' h
    rw [hi, hb] at htr
    subst htr
    exact ⟨g', h, hs⟩
  · obtain ⟨tr, st, h⟩ := h4 (by decide)
    obtain ⟨hs, tr1, -, htr, htr1, he, -, -, -, -⟩ := h2 tr st h
    rw [hi, hb] at htr1
    rw [htr1, he] at htr
    subst htr
    exact ⟨st, h, hs⟩

end Vlasiator

namespace Vlasiator

open CellParams fieldsolver

/-! ## Independence of the cell order -/

/-- Steps that commute, and whose failure does not depend on the steps taken
before, give the same result in every order. -/
theorem foldlM_perm_of_commute {σ α : Type} (f : σ → α → Option σ)
    (hsome : ∀ s a b s', f s b = some s' → (f s' a).isSome = (f s a).isSome)
    (hcomm : ∀ s a b sa sb sab sba, a ≠ b → f s a = some sa → f s b = some sb →
      f sa b = some sab → f sb a = some sba → sab = sba)
    {L L' : List α} (h : L.Perm L') (s : σ) : L.foldlM f s = L'.foldlM f s := by
  induction h generalizing s with
  | nil => rfl
  | cons x _ ih =>
    rw [List.foldlM_cons, List.foldlM_cons]
    cases f s x with
    | none => rfl
    | some s' => exact ih s'
  | swap x y l =>
    by_cases hxy : x = y
    · subst hxy; rfl
    · simp only [List.foldlM_cons]
      cases hx : f s x with
      | none =>
        cases hy : f s y with
        | none => rfl
        | some sy =>
          have := hsome s x y sy hy
          rw [hx] at this
          have hn : f sy x = none := by
            cases h' : f sy x with
            | none => rfl
            | some _ => rw [h'] at this; simp at this
          simp [hn]
      | some sx =>
        cases hy : f s y with
        | none =>
          have := hsome s y x sx hx
          rw [hy] at this
          have hn : f sx y = none := by
            cases h' : f sx y with
            | none => rfl
            | some _ => rw [h'] at this; simp at this
          simp [hn]
        | some sy =>
          have h1 := hsome s y x sx hx
          have h2 := hsome s x y sy hy
          rw [hy] at h1
          rw [hx] at h2
          obtain ⟨sxy, hsxy⟩ := Option.isSome_iff_exists.mp h1
          obtain ⟨syx, hsyx⟩ := Option.isSome_iff_exists.mp h2
          have := hcomm s x y sx sy sxy syx hxy hx hy hsxy hsyx
          simp [hsxy, hsyx, this]
  | trans _ _ ih1 ih2 => exact (ih1 s).trans (ih2 s)

section EdgeOrder

variable {K : Type} [LinearOrderedField K]

theorem withoutEdgeE_congr (cp cp' : CellParams → K)
    (h : ∀ p, p ≠ EX → p ≠ EY → p ≠ EZ → cp' p = cp p) : withoutEdgeE cp' = withoutEdgeE cp := by
  funext p
  cases p <;> first | rfl | exact h _ (by simp) (by simp) (by simp)

/-- The arithmetic of `calculateEdgeElectricFieldX` does not read the slots
`EX`, `EY`, `EZ` of any of its arrays. -/
theorem edgeElectricFieldX_withoutEdgeE (X : Externals K)
    (cp_SW cp_SE cp_NE cp_NW : CellParams → K)
    (derivs_SW derivs_SE derivs_NE derivs_NW : fieldsolver → K)
    (nbr_cp_SW nbr_cp_SE nbr_cp_NW nbr_cp_NE : CellParams → K)
    (nbr_derivs_SW nbr_derivs_SE nbr_derivs_NW nbr_derivs_NE : fieldsolver → K) :
    edgeElectricFieldX X cp_SW cp_SE cp_NE cp_NW derivs_SW derivs_SE derivs_NE
      derivs_NW nbr_cp_SW nbr_cp_SE nbr_cp_NW nbr_cp_NE nbr_derivs_SW nbr_derivs_SE
      nbr_derivs_NW nbr_derivs_NE =
    edgeElectricFieldX X (withoutEdgeE cp_SW) (withoutEdgeE cp_SE) (withoutEdgeE cp_NE)
      (withoutEdgeE cp_NW) derivs_SW derivs_SE derivs_NE
      derivs_NW (withoutEdgeE nbr_cp_SW) (withoutEdgeE nbr_cp_SE) (withoutEdgeE nbr_cp_NW)
      (withoutEdgeE nbr_cp_NE) nbr_derivs_SW nbr_derivs_SE
      nbr_derivs_NW nbr_derivs_NE := by
  simp only [edgeElectricFieldX, calculateFastMSspeedYZ, withoutEdgeE]


/-- The arithmetic of `calculateEdgeElectricFieldY` does not read the slots
`EX`, `EY`, `EZ` of any of its arrays. -/
theorem edgeElectricFieldY_withoutEdgeE (X : Externals K)
    (cp_SW cp_SE cp_NE cp_NW : CellParams → K)
    (derivs_SW derivs_SE derivs_NE derivs_NW : fieldsolver → K)
    (nbr_cp_SW nbr_cp_SE nbr_cp_NW nbr_cp_NE : CellParams → K)
    (nbr_derivs_SW nbr_derivs_SE nbr_derivs_NW nbr_derivs_NE : fieldsolver → K) :
    edgeElectricFieldY X cp_SW cp_SE cp_NE cp_NW derivs_SW derivs_SE derivs_NE
      derivs_NW nbr_cp_SW nbr_cp_SE nbr_cp_NW nbr_cp_NE nbr_derivs_SW nbr_derivs_SE
      nbr_derivs_NW nbr_derivs_NE =
    edgeElectricFieldY X (withoutEdgeE cp_SW) (withoutEdgeE cp_SE) (withoutEdgeE cp_NE)
      (withoutEdgeE cp_NW) derivs_SW derivs_SE derivs_NE
      derivs_NW (withoutEdgeE nbr_cp_SW) (withoutEdgeE nbr_cp_SE) (withoutEdgeE nbr_cp_NW)
      (withoutEdgeE nbr_cp_NE) nbr_derivs_SW nbr_derivs_SE
      nbr_derivs_NW nbr_derivs_NE := by
  simp only [edgeElectricFieldY, calculateFastMSspeedXZ, withoutEdgeE]


/-- The arithmetic of `calculateEdgeElectricFieldZ` does not read the slots
`EX`, `EY`, `EZ` of any of its arrays. -/
theorem edgeElectricFieldZ_withoutEdgeE (X : Externals K)
    (cp_SW cp_SE cp_NE cp_NW : CellParams → K)
    (derivs_SW derivs_SE derivs_NE derivs_NW : fieldsolver → K)
    (nbr_cp_SW nbr_cp_SE nbr_cp_NW nbr_cp_NE : CellParams → K)
    (nbr_derivs_SW nbr_derivs_SE nbr_derivs_NW nbr_derivs_NE : fieldsolver → K) :
    edgeElectricFieldZ X cp_SW cp_SE cp_NE cp_NW derivs_SW derivs_SE derivs_NE
      derivs_NW nbr_cp_SW nbr_cp_SE nbr_cp_NW nbr_cp_NE nbr_derivs_SW nbr_derivs_SE
      nbr_derivs_NW nbr_derivs_NE =
    edgeElectricFieldZ X (withoutEdgeE cp_SW) (withoutEdgeE cp_SE) (withoutEdgeE cp_NE)
      (withoutEdgeE cp_NW) derivs_SW derivs_SE derivs_NE
      derivs_NW (withoutEdgeE nbr_cp_SW) (withoutEdgeE nbr_cp_SE) (withoutEdgeE nbr_cp_NW)
      (withoutEdgeE nbr_cp_NE) nbr_derivs_SW nbr_derivs_SE
      nbr_derivs_NW nbr_derivs_NE := by
  simp only [edgeElectricFieldZ, calculateFastMSspeedXY, withoutEdgeE]


/-- Two meshes with the same fields are the same mesh. -/
theorem ParGrid_eq (g h : ParGrid K) (h1 : h.getCells = g.getCells)
    (h2 : h.getNeighbour = g.getNeighbour) (h3 : h.isRemote = g.isRemote)
    (h4 : h.cpu_cellParams = g.cpu_cellParams) (h5 : h.cpu_derivatives = g.cpu_derivatives) :
    h = g := by
  cases g; cases h
  simp only at h1 h2 h3 h4 h5
  subst h1 h2 h3 h4 h5
  rfl

theorem setCellParam_comm (g : ParGrid K) (a b : CellID) (hab : a ≠ b) (slot : CellParams)
    (v w : K) :
    (g.setCellParam a slot v).setCellParam b slot w
      = (g.setCellParam b slot w).setCellParam a slot v := by
  refine ParGrid_eq ((g.setCellParam b slot w).setCellParam a slot v) _ rfl rfl rfl ?_ rfl
  funext c p
  simp only [setCellParam_apply]
  by_cases h1 : c = a <;> by_cases h2 : c = b
  · exact absurd (h1.symm.trans h2) hab
  · simp [h1, h2, hab]
  · simp [h1, h2, Ne.symm hab]
  · simp [h1, h2]

/-- A kernel that stores one value in a slot of its own cell, computed from
data that do not include that slot of any cell: the conditions under which the
calls commute. -/
theorem slotKernel_commute {Loc : Type} (slot : CellParams)
    (locals : CellID → ParGrid K → Option Loc) (val : Loc → K)
    (hat : ∀ c g a v, locals c (g.setCellParam a slot v) = locals c g) :
    (∀ (s : ParGrid K) (a b : CellID) (s' : ParGrid K),
      ((locals b s).bind fun L => some (s.setCellParam b slot (val L))) = some s' →
      ((locals a s').bind fun L => some (s'.setCellParam a slot (val L))).isSome =
        ((locals a s).bind fun L => some (s.setCellParam a slot (val L))).isSome) ∧
    (∀ (s : ParGrid K) (a b : CellID) (sa sb sab sba : ParGrid K), a ≠ b →
      ((locals a s).bind fun L => some (s.setCellParam a slot (val L))) = some sa →
      ((locals b s).bind fun L => some (s.setCellParam b slot (val L))) = some sb →
      ((locals b sa).bind fun L => some (sa.setCellParam b slot (val L))) = some sab →
      ((locals a sb).bind fun L => some (sb.setCellParam a slot (val L))) = some sba →
      sab = sba) := by
  constructor
  · intro s a b s' h
    obtain ⟨L, -, hs'⟩ := Option.bind_eq_some.mp h
    rw [← Option.some.inj hs', hat]
    cases locals a s <;> rfl
  · intro s a b sa sb sab sba hab ha hb hab' hba'
    obtain ⟨La, hLa, hsa⟩ := Option.bind_eq_some.mp ha
    obtain ⟨Lb, hLb, hsb⟩ := Option.bind_eq_some.mp hb
    have hsa' := Option.some.inj hsa
    have hsb' := Option.some.inj hsb
    subst hsa' hsb'
    rw [hat, hLb] at hab'
    rw [hat, hLa] at hba'
    rw [← Option.some.inj hab', ← Option.some.inj hba']
    exact setCellParam_comm s a b hab slot _ _

/-- The locals of `calculateEdgeElectricFieldX` do not change when a slot
`EX`, `EY` or `EZ` of some cell is overwritten. -/
theorem edgeElectricFieldXAt_setE (X : Externals K) (c : CellID) (g : ParGrid K) (a : CellID)
    (slot : CellParams) (hslot : slot = EX ∨ slot = EY ∨ slot = EZ) (v : K) :
    edgeElectricFieldXAt X c (g.setCellParam a slot v) = edgeElectricFieldXAt X c g := by
  have key : ∀ n, withoutEdgeE ((g.setCellParam a slot v).cpu_cellParams n)
      = withoutEdgeE (g.cpu_cellParams n) := by
    intro n
    apply withoutEdgeE_congr
    intro p h1 h2 h3
    rw [setCellParam_apply, if_neg]
    rintro ⟨-, rfl⟩
    rcases hslot with h | h | h
    · exact h1 h
    · exact h2 h
    · exact h3 h
  unfold edgeElectricFieldXAt
  simp only [(setCellParam_frame g a slot v).1, (setCellParam_frame g a slot v).2.2.2]
  rw [edgeElectricFieldX_withoutEdgeE X ((g.setCellParam a slot v).cpu_cellParams c),
    edgeElectricFieldX_withoutEdgeE X (g.cpu_cellParams c)]
  simp only [key]

/-- The locals of `calculateEdgeElectricFieldY` do not change when a slot
`EX`, `EY` or `EZ` of some cell is overwritten. -/
theorem edgeElectricFieldYAt_setE (X : Externals K) (c : CellID) (g : ParGrid K) (a : CellID)
    (slot : CellParams) (hslot : slot = EX ∨ slot = EY ∨ slot = EZ) (v : K) :
    edgeElectricFieldYAt X c (g.setCellParam a slot v) = edgeElectricFieldYAt X c g := by
  have key : ∀ n, withoutEdgeE ((g.setCellParam a slot v).cpu_cellParams n)
      = withoutEdgeE (g.cpu_cellParams n) := by
    intro n
    apply withoutEdgeE_congr
    intro p h1 h2 h3
    rw [setCellParam_apply, if_neg]
    rintro ⟨-, rfl⟩
    rcases hslot with h | h | h
    · exact h1 h
    · exact h2 h
    · exact h3 h
  unfold edgeElectricFieldYAt
  simp only [(setCellParam_frame g a slot v).1, (setCellParam_frame g a slot v).2.2.2]
  rw [edgeElectricFieldY_withoutEdgeE X ((g.setCellParam a slot v).cpu_cellParams c),
    edgeElectricFieldY_withoutEdgeE X (g.cpu_cellParams c)]
  simp only [key]

/-- The locals of `calculateEdgeElectricFieldZ` do not change when a slot
`EX`, `EY` or `EZ` of some cell is overwritten. -/
theorem edgeElectricFieldZAt_setE (X : Externals K) (c : CellID) (g : ParGrid K) (a : CellID)
    (slot : CellParams) (hslot : slot = EX ∨ slot = EY ∨ slot = EZ) (v : K) :
    edgeElectricFieldZAt X c (g.setCellParam a slot v) = edgeElectricFieldZAt X c g := by
  have key : ∀ n, withoutEdgeE ((g.setCellParam a slot v).cpu_cellParams n)
      = withoutEdgeE (g.cpu_cellParams n) := by
    intro n
    apply withoutEdgeE_congr
    intro p h1 h2 h3
    rw [setCellParam_apply, if_neg]
    rintro ⟨-, rfl⟩
    rcases hslot with h | h | h
    · exact h1 h
    · exact h2 h
    · exact h3 h
  unfold edgeElectricFieldZAt
  simp only [(setCellParam_frame g a slot v).1, (setCellParam_frame g a slot v).2.2.2]
  rw [edgeElectricFieldZ_withoutEdgeE X ((g.setCellParam a slot v).cpu_cellParams c),
    edgeElectricFieldZ_withoutEdgeE X (g.cpu_cellParams c)]
  simp only [key]

end EdgeOrder

end Vlasiator

namespace Vlasiator

open CellParams fieldsolver

section PropagateOrder

variable {K : Type} [LinearOrderedField K]

theorem cellParamsAt_some (g : ParGrid K) (n : CellID) (cp : CellParams → K)
    (h : g.cellParamsAt n = some cp) : n ≠ INVALID_CELLID := by
  intro hn
  unfold ParGrid.cellParamsAt at h
  rw [if_pos hn] at h
  exact Option.noConfusion h

/-- A result of the block that propagates `BX`: the neighbour lookup is
unchanged, and if the test passes the two neighbours read are cells. -/
theorem propagateMagneticFieldBX_some (G : Globals) (c : CellID) (e : Nat) (dt dy dz : K)
    (g g1 : ParGrid K) (h : propagateMagneticFieldBX G c e dt dy dz g = some g1) :
    g1.getNeighbour = g.getNeighbour ∧
    (passes e G.masks.PROPAGATE_BX →
      g.getNeighbour c (calcNbrTypeID 2 (2 + 1) 2) ≠ INVALID_CELLID ∧
      g.getNeighbour c (calcNbrTypeID 2 2 (2 + 1)) ≠ INVALID_CELLID) := by
  unfold propagateMagneticFieldBX at h
  by_cases t : passes e G.masks.PROPAGATE_BX
  · have t' := t
    unfold passes at t'
    rw [if_pos t'] at h
    obtain ⟨cp1, h1, h⟩ := Option.bind_eq_some.mp h
    obtain ⟨cp2, h2, h⟩ := Option.bind_eq_some.mp h
    rw [← Option.some.inj h]
    exact ⟨rfl, fun _ => ⟨cellParamsAt_some g _ cp1 h1, cellParamsAt_some g _ cp2 h2⟩⟩
  · have t' := t
    unfold passes at t'
    rw [if_neg t'] at h
    rw [← Option.some.inj h]
    exact ⟨rfl, fun hp => absurd hp t⟩

theorem propagateMagneticFieldBY_some (G : Globals) (c : CellID) (e : Nat) (dt dx dz : K)
    (g g1 : ParGrid K) (h : propagateMagneticFieldBY G c e dt dx dz g = some g1) :
    g1.getNeighbour = g.getNeighbour ∧
    (passes e G.masks.PROPAGATE_BY →
      g.getNeighbour c (calcNbrTypeID 2 2 (2 + 1)) ≠ INVALID_CELLID ∧
      g.getNeighbour c (calcNbrTypeID (2 + 1) 2 2) ≠ INVALID_CELLID) := by
  unfold propagateMagneticFieldBY at h
  by_cases t : passes e G.masks.PROPAGATE_BY
  · have t' := t
    unfold passes at t'
    rw [if_pos t'] at h
    obtain ⟨cp1, h1, h⟩ := Option.bind_eq_some.mp h
    obtain ⟨cp2, h2, h⟩ := Option.bind_eq_some.mp h
    rw [← Option.some.inj h]
    exact ⟨rfl, fun _ => ⟨cellParamsAt_some g _ cp1 h1, cellParamsAt_some g _ cp2 h2⟩⟩
  · have t' := t
    unfold passes at t'
    rw [if_neg t'] at h
    rw [← Option.some.inj h]
    exact ⟨rfl, fun hp => absurd hp t⟩

theorem propagateMagneticFieldBZ_some (G : Globals) (c : CellID) (e : Nat) (dt dx dy : K)
    (g g1 : ParGrid K) (h : propagateMagneticFieldBZ G c e dt dx dy g = some g1) :
    g1.getNeighbour = g.getNeighbour ∧
    (passes e G.masks.PROPAGATE_BZ →
      g.getNeighbour c (calcNbrTypeID (2 + 1) 2 2) ≠ INVALID_CELLID ∧
      g.getNeighbour c (calcNbrTypeID 2 (2 + 1) 2) ≠ INVALID_CELLID) := by
  unfold propagateMagneticFieldBZ at h
  by_cases t : passes e G.masks.PROPAGATE_BZ
  · have t' := t
    unfold passes at t'
    rw [if_pos t'] at h
    obtain ⟨cp1, h1, h⟩ := Option.bind_eq_some.mp h
    obtain ⟨cp2, h2, h⟩ := Option.bind_eq_some.mp h
    rw [← Option.some.inj h]
    exact ⟨rfl, fun _ => ⟨cellParamsAt_some g _ cp1 h1, cellParamsAt_some g _ cp2 h2⟩⟩
  · have t' := t
    unfold passes at t'
    rw [if_neg t'] at h
    rw [← Option.some.inj h]
    exact ⟨rfl, fun hp => absurd hp t⟩

/-- `propagateMagneticField` returns only on a ready cell. -/
theorem propagateMagneticField_ready (G : Globals) (c : CellID) (g g' : ParGrid K) (dt : K)
    (h : propagateMagneticField G c g dt = some g') : PropagateReady G g c := by
  unfold propagateMagneticField at h
  obtain ⟨cp0, h0, h⟩ := Option.bind_eq_some.mp h
  obtain ⟨e, he, h⟩ := Option.bind_eq_some.mp h
  obtain ⟨g1, h1, h⟩ := Option.bind_eq_some.mp h
  obtain ⟨g2, h2, h3⟩ := Option.bind_eq_some.mp h
  obtain ⟨n1, r1⟩ := propagateMagneticFieldBX_some G c e dt _ _ g g1 h1
  obtain ⟨n2, r2⟩ := propagateMagneticFieldBY_some G c e dt _ _ g1 g2 h2
  obtain ⟨-, r3⟩ := propagateMagneticFieldBZ_some G c e dt _ _ g2 g' h3
  rw [n1] at r2
  rw [n2, n1] at r3
  refine ⟨cellParamsAt_some g c cp0 h0, by rw [he]; rfl, ?_⟩
  intro e' he'
  rw [he] at he'
  have : e' = e := (Option.some.inj he').symm
  subst this
  exact ⟨r1, r2, r3⟩

/-- `propagateMagneticField` has a result exactly on a ready cell. -/
theorem propagateMagneticField_isSome (G : Globals) (c : CellID) (g : ParGrid K) (dt : K) :
    (propagateMagneticField G c g dt).isSome = true ↔ PropagateReady G g c := by
  constructor
  · intro h
    obtain ⟨g', hg'⟩ := Option.isSome_iff_exists.mp h
    exact propagateMagneticField_ready G c g g' dt hg'
  · intro h
    obtain ⟨e, he⟩ := Option.isSome_iff_exists.mp h.2.1
    obtain ⟨g', hg', -⟩ := propagateMagneticField_spec G c g dt e he h
    rw [hg']
    rfl

/-- Calls of `propagateMagneticField` on two different cells commute, and a
call does not change whether a later call returns. -/
theorem propagateMagneticField_commute (G : Globals) (dt : K) :
    (∀ (s : ParGrid K) (a b : CellID) (s' : ParGrid K),
      propagateMagneticField G b s dt = some s' →
      (propagateMagneticField G a s' dt).isSome = (propagateMagneticField G a s dt).isSome) ∧
    (∀ (s : ParGrid K) (a b : CellID) (sa sb sab sba : ParGrid K), a ≠ b →
      propagateMagneticField G a s dt = some sa → propagateMagneticField G b s dt = some sb →
      propagateMagneticField G b sa dt = some sab → propagateMagneticField G a sb dt = some sba →
      sab = sba) := by
  have step : ∀ (s : ParGrid K) (b : CellID) (s' : ParGrid K),
      propagateMagneticField G b s dt = some s' →
      ∃ e, G.boundaryFlags b = some e ∧
        s'.getNeighbour = s.getNeighbour ∧ s'.getCells = s.getCells ∧
        s'.isRemote = s.isRemote ∧ s'.cpu_derivatives = s.cpu_derivatives ∧
        ∀ c' p, s'.cpu_cellParams c' p =
          if c' = b then propagatedCellParams G s dt e b p else s.cpu_cellParams c' p := by
    intro s b s' h
    have hr := propagateMagneticField_ready G b s s' dt h
    obtain ⟨e, he⟩ := Option.isSome_iff_exists.mp hr.2.1
    obtain ⟨s'', hs'', r⟩ := propagateMagneticField_spec G b s dt e he hr
    have : s'' = s' := Option.some.inj (hs''.symm.trans h)
    subst this
    exact ⟨e, he, r⟩
  constructor
  · intro s a b s' h
    obtain ⟨e, -, hn, -⟩ := step s b s' h
    rw [Bool.eq_iff_iff, propagateMagneticField_isSome, propagateMagneticField_isSome]
    exact ⟨fun hr => PropagateReady_congr hn.symm hr, fun hr => PropagateReady_congr hn hr⟩
  · intro s a b sa sb sab sba hab ha hb hab' hba'
    obtain ⟨ea, hea, na, ca, ma, da, pa⟩ := step s a sa ha
    obtain ⟨eb, heb, nb, cb, mb, db, pb⟩ := step s b sb hb
    obtain ⟨eb', heb', nab, cab, mab, dab, pab⟩ := step sa b sab hab'
    obtain ⟨ea', hea', nba, cba, mba, dba, pba⟩ := step sb a sba hba'
    have e1 : eb = eb' := Option.some.inj (heb.symm.trans heb')
    have e2 : ea = ea' := Option.some.inj (hea.symm.trans hea')
    subst e1 e2
    have other : ∀ (t : ParGrid K) (x y : CellID) (ex : Nat), x ≠ y →
        t.getNeighbour = s.getNeighbour →
        (∀ c' p, t.cpu_cellParams c' p =
          if c' = x then propagatedCellParams G s dt ex x p else s.cpu_cellParams c' p) →
        ∀ ey p, propagatedCellParams G t dt ey y p = propagatedCellParams G s dt ey y p := by
      intro t x y ex hxy hn hp ey p
      apply propagatedCellParams_congr G s t dt ey y p hn
      · funext q
        rw [hp y q, if_neg (Ne.symm hxy)]
      · intro c' q hq
        rw [hp c' q]
        by_cases hc : c' = x
        · rw [if_pos hc, hc]
          apply propagatedCellParams_other
          rcases hq with rfl | rfl | rfl <;> simp
        · rw [if_neg hc]
    refine (ParGrid_eq sba sab (cab.trans (ca.trans (cba.trans cb).symm))
      (nab.trans (na.trans (nba.trans nb).symm)) (mab.trans (ma.trans (mba.trans mb).symm))
      ?_ (dab.trans (da.trans (dba.trans db).symm)))
    funext c' p
    rw [pab c' p, pba c' p, pa c' p, pb c' p, other sa a b ea hab na pa,
      other sb b a eb (Ne.symm hab) nb pb]
    by_cases h1 : c' = a <;> by_cases h2 : c' = b
    · exact absurd (h1.symm.trans h2) hab
    · simp [h1, h2, hab]
    · simp [h1, h2, Ne.symm hab]
    · simp [h1, h2]

end PropagateOrder

end Vlasiator

namespace Vlasiator

open CellParams fieldsolver

section DerivativeOrder

variable {K : Type} [LinearOrderedField K]

/-- A result of the x-direction block: if the test passes, the two
x-neighbours are cells. -/
theorem calculateDerivativesX_some (X : Externals K) (G : Globals) (c : CellID) (e ne : Nat)
    (g g1 : ParGrid K) (h : calculateDerivativesX X G c e ne g = some g1) :
    passes e G.masks.CALCULATE_DX →
      getNeighbourID g c (2 - 1) 2 2 ≠ INVALID_CELLID ∧
      getNeighbourID g c (2 + 1) 2 2 ≠ INVALID_CELLID := by
  intro t
  have t' := t
  unfold passes at t'
  unfold calculateDerivativesX at h
  rw [if_pos t'] at h
  obtain ⟨l, h1, h⟩ := Option.bind_eq_some.mp h
  obtain ⟨r, h2, -⟩ := Option.bind_eq_some.mp h
  exact ⟨cellParamsAt_some g _ l h1, cellParamsAt_some g _ r h2⟩

/-- The x-direction block reads derivatives only of its own cell: two meshes
that agree in the neighbour lookup, in the cell parameters and in the
derivative array of the cell yield the same derivative array of the cell. -/
theorem calculateDerivativesX_local (X : Externals K) (G : Globals) (c : CellID) (e ne : Nat)
    (g h g1 h1 : ParGrid K)
    (hn : h.getNeighbour = g.getNeighbour) (hcp : h.cpu_cellParams = g.cpu_cellParams)
    (hd : h.cpu_derivatives c = g.cpu_derivatives c)
    (hbc : ¬passes e G.masks.CALCULATE_DX →
      X.fieldSolverBoundaryCondDerivX c (h.cpu_derivatives c) e ne (h.cpu_derivatives c) h =
        X.fieldSolverBoundaryCondDerivX c (g.cpu_derivatives c) e ne (g.cpu_derivatives c) g)
    (rg : calculateDerivativesX X G c e ne g = some g1)
    (rh : calculateDerivativesX X G c e ne h = some h1) :
    h1.cpu_derivatives c = g1.cpu_derivatives c := by
  have hN : ∀ i j k, getNeighbourID h c i j k = getNeighbourID g c i j k := by
    intro i j k; unfold getNeighbourID; rw [hn]
  have hv := calculateDerivativesX_some X G c e ne g g1 rg
  have hv' := calculateDerivativesX_some X G c e ne h h1 rh
  obtain ⟨g1', r, -, -, -, -, -, pg, fg⟩ := calculateDerivativesX_spec X G c e ne g hv
  have e1 : g1' = g1 := Option.some.inj (r.symm.trans rg)
  subst e1
  obtain ⟨h1', r', -, -, -, -, -, ph, fh⟩ := calculateDerivativesX_spec X G c e ne h hv'
  have e2 : h1' = h1 := Option.some.inj (r'.symm.trans rh)
  subst e2
  funext s
  by_cases t : passes e G.masks.CALCULATE_DX
  · obtain ⟨kg, a1, a2, a3, a4, a5, a6⟩ := pg t
    obtain ⟨kh, b1, b2, b3, b4, b5, b6⟩ := ph t
    rw [hN, hN, hcp] at b1 b2 b3 b4 b5 b6
    by_cases hs : s ∈ xDerivativeSlots
    · simp only [xDerivativeSlots, List.mem_cons, List.mem_singleton, List.not_mem_nil,
        or_false] at hs
      rcases hs with rfl | rfl | rfl | rfl | rfl | rfl
      · rw [a1, b1]
      · rw [a2, b2]
      · rw [a3, b3]
      · rw [a4, b4]
      · rw [a5, b5]
      · rw [a6, b6]
    · rw [kg s hs, kh s hs, hd]
  · rw [fg t, fh t, hbc t]

/-- A result of the y-direction block: if the test passes, the two
y-neighbours are cells. -/
theorem calculateDerivativesY_some (X : Externals K) (G : Globals) (c : CellID) (e ne : Nat)
    (g g1 : ParGrid K) (h : calculateDerivativesY X G c e ne g = some g1) :
    passes e G.masks.CALCULATE_DY →
      getNeighbourID g c 2 (2 - 1) 2 ≠ INVALID_CELLID ∧
      getNeighbourID g c 2 (2 + 1) 2 ≠ INVALID_CELLID := by
  intro t
  have t' := t
  unfold passes at t'
  unfold calculateDerivativesY at h
  rw [if_pos t'] at h
  obtain ⟨l, h1, h⟩ := Option.bind_eq_some.mp h
  obtain ⟨r, h2, -⟩ := Option.bind_eq_some.mp h
  exact ⟨cellParamsAt_some g _ l h1, cellParamsAt_some g _ r h2⟩

/-- The y-direction block reads derivatives only of its own cell: two meshes
that agree in the neighbour lookup, in the cell parameters and in the
derivative array of the cell yield the same derivative array of the cell. -/
theorem calculateDerivativesY_local (X : Externals K) (G : Globals) (c : CellID) (e ne : Nat)
    (g h g1 h1 : ParGrid K)
    (hn : h.getNeighbour = g.getNeighbour) (hcp : h.cpu_cellParams = g.cpu_cellParams)
    (hd : h.cpu_derivatives c = g.cpu_derivatives c)
    (hbc : ¬passes e G.masks.CALCULATE_DY →
      X.fieldSolverBoundaryCondDerivY c (h.cpu_derivatives c) e ne (h.cpu_derivatives c) h =
        X.fieldSolverBoundaryCondDerivY c (g.cpu_derivatives c) e ne (g.cpu_derivatives c) g)
    (rg : calculateDerivativesY X G c e ne g = some g1)
    (rh : calculateDerivativesY X G c e ne h = some h1) :
    h1.cpu_derivatives c = g1.cpu_derivatives c := by
  have hN : ∀ i j k, getNeighbourID h c i j k = getNeighbourID g c i j k := by
    intro i j k; unfold getNeighbourID; rw [hn]
  have hv := calculateDerivativesY_some X G c e ne g g1 rg
  have hv' := calculateDerivativesY_some X G c e ne h h1 rh
  obtain ⟨g1', r, -, -, -, -, -, pg, fg⟩ := calculateDerivativesY_spec X G c e ne g hv
  have e1 : g1' = g1 := Option.some.inj (r.symm.trans rg)
  subst e1
  obtain ⟨h1', r', -, -, -, -, -, ph, fh⟩ := calculateDerivativesY_spec X G c e ne h hv'
  have e2 : h1' = h1 := Option.some.inj (r'.symm.trans rh)
  subst e2
  funext s
  by_cases t : passes e G.masks.CALCULATE_DY
  · obtain ⟨kg, a1, a2, a3, a4, a5, a6⟩ := pg t
    obtain ⟨kh, b1, b2, b3, b4, b5, b6⟩ := ph t
    rw [hN, hN, hcp] at b1 b2 b3 b4 b5 b6
    by_cases hs : s ∈ yDerivativeSlots
    · simp only [yDerivativeSlots, List.mem_cons, List.mem_singleton, List.not_mem_nil,
        or_false] at hs
      rcases hs with rfl | rfl | rfl | rfl | rfl | rfl
      · rw [a1, b1]
      · rw [a2, b2]
      · rw [a3, b3]
      · rw [a4, b4]
      · rw [a5, b5]
      · rw [a6, b6]
    · rw [kg s hs, kh s hs, hd]
  · rw [fg t, fh t, hbc t]

/-- A result of the z-direction block: if the test passes, the two
z-neighbours are cells. -/
theorem calculateDerivativesZ_some (X : Externals K) (G : Globals) (c : CellID) (e ne : Nat)
    (g g1 : ParGrid K) (h : calculateDerivativesZ X G c e ne g = some g1) :
    passes e G.masks.CALCULATE_DZ →
      getNeighbourID g c 2 2 (2 - 1) ≠ INVALID_CELLID ∧
      getNeighbourID g c 2 2 (2 + 1) ≠ INVALID_CELLID := by
  intro t
  have t' := t
  unfold passes at t'
  unfold calculateDerivativesZ at h
  rw [if_pos t'] at h
  obtain ⟨l, h1, h⟩ := Option.bind_eq_some.mp h
  obtain ⟨r, h2, -⟩ := Option.bind_eq_some.mp h
  exact ⟨cellParamsAt_some g _ l h1, cellParamsAt_some g _ r h2⟩

/-- The z-direction block reads derivatives only of its own cell: two meshes
that agree in the neighbour lookup, in the cell parameters and in the
derivative array of the cell yield the same derivative array of the cell. -/
theorem calculateDerivativesZ_local (X : Externals K) (G : Globals) (c : CellID) (e ne : Nat)
    (g h g1 h1 : ParGrid K)
    (hn : h.getNeighbour = g.getNeighbour) (hcp : h.cpu_cellParams = g.cpu_cellParams)
    (hd : h.cpu_derivatives c = g.cpu_derivatives c)
    (hbc : ¬passes e G.masks.CALCULATE_DZ →
      X.fieldSolverBoundaryCondDerivZ c (h.cpu_derivatives c) e ne (h.cpu_derivatives c) h =
        X.fieldSolverBoundaryCondDerivZ c (g.cpu_derivatives c) e ne (g.cpu_derivatives c) g)
    (rg : calculateDerivativesZ X G c e ne g = some g1)
    (rh : calculateDerivativesZ X G c e ne h = some h1) :
    h1.cpu_derivatives c = g1.cpu_derivatives c := by
  have hN : ∀ i j k, getNeighbourID h c i j k = getNeighbourID g c i j k := by
    intro i j k; unfold getNeighbourID; rw [hn]
  have hv := calculateDerivativesZ_some X G c e ne g g1 rg
  have hv' := calculateDerivativesZ_some X G c e ne h h1 rh
  obtain ⟨g1', r, -, -, -, -, -, pg, fg⟩ := calculateDerivativesZ_spec X G c e ne g hv
  have e1 : g1' = g1 := Option.some.inj (r.symm.trans rg)
  subst e1
  obtain ⟨h1', r', -, -, -, -, -, ph, fh⟩ := calculateDerivativesZ_spec X G c e ne h hv'
  have e2 : h1' = h1 := Option.some.inj (r'.symm.trans rh)
  subst e2
  funext s
  by_cases t : passes e G.masks.CALCULATE_DZ
  · obtain ⟨kg, a1, a2, a3, a4, a5, a6⟩ := pg t
    obtain ⟨kh, b1, b2, b3, b4, b5, b6⟩ := ph t
    rw [hN, hN, hcp] at b1 b2 b3 b4 b5 b6
    by_cases hs : s ∈ zDerivativeSlots
    · simp only [zDerivativeSlots, List.mem_cons, List.mem_singleton, List.not_mem_nil,
        or_false] at hs
      rcases hs with rfl | rfl | rfl | rfl | rfl | rfl
      · rw [a1, b1]
      · rw [a2, b2]
      · rw [a3, b3]
      · rw [a4, b4]
      · rw [a5, b5]
      · rw [a6, b6]
    · rw [kg s hs, kh s hs, hd]
  · rw [fg t, fh t, hbc t]

/-- The steps of `calculateDerivatives` behind a result. -/
theorem calculateDerivatives_steps (X : Externals K) (G : Globals) (c : CellID)
    (g g' : ParGrid K) (h : calculateDerivatives X G c g = some g') :
    c ≠ INVALID_CELLID ∧ ∃ e g1 g2, G.boundaryFlags c = some e ∧
      calculateDerivativesX X G c e (toUint (e ^^^ 4294967295)) g = some g1 ∧
      calculateDerivativesY X G c e (toUint (e ^^^ 4294967295)) g1 = some g2 ∧
      calculateDerivativesZ X G c e (toUint (e ^^^ 4294967295)) g2 = some g' := by
  unfold calculateDerivatives at h
  obtain ⟨a, h0, h⟩ := Option.bind_eq_some.mp h
  obtain ⟨e, he, h⟩ := Option.bind_eq_some.mp h
  obtain ⟨g1, h1, h⟩ := Option.bind_eq_some.mp h
  obtain ⟨g2, h2, h3⟩ := Option.bind_eq_some.mp h
  refine ⟨?_, e, g1, g2, he, h1, h2, h3⟩
  intro hc
  unfold ParGrid.derivativesAt at h0
  rw [if_pos hc] at h0
  exact Option.noConfusion h0

/-- `calculateDerivatives` returns only on a ready cell. -/
theorem calculateDerivatives_ready (X : Externals K) (G : Globals) (c : CellID)
    (g g' : ParGrid K) (h : calculateDerivatives X G c g = some g') : DerivativesReady G g c := by
  obtain ⟨hc, e, g1, g2, he, h1, h2, h3⟩ := calculateDerivatives_steps X G c g g' h
  have hN : ∀ (k : ParGrid K), k.getNeighbour = g.getNeighbour →
      ∀ i j l, getNeighbourID k c i j l = getNeighbourID g c i j l := by
    intro k hn i j l; unfold getNeighbourID; rw [hn]
  have vx := calculateDerivativesX_some X G c e _ g g1 h1
  have vy := calculateDerivativesY_some X G c e _ g1 g2 h2
  have vz := calculateDerivativesZ_some X G c e _ g2 g' h3
  obtain ⟨g1', r1, n1, -⟩ := calculateDerivativesX_spec X G c e (toUint (e ^^^ 4294967295)) g vx
  have e1 : g1' = g1 := Option.some.inj (r1.symm.trans h1)
  subst e1
  obtain ⟨g2', r2, n2, -⟩ := calculateDerivativesY_spec X G c e (toUint (e ^^^ 4294967295)) g1' vy
  have e2 : g2' = g2 := Option.some.inj (r2.symm.trans h2)
  subst e2
  rw [hN g1' n1, hN g1' n1] at vy
  rw [hN g2' (n2.trans n1), hN g2' (n2.trans n1)] at vz
  refine ⟨hc, by rw [he]; rfl, ?_⟩
  intro e' he'
  rw [he] at he'
  have : e' = e := (Option.some.inj he').symm
  subst this
  exact ⟨vx, vy, vz⟩

/-- `calculateDerivatives` has a result exactly on a ready cell. -/
theorem calculateDerivatives_isSome (X : Externals K) (G : Globals) (c : CellID)
    (g : ParGrid K) :
    (calculateDerivatives X G c g).isSome = true ↔ DerivativesReady G g c := by
  constructor
  · intro h
    obtain ⟨g', hg'⟩ := Option.isSome_iff_exists.mp h
    exact calculateDerivatives_ready X G c g g' hg'
  · intro h
    obtain ⟨g', hg', -⟩ := calculateDerivatives_spec X G c g h
    rw [hg']
    rfl

/-- `calculateDerivatives` reads derivatives only of its own cell, when the
boundary-condition functions do: two meshes that agree in everything but the
derivative arrays of other cells yield the same derivative array of the
cell. -/
theorem calculateDerivatives_local (X : Externals K) (hloc : X.DerivBCsCellLocal)
    (G : Globals) (c : CellID) (g h g' h' : ParGrid K)
    (hn : h.getNeighbour = g.getNeighbour) (hcells : h.getCells = g.getCells)
    (hrem : h.isRemote = g.isRemote) (hcp : h.cpu_cellParams = g.cpu_cellParams)
    (hd : h.cpu_derivatives c = g.cpu_derivatives c)
    (rg : calculateDerivatives X G c g = some g')
    (rh : calculateDerivatives X G c h = some h') :
    h'.cpu_derivatives c = g'.cpu_derivatives c := by
  obtain ⟨-, e, g1, g2, he, x1, y1, z1⟩ := calculateDerivatives_steps X G c g g' rg
  obtain ⟨-, e', h1, h2, he', x2, y2, z2⟩ := calculateDerivatives_steps X G c h h' rh
  have ee : e = e' := Option.some.inj (he.symm.trans he')
  subst ee
  obtain ⟨q, r, n1, c1, m1, p1, -⟩ := calculateDerivativesX_spec X G c e
    (toUint (e ^^^ 4294967295)) g (calculateDerivativesX_some X G c e _ g g1 x1)
  have eq : q = g1 := Option.some.inj (r.symm.trans x1)
  subst eq
  obtain ⟨q', r', n1', c1', m1', p1', -⟩ := calculateDerivativesX_spec X G c e
    (toUint (e ^^^ 4294967295)) h (calculateDerivativesX_some X G c e _ h h1 x2)
  have eq' : q' = h1 := Option.some.inj (r'.symm.trans x2)
  subst eq'
  obtain ⟨w, s, n2, c2, m2, p2, -⟩ := calculateDerivativesY_spec X G c e
    (toUint (e ^^^ 4294967295)) q (calculateDerivativesY_some X G c e _ q g2 y1)
  have ew : w = g2 := Option.some.inj (s.symm.trans y1)
  subst ew
  obtain ⟨w', s', n2', c2', m2', p2', -⟩ := calculateDerivativesY_spec X G c e
    (toUint (e ^^^ 4294967295)) q' (calculateDerivativesY_some X G c e _ q' h2 y2)
  have ew' : w' = h2 := Option.some.inj (s'.symm.trans y2)
  subst ew'
  have d1 : q'.cpu_derivatives c = q.cpu_derivatives c :=
    calculateDerivativesX_local X G c e _ g h q q' hn hcp hd
      (fun _ => by rw [hd]; exact (hloc c _ e _ g h hn hcells hrem hcp hd).1) x1 x2
  have hn1 : q'.getNeighbour = q.getNeighbour := n1'.trans (hn.trans n1.symm)
  have hc1 : q'.getCells = q.getCells := c1'.trans (hcells.trans c1.symm)
  have hm1 : q'.isRemote = q.isRemote := m1'.trans (hrem.trans m1.symm)
  have hp1 : q'.cpu_cellParams = q.cpu_cellParams := p1'.trans (hcp.trans p1.symm)
  have d2 : w'.cpu_derivatives c = w.cpu_derivatives c :=
    calculateDerivativesY_local X G c e _ q q' w w' hn1 hp1 d1
      (fun _ => by rw [d1]; exact (hloc c _ e _ q q' hn1 hc1 hm1 hp1 d1).2.1) y1 y2
  have hn2 : w'.getNeighbour = w.getNeighbour := n2'.trans (hn1.trans n2.symm)
  have hc2 : w'.getCells = w.getCells := c2'.trans (hc1.trans c2.symm)
  have hm2 : w'.isRemote = w.isRemote := m2'.trans (hm1.trans m2.symm)
  have hp2 : w'.cpu_cellParams = w.cpu_cellParams := p2'.trans (hp1.trans p2.symm)
  exact calculateDerivativesZ_local X G c e _ w w' g' h' hn2 hp2 d2
    (fun _ => by rw [d2]; exact (hloc c _ e _ w w' hn2 hc2 hm2 hp2 d2).2.2) z1 z2

/-- Calls of `calculateDerivatives` on two different cells commute when the
boundary-condition functions read derivatives only of the cell they are
called for, and a call does not change whether a later call returns. -/
theorem calculateDerivatives_commute (X : Externals K) (hloc : X.DerivBCsCellLocal)
    (G : Globals) :
    (∀ (s : ParGrid K) (a b : CellID) (s' : ParGrid K),
      calculateDerivatives X G b s = some s' →
      (calculateDerivatives X G a s').isSome = (calculateDerivatives X G a s).isSome) ∧
    (∀ (s : ParGrid K) (a b : CellID) (sa sb sab sba : ParGrid K), a ≠ b →
      calculateDerivatives X G a s = some sa → calculateDerivatives X G b s = some sb →
      calculateDerivatives X G b sa = some sab → calculateDerivatives X G a sb = some sba →
      sab = sba) := by
  have step : ∀ (s : ParGrid K) (b : CellID) (s' : ParGrid K),
      calculateDerivatives X G b s = some s' →
      s'.getNeighbour = s.getNeighbour ∧ s'.getCells = s.getCells ∧
      s'.isRemote = s.isRemote ∧ s'.cpu_cellParams = s.cpu_cellParams ∧
      ∀ c', c' ≠ b → s'.cpu_derivatives c' = s.cpu_derivatives c' := by
    intro s b s' h
    obtain ⟨s'', hs'', n, c, m, p, o, -⟩ :=
      calculateDerivatives_spec X G b s (calculateDerivatives_ready X G b s s' h)
    have : s'' = s' := Option.some.inj (hs''.symm.trans h)
    subst this
    exact ⟨n, c, m, p, fun c' hc' => funext fun q => o c' q hc'⟩
  constructor
  · intro s a b s' h
    obtain ⟨hn, -⟩ := step s b s' h
    rw [Bool.eq_iff_iff, calculateDerivatives_isSome, calculateDerivatives_isSome]
    exact ⟨fun hr => DerivativesReady_congr hn.symm hr, fun hr => DerivativesReady_congr hn hr⟩
  · intro s a b sa sb sab sba hab ha hb hab' hba'
    obtain ⟨na, ca, ma, pa, oa⟩ := step s a sa ha
    obtain ⟨nb, cb, mb, pb, ob⟩ := step s b sb hb
    obtain ⟨nab, cab, mab, pab, oab⟩ := step sa b sab hab'
    obtain ⟨nba, cba, mba, pba, oba⟩ := step sb a sba hba'
    refine (ParGrid_eq sba sab (cab.trans (ca.trans (cba.trans cb).symm))
      (nab.trans (na.trans (nba.trans nb).symm)) (mab.trans (ma.trans (mba.trans mb).symm))
      (pab.trans (pa.trans (pba.trans pb).symm)) ?_)
    funext c'
    by_cases h1 : c' = a
    · subst h1
      rw [oab c' hab]
      exact (calculateDerivatives_local X hloc G c' s sb sa sba nb cb mb pb
        (ob c' hab) ha hba').symm
    · by_cases h2 : c' = b
      · subst h2
        rw [oba c' (Ne.symm hab)]
        exact calculateDerivatives_local X hloc G c' s sa sb sab na ca ma pa
          (oa c' (Ne.symm hab)) hb hab'
      · rw [oab c' h2, oa c' h1, oba c' h1, ob c' h2]

end DerivativeOrder

end Vlasiator

namespace Vlasiator

open CellParams fieldsolver

/-- A loop over cells returns when every cell is ready and a step keeps the
other cells ready. -/
theorem foldlM_some_of_ready {σ α : Type} (f : σ → α → Option σ) (R : σ → α → Prop)
    (hret : ∀ s a, R s a → ∃ s', f s a = some s' ∧ ∀ b, R s b → R s' b)
    (L : List α) (s : σ) (h : ∀ a ∈ L, R s a) : ∃ s', L.foldlM f s = some s' := by
  induction L generalizing s with
  | nil => exact ⟨s, rfl⟩
  | cons a L ih =>
    obtain ⟨s1, h1, hk⟩ := hret s a (h a (List.mem_cons_self _ _))
    obtain ⟨s', hs'⟩ := ih s1 fun b hb => hk b (h b (List.mem_cons_of_mem _ hb))
    exact ⟨s', by rw [List.foldlM_cons, h1]; exact hs'⟩

section OrderClaim

variable {K : Type} [LinearOrderedField K]

theorem sampleExternals_cellLocal : sampleExternals.DerivBCsCellLocal :=
  fun _ _ _ _ _ _ _ _ _ _ _ => ⟨rfl, rfl, rfl⟩

/-- C31: within a stage the result does not depend on the order of the
cells. For each per-cell kernel (`calculateDerivatives`, the three edge
kernels, `propagateMagneticField`) and every two lists of cells that are
permutations of each other, the loop that applies the kernel to the cells of
the one list and the loop over the other list end in the same mesh state, or
both stop at a cell that cannot be computed. For `calculateDerivatives` the
boundary-condition functions are taken to read derivatives only of the cell
they are called for. The loops return when every cell of the list is ready. -/
theorem C31_cell_order_independence (X : Externals K) (G : Globals) (dt : K)
    (g : ParGrid K) (L L' : List CellID) (hperm : L.Perm L') :
    (X.DerivBCsCellLocal →
      L.foldlM (fun g cellID => calculateDerivatives X G cellID g) g =
        L'.foldlM (fun g cellID => calculateDerivatives X G cellID g) g) ∧
    L.foldlM (fun g cellID => calculateEdgeElectricFieldX X cellID g) g =
      L'.foldlM (fun g cellID => calculateEdgeElectricFieldX X cellID g) g ∧
    L.foldlM (fun g cellID => calculateEdgeElectricFieldY X cellID g) g =
      L'.foldlM (fun g cellID => calculateEdgeElectricFieldY X cellID g) g ∧
    L.foldlM (fun g cellID => calculateEdgeElectricFieldZ X cellID g) g =
      L'.foldlM (fun g cellID => calculateEdgeElectricFieldZ X cellID g) g ∧
    L.foldlM (fun g cellID => propagateMagneticField G cellID g dt) g =
      L'.foldlM (fun g cellID => propagateMagneticField G cellID g dt) g ∧
    ((∀ c ∈ L, DerivativesReady G g c) →
      ∃ g', L.foldlM (fun g cellID => calculateDerivatives X G cellID g) g = some g') ∧
    ((∀ c ∈ L, EdgeXReady g c) →
      ∃ g', L.foldlM (fun g cellID => calculateEdgeElectricFieldX X cellID g) g = some g') ∧
    ((∀ c ∈ L, EdgeYReady g c) →
      ∃ g', L.foldlM (fun g cellID => calculateEdgeElectricFieldY X cellID g) g = some g') ∧
    ((∀ c ∈ L, EdgeZReady g c) →
      ∃ g', L.foldlM (fun g cellID => calculateEdgeElectricFieldZ X cellID g) g = some g') ∧
    ((∀ c ∈ L, PropagateReady G g c) →
      ∃ g', L.foldlM (fun g cellID => propagateMagneticField G cellID g dt) g = some g') := by
  refine ⟨?_, ?_, ?_, ?_, ?_, ?_, ?_, ?_, ?_, ?_⟩
  · intro hloc
    exact foldlM_perm_of_commute (fun g c => calculateDerivatives X G c g)
      (calculateDerivatives_commute X hloc G).1 (calculateDerivatives_commute X hloc G).2 hperm g
  · have h := slotKernel_commute EX (edgeElectricFieldXAt X) (fun L => L.EX)
      (fun c g a v => edgeElectricFieldXAt_setE X c g a EX (Or.inl rfl) v)
    exact foldlM_perm_of_commute (fun g c => calculateEdgeElectricFieldX X c g) h.1 h.2 hperm g
  · have h := slotKernel_commute EY (edgeElectricFieldYAt X) (fun L => L.EY)
      (fun c g a v => edgeElectricFieldYAt_setE X c g a EY (Or.inr (Or.inl rfl)) v)
    exact foldlM_perm_of_commute (fun g c => calculateEdgeElectricFieldY X c g) h.1 h.2 hperm g
  · have h := slotKernel_commute EZ (edgeElectricFieldZAt X) (fun L => L.EZ)
      (fun c g a v => edgeElectricFieldZAt_setE X c g a EZ (Or.inr (Or.inr rfl)) v)
    exact foldlM_perm_of_commute (fun g c => calculateEdgeElectricFieldZ X c g) h.1 h.2 hperm g
  · exact foldlM_perm_of_commute (fun g c => propagateMagneticField G c g dt)
      (propagateMagneticField_commute G dt).1 (propagateMagneticField_commute G dt).2 hperm g
  · intro hready
    obtain ⟨g', hg', -⟩ := derivativesLoop_spec X G L g hready
    exact ⟨g', hg'⟩
  · intro hready
    apply foldlM_some_of_ready (fun g c => calculateEdgeElectricFieldX X c g)
      (fun g c => EdgeXReady g c) _ L g hready
    intro s a ha
    obtain ⟨Loc, -, hr⟩ := calculateEdgeElectricFieldX_run X a s ha
    exact ⟨_, hr, fun b hb => hb⟩
  · intro hready
    apply foldlM_some_of_ready (fun g c => calculateEdgeElectricFieldY X c g)
      (fun g c => EdgeYReady g c) _ L g hready
    intro s a ha
    obtain ⟨Loc, -, hr⟩ := calculateEdgeElectricFieldY_run X a s ha
    exact ⟨_, hr, fun b hb => hb⟩
  · intro hready
    apply foldlM_some_of_ready (fun g c => calculateEdgeElectricFieldZ X c g)
      (fun g c => EdgeZReady g c) _ L g hready
    intro s a ha
    obtain ⟨Loc, -, hr⟩ := calculateEdgeElectricFieldZ_run X a s ha
    exact ⟨_, hr, fun b hb => hb⟩
  · intro hready
    apply foldlM_some_of_ready (fun g c => propagateMagneticField G c g dt)
      (fun g c => PropagateReady G g c) _ L g hready
    intro s a ha
    obtain ⟨e, he⟩ := Option.isSome_iff_exists.mp ha.2.1
    obtain ⟨s', hs', hn, -⟩ := propagateMagneticField_spec G a s dt e he ha
    exact ⟨s', hs', fun b hb => PropagateReady_congr hn hb⟩

end OrderClaim

/-- C31 at a concrete input: the column of four cells with the edge field
`EY = c - 1`, visited in the order `0, 1, 2, 3` and in the order `3, 1, 0, 2`. -/
theorem C31_cell_order_independence_witness :
    [0, 1, 2, 3].Perm [3, 1, 0, 2] ∧
    [0, 1, 2, 3].foldlM (fun g cellID => calculateDerivatives sampleExternals (columnGlobals 4)
        cellID g) (columnGrid 4 shearCellParams (fun _ _ => 0)) =
      [3, 1, 0, 2].foldlM (fun g cellID => calculateDerivatives sampleExternals (columnGlobals 4)
        cellID g) (columnGrid 4 shearCellParams (fun _ _ => 0)) ∧
    [0, 1, 2, 3].foldlM (fun g cellID => propagateMagneticField (columnGlobals 4) cellID g 1)
        (columnGrid 4 shearCellParams (fun _ _ => 0)) =
      [3, 1, 0, 2].foldlM (fun g cellID => propagateMagneticField (columnGlobals 4) cellID g 1)
        (columnGrid 4 shearCellParams (fun _ _ => 0)) ∧
    ∃ g', [0, 1, 2, 3].foldlM
        (fun g cellID => propagateMagneticField (columnGlobals 4) cellID g 1)
        (columnGrid 4 shearCellParams (fun _ _ => 0)) = some g' :=
  ⟨by decide,
    (C31_cell_order_independence sampleExternals (columnGlobals 4) 1
      (columnGrid 4 shearCellParams (fun _ _ => 0)) [0, 1, 2, 3] [3, 1, 0, 2] (by decide)).1
      sampleExternals_cellLocal,
    (C31_cell_order_independence sampleExternals (columnGlobals 4) 1
      (columnGrid 4 shearCellParams (fun _ _ => 0)) [0, 1, 2, 3] [3, 1, 0, 2]
      (by decide)).2.2.2.2.1,
    (C31_cell_order_independence sampleExternals (columnGlobals 4) 1
      (columnGrid 4 shearCellParams (fun _ _ => 0)) [0, 1, 2, 3] [3, 1, 0, 2]
      (by decide)).2.2.2.2.2.2.2.2.2 (by decide)⟩

end Vlasiator
namespace Vlasiator

open CellParams fieldsolver

/-! ## The reads of the kernels and the receive list of the first stencil -/

section KernelReads

variable {K : Type} [LinearOrderedField K]

end KernelReads

end Vlasiator
